import Mathlib

/-!
# Vector scatter contexts

A shallow embedding of `src/src/vec/vscat/impls/vscat.c`: the creation of scatter
contexts between sequential vectors and the special parallel cases, the sequential
scatter kernels, and the `VecScatterBegin` / `VecScatterEnd` driver.

Conventions of the embedding.

* `PetscInt` values are `Int` (counts that the code only ever obtains from
  `ISGetLocalSize` are `Nat`); 32/64-bit overflow is not modelled.
* The local array of a `Vec` is a `List α`; `VecGetLocalSize` is its length.
* An array access outside the bounds of the array, a call through a null function
  pointer and a cast of plan data to the wrong structure are undefined behaviour in C.
  The kernels return `none` there.
* A `PetscErrorCode` is returned together with the state reached when the error was
  raised, because the C code mutates the context in place.
* The device (CUDA) branches are compiled out (`PETSC_HAVE_VECCUDA` undefined).
* Logging, `PetscInfo`, viewers and memory allocation failures are not modelled.
* Plan data are values. Where it matters which array a routine writes (Copy followed by
  Remap), the plan is also given as it lies in a memory of index arrays, with the routines
  `VecScatterCopy_mem` and `VecScatterRemap_mem`, which are proved to do on memory what
  `VecScatterCopy` and `VecScatterRemap` do on values.
-/

namespace Petsc

/-! ## Build configuration, error codes, modes -/

/-- Preprocessor symbols that `vscat.c` branches on. -/
structure Config where
  /-- The C name `PETSC_USE_DEBUG` -/
  useDebug : Bool
  /-- The C name `PETSC_USE_COMPLEX` -/
  useComplex : Bool
  /-- The C name `PETSC_USE_64BIT_INDICES` -/
  use64BitIndices : Bool
  /-- The C name `PETSC_HAVE_MPI_WIN_CREATE_FEATURE` -/
  haveMpiWinCreate : Bool
  deriving DecidableEq

/-- The error codes raised in `vscat.c` (`ok` is the return value 0). -/
inductive PetscErrorCode where
  | ok
  | ERR_SUP
  | ERR_ARG_SIZ
  | ERR_ARG_OUTOFRANGE
  | ERR_ARG_WRONGSTATE
  | ERR_ARG_NULL
  | ERR_ARG_UNKNOWN_TYPE
  deriving DecidableEq

/-- The `InsertMode` enumeration of `petscsys.h`. -/
inductive InsertMode where
  | NOT_SET_VALUES
  | INSERT_VALUES
  | ADD_VALUES
  | MAX_VALUES
  | INSERT_ALL_VALUES
  | ADD_ALL_VALUES
  | INSERT_BC_VALUES
  | ADD_BC_VALUES
  deriving DecidableEq

/-- The `ScatterMode` enumeration of `petscvec.h`, with values 0, 1, 2, 3. -/
inductive ScatterMode where
  | SCATTER_FORWARD
  | SCATTER_REVERSE
  | SCATTER_FORWARD_LOCAL
  | SCATTER_REVERSE_LOCAL
  deriving DecidableEq

/-- Numeric value of a `ScatterMode`. -/
def ScatterMode.val : ScatterMode → Nat
  | .SCATTER_FORWARD => 0
  | .SCATTER_REVERSE => 1
  | .SCATTER_FORWARD_LOCAL => 2
  | .SCATTER_REVERSE_LOCAL => 3

/-- The test `mode & SCATTER_REVERSE`. -/
def ScatterMode.isReverse (mode : ScatterMode) : Bool :=
  (mode.val &&& ScatterMode.SCATTER_REVERSE.val) != 0

/-! ## Index sets -/

/-- Modelled from the spec: the index-set object `IS` (its implementation is not in this
file). "General holds an ordered sequence of non-negative integers (length n); Stride holds
(first, step, length); Block holds (blockSize, ordered block-start sequence)"; a Block keeps
one entry per block, as `ISBlockGetIndices` returns them. -/
inductive IS where
  | general (idx : List Int)
  | stride (n : Nat) (first step : Int)
  | block (bs : Nat) (idx : List Int)
  deriving DecidableEq

/-- Modelled from the spec: `ISGetLocalSize`, the number of indices an index set denotes. -/
def ISGetLocalSize : IS → Nat
  | .general idx => idx.length
  | .stride n _ _ => n
  | .block bs idx => bs * idx.length

/-- Modelled from the spec: `ISGetIndices`, the explicit index list an index set denotes:
the list itself, `first + i*step` for `i < n`, or for every entry `b` of a Block the `bs`
indices of the block that starts at `b*bs` (the creation routines turn a stride start into a
block entry by `ystart/bsx`). -/
def ISGetIndices : IS → List Int
  | .general idx => idx
  | .stride n first step => (List.range n).map (fun (i : Nat) => first + (i : Int) * step)
  | .block bs idx =>
    idx.flatMap (fun b => (List.range bs).map (fun (k : Nat) => b * (bs : Int) + (k : Int)))

/-- Modelled from the spec: `ISStrideGetInfo`, the `(first, step)` of a stride index set. -/
def ISStrideGetInfo : IS → Int × Int
  | .stride _ first step => (first, step)
  | _ => (0, 0)

/-- Modelled from the spec: `ISIdentity`, whether the index set denotes `0, 1, .., n-1`; for
a stride this is "first=0, step=1". -/
def ISIdentity : IS → Bool
  | .stride _ first step => first == 0 && step == 1
  | s => ISGetIndices s == (List.range (ISGetLocalSize s)).map (fun (i : Nat) => (i : Int))

/-- Modelled from the spec: `ISCreateStride`, which rejects a negative length. -/
def ISCreateStride (n first step : Int) : Except PetscErrorCode IS :=
  if n < 0 then .error .ERR_ARG_OUTOFRANGE else .ok (.stride n.toNat first step)

/-- The C name `IS_GENERAL_ID` -/
def IS_GENERAL_ID : Nat := 0
/-- The C name `IS_STRIDE_ID` -/
def IS_STRIDE_ID : Nat := 1
/-- The C name `IS_BLOCK_ID` -/
def IS_BLOCK_ID : Nat := 2
/-- The C name `VEC_SEQ_ID` -/
def VEC_SEQ_ID : Nat := 0
/-- The C name `VEC_MPI_ID` -/
def VEC_MPI_ID : Nat := 1

/-- The macro `VecScatterOptimizedBS(mbs)`. -/
def VecScatterOptimizedBS (mbs : Int) : Bool := decide (2 ≤ mbs)

/-- The C name `PetscObjectTypeCompare(is, ISBLOCK, &flag)` -/
def isBlockType : IS → Bool
  | .block _ _ => true
  | _ => false

/-- The C name `PetscObjectTypeCompare(is, ISSTRIDE, &flag)` -/
def isStrideType : IS → Bool
  | .stride _ _ _ => true
  | _ => false

/-! ## Plan data -/

/-- The `VecScatterFormat` tags. -/
inductive VecScatterFormat where
  | VEC_SCATTER_SEQ_GENERAL
  | VEC_SCATTER_SEQ_STRIDE
  | VEC_SCATTER_MPI_GENERAL
  | VEC_SCATTER_MPI_TOALL
  | VEC_SCATTER_MPI_TOONE
  deriving DecidableEq

/-- The fields of `VecScatter_Seq_General` that the sequential code reads and writes. -/
structure VecScatter_Seq_General where
  format : VecScatterFormat
  n : Nat
  vslots : List Int
  deriving DecidableEq

/-- The structure `VecScatter_Seq_Stride`. -/
structure VecScatter_Seq_Stride where
  format : VecScatterFormat
  n : Nat
  first : Int
  step : Int
  deriving DecidableEq

/-- The structure `VecScatter_MPI_ToAll`; a work buffer is recorded by its length. -/
structure VecScatter_MPI_ToAll where
  format : VecScatterFormat
  count : List Int
  displx : List Int
  work1 : Option Nat
  work2 : Option Nat
  deriving DecidableEq

/-- The fields of `VecScatter_MPI_General` that this file reads and writes. -/
structure VecScatter_MPI_General where
  format : VecScatterFormat
  n : Nat
  starts : List Int
  indices : List Int
  bs : Int
  local_n : Nat
  local_vslots : List Int
  local_made_of_copies : Bool
  deriving DecidableEq

/-- What `ctx->todata` / `ctx->fromdata` point to. -/
inductive ScatterData where
  | null
  | seqGeneral (d : VecScatter_Seq_General)
  | seqStride (d : VecScatter_Seq_Stride)
  | mpiToAll (d : VecScatter_MPI_ToAll)
  | mpiGeneral (d : VecScatter_MPI_General)
  deriving DecidableEq

/-- The routines `ctx->ops->begin` can point to; `other` stands for the routines installed
by the peer-set builders, which live outside this file. -/
inductive BeginRoutine where
  | SGToSG
  | SGToSS_Stride1
  | SGToSS
  | SSToSG_Stride1
  | SSToSG
  | SSToSS
  | MPI_ToAll
  | MPI_ToOne
  | other (id : Nat)
  deriving DecidableEq

/-- The routines `ctx->ops->end` can point to: none is defined in this file. -/
inductive EndRoutine where
  | other (id : Nat)
  deriving DecidableEq

/-- The routines `ctx->ops->copy` can point to. -/
inductive CopyRoutine where
  | SGToSG
  | SGToSS
  | SSToSS
  | MPI_ToAll
  | other (id : Nat)
  deriving DecidableEq

/-- The routines `ctx->ops->destroy` can point to. -/
inductive DestroyRoutine where
  | SGToSG
  | SGToSS
  | SSToSG
  | SSToSS
  | MPI_ToAll
  | other (id : Nat)
  deriving DecidableEq

/-- The routines `ctx->ops->view` can point to. -/
inductive ViewRoutine where
  | SGToSG
  | SGToSS
  | SSToSG
  | SSToSS
  | MPI_ToAll
  | other (id : Nat)
  deriving DecidableEq

/-- The function-pointer table `ctx->ops`; `none` is a null pointer. -/
structure VecScatterOps where
  begin_ : Option BeginRoutine
  end_ : Option EndRoutine
  copy : Option CopyRoutine
  destroy : Option DestroyRoutine
  view : Option ViewRoutine
  deriving DecidableEq

/-- What the creation routines read of a `Vec`: its layout. -/
structure VecLayout where
  /-- The C name `VecGetLocalSize` -/
  n : Int
  /-- The C name `VecGetSize` -/
  N : Int
  /-- The C name `VecGetOwnershipRange`, start -/
  rstart : Int
  /-- The C name `VecGetOwnershipRange`, end -/
  rend : Int
  /-- The C name `map->range`, one entry per process and a last one -/
  range : List Int
  /-- The C name `MPI_Comm_rank` on the communicator of the vector -/
  rank : Nat
  /-- The C name `MPI_Comm_size` on the communicator of the vector -/
  size : Nat
  deriving DecidableEq

/-- The scatter context `VecScatter`. -/
structure VecScatter where
  type_name : String
  comm_size : Nat
  refct : Int
  from_n : Int
  to_n : Int
  from_is : Option IS
  to_is : Option IS
  from_v : VecLayout
  to_v : VecLayout
  inuse : Bool
  beginandendtogether : Bool
  packtogether : Bool
  todata : ScatterData
  fromdata : ScatterData
  ops : VecScatterOps
  deriving DecidableEq

/-- The state a call of `VecScatterBegin` / `VecScatterEnd` works on: the context and the
local arrays of `x` and `y`. -/
structure World (α : Type) where
  ctx : VecScatter
  x : List α
  y : List α
  deriving DecidableEq


/-! ## Array accesses and loops -/

/-- Read `v[i]`; `none` outside the bounds of the array. -/
def rd {α : Type} (v : List α) (i : Int) : Option α :=
  if 0 ≤ i then v[i.toNat]? else none

/-- Write `v[i] = a`; `none` outside the bounds of the array. -/
def wr {α : Type} (v : List α) (i : Int) (a : α) : Option (List α) :=
  if 0 ≤ i ∧ i.toNat < v.length then some (v.set i.toNat a) else none

/-- Modelled from the spec: the macro `PetscMax` (`petscmath.h`, not in this file); "Max takes
the elementwise maximum". -/
def PetscMax {α : Type} [Max α] (a b : α) : α := max a b

/-- The statement `yv[t] = xv[f]`, where the index expressions `t`, `f` may themselves
read an index array. -/
def stInsert {α : Type} (xv : List α) (t f : Option Int) (yv : List α) : Option (List α) :=
  t.bind fun t => f.bind fun f => (rd xv f).bind fun a => wr yv t a

/-- The statement `yv[t] += xv[f]`. -/
def stAdd {α : Type} [Add α] (xv : List α) (t f : Option Int) (yv : List α) :
    Option (List α) :=
  t.bind fun t => f.bind fun f => (rd xv f).bind fun a => (rd yv t).bind fun b =>
    wr yv t (b + a)

/-- The statement `yv[t] = PetscMax(yv[t],xv[f])`. -/
def stMax {α : Type} [Max α] (xv : List α) (t f : Option Int) (yv : List α) :
    Option (List α) :=
  t.bind fun t => f.bind fun f => (rd xv f).bind fun a => (rd yv t).bind fun b =>
    wr yv t (PetscMax b a)

/-- The loop `for (i=0; i<n; i++) body(i)` on the array `yv`; a failed access aborts it. -/
def forLoop {α : Type} (n : Nat) (body : Nat → List α → Option (List α)) (yv : List α) :
    Option (List α) :=
  (List.range n).foldl (fun acc i => acc.bind (body i)) (some yv)

/-- Modelled from the spec: `PetscMemcpy(yv+to_first, xv+from_first, n*sizeof(PetscScalar))`
(`petscsys.h`, not in this file), a "bulk memory copy" of `n` consecutive entries. Copying
nothing touches no memory. -/
def PetscMemcpy {α : Type} (yv : List α) (to_first : Int) (xv : List α) (from_first : Int)
    (n : Nat) : Option (List α) :=
  if n = 0 then some yv
  else if 0 ≤ to_first ∧ to_first.toNat + n ≤ yv.length ∧
      0 ≤ from_first ∧ from_first.toNat + n ≤ xv.length then
    some (yv.take to_first.toNat ++ ((xv.drop from_first.toNat).take n ++
      yv.drop (to_first.toNat + n)))
  else none

/-- The chain `if (addv == INSERT_VALUES) .. else if (addv == ADD_VALUES) .. else if (addv ==
MAX_VALUES) .. else SETERRQ(..)` around one loop `yv[T i] op= xv[F i]`, as it stands in every
sequential kernel; the `MAX_VALUES` arm is compiled only without `PETSC_USE_COMPLEX`. -/
def scatterLoops {α : Type} [Add α] [Max α] (cfg : Config) (addv : InsertMode) (n : Nat)
    (T F : Nat → Option Int) (xv yv : List α) : Option (PetscErrorCode × List α) :=
  if addv = .INSERT_VALUES then
    (forLoop n (fun i yv => stInsert xv (T i) (F i) yv) yv).map fun yv => (.ok, yv)
  else if addv = .ADD_VALUES then
    (forLoop n (fun i yv => stAdd xv (T i) (F i) yv) yv).map fun yv => (.ok, yv)
  else if cfg.useComplex = false ∧ addv = .MAX_VALUES then
    (forLoop n (fun i yv => stMax xv (T i) (F i) yv) yv).map fun yv => (.ok, yv)
  else some (.ERR_ARG_UNKNOWN_TYPE, yv)

/-! ## The sequential kernels -/

/-- Kernel `VecScatterBegin_SGToSG`: sequential general to sequential general. -/
def VecScatterBegin_SGToSG {α : Type} [Add α] [Max α] (cfg : Config) (ctx : VecScatter)
    (xv yv : List α) (addv : InsertMode) (mode : ScatterMode) :
    Option (PetscErrorCode × List α) :=
  match ctx.todata, ctx.fromdata with
  | .seqGeneral to_, .seqGeneral from_ =>
    let n := from_.n
    let gen_to := if mode.isReverse then from_ else to_
    let gen_from := if mode.isReverse then to_ else from_
    let fslots := gen_from.vslots
    let tslots := gen_to.vslots
    scatterLoops cfg addv n (fun i => tslots[i]?) (fun i => fslots[i]?) xv yv
  | _, _ => none

/-- Kernel `VecScatterBegin_SGToSS_Stride1`: sequential general to sequential stride 1. -/
def VecScatterBegin_SGToSS_Stride1 {α : Type} [Add α] [Max α] (cfg : Config)
    (ctx : VecScatter) (xv yv : List α) (addv : InsertMode) (mode : ScatterMode) :
    Option (PetscErrorCode × List α) :=
  match ctx.todata, ctx.fromdata with
  | .seqStride gen_to, .seqGeneral gen_from =>
    let n := gen_from.n
    let fslots := gen_from.vslots
    let first := gen_to.first
    if mode.isReverse then
      -- xv += first; yv[fslots[i]] op= xv[i]
      scatterLoops cfg addv n (fun i => fslots[i]?) (fun i => some (first + (i : Int))) xv yv
    else
      -- yv += first; yv[i] op= xv[fslots[i]]
      scatterLoops cfg addv n (fun i => some (first + (i : Int))) (fun i => fslots[i]?) xv yv
  | _, _ => none

/-- Kernel `VecScatterBegin_SGToSS`: sequential general to sequential stride. -/
def VecScatterBegin_SGToSS {α : Type} [Add α] [Max α] (cfg : Config) (ctx : VecScatter)
    (xv yv : List α) (addv : InsertMode) (mode : ScatterMode) :
    Option (PetscErrorCode × List α) :=
  match ctx.todata, ctx.fromdata with
  | .seqStride gen_to, .seqGeneral gen_from =>
    let n := gen_from.n
    let fslots := gen_from.vslots
    let first := gen_to.first
    let step := gen_to.step
    if mode.isReverse then
      scatterLoops cfg addv n (fun i => fslots[i]?) (fun i => some (first + (i : Int) * step))
        xv yv
    else
      scatterLoops cfg addv n (fun i => some (first + (i : Int) * step)) (fun i => fslots[i]?)
        xv yv
  | _, _ => none

/-- Kernel `VecScatterBegin_SSToSG_Stride1`: sequential stride 1 to sequential general. -/
def VecScatterBegin_SSToSG_Stride1 {α : Type} [Add α] [Max α] (cfg : Config)
    (ctx : VecScatter) (xv yv : List α) (addv : InsertMode) (mode : ScatterMode) :
    Option (PetscErrorCode × List α) :=
  match ctx.todata, ctx.fromdata with
  | .seqGeneral gen_to, .seqStride gen_from =>
    let n := gen_from.n
    let tslots := gen_to.vslots
    let first := gen_from.first
    if mode.isReverse then
      -- yv += first; yv[i] op= xv[tslots[i]]
      scatterLoops cfg addv n (fun i => some (first + (i : Int))) (fun i => tslots[i]?) xv yv
    else
      -- xv += first; yv[tslots[i]] op= xv[i]
      scatterLoops cfg addv n (fun i => tslots[i]?) (fun i => some (first + (i : Int))) xv yv
  | _, _ => none

/-- Kernel `VecScatterBegin_SSToSG`: sequential stride to sequential general. -/
def VecScatterBegin_SSToSG {α : Type} [Add α] [Max α] (cfg : Config) (ctx : VecScatter)
    (xv yv : List α) (addv : InsertMode) (mode : ScatterMode) :
    Option (PetscErrorCode × List α) :=
  match ctx.todata, ctx.fromdata with
  | .seqGeneral gen_to, .seqStride gen_from =>
    let n := gen_from.n
    let tslots := gen_to.vslots
    let first := gen_from.first
    let step := gen_from.step
    if mode.isReverse then
      scatterLoops cfg addv n (fun i => some (first + (i : Int) * step)) (fun i => tslots[i]?)
        xv yv
    else
      scatterLoops cfg addv n (fun i => tslots[i]?) (fun i => some (first + (i : Int) * step))
        xv yv
  | _, _ => none

/-- Kernel `VecScatterBegin_SSToSS`: sequential stride to sequential stride, with the bulk
copy and the offset-pointer loops when both steps are 1. -/
def VecScatterBegin_SSToSS {α : Type} [Add α] [Max α] (cfg : Config) (ctx : VecScatter)
    (xv yv : List α) (addv : InsertMode) (mode : ScatterMode) :
    Option (PetscErrorCode × List α) :=
  match ctx.todata, ctx.fromdata with
  | .seqStride gen_to, .seqStride gen_from =>
    let n := gen_from.n
    let from_first := if mode.isReverse then gen_to.first else gen_from.first
    let to_first := if mode.isReverse then gen_from.first else gen_to.first
    let from_step := if mode.isReverse then gen_to.step else gen_from.step
    let to_step := if mode.isReverse then gen_from.step else gen_to.step
    if addv = .INSERT_VALUES then
      if to_step = 1 ∧ from_step = 1 then
        (PetscMemcpy yv to_first xv from_first n).map fun yv => (.ok, yv)
      else
        (forLoop n (fun i yv => stInsert xv (some (to_first + (i : Int) * to_step))
          (some (from_first + (i : Int) * from_step)) yv) yv).map fun yv => (.ok, yv)
    else if addv = .ADD_VALUES then
      if to_step = 1 ∧ from_step = 1 then
        -- yv += to_first; xv += from_first; yv[i] += xv[i]
        (forLoop n (fun i yv => stAdd xv (some (to_first + (i : Int)))
          (some (from_first + (i : Int))) yv) yv).map fun yv => (.ok, yv)
      else
        (forLoop n (fun i yv => stAdd xv (some (to_first + (i : Int) * to_step))
          (some (from_first + (i : Int) * from_step)) yv) yv).map fun yv => (.ok, yv)
    else if cfg.useComplex = false ∧ addv = .MAX_VALUES then
      if to_step = 1 ∧ from_step = 1 then
        (forLoop n (fun i yv => stMax xv (some (to_first + (i : Int)))
          (some (from_first + (i : Int))) yv) yv).map fun yv => (.ok, yv)
      else
        (forLoop n (fun i yv => stMax xv (some (to_first + (i : Int) * to_step))
          (some (from_first + (i : Int) * from_step)) yv) yv).map fun yv => (.ok, yv)
    else some (.ERR_ARG_UNKNOWN_TYPE, yv)
  | _, _ => none

/-! ## Creation of sequential scatters -/

/-- Debug check `VecScatterCheckIndices_Private`: the first `n` entries of `idx` lie in
`[0, nmax)`. -/
def VecScatterCheckIndices_Private (nmax : Int) (n : Nat) (idx : List Int) : PetscErrorCode :=
  if (idx.take n).any (fun v => decide (v < 0) || decide (v ≥ nmax)) then .ERR_ARG_OUTOFRANGE
  else .ok

/-- Initial context of `VecScatterCreateEmpty`; `merge` and `pack` are the values of the
options `-vecscatter_merge` and `-vecscatter_packtogether`. The fields that
`VecScatterCreate` fills in afterwards start empty. -/
def VecScatterCreateEmpty (comm_size : Nat) (merge pack : Bool) : VecScatter :=
  { type_name := ""
    comm_size := comm_size
    refct := 1
    from_n := 0
    to_n := 0
    from_is := none
    to_is := none
    from_v := ⟨0, 0, 0, 0, [], 0, 1⟩
    to_v := ⟨0, 0, 0, 0, [], 0, 1⟩
    inuse := false
    beginandendtogether := merge
    packtogether := pack
    todata := .null
    fromdata := .null
    ops := { begin_ := none, end_ := none, copy := none, destroy := none, view := none } }

/-- Results of `GetInputISType_private`. -/
structure InputISType where
  ix_type : Nat
  tix : Option IS
  iy_type : Nat
  tiy : Option IS
  deriving DecidableEq

/-- The type id that `GetInputISType_private` assigns to an index set. -/
def isTypeId (s : IS) : Nat :=
  if isStrideType s then IS_STRIDE_ID else if isBlockType s then IS_BLOCK_ID
  else IS_GENERAL_ID

/-- Helper `GetInputISType_private`: a missing index set stands for the entire vector; then
the kinds of the two index sets are determined. -/
def GetInputISType_private (ctx : VecScatter) (xin_type yin_type : Nat) :
    Except PetscErrorCode InputISType :=
  let xin := ctx.from_v
  let yin := ctx.to_v
  let rx : Except PetscErrorCode (IS × Option IS) :=
    match ctx.from_is with
    | some ix => .ok (ix, none)
    | none =>
      if xin_type = VEC_SEQ_ID then (ISCreateStride ctx.from_n 0 1).map fun s => (s, some s)
      else if xin_type = VEC_MPI_ID then
        if yin_type = VEC_MPI_ID then
          (ISCreateStride xin.n xin.rstart 1).map fun s => (s, some s)
        else (ISCreateStride xin.N 0 1).map fun s => (s, some s)
      else .error .ERR_ARG_OUTOFRANGE
  match rx with
  | .error e => .error e
  | .ok (ix, tix) =>
    let ry : Except PetscErrorCode (IS × Option IS) :=
      match ctx.to_is with
      | some iy => .ok (iy, none)
      | none =>
        if yin_type = VEC_SEQ_ID then (ISCreateStride ctx.to_n 0 1).map fun s => (s, some s)
        else if yin_type = VEC_MPI_ID then
          if xin_type = VEC_MPI_ID then
            (ISCreateStride yin.n yin.rstart 1).map fun s => (s, some s)
          else (ISCreateStride yin.N 0 1).map fun s => (s, some s)
        else .error .ERR_ARG_OUTOFRANGE
    match ry with
    | .error e => .error e
    | .ok (iy, tiy) => .ok ⟨isTypeId ix, tix, isTypeId iy, tiy⟩

/-- The assignments `if (tix) ix = tix;`: the index set the creation routine works with. -/
def effectiveIS (t : Option IS) (given : Option IS) : Option IS :=
  match t with
  | some s => some s
  | none => given

/-- Creation routine `VecScatterCreate_Seq`: both vectors sequential. The result is the error
code together with the context as the routine leaves it. -/
def VecScatterCreate_Seq (cfg : Config) (ctx0 : VecScatter) : PetscErrorCode × VecScatter :=
  let ctx := { ctx0 with type_name := "seq" }
  match GetInputISType_private ctx VEC_SEQ_ID VEC_SEQ_ID with
  | .error e => (e, ctx)
  | .ok ty =>
    match effectiveIS ty.tix ctx.from_is, effectiveIS ty.tiy ctx.to_is with
    | some ix, some iy =>
      let ix_type := ty.ix_type
      let iy_type := ty.iy_type
      let nx := ISGetLocalSize ix
      let ny := ISGetLocalSize iy
      if ix_type = IS_GENERAL_ID ∧ iy_type = IS_GENERAL_ID then
        if nx ≠ ny then (.ERR_ARG_SIZ, ctx) else
        let idx := ISGetIndices ix
        let idy := ISGetIndices iy
        if cfg.useDebug = true ∧ VecScatterCheckIndices_Private ctx.to_n ny idy ≠ .ok then
          (VecScatterCheckIndices_Private ctx.to_n ny idy, ctx) else
        if cfg.useDebug = true ∧ VecScatterCheckIndices_Private ctx.from_n nx idx ≠ .ok then
          (VecScatterCheckIndices_Private ctx.from_n nx idx, ctx) else
        (.ok, { ctx with
          todata := .seqGeneral ⟨.VEC_SCATTER_SEQ_GENERAL, nx, idy.take nx⟩
          fromdata := .seqGeneral ⟨.VEC_SCATTER_SEQ_GENERAL, nx, idx.take nx⟩
          ops := { begin_ := some .SGToSG, end_ := none, destroy := some .SGToSG,
                   copy := some .SGToSG, view := some .SGToSG } })
      else if ix_type = IS_STRIDE_ID ∧ iy_type = IS_STRIDE_ID then
        if nx ≠ ny then (.ERR_ARG_SIZ, ctx) else
        let to_first := (ISStrideGetInfo iy).1
        let to_step := (ISStrideGetInfo iy).2
        let from_first := (ISStrideGetInfo ix).1
        let from_step := (ISStrideGetInfo ix).2
        (.ok, { ctx with
          todata := .seqStride ⟨.VEC_SCATTER_SEQ_STRIDE, nx, to_first, to_step⟩
          fromdata := .seqStride ⟨.VEC_SCATTER_SEQ_STRIDE, nx, from_first, from_step⟩
          ops := { begin_ := some .SSToSS, end_ := none, destroy := some .SSToSS,
                   copy := some .SSToSS, view := some .SSToSS } })
      else if ix_type = IS_GENERAL_ID ∧ iy_type = IS_STRIDE_ID then
        let idx := ISGetIndices ix
        let first := (ISStrideGetInfo iy).1
        let step := (ISStrideGetInfo iy).2
        if nx ≠ ny then (.ERR_ARG_SIZ, ctx) else
        if cfg.useDebug = true ∧ VecScatterCheckIndices_Private ctx.from_n nx idx ≠ .ok then
          (VecScatterCheckIndices_Private ctx.from_n nx idx, ctx) else
        (.ok, { ctx with
          todata := .seqStride ⟨.VEC_SCATTER_SEQ_STRIDE, nx, first, step⟩
          fromdata := .seqGeneral ⟨.VEC_SCATTER_SEQ_GENERAL, nx, idx.take nx⟩
          ops := { begin_ := some (if step = 1 then .SGToSS_Stride1 else .SGToSS),
                   destroy := some .SGToSS, end_ := none, copy := some .SGToSS,
                   view := some .SGToSS } })
      else if ix_type = IS_STRIDE_ID ∧ iy_type = IS_GENERAL_ID then
        let idy := ISGetIndices iy
        let first := (ISStrideGetInfo ix).1
        let step := (ISStrideGetInfo ix).2
        if nx ≠ ny then (.ERR_ARG_SIZ, ctx) else
        if cfg.useDebug = true ∧ VecScatterCheckIndices_Private ctx.to_n ny idy ≠ .ok then
          (VecScatterCheckIndices_Private ctx.to_n ny idy, ctx) else
        (.ok, { ctx with
          todata := .seqGeneral ⟨.VEC_SCATTER_SEQ_GENERAL, nx, idy.take nx⟩
          fromdata := .seqStride ⟨.VEC_SCATTER_SEQ_STRIDE, nx, first, step⟩
          ops := { begin_ := some (if step = 1 then .SSToSG_Stride1 else .SSToSG),
                   destroy := some .SSToSG, end_ := none, copy := none,
                   view := some .SSToSG } })
      else
        if nx ≠ ny then (.ERR_ARG_SIZ, ctx) else
        if ISIdentity ix = true ∧ ISIdentity iy = true then
          (.ok, { ctx with
            todata := .seqStride ⟨.VEC_SCATTER_SEQ_STRIDE, nx, 0, 1⟩
            fromdata := .seqStride ⟨.VEC_SCATTER_SEQ_STRIDE, nx, 0, 1⟩
            ops := { begin_ := some .SSToSS, end_ := none, destroy := some .SSToSS,
                     copy := some .SSToSS, view := some .SSToSS } })
        else
        let idy := ISGetIndices iy
        let idx := ISGetIndices ix
        if cfg.useDebug = true ∧ VecScatterCheckIndices_Private ctx.to_n ny idy ≠ .ok then
          (VecScatterCheckIndices_Private ctx.to_n ny idy, ctx) else
        if cfg.useDebug = true ∧ VecScatterCheckIndices_Private ctx.from_n nx idx ≠ .ok then
          (VecScatterCheckIndices_Private ctx.from_n nx idx, ctx) else
        (.ok, { ctx with
          todata := .seqGeneral ⟨.VEC_SCATTER_SEQ_GENERAL, nx, idy.take nx⟩
          fromdata := .seqGeneral ⟨.VEC_SCATTER_SEQ_GENERAL, nx, idx.take nx⟩
          ops := { begin_ := some .SGToSG, end_ := none, destroy := some .SGToSG,
                   copy := some .SGToSG, view := some .SGToSG } })
    | _, _ => (.ERR_ARG_NULL, ctx)

/-! ## Begin and End -/

/-- The begin and end routines that are not sequential kernels of this file (the collective
routines and those installed by the peer-set builders), as they act on one process. -/
structure ExtRoutines (α : Type) where
  begin_ : BeginRoutine → World α → InsertMode → ScatterMode →
    Option (PetscErrorCode × World α)
  end_ : EndRoutine → World α → InsertMode → ScatterMode → Option (PetscErrorCode × World α)

/-- The call `(*ctx->ops->begin)(ctx,x,y,addv,mode)`. -/
def callBegin {α : Type} [Add α] [Max α] (cfg : Config) (ext : ExtRoutines α)
    (r : BeginRoutine) (w : World α) (addv : InsertMode) (mode : ScatterMode) :
    Option (PetscErrorCode × World α) :=
  let ret := fun (k : Option (PetscErrorCode × List α)) =>
    k.map fun p => (p.1, { w with y := p.2 })
  match r with
  | .SGToSG => ret (VecScatterBegin_SGToSG cfg w.ctx w.x w.y addv mode)
  | .SGToSS_Stride1 => ret (VecScatterBegin_SGToSS_Stride1 cfg w.ctx w.x w.y addv mode)
  | .SGToSS => ret (VecScatterBegin_SGToSS cfg w.ctx w.x w.y addv mode)
  | .SSToSG_Stride1 => ret (VecScatterBegin_SSToSG_Stride1 cfg w.ctx w.x w.y addv mode)
  | .SSToSG => ret (VecScatterBegin_SSToSG cfg w.ctx w.x w.y addv mode)
  | .SSToSS => ret (VecScatterBegin_SSToSS cfg w.ctx w.x w.y addv mode)
  | r => ext.begin_ r w addv mode

/-- The size test of `VecScatterBegin` under `PETSC_USE_DEBUG`: true when an error is
raised. -/
def beginSizeError {α : Type} (ctx : VecScatter) (x y : List α) (mode : ScatterMode) : Bool :=
  if ctx.from_n ≥ 0 ∧ ctx.to_n ≥ 0 then
    let from_n : Int := x.length
    let to_n : Int := y.length
    if mode.isReverse then decide (to_n ≠ ctx.from_n) || decide (from_n ≠ ctx.to_n)
    else decide (to_n ≠ ctx.to_n) || decide (from_n ≠ ctx.from_n)
  else false

/-- Driver `VecScatterBegin`. -/
def VecScatterBegin {α : Type} [Add α] [Max α] (cfg : Config) (ext : ExtRoutines α)
    (w : World α) (addv : InsertMode) (mode : ScatterMode) :
    Option (PetscErrorCode × World α) :=
  if w.ctx.inuse = true then some (.ERR_ARG_WRONGSTATE, w) else
  if cfg.useDebug = true ∧ beginSizeError w.ctx w.x w.y mode = true then
    some (.ERR_ARG_SIZ, w) else
  let w1 := { w with ctx := { w.ctx with inuse := true } }
  match w1.ctx.ops.begin_ with
  | none => none
  | some r =>
    match callBegin cfg ext r w1 addv mode with
    | none => none
    | some (e, w2) =>
      if e ≠ .ok then some (e, w2) else
      match w2.ctx.ops.end_ with
      | some r =>
        if w2.ctx.beginandendtogether = true then
          ext.end_ r { w2 with ctx := { w2.ctx with inuse := false } } addv mode
        else some (.ok, w2)
      | none => some (.ok, w2)

/-- Driver `VecScatterEnd`. -/
def VecScatterEnd {α : Type} (ext : ExtRoutines α) (w : World α) (addv : InsertMode)
    (mode : ScatterMode) : Option (PetscErrorCode × World α) :=
  let w1 := { w with ctx := { w.ctx with inuse := false } }
  match w1.ctx.ops.end_ with
  | none => some (.ok, w1)
  | some r =>
    if w1.ctx.beginandendtogether = false then ext.end_ r w1 addv mode
    else some (.ok, w1)

/-- Modelled from the spec: what `VecScatterCreate` (not in this file) records in the empty
context before it calls the creation routine: "a Plan is built once from (sourceDescriptor,
sourceDistribution, destDescriptor, destDistribution)"; `from_n` and `to_n` are the local
sizes of the two vectors. -/
def VecScatterCreate_setup (base : VecScatter) (ix iy : Option IS) (xin yin : VecLayout) :
    VecScatter :=
  { base with from_is := ix, to_is := iy, from_v := xin, to_v := yin,
              from_n := xin.n, to_n := yin.n }

/-- Layout of a sequential vector of local size `n`. -/
def seqLayout (n : Nat) : VecLayout := ⟨n, n, 0, n, [0, n], 0, 1⟩

/-- A sequential scatter between vectors of local sizes `nx` and `ny` with index sets `ix`
and `iy`: `VecScatterCreateEmpty`, the setup, then `VecScatterCreate_Seq`. -/
def createSeq (cfg : Config) (merge pack : Bool) (ix iy : IS) (nx ny : Nat) :
    PetscErrorCode × VecScatter :=
  VecScatterCreate_Seq cfg
    (VecScatterCreate_setup (VecScatterCreateEmpty 1 merge pack) (some ix) (some iy)
      (seqLayout nx) (seqLayout ny))

/-- External routines that are never reached (for scatters all of whose routines are
sequential kernels). -/
def noExt (α : Type) : ExtRoutines α := ⟨fun _ _ _ _ => none, fun _ _ _ _ => none⟩

/-! ## Creation of parallel scatters -/

/-- The C constant `PETSC_MPI_INT_MAX`. -/
def PETSC_MPI_INT_MAX : Int := 2147483647

/-- The C constant `PETSC_MAX_INT`, which depends on the width of `PetscInt`. -/
def PETSC_MAX_INT (cfg : Config) : Int :=
  if cfg.use64BitIndices = true then 9223372036854775807 else 2147483647

/-- The C constant `PETSC_MIN_INT`. -/
def PETSC_MIN_INT (cfg : Config) : Int := -(PETSC_MAX_INT cfg) - 1

/-- Modelled from the spec: `ISGetMinMax` (not in this file), the least and the greatest index
an index set denotes; the local-extraction test built on it reads "every requested index
resolves into the calling process's own owned range", which an empty index set satisfies,
hence `(PETSC_MAX_INT, PETSC_MIN_INT)` for it. -/
def ISGetMinMax (cfg : Config) (s : IS) : Int × Int :=
  match ISGetIndices s with
  | [] => (PETSC_MAX_INT cfg, PETSC_MIN_INT cfg)
  | a :: l => (l.foldl min a, l.foldl max a)

/-- Modelled from the spec: `ISGetBlockSize`, the "blockSize" of a Block (1 otherwise). -/
def ISGetBlockSize : IS → Int
  | .block bs _ => bs
  | _ => 1

/-- Modelled from the spec: `ISBlockGetLocalSize`, the number of blocks of a Block. -/
def ISBlockGetLocalSize : IS → Nat
  | .block _ idx => idx.length
  | _ => 0

/-- Modelled from the spec: `ISBlockGetIndices`, the list of a Block, one entry per block. -/
def ISBlockGetIndices : IS → List Int
  | .block _ idx => idx
  | _ => []

/-- The peer-set builders `VecScatterCreateLocal_*`, declared but not defined in this file. -/
inductive BuilderName where
  | PtoS_MPI1
  | PtoS_MPI3
  | StoP_MPI1
  | StoP_MPI3
  | PtoP_MPI1
  | PtoP_MPI3
  deriving DecidableEq

/-- What one process does towards the other processes while a scatter is created: it takes
part in an all-reduce `MPI_Allreduce(&flag,&cando,1,MPIU_BOOL,MPI_LAND,comm)` with its own
flag, or it calls a peer-set builder with `(nx, idx, ny, idy, bs)`. -/
inductive CommEvent where
  | allreduce (flag : Bool)
  | build (name : BuilderName) (nx : Nat) (idx : List Int) (ny : Nat) (idy : List Int)
      (bs : Int)
  deriving DecidableEq

/-- The effect of the peer-set builders (not in this file) on the context. -/
structure Builders where
  run : BuilderName → Nat → List Int → Nat → List Int → Int → VecScatter →
    PetscErrorCode × VecScatter

/-- Outcome of a parallel creation routine on one process: the error code, the context as
the routine leaves it, and the communication the process took part in, in order. -/
structure CreateResult where
  ierr : PetscErrorCode
  ctx : VecScatter
  events : List CommEvent
  deriving DecidableEq

/-- A call `VecScatterCreateLocal_..(nx,idx,ny,idy,xin,yin,bs,ctx)` followed by `goto
functionend`. -/
def callBuilder (bld : Builders) (name : BuilderName) (nx : Nat) (idx : List Int) (ny : Nat)
    (idy : List Int) (bs : Int) (ctx : VecScatter) (ev : List CommEvent) : CreateResult :=
  ⟨(bld.run name nx idx ny idy bs ctx).1, (bld.run name nx idx ny idy bs ctx).2,
    ev ++ [.build name nx idx ny idy bs]⟩

/-- The tables of the two collective specializations: `count[i] = range[i+1] - range[i]`,
`displx[i] = range[i]` through `PetscMPIIntCast` (which fails in a 64-bit index build when
the value exceeds `PETSC_MPI_INT_MAX`), installed with the given begin routine. Reading
`range` beyond its `size + 1` entries is undefined. -/
def installToAll (cfg : Config) (fmt : VecScatterFormat) (beginR : BeginRoutine)
    (ctx : VecScatter) : Option (PetscErrorCode × VecScatter) :=
  let size := ctx.comm_size
  let range := ctx.from_v.range
  if range.length < size + 1 then none
  else
    let count := (List.range size).map fun i => range.getD (i + 1) 0 - range.getD i 0
    let displx := (List.range size).map fun i => range.getD i 0
    if cfg.use64BitIndices = true ∧
        (count ++ displx).any (fun a => decide (a > PETSC_MPI_INT_MAX)) = true then
      some (.ERR_ARG_OUTOFRANGE, ctx)
    else
      some (.ok, { ctx with
        todata := .mpiToAll ⟨fmt, count, displx, none, none⟩
        fromdata := .null
        ops := { begin_ := some beginR, end_ := none, destroy := some .MPI_ToAll,
                 copy := some .MPI_ToAll, view := some .MPI_ToAll } })

/-- The test `from_first == 0 && from_step == 1 && from_first == to_first && from_step ==
to_step` on strides of length `nx == N`. -/
def totalTest (nx : Nat) (N : Int) (ix iy : IS) : Bool :=
  if (nx : Int) ≠ N then false
  else if (ISStrideGetInfo ix).1 = 0 ∧ (ISStrideGetInfo ix).2 = 1 ∧
      (ISStrideGetInfo ix).1 = (ISStrideGetInfo iy).1 ∧
      (ISStrideGetInfo ix).2 = (ISStrideGetInfo iy).2 then true
  else false

/-- The name of the builder that `VecScatterCreate_PtoS` calls. -/
def ptosBuilder (cfg : Config) (vec_mpi1_flg : Bool) : BuilderName :=
  if cfg.haveMpiWinCreate = true then
    if vec_mpi1_flg = true then .PtoS_MPI1 else .PtoS_MPI3
  else .PtoS_MPI1

/-- Cases (2-d), (2-e) and (2-f) of `VecScatterCreate_PtoS`: blocked indices, blocked
indices to stride, and the left over general case. -/
def VecScatterCreate_PtoS_rest (cfg : Config) (bld : Builders) (ctx : VecScatter)
    (ix iy : IS) (ev : List CommEvent) : CreateResult :=
  let vec_mpi1_flg := ctx.type_name == "mpi1"
  let ixblock := isBlockType ix
  let iyblock := isBlockType iy
  let iystride := isStrideType iy
  let bsx := ISGetBlockSize ix
  let bsy := ISGetBlockSize iy
  if ixblock = true ∧ iyblock = true ∧ bsx = bsy ∧ VecScatterOptimizedBS bsx = true then
    let nx := ISBlockGetLocalSize ix
    let idx := ISBlockGetIndices ix
    let ny := ISBlockGetLocalSize iy
    let idy := ISBlockGetIndices iy
    if nx ≠ ny then ⟨.ERR_ARG_SIZ, ctx, ev⟩
    else callBuilder bld (ptosBuilder cfg vec_mpi1_flg) nx idx ny idy bsx ctx ev
  else
    let ystart := (ISStrideGetInfo iy).1
    let ystride := (ISStrideGetInfo iy).2
    let ysize : Int := ISGetLocalSize iy
    if ixblock = true ∧ iyblock = false ∧ iystride = true ∧
        VecScatterOptimizedBS bsx = true ∧ ystart.tmod bsx = 0 ∧ ystride = 1 ∧
        ysize.tmod bsx = 0 then
      let nx := ISBlockGetLocalSize ix
      let idx := ISBlockGetIndices ix
      if ysize ≠ bsx * (nx : Int) then ⟨.ERR_ARG_SIZ, ctx, ev⟩
      else
        let idy := (List.range nx).map fun (il : Nat) => ystart.tdiv bsx + (il : Int)
        callBuilder bld (ptosBuilder cfg vec_mpi1_flg) nx idx nx idy bsx ctx ev
    else
      let nx := ISGetLocalSize ix
      let idx := ISGetIndices ix
      let ny := ISGetLocalSize iy
      let idy := ISGetIndices iy
      if nx ≠ ny then ⟨.ERR_ARG_SIZ, ctx, ev⟩
      else callBuilder bld (ptosBuilder cfg vec_mpi1_flg) nx idx ny idy 1 ctx ev

/-- Case (2-c) of `VecScatterCreate_PtoS`, processor 0 getting the entire vector, then the
remaining cases; `cando` is the result of this all-reduce. -/
def VecScatterCreate_PtoS_toOne (cfg : Config) (bld : Builders) (cando : Bool)
    (ctx : VecScatter) (ix_type iy_type : Nat) (ix iy : IS) (ev : List CommEvent) :
    Option CreateResult :=
  let xin := ctx.from_v
  let yin := ctx.to_v
  if ix_type = IS_STRIDE_ID ∧ iy_type = IS_STRIDE_ID then
    let rank := xin.rank
    let nx := ISGetLocalSize ix
    let ny := ISGetLocalSize iy
    if nx ≠ ny then some ⟨.ERR_ARG_SIZ, ctx, ev⟩ else
    let totalv : Bool := if rank = 0 then totalTest nx xin.N ix iy else decide (nx = 0)
    let ev' := ev ++ [.allreduce totalv]
    if cando = true ∧ (cfg.use64BitIndices = true → yin.N < PETSC_MPI_INT_MAX) then
      (installToAll cfg .VEC_SCATTER_MPI_TOONE .MPI_ToOne ctx).map fun r => ⟨r.1, r.2, ev'⟩
    else some (VecScatterCreate_PtoS_rest cfg bld ctx ix iy ev')
  else
    some (VecScatterCreate_PtoS_rest cfg bld ctx ix iy (ev ++ [.allreduce false]))

/-- Case (2-b) of `VecScatterCreate_PtoS`, all processors getting the entire vector, then
the remaining cases; `cando1` and `cando2` are the results of this all-reduce and of the
next. -/
def VecScatterCreate_PtoS_toAll (cfg : Config) (bld : Builders) (cando1 cando2 : Bool)
    (ctx : VecScatter) (ix_type iy_type : Nat) (ix iy : IS) (ev : List CommEvent) :
    Option CreateResult :=
  let xin := ctx.from_v
  let yin := ctx.to_v
  if ix_type = IS_STRIDE_ID ∧ iy_type = IS_STRIDE_ID then
    let nx := ISGetLocalSize ix
    let ny := ISGetLocalSize iy
    if nx ≠ ny then some ⟨.ERR_ARG_SIZ, ctx, ev⟩ else
    let totalv : Bool := totalTest nx xin.N ix iy
    let ev' := ev ++ [.allreduce totalv]
    if cando1 = true ∧ (cfg.use64BitIndices = true → yin.N < PETSC_MPI_INT_MAX) then
      (installToAll cfg .VEC_SCATTER_MPI_TOALL .MPI_ToAll ctx).map fun r => ⟨r.1, r.2, ev'⟩
    else VecScatterCreate_PtoS_toOne cfg bld cando2 ctx ix_type iy_type ix iy ev'
  else
    VecScatterCreate_PtoS_toOne cfg bld cando2 ctx ix_type iy_type ix iy
      (ev ++ [.allreduce false])

/-- Creation routine `VecScatterCreate_PtoS`: parallel source, sequential destination, as
run by one process; `cando k` is the result that the `k`-th all-reduce delivers to it. -/
def VecScatterCreate_PtoS (cfg : Config) (bld : Builders) (cando : Nat → Bool)
    (ctx : VecScatter) : Option CreateResult :=
  match GetInputISType_private ctx VEC_MPI_ID VEC_SEQ_ID with
  | .error e => some ⟨e, ctx, []⟩
  | .ok ty =>
    match effectiveIS ty.tix ctx.from_is, effectiveIS ty.tiy ctx.to_is with
    | some ix, some iy =>
      let xin := ctx.from_v
      let ix_type := ty.ix_type
      let iy_type := ty.iy_type
      if ix_type = IS_STRIDE_ID ∧ iy_type = IS_STRIDE_ID then
        -- Case (2-a), extracting (a subset of) the local portion
        let start := xin.rstart
        let end_ := xin.rend
        let nx := ISGetLocalSize ix
        let from_first := (ISStrideGetInfo ix).1
        let from_step := (ISStrideGetInfo ix).2
        let ny := ISGetLocalSize iy
        let to_first := (ISStrideGetInfo iy).1
        let to_step := (ISStrideGetInfo iy).2
        if nx ≠ ny then some ⟨.ERR_ARG_SIZ, ctx, []⟩ else
        let min := (ISGetMinMax cfg ix).1
        let max := (ISGetMinMax cfg ix).2
        let islocal : Bool := decide (min ≥ start ∧ max < end_)
        let ev := [CommEvent.allreduce islocal]
        if cando 0 = true then
          some ⟨.ok, { ctx with
            todata := .seqStride ⟨.VEC_SCATTER_SEQ_STRIDE, nx, to_first, to_step⟩
            fromdata := .seqStride ⟨.VEC_SCATTER_SEQ_STRIDE, nx, from_first - start, from_step⟩
            ops := { begin_ := some .SSToSS, end_ := none, destroy := some .SSToSS,
                     copy := some .SSToSS, view := some .SSToSS } }, ev⟩
        else VecScatterCreate_PtoS_toAll cfg bld (cando 1) (cando 2) ctx ix_type iy_type ix iy ev
      else
        VecScatterCreate_PtoS_toAll cfg bld (cando 1) (cando 2) ctx ix_type iy_type ix iy
          [.allreduce false]
    | _, _ => some ⟨.ERR_ARG_NULL, ctx, []⟩

/-- The builder call of `VecScatterCreate_StoP`: the MPI1 builder for the type `mpi1`,
otherwise the MPI3 builder when it is compiled in, otherwise no call at all. -/
def stopBuild (cfg : Config) (bld : Builders) (vscat_mpi1 : Bool) (nx : Nat) (idx : List Int)
    (ny : Nat) (idy : List Int) (bs : Int) (ctx : VecScatter) (ev : List CommEvent) :
    CreateResult :=
  if vscat_mpi1 = true then callBuilder bld .StoP_MPI1 nx idx ny idy bs ctx ev
  else if cfg.haveMpiWinCreate = true then callBuilder bld .StoP_MPI3 nx idx ny idy bs ctx ev
  else ⟨.ok, ctx, ev⟩

/-- The special case block to stride and the general case of `VecScatterCreate_StoP`. -/
def VecScatterCreate_StoP_rest (cfg : Config) (bld : Builders) (ctx : VecScatter)
    (ix_type iy_type : Nat) (ix iy : IS) (ev : List CommEvent) : CreateResult :=
  let vscat_mpi1 := ctx.type_name == "mpi1"
  let ystart := (ISStrideGetInfo iy).1
  let ystride := (ISStrideGetInfo iy).2
  let ysize : Int := ISGetLocalSize iy
  let bsx := ISGetBlockSize ix
  if ix_type = IS_BLOCK_ID ∧ iy_type = IS_STRIDE_ID ∧ VecScatterOptimizedBS bsx = true ∧
      ystart.tmod bsx = 0 ∧ ystride = 1 ∧ ysize.tmod bsx = 0 then
    let nx := ISBlockGetLocalSize ix
    let idx := ISBlockGetIndices ix
    if ysize ≠ bsx * (nx : Int) then ⟨.ERR_ARG_SIZ, ctx, ev⟩
    else
      let idy := (List.range nx).map fun (il : Nat) => ystart.tdiv bsx + (il : Int)
      stopBuild cfg bld vscat_mpi1 nx idx nx idy bsx ctx ev
  else
    let nx := ISGetLocalSize ix
    let idx := ISGetIndices ix
    let ny := ISGetLocalSize iy
    let idy := ISGetIndices iy
    if nx ≠ ny then ⟨.ERR_ARG_SIZ, ctx, ev⟩
    else stopBuild cfg bld vscat_mpi1 nx idx ny idy 1 ctx ev

/-- Creation routine `VecScatterCreate_StoP`: sequential source, parallel destination, as
run by one process; `cando` is the result that the all-reduce delivers to it. The routine
passes `VEC_MPI_ID, VEC_SEQ_ID` to `GetInputISType_private`, as the source does. -/
def VecScatterCreate_StoP (cfg : Config) (bld : Builders) (cando : Bool) (ctx : VecScatter) :
    CreateResult :=
  match GetInputISType_private ctx VEC_MPI_ID VEC_SEQ_ID with
  | .error e => ⟨e, ctx, []⟩
  | .ok ty =>
    match effectiveIS ty.tix ctx.from_is, effectiveIS ty.tiy ctx.to_is with
    | some ix, some iy =>
      let yin := ctx.to_v
      let ix_type := ty.ix_type
      let iy_type := ty.iy_type
      if ix_type = IS_STRIDE_ID ∧ iy_type = IS_STRIDE_ID then
        let start := yin.rstart
        let end_ := yin.rend
        let nx := ISGetLocalSize ix
        let from_first := (ISStrideGetInfo ix).1
        let from_step := (ISStrideGetInfo ix).2
        let ny := ISGetLocalSize iy
        let to_first := (ISStrideGetInfo iy).1
        let to_step := (ISStrideGetInfo iy).2
        if nx ≠ ny then ⟨.ERR_ARG_SIZ, ctx, []⟩ else
        let min := (ISGetMinMax cfg iy).1
        let max := (ISGetMinMax cfg iy).2
        let islocal : Bool := decide (min ≥ start ∧ max < end_)
        let ev := [CommEvent.allreduce islocal]
        if cando = true then
          ⟨.ok, { ctx with
            todata := .seqStride ⟨.VEC_SCATTER_SEQ_STRIDE, nx, to_first - start, to_step⟩
            fromdata := .seqStride ⟨.VEC_SCATTER_SEQ_STRIDE, nx, from_first, from_step⟩
            ops := { begin_ := some .SSToSS, end_ := none, destroy := some .SSToSS,
                     copy := some .SSToSS, view := some .SSToSS } }, ev⟩
        else VecScatterCreate_StoP_rest cfg bld ctx ix_type iy_type ix iy ev
      else
        VecScatterCreate_StoP_rest cfg bld ctx ix_type iy_type ix iy [.allreduce false]
    | _, _ => ⟨.ERR_ARG_NULL, ctx, []⟩

/-- Whether an event is a call of a peer-set builder. -/
def CommEvent.isBuild : CommEvent → Bool
  | .build _ _ _ _ _ _ => true
  | _ => false

/-- Builders that install nothing (for creations that fail before any builder is called). -/
def noBuilders : Builders := ⟨fun _ _ _ _ _ _ ctx => (.ok, ctx)⟩

/-- Context of a process that owns `[rstart, rend)` of a parallel source of global length
`N` (process `rank` of `size`) and scatters to a sequential destination of length `ny`. -/
def ptosCtx (typ : String) (size rank : Nat) (N rstart rend : Int) (range : List Int)
    (ix iy : IS) (ny : Nat) : VecScatter :=
  VecScatterCreate_setup { VecScatterCreateEmpty size false false with type_name := typ }
    (some ix) (some iy) ⟨rend - rstart, N, rstart, rend, range, rank, size⟩ (seqLayout ny)

/-- Context of a process that scatters from a sequential source of length `nx` into the
part `[rstart, rend)` it owns of a parallel destination of global length `N`. -/
def stopCtx (typ : String) (size rank : Nat) (N rstart rend : Int) (range : List Int)
    (ix iy : IS) (nx : Nat) : VecScatter :=
  VecScatterCreate_setup { VecScatterCreateEmpty size false false with type_name := typ }
    (some ix) (some iy) (seqLayout nx) ⟨rend - rstart, N, rstart, rend, range, rank, size⟩

/-! ## Reference semantics of a sequential scatter -/

/-- One read-modify-write `yv[t] = op(yv[t], xv[f])`. -/
def stOp {α : Type} (op : α → α → α) (xv : List α) (t f : Option Int) (yv : List α) :
    Option (List α) :=
  t.bind fun t => f.bind fun f => (rd xv f).bind fun a => (rd yv t).bind fun b =>
    wr yv t (op b a)

/-- The combining function of an insert mode: `INSERT_VALUES` overwrites, `ADD_VALUES` adds,
`MAX_VALUES` takes the maximum (real scalars only); no other mode is supported. -/
def modeOp {α : Type} [Add α] [Max α] (cfg : Config) (addv : InsertMode) :
    Option (α → α → α) :=
  if addv = .INSERT_VALUES then some (fun _ a => a)
  else if addv = .ADD_VALUES then some (fun b a => b + a)
  else if cfg.useComplex = false ∧ addv = .MAX_VALUES then some (fun b a => PetscMax b a)
  else none

/-- Apply the pairs `(t, f)` in order, each as `yv[t] = op(yv[t], xv[f])`; `none` as soon as
an access is out of bounds. -/
def runPairs {α : Type} (op : α → α → α) (xv : List α) :
    List (Int × Int) → List α → Option (List α)
  | [], yv => some yv
  | p :: ps, yv => (stOp op xv (some p.1) (some p.2) yv).bind (runPairs op xv ps)

/-- The scatter `y[t[k]] = combine(y[t[k]], x[f[k]])` over a list of pairs `(t[k], f[k])`,
with the error of an unsupported insert mode. -/
def scatterPairs {α : Type} [Add α] [Max α] (cfg : Config) (addv : InsertMode)
    (pairs : List (Int × Int)) (xv yv : List α) : Option (PetscErrorCode × List α) :=
  match modeOp cfg addv with
  | some op => (runPairs op xv pairs yv).map fun yv => (.ok, yv)
  | none => some (.ERR_ARG_UNKNOWN_TYPE, yv)

/-- The pairs (destination index, source index) that a scatter with source index set `A`
and destination index set `B` moves: forward from `A` to `B`, in reverse from `B` to `A`. -/
def planPairs (A B : IS) (mode : ScatterMode) : List (Int × Int) :=
  if mode.isReverse then (ISGetIndices A).zip (ISGetIndices B)
  else (ISGetIndices B).zip (ISGetIndices A)

/-- Total version of one step, following the words "y[t[k]] := combine(y[t[k]], x[f[k]])":
defined when both slots exist, otherwise `y` is kept. -/
def specStep {α : Type} (op : α → α → α) (x : List α) (y : List α) (p : Int × Int) : List α :=
  match rd x p.2, rd y p.1 with
  | some a, some b => y.set p.1.toNat (op b a)
  | _, _ => y

/-- The array obtained by performing, for `k = 0, 1, .., n-1` in that order,
`y[t[k]] := combine(y[t[k]], x[f[k]])`. -/
def specScatter {α : Type} (op : α → α → α) (f t : List Int) (x y : List α) : List α :=
  (t.zip f).foldl (specStep op x) y

/-- The combine functions named in the specification: Insert `x[f[k]]`, Add
`y[t[k]] + x[f[k]]`, Max the maximum of the two. -/
def combine {α : Type} [Add α] [Max α] (m : InsertMode) (yold xval : α) : α :=
  match m with
  | .ADD_VALUES => yold + xval
  | .MAX_VALUES => max yold xval
  | _ => xval

/-- An index lies within an array of length `len`. -/
def InRange (len : Nat) (i : Int) : Prop := 0 ≤ i ∧ i < (len : Int)

instance (len : Nat) (i : Int) : Decidable (InRange len i) := by
  unfold InRange; exact inferInstance

/-- The result of a begin or end call, without the context: error code, `x` and `y`. -/
def outcome {α : Type} (r : Option (PetscErrorCode × World α)) :
    Option (PetscErrorCode × List α × List α) :=
  r.map fun p => (p.1, p.2.x, p.2.y)

/-- What the proofs use of a context that `VecScatterCreate_Seq` returned for index sets
`A` and `B`. -/
def SeqPlanFacts (α : Type) [Add α] [Max α] (cfg : Config) (ext : ExtRoutines α)
    (merge : Bool) (A B : IS) (nx ny : Nat) (ctx : VecScatter) : Prop :=
  ctx.inuse = false ∧ ctx.ops.end_ = none ∧ ctx.from_n = nx ∧ ctx.to_n = ny ∧
  ctx.beginandendtogether = merge ∧ ISGetLocalSize A = ISGetLocalSize B ∧
  ∃ r, ctx.ops.begin_ = some r ∧
    ∀ (w : World α) (addv : InsertMode) (mode : ScatterMode),
      w.ctx.todata = ctx.todata → w.ctx.fromdata = ctx.fromdata →
      callBegin cfg ext r w addv mode =
        (scatterPairs cfg addv (planPairs A B mode) w.x w.y).map
          (fun p => (p.1, { w with y := p.2 }))

/-- The count `n` recorded in plan data, when it has one. -/
def ScatterData.n? : ScatterData → Option Nat
  | .seqGeneral d => some d.n
  | .seqStride d => some d.n
  | .mpiGeneral d => some d.n
  | _ => none

/-- The index table `vslots` of plan data; empty when it has none. -/
def ScatterData.vslots : ScatterData → List Int
  | .seqGeneral d => d.vslots
  | _ => []

/-- Whether a begin routine is one of the sequential kernels of this file. -/
def BeginRoutine.isLocal : BeginRoutine → Bool
  | .SGToSG | .SGToSS_Stride1 | .SGToSS | .SSToSG_Stride1 | .SSToSG | .SSToSS => true
  | _ => false

/-- Assumption on the routines outside this file: they leave the in-use flag, the merged
flag and the function-pointer table of the context as they found them. -/
def ExtRoutines.Frames {α : Type} (ext : ExtRoutines α) : Prop :=
  (∀ r w a m e w', ext.begin_ r w a m = some (e, w') →
    w'.ctx.inuse = w.ctx.inuse ∧ w'.ctx.beginandendtogether = w.ctx.beginandendtogether ∧
    w'.ctx.ops = w.ctx.ops) ∧
  (∀ r w a m e w', ext.end_ r w a m = some (e, w') →
    w'.ctx.inuse = w.ctx.inuse ∧ w'.ctx.beginandendtogether = w.ctx.beginandendtogether ∧
    w'.ctx.ops = w.ctx.ops)

/-- The sizes that `Begin` expects, in the words of the specification: Forward needs
`len(y) = to_n` and `len(x) = from_n`, Reverse needs `len(y) = from_n` and `len(x) = to_n`. -/
def SizesMatch {α : Type} (ctx : VecScatter) (x y : List α) (mode : ScatterMode) : Prop :=
  if mode.isReverse then (y.length : Int) = ctx.from_n ∧ (x.length : Int) = ctx.to_n
  else (y.length : Int) = ctx.to_n ∧ (x.length : Int) = ctx.from_n

instance {α : Type} (ctx : VecScatter) (x y : List α) (mode : ScatterMode) :
    Decidable (SizesMatch ctx x y mode) := by
  unfold SizesMatch; exact inferInstance

/-- A debug build with real scalars. -/
def cfgDebug : Config := ⟨true, false, false, false⟩

/-- The sequential plan with source indices `[1, 0]` and destination indices `[0, 1]` between
two arrays of length 2, as created in a debug build. -/
def swapPlan : VecScatter :=
  (createSeq cfgDebug false false (.general [1, 0]) (.general [0, 1]) 2 2).2

/-- Whether `VecScatterCreate_Seq` passes the source index list to
`VecScatterCheckIndices_Private`: it does for a General source against a General or Stride
destination, and in the last branch (some side is a Block) unless both sides are the
identity. -/
def checksSource (A B : IS) : Bool :=
  match A, B with
  | .general _, .general _ => true
  | .general _, .stride _ _ _ => true
  | .stride _ _ _, .general _ => false
  | .stride _ _ _, .stride _ _ _ => false
  | _, _ => !(ISIdentity A && ISIdentity B)

/-- Whether `VecScatterCreate_Seq` passes the destination index list to
`VecScatterCheckIndices_Private`. -/
def checksDest (A B : IS) : Bool :=
  match A, B with
  | .general _, .general _ => true
  | .general _, .stride _ _ _ => false
  | .stride _ _ _, .general _ => true
  | .stride _ _ _, .stride _ _ _ => false
  | _, _ => !(ISIdentity A && ISIdentity B)

/-! ## Remapping of a plan -/

/-- The `format` tag that the code reads through `ctx->todata` or `ctx->fromdata`, whatever
structure is behind the pointer; a null pointer has none. -/
def ScatterData.format? : ScatterData → Option VecScatterFormat
  | .null => none
  | .seqGeneral d => some d.format
  | .seqStride d => some d.format
  | .mpiToAll d => some d.format
  | .mpiGeneral d => some d.format

/-- The loop `for (i=0; i<n; i++) v[i] = tomap[v[i]];`. -/
def remapLoop (tomap : List Int) (n : Nat) (v : List Int) : Option (List Int) :=
  forLoop n (fun i v => (rd v i).bind fun old => (rd tomap old).bind fun new => wr v i new) v

/-- The loop `for (i=0; i<n; i++) if (tomap[i] != i) SETERRQ(..)`: `some true` when it runs
to its end, `some false` when it raises the error. -/
def remapIsIdentity (tomap : List Int) (n : Nat) : Option Bool :=
  (List.range n).foldl (fun acc (i : Nat) =>
    match acc with
    | some true => (rd tomap i).map fun v => decide (v = (i : Int))
    | r => r) (some true)

/-- The routine `VecScatterLocalOptimizeCopy_Private(scat,&to->local,&from->local,bs)`, which
is not in this file: it recomputes the copy information of the two local parts. -/
structure LocalOptimizeCopy where
  run : VecScatter → VecScatter_MPI_General → VecScatter_MPI_General → Int →
    VecScatter_MPI_General × VecScatter_MPI_General

/-- The block `if (tomap) { .. }` of `VecScatterRemap`; `none` for the map is the null
pointer. -/
def remapTo (opt : LocalOptimizeCopy) (scat : VecScatter) (tomap : Option (List Int)) :
    Option (PetscErrorCode × VecScatter) :=
  match tomap with
  | none => some (.ok, scat)
  | some tomap =>
  match scat.todata.format? with
  | none => none
  | some tofmt =>
    if tofmt = .VEC_SCATTER_MPI_TOALL then some (.ERR_ARG_SIZ, scat)
    else if tofmt = .VEC_SCATTER_MPI_GENERAL then
      match scat.todata, scat.fromdata with
      | .mpiGeneral to_, .mpiGeneral from_ =>
        -- handle off processor parts, then the local part
        (rd to_.starts to_.n).bind fun m =>
        (remapLoop tomap m.toNat to_.indices).bind fun indices =>
        (remapLoop tomap to_.local_n to_.local_vslots).bind fun vslots =>
        let to1 := { to_ with indices := indices, local_vslots := vslots,
                              local_made_of_copies := false }
        let from1 := { from_ with local_made_of_copies := false }
        some (.ok, { scat with todata := .mpiGeneral (opt.run scat to1 from1 to1.bs).1
                               fromdata := .mpiGeneral (opt.run scat to1 from1 to1.bs).2 })
      | _, _ => none
    else
      match scat.fromdata.format? with
      | none => none
      | some fromfmt =>
        if fromfmt = .VEC_SCATTER_SEQ_GENERAL then
          match scat.fromdata with
          | .seqGeneral sgfrom =>
            (remapLoop tomap sgfrom.n sgfrom.vslots).map fun v =>
              (.ok, { scat with fromdata := .seqGeneral { sgfrom with vslots := v } })
          | _ => none
        else if fromfmt = .VEC_SCATTER_SEQ_STRIDE then
          match scat.fromdata with
          | .seqStride ssto =>
            -- if the remapping is the identity and stride is identity then skip remap
            if ssto.step = 1 ∧ ssto.first = 0 then
              (remapIsIdentity tomap ssto.n).map fun b =>
                if b = true then (.ok, scat) else (.ERR_ARG_SIZ, scat)
            else some (.ERR_ARG_SIZ, scat)
          | _ => none
        else some (.ERR_ARG_SIZ, scat)

/-- The routine `VecScatterRemap(scat,tomap,frommap)`; `none` for a map is the null pointer. -/
def VecScatterRemap (opt : LocalOptimizeCopy) (scat : VecScatter)
    (tomap frommap : Option (List Int)) : Option (PetscErrorCode × VecScatter) :=
  match remapTo opt scat tomap with
  | none => none
  | some (e, scat1) =>
    if e ≠ .ok then some (e, scat1)
    else if frommap.isSome = true then some (.ERR_SUP, scat1)
    else some (.ok, { scat1 with from_n := -1, to_n := -1 })

/-- An optimizer that leaves the local parts as they are. -/
def noOptimize : LocalOptimizeCopy := ⟨fun _ t f _ => (t, f)⟩

/-- The renumbering `i -> i` on `m` indices. -/
def identityMap (m : Nat) : List Int := (List.range m).map fun (i : Nat) => (i : Int)

/-- The assignments `scat->from_n = -1; scat->to_n = -1;`. -/
def markUnknown (scat : VecScatter) : VecScatter := { scat with from_n := -1, to_n := -1 }

/-! ## Groups of processes -/

/-- Modelled from the spec: "Array Distribution: per-process ownership range [start,end) and
global length". The table `range` of a vector whose processes own `sizes[0]`, `sizes[1]`, ..
consecutive entries, the first of them starting at `o`. -/
def rangeFrom (o : Nat) : List Nat → List Int
  | [] => [(o : Int)]
  | s :: rest => (o : Int) :: rangeFrom (o + s) rest

/-- Modelled from the spec: the layout on process `rank` of a parallel vector whose processes
own `sizes[0]`, `sizes[1]`, .. consecutive entries. -/
def mpiLayout (sizes : List Nat) (rank : Nat) : VecLayout :=
  { n := sizes.getD rank 0
    N := sizes.sum
    rstart := (rangeFrom 0 sizes).getD rank 0
    rend := (rangeFrom 0 sizes).getD (rank + 1) 0
    range := rangeFrom 0 sizes
    rank := rank
    size := sizes.length }

/-- Context with which process `rank` enters `VecScatterCreate_PtoS`: the source is the
parallel vector with local sizes `sizes`, the destination a sequential vector of length
`ny`. -/
def ptosMember (typ : String) (sizes : List Nat) (rank : Nat) (ix iy : IS) (ny : Nat) :
    VecScatter :=
  VecScatterCreate_setup { VecScatterCreateEmpty sizes.length false false with type_name := typ }
    (some ix) (some iy) (mpiLayout sizes rank) (seqLayout ny)

/-- The flags of the all-reduces in a list of events, in order. -/
def allreduceFlags : List CommEvent → List Bool
  | [] => []
  | .allreduce f :: ev => f :: allreduceFlags ev
  | _ :: ev => allreduceFlags ev

/-- The flag that a process contributes to the `k`-th all-reduce of
`VecScatterCreate_PtoS`, read off the run in which every all-reduce delivers false (so that
the process goes through all of them); `none` when the process does not get that far. -/
def PtoS_flag (cfg : Config) (ctx : VecScatter) (k : Nat) : Option Bool :=
  (VecScatterCreate_PtoS cfg noBuilders (fun _ => false) ctx).bind fun r =>
    (allreduceFlags r.events)[k]?

/-- Modelled from the spec: "all-reduce logical AND". The result of the `k`-th
`MPI_Allreduce(.., MPI_LAND, ..)` of `VecScatterCreate_PtoS` in a group whose processes enter
with the contexts `ctxs`: true when every process contributes true. -/
def groupCando (cfg : Config) (ctxs : List VecScatter) (k : Nat) : Bool :=
  ctxs.all fun c => PtoS_flag cfg c k == some true

/-- Creation routine `VecScatterCreate_PtoS` run by every process of a group, each all-reduce
delivering the logical AND of the flags. -/
def VecScatterCreate_PtoS_group (cfg : Config) (bld : Builders) (ctxs : List VecScatter) :
    List (Option CreateResult) :=
  ctxs.map (VecScatterCreate_PtoS cfg bld (groupCando cfg ctxs))

/-- The flag that a process contributes to the all-reduce of `VecScatterCreate_StoP`. -/
def StoP_flag (cfg : Config) (ctx : VecScatter) : Option Bool :=
  (allreduceFlags (VecScatterCreate_StoP cfg noBuilders false ctx).events)[0]?

/-- Creation routine `VecScatterCreate_StoP` run by every process of a group. -/
def VecScatterCreate_StoP_group (cfg : Config) (bld : Builders) (ctxs : List VecScatter) :
    List CreateResult :=
  ctxs.map (VecScatterCreate_StoP cfg bld (ctxs.all fun c => StoP_flag cfg c == some true))

/-- The specializations of the parallel creation routines, in the words of the
specification; `peerSet bs` is the peer-set construction with block size `bs`, the "general
fallback" when `bs = 1` and the "block-aligned" path otherwise. -/
inductive Specialization where
  | localExtraction
  | broadcast
  | gatherToRoot
  | peerSet (bs : Int)
  deriving DecidableEq

/-- The specialization a process ended on: the peer-set builder when it called one, otherwise
the one whose begin routine the creation routine installed. -/
def CreateResult.selected (r : CreateResult) : Option Specialization :=
  match r.events.getLast? with
  | some (.build _ _ _ _ _ bs) => some (.peerSet bs)
  | _ =>
    match r.ctx.ops.begin_ with
    | some .SSToSS => some .localExtraction
    | some .MPI_ToAll => some .broadcast
    | some .MPI_ToOne => some .gatherToRoot
    | _ => none

/-! ## The collective begin routines -/

/-- One process of a group inside a collective begin routine: its context and the local
arrays of `x` and `y`, and the layouts (`map`) of its `x` and `y`. -/
structure Member (α : Type) where
  w : World α
  xmap : VecLayout
  ymap : VecLayout

/-- Modelled from the spec: the "blocking gather" of the abstract transport, as
`MPI_Gatherv(sendbuf,sendcount,..,recvbuf,recvcounts,displs,..)` acts at the receiving
process (and `MPI_Allgatherv` at every process): the block of process `i`, given in `sends[i]`
with its length as send count, is placed at `recvbuf + displs[i]`; the count `recvcounts[i]`
announced for it must be the count sent. -/
def MPI_Gatherv {β : Type} (sends : List (List β)) (recvbuf : List β)
    (recvcounts displs : List Int) : Option (List β) :=
  if recvcounts.length < sends.length ∨ displs.length < sends.length then none
  else
    (sends.zip (recvcounts.zip displs)).foldl (fun acc s => acc.bind fun buf =>
      if (s.1.length : Int) = s.2.1 then PetscMemcpy buf s.2.2 s.1 0 s.1.length else none)
      (some recvbuf)

/-- Modelled from the spec: the scatter of the abstract transport, as
`MPI_Scatterv(sendbuf,sendcounts,displs,..,recvbuf,recvcount,..,root,..)` acts at process
`p`: it receives `sendcounts[p]` entries, which must be `recvcount`, from `sendbuf +
displs[p]` of the root. -/
def MPI_Scatterv {β : Type} (sendbuf : List β) (sendcounts displs : List Int) (p : Nat)
    (recvbuf : List β) (recvcount : Nat) : Option (List β) :=
  match sendcounts[p]?, displs[p]? with
  | some c, some d => if c = (recvcount : Int) then PetscMemcpy recvbuf 0 sendbuf d recvcount
                      else none
  | _, _ => none

/-- Modelled from the spec: `MPI_Reduce(sendbuf,recvbuf,count,MPIU_SCALAR,MPIU_SUM,0,..)` at
the root: the entrywise sum of the `count` entries that every process sends. -/
def MPI_Reduce_SUM {β : Type} [Add β] (sends : List (List β)) (count : Nat) : Option (List β) :=
  match sends with
  | [] => none
  | s :: rest =>
    if (s :: rest).all (fun t => t.length == count) then
      some (rest.foldl (fun acc t => List.zipWith (fun a b => a + b) acc t) s)
    else none

/-- The loop `for (i=0; i<n; i++) v[i] = op(v[i], t[i])` that combines a work buffer `t` into
`v`. An entry of a work buffer that the current call has not written holds no value the
model knows (`none`), and reading it is treated like an access out of bounds. -/
def combineLoop {α : Type} (op : α → α → α) (n : Nat) (t : List (Option α)) (v : List α) :
    Option (List α) :=
  forLoop n (fun i v => (t[i]?).join.bind fun b => (rd v i).bind fun a => wr v i (op a b)) v

/-- The chain `if (addv == ADD_VALUES) {v[i] += t[i]} else if (addv == MAX_VALUES) {v[i] =
PetscMax(v[i],t[i])} else SETERRQ(..)` of the collective routines; the `MAX_VALUES` arm is
compiled only without `PETSC_USE_COMPLEX`. -/
def combineWork {α : Type} [Add α] [Max α] (cfg : Config) (addv : InsertMode) (n : Nat)
    (t : List (Option α)) (v : List α) : Option (PetscErrorCode × List α) :=
  if addv = .ADD_VALUES then (combineLoop (fun a b => a + b) n t v).map fun v => (.ok, v)
  else if cfg.useComplex = false ∧ addv = .MAX_VALUES then
    (combineLoop (fun a b => PetscMax a b) n t v).map fun v => (.ok, v)
  else some (.ERR_ARG_UNKNOWN_TYPE, v)

/-- A freshly allocated or cached work buffer of `len` entries. -/
def workBuffer (α : Type) (len : Nat) : List (Option α) := List.replicate len none

/-- What process 0 computes in the reverse branch of `VecScatterBegin_MPI_ToAll` for
`addv != INSERT_VALUES`, from `MPI_Gatherv` of the `y` parts into `xvt2` up to the combining
loop: the buffer `xvt` that is then scattered (or the error raised), and the lengths of the
two work buffers. -/
def toAllReverseRoot {α : Type} [Add α] [Max α] (cfg : Config) (grp : List (Member α))
    (root : World α) (scat : VecScatter_MPI_ToAll) (addv : InsertMode) :
    Option (PetscErrorCode × List α × Nat × Nat) :=
  let xx_n := root.x.length
  let l1 := scat.work1.getD xx_n
  let l2 := scat.work2.getD xx_n
  if l1 < xx_n then none
  else
    (MPI_Gatherv (grp.map fun m => m.w.y.map some) (workBuffer α l2) scat.count
      scat.displx).bind fun xvt2 =>
    (MPI_Reduce_SUM (grp.map fun m => m.w.x) xx_n).bind fun xvt =>
    (combineWork cfg addv xx_n xvt2 xvt).map fun r => (r.1, r.2, l1, l2)

/-- Collective routine `VecScatterBegin_MPI_ToAll`, as run by the process `me` of the group
`grp` (listed by rank; the send buffers of all processes are taken from `grp`). A process
that waits for a collective operation which process 0 never starts does not return. -/
def VecScatterBegin_MPI_ToAll {α : Type} [Add α] [Max α] (cfg : Config)
    (grp : List (Member α)) (me : Member α) (addv : InsertMode) (mode : ScatterMode) :
    Option (PetscErrorCode × World α) :=
  let yy_n := me.w.y.length
  let xx_n := me.w.x.length
  match me.w.ctx.todata with
  | .mpiToAll scat =>
    if mode.isReverse then
      if addv = .INSERT_VALUES then
        -- copy the correct part of the local vector into the local storage of the MPI one
        (PetscMemcpy me.w.y 0 me.w.x me.ymap.rstart yy_n).map fun yv =>
          (.ok, { me.w with y := yv })
      else if me.ymap.rank = 0 then
        (toAllReverseRoot cfg grp me.w scat addv).bind fun r =>
          let ctx1 := { me.w.ctx with
            todata := .mpiToAll { scat with work1 := some r.2.2.1, work2 := some r.2.2.2 } }
          if r.1 ≠ .ok then some (r.1, { me.w with ctx := ctx1 })
          else
            (MPI_Scatterv r.2.1 scat.count scat.displx 0 me.w.y yy_n).map fun yv =>
              (.ok, { me.w with ctx := ctx1, y := yv })
      else
        let ctx1 := { me.w.ctx with
          todata := .mpiToAll { scat with work1 := some (scat.work1.getD xx_n) } }
        match grp.head? with
        | some root =>
          match root.w.ctx.todata with
          | .mpiToAll rscat =>
            (toAllReverseRoot cfg grp root.w rscat addv).bind fun r =>
              if r.1 ≠ .ok then none
              else
                (MPI_Scatterv r.2.1 rscat.count rscat.displx me.ymap.rank me.w.y yy_n).map
                  fun yv => (.ok, { me.w with ctx := ctx1, y := yv })
          | _ => none
        | none => none
    else
      if addv = .INSERT_VALUES then
        (MPI_Gatherv (grp.map fun m => m.w.x) me.w.y scat.count scat.displx).map fun yv =>
          (.ok, { me.w with y := yv })
      else
        let l1 := scat.work1.getD yy_n
        let ctx1 := { me.w.ctx with todata := .mpiToAll { scat with work1 := some l1 } }
        (MPI_Gatherv (grp.map fun m => m.w.x.map some) (workBuffer α l1) scat.count
          scat.displx).bind fun yvt =>
        (combineWork cfg addv yy_n yvt me.w.y).map fun r =>
          (r.1, { me.w with ctx := ctx1, y := r.2 })
  | _ => none

/-- The greatest local length of `x` in the group, the result of `MPI_Allreduce(&xx_n,&xx_nt,
1,MPIU_INT,MPI_MAX,..)`. -/
def groupMaxLen {α : Type} (grp : List (Member α)) : Nat :=
  (grp.map fun m => m.w.x.length).foldl max 0

/-- Collective routine `VecScatterBegin_MPI_ToOne`, as run by the process `me` of the group
`grp`: forward it gathers all values onto process 0, in reverse it spreads them from
process 0. -/
def VecScatterBegin_MPI_ToOne {α : Type} [Add α] [Max α] (cfg : Config)
    (grp : List (Member α)) (me : Member α) (addv : InsertMode) (mode : ScatterMode) :
    Option (PetscErrorCode × World α) :=
  let yy_n := me.w.y.length
  let rank := me.xmap.rank
  match me.w.ctx.todata with
  | .mpiToAll scat =>
    if mode.isReverse then
      -- the send buffer and the tables of MPI_Scatterv are those of process 0
      let root : Option (World α) := if me.ymap.rank = 0 then some me.w
        else grp.head?.map fun m => m.w
      match root with
      | some root =>
        match root.ctx.todata with
        | .mpiToAll rscat =>
          if addv = .INSERT_VALUES then
            (MPI_Scatterv root.x rscat.count rscat.displx me.ymap.rank me.w.y yy_n).map
              fun yv => (.ok, { me.w with y := yv })
          else
            let l2 := scat.work2.getD (groupMaxLen grp)
            let ctx1 := { me.w.ctx with todata := .mpiToAll { scat with work2 := some l2 } }
            (MPI_Scatterv (root.x.map some) rscat.count rscat.displx me.ymap.rank
              (workBuffer α l2) yy_n).bind fun yvt =>
            (combineWork cfg addv yy_n yvt me.w.y).map fun r =>
              (r.1, { me.w with ctx := ctx1, y := r.2 })
        | _ => none
      | none => none
    else
      if addv = .INSERT_VALUES then
        if rank = 0 then
          (MPI_Gatherv (grp.map fun m => m.w.x) me.w.y scat.count scat.displx).map fun yv =>
            (.ok, { me.w with y := yv })
        else some (.ok, me.w)
      else
        if rank = 0 then
          let l1 := scat.work1.getD yy_n
          let ctx1 := { me.w.ctx with todata := .mpiToAll { scat with work1 := some l1 } }
          (MPI_Gatherv (grp.map fun m => m.w.x.map some) (workBuffer α l1) scat.count
            scat.displx).bind fun yvt =>
          (combineWork cfg addv yy_n yvt me.w.y).map fun r =>
            (r.1, { me.w with ctx := ctx1, y := r.2 })
        else some (.ok, me.w)
  | _ => none

/-- The routines outside the sequential kernels as process with layouts `xmap`, `ymap` of a
group reaches them through `ctx->ops->begin`: the two collective routines of this file. -/
def collectiveExt {α : Type} [Add α] [Max α] (cfg : Config) (grp : List (Member α))
    (xmap ymap : VecLayout) : ExtRoutines α :=
  { begin_ := fun r w addv mode =>
      match r with
      | .MPI_ToAll => VecScatterBegin_MPI_ToAll cfg grp ⟨w, xmap, ymap⟩ addv mode
      | .MPI_ToOne => VecScatterBegin_MPI_ToOne cfg grp ⟨w, xmap, ymap⟩ addv mode
      | _ => none
    end_ := fun _ _ _ _ => none }

/-- Driver `VecScatterBegin` called by every process of a group with the same `addv` and
`mode`. -/
def groupBegin {α : Type} [Add α] [Max α] (cfg : Config) (grp : List (Member α))
    (addv : InsertMode) (mode : ScatterMode) : List (Option (PetscErrorCode × World α)) :=
  grp.map fun m => VecScatterBegin cfg (collectiveExt cfg grp m.xmap m.ymap) m.w addv mode

/-- Driver `VecScatterEnd` called by every process of a group. -/
def groupEnd {α : Type} [Add α] [Max α] (cfg : Config) (grp : List (Member α))
    (addv : InsertMode) (mode : ScatterMode) : List (Option (PetscErrorCode × World α)) :=
  grp.map fun m => VecScatterEnd (collectiveExt cfg grp m.xmap m.ymap) m.w addv mode

/-- Whether `GetInputISType_private` finds a stride on both sides in
`VecScatterCreate_PtoS`. -/
def PtoS_bothStride (ctx : VecScatter) : Bool :=
  match GetInputISType_private ctx VEC_MPI_ID VEC_SEQ_ID with
  | .ok ty => decide (ty.ix_type = IS_STRIDE_ID ∧ ty.iy_type = IS_STRIDE_ID)
  | .error _ => false

/-- The block-alignment test between a Block source and a Block destination, in the words
of the specification: "same block size" (of a size the blocked kernels are written for). -/
def blockToBlock (ix iy : IS) : Bool :=
  isBlockType ix && isBlockType iy && decide (ISGetBlockSize ix = ISGetBlockSize iy) &&
    VecScatterOptimizedBS (ISGetBlockSize ix)

/-- The block-alignment test between a Block source and a Stride destination, in the words
of the specification: "zero offset modulo block size, unit stride", on a stride whose length
is a multiple of the block size. -/
def blockToStride (ix iy : IS) : Bool :=
  isBlockType ix && isStrideType iy && VecScatterOptimizedBS (ISGetBlockSize ix) &&
    decide ((ISStrideGetInfo iy).1.tmod (ISGetBlockSize ix) = 0) &&
    decide ((ISStrideGetInfo iy).2 = 1) &&
    decide (((ISGetLocalSize iy : Nat) : Int).tmod (ISGetBlockSize ix) = 0)

/-- Process 0 of two scatters blocks of size 2 to blocks of size 2. -/
def blockCtx : VecScatter :=
  ptosMember "mpi1" [4, 4] 0 (.block 2 [0, 1]) (.block 2 [0, 1]) 4

/-- Process 1 of two scatters two single entries given by index lists. -/
def listCtx : VecScatter :=
  ptosMember "mpi1" [4, 4] 1 (.general [4, 5]) (.general [0, 1]) 2

/-- Context with which process `rank` enters `VecScatterCreate_StoP`: the source is a
sequential vector of length `nx`, the destination the parallel vector with local sizes
`sizes`. -/
def stopMember (typ : String) (sizes : List Nat) (rank : Nat) (ix iy : IS) (nx : Nat) :
    VecScatter :=
  VecScatterCreate_setup { VecScatterCreateEmpty sizes.length false false with type_name := typ }
    (some ix) (some iy) (seqLayout nx) (mpiLayout sizes rank)

/-- Process 0 of two scatters two blocks of size 2 of a sequential vector into the first
four entries of a parallel vector. -/
def blockStopCtx : VecScatter :=
  stopMember "mpi1" [4, 4] 0 (.block 2 [0, 1]) (.stride 4 0 1) 4

/-- Process 1 of two scatters two single entries given by index lists. -/
def listStopCtx : VecScatter :=
  stopMember "mpi1" [4, 4] 1 (.general [0, 1]) (.general [4, 5]) 2

/-- The context that `installToAll` leaves (the context itself where it does not return). -/
def collectivePlan (cfg : Config) (fmt : VecScatterFormat) (beginR : BeginRoutine)
    (ctx : VecScatter) : VecScatter :=
  match installToAll cfg fmt beginR ctx with
  | some p => p.2
  | none => ctx

/-- The group in a forward scatter from the parallel vector with local parts `xs` into the
sequential vector `ys p` of every process `p`, which runs the plan `plan p`. -/
def forwardGroup {α : Type} (plan : Nat → VecScatter) (xs : List (List α))
    (ys : Nat → List α) : List (Member α) :=
  (List.range xs.length).map fun p =>
    ⟨⟨plan p, xs.getD p [], ys p⟩, mpiLayout (xs.map List.length) p, seqLayout (ys p).length⟩

/-- The group in a reverse scatter from the sequential vector `ys p` of every process `p`
into the parallel vector with local parts `zs`. -/
def reverseGroup {α : Type} (plan : Nat → VecScatter) (ys : Nat → List α)
    (zs : List (List α)) : List (Member α) :=
  (List.range zs.length).map fun p =>
    ⟨⟨plan p, ys p, zs.getD p []⟩, seqLayout (ys p).length, mpiLayout (zs.map List.length) p⟩

/-- The Stride/Stride plan that case (2-a) of `VecScatterCreate_PtoS` installs in `ctx`. -/
def stridePlan (ctx : VecScatter) (n : Nat) (to_first to_step from_first from_step : Int) :
    VecScatter :=
  { ctx with
    todata := .seqStride ⟨.VEC_SCATTER_SEQ_STRIDE, n, to_first, to_step⟩
    fromdata := .seqStride ⟨.VEC_SCATTER_SEQ_STRIDE, n, from_first, from_step⟩
    ops := { begin_ := some .SSToSS, end_ := none, destroy := some .SSToSS,
             copy := some .SSToSS, view := some .SSToSS } }

/-- Two processes owning 3 entries each of a parallel vector of length 6, each asking for
its own range. -/
def ownRangeCtx (rank : Nat) : VecScatter :=
  ptosMember "mpi1" [3, 3] rank (.stride 3 (3 * (rank : Int)) 1) (.stride 3 0 1) 3

/-- The same two processes; process 0 now asks for its first two entries, both to go to
slot 0 of a sequential vector of length 1 (a destination stride with step 0). -/
def zeroStepCtx (rank : Nat) : VecScatter :=
  if rank = 0 then ptosMember "mpi1" [3, 3] 0 (.stride 2 0 1) (.stride 2 0 0) 1
  else ownRangeCtx rank

/-- Context of process `p` of a group in which "every process passes Stride(first 0, step 1,
length N) for both source and destination", `N` the global length of the parallel vector with
local sizes `sizes`. -/
def broadcastCtxOf (typ : String) (sizes : List Nat) (p : Nat) : VecScatter :=
  ptosMember typ sizes p (.stride sizes.sum 0 1) (.stride sizes.sum 0 1) sizes.sum

/-- The broadcast plan of process `p` of that group. -/
def broadcastPlan (cfg : Config) (typ : String) (sizes : List Nat) (p : Nat) : VecScatter :=
  collectivePlan cfg .VEC_SCATTER_MPI_TOALL .MPI_ToAll (broadcastCtxOf typ sizes p)

/-- The gather-to-root plan of process `p` of a group whose process `p` passed the
descriptors `ix p`, `iy p` and a sequential vector of length `ny p`. -/
def gatherPlan (cfg : Config) (typ : String) (sizes : List Nat) (ix iy : Nat → IS)
    (ny : Nat → Nat) (p : Nat) : VecScatter :=
  collectivePlan cfg .VEC_SCATTER_MPI_TOONE .MPI_ToOne (ptosMember typ sizes p (ix p) (iy p) (ny p))

/-- Two processes owning 3 entries each of a parallel vector of length 6, every process
asking for the entire vector. -/
def bcastCtx (rank : Nat) : VecScatter :=
  ptosMember "mpi1" [3, 3] rank (.stride 6 0 1) (.stride 6 0 1) 6

/-- Two processes, the first owning both entries of a parallel vector of length 2 and the
second owning none, every process asking for the entire vector. -/
def dissentCtx (rank : Nat) : VecScatter :=
  ptosMember "mpi1" [2, 0] rank (.stride 2 0 1) (.stride 2 0 1) 2

/-- A debug build with real scalars and 64-bit indices. -/
def cfg64 : Config := ⟨true, false, true, false⟩

/-- A plan with peer-set tables on both sides (as the builders outside this file leave them):
one peer with the two indices `[1, 0]`, and a local part with the index `[0]`. -/
def peerPlan : VecScatter :=
  { swapPlan with
    todata := .mpiGeneral ⟨.VEC_SCATTER_MPI_GENERAL, 1, [0, 2], [1, 0], 1, 1, [0], true⟩
    fromdata := .mpiGeneral ⟨.VEC_SCATTER_MPI_GENERAL, 1, [0, 2], [0, 1], 1, 1, [1], true⟩ }

/-! ## Creation of a scatter between two parallel vectors -/

/-- The builder call of `VecScatterCreate_PtoP`: the MPI1 builder for the type `mpi1`,
otherwise the MPI3 builder when it is compiled in, otherwise no call at all. -/
def ptopBuild (cfg : Config) (bld : Builders) (vscat_mpi1 : Bool) (nx : Nat) (idx : List Int)
    (ny : Nat) (idy : List Int) (bs : Int) (ctx : VecScatter) (ev : List CommEvent) :
    CreateResult :=
  if vscat_mpi1 = true then callBuilder bld .PtoP_MPI1 nx idx ny idy bs ctx ev
  else if cfg.haveMpiWinCreate = true then callBuilder bld .PtoP_MPI3 nx idx ny idy bs ctx ev
  else ⟨.ok, ctx, ev⟩

/-- Creation routine `VecScatterCreate_PtoP`: both vectors parallel ("no special cases for
now"), as run by one process. -/
def VecScatterCreate_PtoP (cfg : Config) (bld : Builders) (ctx : VecScatter) : CreateResult :=
  match GetInputISType_private ctx VEC_MPI_ID VEC_MPI_ID with
  | .error e => ⟨e, ctx, []⟩
  | .ok ty =>
    match effectiveIS ty.tix ctx.from_is, effectiveIS ty.tiy ctx.to_is with
    | some ix, some iy =>
      let vscat_mpi1 := ctx.type_name == "mpi1"
      let nx := ISGetLocalSize ix
      let idx := ISGetIndices ix
      let ny := ISGetLocalSize iy
      let idy := ISGetIndices iy
      if nx ≠ ny then ⟨.ERR_ARG_SIZ, ctx, []⟩
      else ptopBuild cfg bld vscat_mpi1 nx idx ny idy 1 ctx []
    | _, _ => ⟨.ERR_ARG_NULL, ctx, []⟩

/-- Context with which process `rank` enters `VecScatterCreate_PtoP`: source and destination
are parallel vectors with local sizes `sizesx` and `sizesy`. -/
def ptopMember (typ : String) (sizesx sizesy : List Nat) (rank : Nat) (ix iy : IS) :
    VecScatter :=
  VecScatterCreate_setup { VecScatterCreateEmpty sizesx.length false false with type_name := typ }
    (some ix) (some iy) (mpiLayout sizesx rank) (mpiLayout sizesy rank)

/-- A build with MPI-3 window support (`PETSC_HAVE_MPI_WIN_CREATE_FEATURE`), debug checks and
real scalars. -/
def cfgWin : Config := ⟨true, false, false, true⟩

/-! ## Copy -/

/-- The calls `PetscMalloc1(n,&p)` and `PetscMemcpy(p,src,n*sizeof(PetscInt))` (or the loop
`for (i=0; i<n; i++) p[i] = src[i]`): a new array holding the first `n` entries of `src`.
Reading beyond the end of `src` is undefined. -/
def copyArray (src : List Int) (n : Nat) : Option (List Int) :=
  PetscMemcpy (List.replicate n 0) 0 src 0 n

/-- Copy routine `VecScatterCopy_SGToSG`. The fields `nonmatching_computed`,
`slots_nonmatching` and `made_of_copies`, which it clears, are not read by the sequential
code. -/
def VecScatterCopy_SGToSG (in_ out : VecScatter) : Option (PetscErrorCode × VecScatter) :=
  match in_.todata, in_.fromdata with
  | .seqGeneral in_to, .seqGeneral in_from =>
    (copyArray in_to.vslots in_to.n).bind fun tv =>
    (copyArray in_from.vslots in_from.n).map fun fv =>
      (.ok, { out with
        ops := { begin_ := in_.ops.begin_, end_ := in_.ops.end_, copy := in_.ops.copy,
                 destroy := in_.ops.destroy, view := in_.ops.view }
        todata := .seqGeneral ⟨in_to.format, in_to.n, tv⟩
        fromdata := .seqGeneral ⟨in_from.format, in_from.n, fv⟩ })
  | _, _ => none

/-- Copy routine `VecScatterCopy_SGToSS`. -/
def VecScatterCopy_SGToSS (in_ out : VecScatter) : Option (PetscErrorCode × VecScatter) :=
  match in_.todata, in_.fromdata with
  | .seqStride in_to, .seqGeneral in_from =>
    (copyArray in_from.vslots in_from.n).map fun fv =>
      (.ok, { out with
        ops := { begin_ := in_.ops.begin_, end_ := in_.ops.end_, copy := in_.ops.copy,
                 destroy := in_.ops.destroy, view := in_.ops.view }
        todata := .seqStride ⟨in_to.format, in_to.n, in_to.first, in_to.step⟩
        fromdata := .seqGeneral ⟨in_from.format, in_from.n, fv⟩ })
  | _, _ => none

/-- Copy routine `VecScatterCopy_SSToSS`. -/
def VecScatterCopy_SSToSS (in_ out : VecScatter) : Option (PetscErrorCode × VecScatter) :=
  match in_.todata, in_.fromdata with
  | .seqStride in_to, .seqStride in_from =>
    some (.ok, { out with
      ops := { begin_ := in_.ops.begin_, end_ := in_.ops.end_, copy := in_.ops.copy,
               destroy := in_.ops.destroy, view := in_.ops.view }
      todata := .seqStride ⟨in_to.format, in_to.n, in_to.first, in_to.step⟩
      fromdata := .seqStride ⟨in_from.format, in_from.n, in_from.first, in_from.step⟩ })
  | _, _ => none

/-- Copy routine `VecScatterCopy_MPI_ToAll`, installed for the broadcast and for the
gather-to-root plans: `size` entries of `count` and `displx` are copied, the work buffers of
the copy are null. -/
def VecScatterCopy_MPI_ToAll (in_ out : VecScatter) : Option (PetscErrorCode × VecScatter) :=
  match in_.todata with
  | .mpiToAll in_to =>
    let size := out.comm_size
    (copyArray in_to.count size).bind fun count =>
    (copyArray in_to.displx size).map fun displx =>
      (.ok, { out with
        ops := { begin_ := in_.ops.begin_, end_ := in_.ops.end_, copy := in_.ops.copy,
                 destroy := in_.ops.destroy, view := in_.ops.view }
        todata := .mpiToAll ⟨in_to.format, count, displx, none, none⟩
        fromdata := .null })
  | _ => none

/-- The call `(*sctx->ops->copy)(sctx,*ctx)`; `extc` stands for the copy routines that the
peer-set builders install, which are not in this file. -/
def callCopy (extc : Nat → VecScatter → VecScatter → Option (PetscErrorCode × VecScatter))
    (r : CopyRoutine) (in_ out : VecScatter) : Option (PetscErrorCode × VecScatter) :=
  match r with
  | .SGToSG => VecScatterCopy_SGToSG in_ out
  | .SGToSS => VecScatterCopy_SGToSS in_ out
  | .SSToSS => VecScatterCopy_SSToSS in_ out
  | .MPI_ToAll => VecScatterCopy_MPI_ToAll in_ out
  | .other id => extc id in_ out

/-- The context that `PetscHeaderCreate` (not in this file) hands to `VecScatterCopy`: a
zeroed structure with reference count 1 on the communicator of `sctx`. The options that
`VecScatterCreateEmpty` reads are not read here. -/
def copyHeader (sctx : VecScatter) : VecScatter :=
  VecScatterCreateEmpty sctx.comm_size false false

/-- Routine `VecScatterCopy(sctx,&ctx)`: the error code and the new context `*ctx` (`none`
when none has been created). -/
def VecScatterCopy (extc : Nat → VecScatter → VecScatter → Option (PetscErrorCode × VecScatter))
    (sctx : VecScatter) : Option (PetscErrorCode × Option VecScatter) :=
  match sctx.ops.copy with
  | none => some (.ERR_SUP, none)
  | some r =>
    let ctx := { copyHeader sctx with to_n := sctx.to_n, from_n := sctx.from_n }
    match callCopy extc r sctx ctx with
    | none => none
    | some (e, ctx1) =>
      if e ≠ .ok then some (e, some ctx1)
      else some (.ok, some { ctx1 with type_name := sctx.type_name })

/-- Copy routines outside this file that are never reached. -/
def noExtCopy : Nat → VecScatter → VecScatter → Option (PetscErrorCode × VecScatter) :=
  fun _ _ _ => none

/-! ## Index tables in memory -/

/-- Memory holding the `PetscInt` arrays of plans: the array at address `a` is `mem[a]`. -/
abbrev IndexMemory := List (List Int)

/-- The call `PetscMalloc1(n,&p)`: a new array of `n` entries at an address not yet in
use. -/
def PetscMalloc1 (mem : IndexMemory) (n : Nat) : IndexMemory × Nat :=
  (mem ++ [List.replicate n 0], mem.length)

/-- The structure `VecScatter_Seq_General` as it lies in memory: `vslots` is the address of
the index array. -/
structure SeqGeneralAt where
  format : VecScatterFormat
  n : Nat
  vslots : Nat
  deriving DecidableEq

/-- The table that such a structure denotes in a memory. -/
def SeqGeneralAt.load (d : SeqGeneralAt) (mem : IndexMemory) : Option VecScatter_Seq_General :=
  (mem[d.vslots]?).map fun v => ⟨d.format, d.n, v⟩

/-- The loop `for (i=0; i<sgfrom->n; i++) sgfrom->vslots[i] = tomap[sgfrom->vslots[i]];` of
`VecScatterRemap`, on memory. -/
def remapTableAt (mem : IndexMemory) (tomap : List Int) (d : SeqGeneralAt) :
    Option IndexMemory :=
  (mem[d.vslots]?).bind fun v => (remapLoop tomap d.n v).map fun v1 => mem.set d.vslots v1

/-! ## Plans in memory -/

/-- The call `PetscMemcpy(dst,src,n*sizeof(PetscInt))` between two arrays of the memory. -/
def PetscMemcpyAt (mem : IndexMemory) (dst src : Nat) (n : Nat) : Option IndexMemory :=
  match mem[dst]?, mem[src]? with
  | some d, some s => (PetscMemcpy d 0 s 0 n).map fun d1 => mem.set dst d1
  | _, _ => none

/-- What `ctx->todata` / `ctx->fromdata` point to, as it lies in memory: the index array of a
`VecScatter_Seq_General` is kept in the memory of index arrays, the other structures hold
their fields themselves. -/
inductive ScatterDataAt where
  | null
  | seqGeneral (d : SeqGeneralAt)
  | seqStride (d : VecScatter_Seq_Stride)
  | mpiToAll (d : VecScatter_MPI_ToAll)
  | mpiGeneral (d : VecScatter_MPI_General)
  deriving DecidableEq

/-- The plan data that such a pointer denotes in a memory. -/
def ScatterDataAt.load (mem : IndexMemory) : ScatterDataAt → Option ScatterData
  | .null => some .null
  | .seqGeneral d => (d.load mem).map .seqGeneral
  | .seqStride d => some (.seqStride d)
  | .mpiToAll d => some (.mpiToAll d)
  | .mpiGeneral d => some (.mpiGeneral d)

/-- The `format` tag read through such a pointer; a null pointer has none. -/
def ScatterDataAt.format? : ScatterDataAt → Option VecScatterFormat
  | .null => none
  | .seqGeneral d => some d.format
  | .seqStride d => some d.format
  | .mpiToAll d => some d.format
  | .mpiGeneral d => some d.format

/-- A context as it lies in memory: `hdr` holds the fields other than `todata` and
`fromdata` (these two fields of `hdr` are not read), `todata` and `fromdata` are the two
pointers. -/
structure VecScatterAt where
  hdr : VecScatter
  todata : ScatterDataAt
  fromdata : ScatterDataAt
  deriving DecidableEq

/-- The context that such a structure denotes in a memory. -/
def VecScatterAt.load (mem : IndexMemory) (p : VecScatterAt) : Option VecScatter :=
  (p.todata.load mem).bind fun t =>
  (p.fromdata.load mem).map fun f => { p.hdr with todata := t, fromdata := f }

/-- Copy routine `VecScatterCopy_SGToSG` on memory: `PetscMalloc2(in_to->n,&out_to->vslots,
in_from->n,&out_from->vslots)`, then for each side `n`, `format` and
`PetscMemcpy(out->vslots,in->vslots,(out->n)*sizeof(PetscInt))`. -/
def VecScatterCopy_SGToSG_mem (mem : IndexMemory) (in_ out : VecScatterAt) :
    Option (PetscErrorCode × IndexMemory × VecScatterAt) :=
  match in_.todata, in_.fromdata with
  | .seqGeneral in_to, .seqGeneral in_from =>
    let a := PetscMalloc1 mem in_to.n
    let b := PetscMalloc1 a.1 in_from.n
    (PetscMemcpyAt b.1 a.2 in_to.vslots in_to.n).bind fun mem1 =>
    (PetscMemcpyAt mem1 b.2 in_from.vslots in_from.n).map fun mem2 =>
      (.ok, mem2,
        { hdr := { out.hdr with
            ops := { begin_ := in_.hdr.ops.begin_, end_ := in_.hdr.ops.end_,
                     copy := in_.hdr.ops.copy, destroy := in_.hdr.ops.destroy,
                     view := in_.hdr.ops.view } }
          todata := .seqGeneral ⟨in_to.format, in_to.n, a.2⟩
          fromdata := .seqGeneral ⟨in_from.format, in_from.n, b.2⟩ })
  | _, _ => none

/-- Copy routine `VecScatterCopy_SGToSS` on memory: `PetscMalloc1(in_from->n,
&out_from->vslots)`, the stride side field by field, the general side by `PetscMemcpy`. -/
def VecScatterCopy_SGToSS_mem (mem : IndexMemory) (in_ out : VecScatterAt) :
    Option (PetscErrorCode × IndexMemory × VecScatterAt) :=
  match in_.todata, in_.fromdata with
  | .seqStride in_to, .seqGeneral in_from =>
    let b := PetscMalloc1 mem in_from.n
    (PetscMemcpyAt b.1 b.2 in_from.vslots in_from.n).map fun mem1 =>
      (.ok, mem1,
        { hdr := { out.hdr with
            ops := { begin_ := in_.hdr.ops.begin_, end_ := in_.hdr.ops.end_,
                     copy := in_.hdr.ops.copy, destroy := in_.hdr.ops.destroy,
                     view := in_.hdr.ops.view } }
          todata := .seqStride ⟨in_to.format, in_to.n, in_to.first, in_to.step⟩
          fromdata := .seqGeneral ⟨in_from.format, in_from.n, b.2⟩ })
  | _, _ => none

/-- Copy routine `VecScatterCopy_SSToSS` on memory: no index array is involved. -/
def VecScatterCopy_SSToSS_mem (mem : IndexMemory) (in_ out : VecScatterAt) :
    Option (PetscErrorCode × IndexMemory × VecScatterAt) :=
  match in_.todata, in_.fromdata with
  | .seqStride in_to, .seqStride in_from =>
    some (.ok, mem,
      { hdr := { out.hdr with
          ops := { begin_ := in_.hdr.ops.begin_, end_ := in_.hdr.ops.end_,
                   copy := in_.hdr.ops.copy, destroy := in_.hdr.ops.destroy,
                   view := in_.hdr.ops.view } }
        todata := .seqStride ⟨in_to.format, in_to.n, in_to.first, in_to.step⟩
        fromdata := .seqStride ⟨in_from.format, in_from.n, in_from.first, in_from.step⟩ })
  | _, _ => none

/-- Copy routine `VecScatterCopy_MPI_ToAll` on memory: the tables `count` and `displx` are
arrays of `PetscMPIInt`, which the structure holds itself here. -/
def VecScatterCopy_MPI_ToAll_mem (mem : IndexMemory) (in_ out : VecScatterAt) :
    Option (PetscErrorCode × IndexMemory × VecScatterAt) :=
  match in_.todata with
  | .mpiToAll in_to =>
    let size := out.hdr.comm_size
    (copyArray in_to.count size).bind fun count =>
    (copyArray in_to.displx size).map fun displx =>
      (.ok, mem,
        { hdr := { out.hdr with
            ops := { begin_ := in_.hdr.ops.begin_, end_ := in_.hdr.ops.end_,
                     copy := in_.hdr.ops.copy, destroy := in_.hdr.ops.destroy,
                     view := in_.hdr.ops.view } }
          todata := .mpiToAll ⟨in_to.format, count, displx, none, none⟩
          fromdata := .null })
  | _ => none

/-- The call `(*sctx->ops->copy)(sctx,*ctx)` on memory; `extc` stands for the copy routines
that the peer-set builders install. -/
def callCopy_mem
    (extc : Nat → IndexMemory → VecScatterAt → VecScatterAt →
      Option (PetscErrorCode × IndexMemory × VecScatterAt))
    (r : CopyRoutine) (mem : IndexMemory) (in_ out : VecScatterAt) :
    Option (PetscErrorCode × IndexMemory × VecScatterAt) :=
  match r with
  | .SGToSG => VecScatterCopy_SGToSG_mem mem in_ out
  | .SGToSS => VecScatterCopy_SGToSS_mem mem in_ out
  | .SSToSS => VecScatterCopy_SSToSS_mem mem in_ out
  | .MPI_ToAll => VecScatterCopy_MPI_ToAll_mem mem in_ out
  | .other id => extc id mem in_ out

/-- Routine `VecScatterCopy(sctx,&ctx)` on memory: the error code, the memory after the call
and the new context `*ctx` (`none` when none has been created). -/
def VecScatterCopy_mem
    (extc : Nat → IndexMemory → VecScatterAt → VecScatterAt →
      Option (PetscErrorCode × IndexMemory × VecScatterAt))
    (mem : IndexMemory) (sctx : VecScatterAt) :
    Option (PetscErrorCode × IndexMemory × Option VecScatterAt) :=
  match sctx.hdr.ops.copy with
  | none => some (.ERR_SUP, mem, none)
  | some r =>
    let ctx : VecScatterAt :=
      ⟨{ copyHeader sctx.hdr with to_n := sctx.hdr.to_n, from_n := sctx.hdr.from_n },
        .null, .null⟩
    match callCopy_mem extc r mem sctx ctx with
    | none => none
    | some (e, mem1, ctx1) =>
      if e ≠ .ok then some (e, mem1, some ctx1)
      else some (.ok, mem1,
        some { ctx1 with hdr := { ctx1.hdr with type_name := sctx.hdr.type_name } })

/-- Copy routines outside this file that are never reached, on memory. -/
def noExtCopy_mem : Nat → IndexMemory → VecScatterAt → VecScatterAt →
    Option (PetscErrorCode × IndexMemory × VecScatterAt) :=
  fun _ _ _ _ => none

/-- The block `if (tomap) { .. }` of `VecScatterRemap` on memory: the loop over
`sgfrom->vslots` writes the index array of the From side in place. -/
def remapTo_mem (opt : LocalOptimizeCopy) (mem : IndexMemory) (scat : VecScatterAt)
    (tomap : Option (List Int)) : Option (PetscErrorCode × IndexMemory × VecScatterAt) :=
  match tomap with
  | none => some (.ok, mem, scat)
  | some tomap =>
  match scat.todata.format? with
  | none => none
  | some tofmt =>
    if tofmt = .VEC_SCATTER_MPI_TOALL then some (.ERR_ARG_SIZ, mem, scat)
    else if tofmt = .VEC_SCATTER_MPI_GENERAL then
      match scat.todata, scat.fromdata with
      | .mpiGeneral to_, .mpiGeneral from_ =>
        (rd to_.starts to_.n).bind fun m =>
        (remapLoop tomap m.toNat to_.indices).bind fun indices =>
        (remapLoop tomap to_.local_n to_.local_vslots).bind fun vslots =>
        let to1 := { to_ with indices := indices, local_vslots := vslots,
                              local_made_of_copies := false }
        let from1 := { from_ with local_made_of_copies := false }
        let ctx := { scat.hdr with todata := .mpiGeneral to_, fromdata := .mpiGeneral from_ }
        some (.ok, mem, { scat with todata := .mpiGeneral (opt.run ctx to1 from1 to1.bs).1
                                    fromdata := .mpiGeneral (opt.run ctx to1 from1 to1.bs).2 })
      | _, _ => none
    else
      match scat.fromdata.format? with
      | none => none
      | some fromfmt =>
        if fromfmt = .VEC_SCATTER_SEQ_GENERAL then
          match scat.fromdata with
          | .seqGeneral sgfrom =>
            (remapTableAt mem tomap sgfrom).map fun mem1 => (.ok, mem1, scat)
          | _ => none
        else if fromfmt = .VEC_SCATTER_SEQ_STRIDE then
          match scat.fromdata with
          | .seqStride ssto =>
            if ssto.step = 1 ∧ ssto.first = 0 then
              (remapIsIdentity tomap ssto.n).map fun b =>
                if b = true then (.ok, mem, scat) else (.ERR_ARG_SIZ, mem, scat)
            else some (.ERR_ARG_SIZ, mem, scat)
          | _ => none
        else some (.ERR_ARG_SIZ, mem, scat)

/-- The routine `VecScatterRemap(scat,tomap,frommap)` on memory. -/
def VecScatterRemap_mem (opt : LocalOptimizeCopy) (mem : IndexMemory) (scat : VecScatterAt)
    (tomap frommap : Option (List Int)) :
    Option (PetscErrorCode × IndexMemory × VecScatterAt) :=
  match remapTo_mem opt mem scat tomap with
  | none => none
  | some (e, mem1, scat1) =>
    if e ≠ .ok then some (e, mem1, scat1)
    else if frommap.isSome = true then some (.ERR_SUP, mem1, scat1)
    else some (.ok, mem1, { scat1 with hdr := { scat1.hdr with from_n := -1, to_n := -1 } })

/-- The plan `swapPlan` in a memory that holds its destination table `[0, 1]` at address 0
and its source table `[1, 0]` at address 1. -/
def swapPlanAt : VecScatterAt :=
  ⟨swapPlan, .seqGeneral ⟨.VEC_SCATTER_SEQ_GENERAL, 2, 0⟩,
    .seqGeneral ⟨.VEC_SCATTER_SEQ_GENERAL, 2, 1⟩⟩

/-! ## Cached work buffers -/

/-- The plan data without the work buffers cached in it (`work1 = work2 = 0`). -/
def ScatterData.dropWork : ScatterData → ScatterData
  | .mpiToAll d => .mpiToAll { d with work1 := none, work2 := none }
  | d => d

/-- The length of the work buffer `work1` cached in the plan data, if any. -/
def ScatterData.work1? : ScatterData → Option Nat
  | .mpiToAll d => d.work1
  | _ => none

/-- The length of the work buffer `work2` cached in the plan data, if any. -/
def ScatterData.work2? : ScatterData → Option Nat
  | .mpiToAll d => d.work2
  | _ => none

/-- The lengths with which the collective begin routine `r` allocates `work1` and `work2`
when it finds none cached, on a process with the arrays `x` and `y`: `work1` gets the length
of `y` in a forward and of `x` in a reverse scatter, `work2` the length of `x` in
`VecScatterBegin_MPI_ToAll` and the greatest length of `x` in the group in
`VecScatterBegin_MPI_ToOne`. -/
def workLengths {α : Type} (r : BeginRoutine) (grp : List (Member α)) (x y : List α)
    (mode : ScatterMode) : Nat × Nat :=
  (if mode.isReverse then x.length else y.length,
   if r = .MPI_ToOne then groupMaxLen grp else x.length)

/-- Every work buffer cached in the plan data has the length `len.1` (`work1`) or `len.2`
(`work2`). -/
def ScatterData.workFits (d : ScatterData) (len : Nat × Nat) : Prop :=
  d.work1?.getD len.1 = len.1 ∧ d.work2?.getD len.2 = len.2

instance (d : ScatterData) (len : Nat × Nat) : Decidable (d.workFits len) := by
  unfold ScatterData.workFits; exact inferInstance

/-- The arrays of the plan data hold the number of entries they were allocated with: the
index array of a General side `n` entries, the tables `count` and `displx` one entry for
each of the `size` processes of the communicator. -/
def ScatterData.sized (size : Nat) : ScatterData → Prop
  | .seqGeneral d => d.vslots.length = d.n
  | .mpiToAll d => d.count.length = size ∧ d.displx.length = size
  | _ => True

instance (size : Nat) (d : ScatterData) : Decidable (d.sized size) := by
  cases d <;> unfold ScatterData.sized <;> exact inferInstance

/-- A build without `PETSC_USE_DEBUG`, with real scalars. -/
def cfgRelease : Config := ⟨false, false, false, false⟩

/-- The broadcast plan of the only process of a group, which owns both entries of the
parallel vector, after a forward scatter with `ADD_VALUES` has cached the work buffer
`work1` of 2 entries in it. -/
def cachedPlan : VecScatter :=
  { broadcastPlan cfgRelease "mpi1" [2] 0 with
    todata := .mpiToAll ⟨.VEC_SCATTER_MPI_TOALL, [2], [0], some 2, none⟩ }

/-- The context that `VecScatterCopy` returns for `swapPlan`: a new header with the sizes,
routines, data and type of `swapPlan`. -/
def swapCopy : VecScatter :=
  { copyHeader swapPlan with
    to_n := swapPlan.to_n, from_n := swapPlan.from_n, ops := swapPlan.ops,
    todata := swapPlan.todata, fromdata := swapPlan.fromdata, type_name := swapPlan.type_name }

/-- The copy of `swapPlanAt` that `VecScatterCopy_mem` makes in a memory of two arrays: its
destination table lies at address 2 and its source table at address 3. -/
def swapCopyAt : VecScatterAt :=
  ⟨{ swapCopy with todata := .null, fromdata := .null },
    .seqGeneral ⟨.VEC_SCATTER_SEQ_GENERAL, 2, 2⟩, .seqGeneral ⟨.VEC_SCATTER_SEQ_GENERAL, 2, 3⟩⟩

/-- The context that `VecScatterCopy` returns for `cachedPlan`: the tables of `cachedPlan`
and no work buffer. -/
def cachedCopy : VecScatter :=
  { copyHeader cachedPlan with
    to_n := cachedPlan.to_n, from_n := cachedPlan.from_n, ops := cachedPlan.ops,
    todata := .mpiToAll ⟨.VEC_SCATTER_MPI_TOALL, [2], [0], none, none⟩, fromdata := .null,
    type_name := cachedPlan.type_name }

/-! ## Destroy -/

/-- Outcome of `VecScatterDestroy(&ctx)`: the error code, the handle `*ctx` after the call,
the object after the call (`none` once `PetscHeaderDestroy` has freed it) and the destroy
routine that was called, if any. -/
structure DestroyResult where
  ierr : PetscErrorCode
  handle : Option VecScatter
  object : Option VecScatter
  called : Option DestroyRoutine
  deriving DecidableEq

/-- The call `(*(*ctx)->ops->destroy)(*ctx)`. The destroy routines of this file free the plan
data and return 0; they read `vslots` (or the work buffers and tables) through `todata` and
`fromdata`, cast to the structure they expect. `extd` stands for the destroy routines that
the peer-set builders install. -/
def callDestroy (extd : Nat → VecScatter → Option PetscErrorCode) (r : DestroyRoutine)
    (ctx : VecScatter) : Option PetscErrorCode :=
  match r with
  | .SGToSG =>
    match ctx.todata, ctx.fromdata with
    | .seqGeneral _, .seqGeneral _ => some .ok
    | _, _ => none
  | .SGToSS =>
    match ctx.fromdata with
    | .seqGeneral _ => some .ok
    | _ => none
  | .SSToSG =>
    match ctx.todata with
    | .seqGeneral _ => some .ok
    | _ => none
  | .SSToSS => some .ok
  | .MPI_ToAll =>
    match ctx.todata with
    | .mpiToAll _ => some .ok
    | _ => none
  | .other id => extd id ctx

/-- Routine `VecScatterDestroy(&ctx)`; `none` for the handle is a null `*ctx`. -/
def VecScatterDestroy (extd : Nat → VecScatter → Option PetscErrorCode)
    (handle : Option VecScatter) : Option DestroyResult :=
  match handle with
  | none => some ⟨.ok, none, none, none⟩
  | some ctx =>
    if ctx.inuse = true ∧ ctx.refct = 1 then some ⟨.ERR_ARG_WRONGSTATE, some ctx, some ctx, none⟩
    else
      let ctx1 := { ctx with refct := ctx.refct - 1 }
      if ctx1.refct > 0 then some ⟨.ok, none, some ctx1, none⟩
      else
        match ctx1.ops.destroy with
        | some r =>
          match callDestroy extd r ctx1 with
          | none => none
          | some e =>
            if e ≠ .ok then some ⟨e, some ctx1, some ctx1, some r⟩
            else some ⟨.ok, none, none, some r⟩
        | none => some ⟨.ok, none, none, none⟩

/-- Destroy routines outside this file that are never reached. -/
def noExtDestroy : Nat → VecScatter → Option PetscErrorCode := fun _ _ => none

/-! ## Merged mode -/

/-- Routine `VecScatterGetMerged`. -/
def VecScatterGetMerged (ctx : VecScatter) : Bool := ctx.beginandendtogether

/-- Routines outside this file that record their calls in `y`: the begin routine appends 1,
the end routine appends 2. -/
def traceExt : ExtRoutines Nat :=
  ⟨fun _ w _ _ => some (.ok, { w with y := w.y ++ [1] }),
   fun _ w _ _ => some (.ok, { w with y := w.y ++ [2] })⟩

/-- A plan with a begin and an end routine outside this file, with the merged flag `merge`
and with unknown lengths. -/
def tracePlan (merge : Bool) : VecScatter :=
  { VecScatterCreateEmpty 2 merge false with
    from_n := -1
    to_n := -1
    ops := { begin_ := some (.other 0), end_ := some (.other 0), copy := none,
             destroy := none, view := none } }

/-! ## Remapped tables -/

/-- The table obtained from `v` by replacing every stored index `s` by `tomap[s]`. -/
def remapped (tomap : List Int) (v : List Int) : List Int :=
  v.map fun s => tomap.getD s.toNat 0

/-- The General/General plan between two arrays of length 3 with source indices `[0, 1, 2]`
and destination indices `[0, 1, 2]`, as created in a debug build. -/
def straightPlan : VecScatter :=
  (createSeq cfgDebug false false (.general [0, 1, 2]) (.general [0, 1, 2]) 3 3).2

/-! ## Lemmas on array accesses and loops -/

section Loops
variable {α : Type}

theorem rd_eq_some_iff (v : List α) (i : Int) (a : α) :
    rd v i = some a ↔ 0 ≤ i ∧ v[i.toNat]? = some a := by
  unfold rd; split <;> simp [*]

theorem rd_isSome_of_inRange {v : List α} {i : Int} (h : InRange v.length i) :
    ∃ a, rd v i = some a := by
  obtain ⟨h0, h1⟩ := h
  have : i.toNat < v.length := by omega
  exact ⟨v[i.toNat], by simp [rd, h0, List.getElem?_eq_getElem this]⟩

theorem inRange_of_rd {v : List α} {i : Int} {a : α} (h : rd v i = some a) :
    InRange v.length i := by
  rw [rd_eq_some_iff] at h
  obtain ⟨h0, h1⟩ := h
  have := (List.getElem?_eq_some_iff.mp h1).1
  exact ⟨h0, by omega⟩

theorem wr_eq_some_iff (v : List α) (i : Int) (a : α) (w : List α) :
    wr v i a = some w ↔ InRange v.length i ∧ w = v.set i.toNat a := by
  unfold wr InRange
  constructor
  · intro h
    split at h
    · rename_i hh
      simp only [Option.some.injEq] at h
      exact ⟨⟨hh.1, by omega⟩, h.symm⟩
    · simp at h
  · rintro ⟨⟨h0, h1⟩, rfl⟩
    have : i.toNat < v.length := by omega
    simp [h0, this]

theorem wr_of_inRange {v : List α} {i : Int} (a : α) (h : InRange v.length i) :
    wr v i a = some (v.set i.toNat a) := by
  rw [wr_eq_some_iff]; exact ⟨h, rfl⟩

theorem wr_eq_none_of_not_inRange {v : List α} {i : Int} (a : α) (h : ¬ InRange v.length i) :
    wr v i a = none := by
  cases hw : wr v i a with
  | none => rfl
  | some w => exact absurd ((wr_eq_some_iff _ _ _ _).mp hw).1 h

theorem rd_eq_none_of_not_inRange {v : List α} {i : Int} (h : ¬ InRange v.length i) :
    rd v i = none := by
  cases hr : rd v i with
  | none => rfl
  | some a => exact absurd (inRange_of_rd hr) h

end Loops

section Steps
variable {α : Type}

theorem stOp_of_rd (op : α → α → α) {xv yv : List α} {t f : Int} {a b : α}
    (ha : rd xv f = some a) (hb : rd yv t = some b) :
    stOp op xv (some t) (some f) yv = some (yv.set t.toNat (op b a)) := by
  simp [stOp, ha, hb, wr_of_inRange _ (inRange_of_rd hb)]

theorem stOp_none_of_target (op : α → α → α) {xv yv : List α} {t f : Int}
    (h : ¬ InRange yv.length t) : stOp op xv (some t) (some f) yv = none := by
  simp only [stOp, Option.some_bind, rd_eq_none_of_not_inRange h]
  cases rd xv f <;> rfl

theorem stOp_none_of_source (op : α → α → α) {xv yv : List α} {t f : Int}
    (h : ¬ InRange xv.length f) : stOp op xv (some t) (some f) yv = none := by
  simp [stOp, rd_eq_none_of_not_inRange h]

theorem stOp_eq_some_iff (op : α → α → α) {xv yv w : List α} {t f : Int} :
    stOp op xv (some t) (some f) yv = some w ↔
      ∃ a b, rd xv f = some a ∧ rd yv t = some b ∧ w = yv.set t.toNat (op b a) := by
  constructor
  · intro h
    by_cases hf : InRange xv.length f
    · by_cases ht : InRange yv.length t
      · obtain ⟨a, ha⟩ := rd_isSome_of_inRange hf
        obtain ⟨b, hb⟩ := rd_isSome_of_inRange ht
        rw [stOp_of_rd op ha hb] at h
        exact ⟨a, b, ha, hb, (Option.some.inj h).symm⟩
      · rw [stOp_none_of_target op ht] at h; cases h
    · rw [stOp_none_of_source op hf] at h; cases h
  · rintro ⟨a, b, ha, hb, rfl⟩
    exact stOp_of_rd op ha hb

theorem stOp_length (op : α → α → α) {xv yv w : List α} {t f : Int}
    (h : stOp op xv (some t) (some f) yv = some w) : w.length = yv.length := by
  obtain ⟨a, b, _, _, rfl⟩ := (stOp_eq_some_iff op).mp h
  simp

theorem stOp_eq_specStep (op : α → α → α) {xv yv : List α} {t f : Int}
    (hf : InRange xv.length f) (ht : InRange yv.length t) :
    stOp op xv (some t) (some f) yv = some (specStep op xv yv (t, f)) := by
  obtain ⟨a, ha⟩ := rd_isSome_of_inRange hf
  obtain ⟨b, hb⟩ := rd_isSome_of_inRange ht
  rw [stOp_of_rd op ha hb]
  simp [specStep, ha, hb]

theorem specStep_length (op : α → α → α) (x y : List α) (p : Int × Int) :
    (specStep op x y p).length = y.length := by
  unfold specStep
  split <;> simp

theorem stInsert_eq_stOp (xv : List α) (t f : Option Int) (yv : List α) :
    stInsert xv t f yv = stOp (fun _ a => a) xv t f yv := by
  cases t with
  | none => rfl
  | some t =>
    cases f with
    | none => rfl
    | some f =>
      simp only [stInsert, stOp, Option.some_bind]
      cases hx : rd xv f with
      | none => rfl
      | some a =>
        simp only [Option.some_bind]
        by_cases ht : InRange yv.length t
        · obtain ⟨b, hb⟩ := rd_isSome_of_inRange ht
          simp [hb]
        · simp [rd_eq_none_of_not_inRange ht, wr_eq_none_of_not_inRange _ ht]

theorem stAdd_eq_stOp [Add α] (xv : List α) (t f : Option Int) (yv : List α) :
    stAdd xv t f yv = stOp (fun b a => b + a) xv t f yv := rfl

theorem stMax_eq_stOp [Max α] (xv : List α) (t f : Option Int) (yv : List α) :
    stMax xv t f yv = stOp (fun b a => PetscMax b a) xv t f yv := rfl

theorem foldl_bind_none {ι : Type} (g : ι → List α → Option (List α)) (l : List ι) :
    l.foldl (fun acc i => acc.bind (g i)) none = none := by
  induction l with
  | nil => rfl
  | cons i l ih => simpa using ih

theorem foldl_bind_cons {ι : Type} (g : ι → List α → Option (List α)) (i : ι) (l : List ι)
    (y : List α) :
    (i :: l).foldl (fun acc i => acc.bind (g i)) (some y) =
      (g i y).bind fun w => l.foldl (fun acc i => acc.bind (g i)) (some w) := by
  simp only [List.foldl_cons, Option.some_bind]
  cases g i y with
  | none => simpa using foldl_bind_none g l
  | some w => rfl

theorem runPairs_eq_foldl (op : α → α → α) (xv : List α) (ps : List (Int × Int))
    (y : List α) :
    runPairs op xv ps y =
      ps.foldl (fun acc p => acc.bind (stOp op xv (some p.1) (some p.2))) (some y) := by
  induction ps generalizing y with
  | nil => rfl
  | cons p ps ih =>
    rw [foldl_bind_cons]
    simp only [runPairs]
    congr 1
    funext w
    exact ih w

theorem forLoop_succ (n : Nat) (body : Nat → List α → Option (List α)) (yv : List α) :
    forLoop (n + 1) body yv = (forLoop n body yv).bind (body n) := by
  simp [forLoop, List.range_succ, List.foldl_append]

theorem forLoop_congr (n : Nat) (body body' : Nat → List α → Option (List α)) (yv : List α)
    (h : ∀ i, i < n → body i = body' i) : forLoop n body yv = forLoop n body' yv := by
  induction n with
  | zero => rfl
  | succ n ih =>
    rw [forLoop_succ, forLoop_succ, ih (fun i hi => h i (by omega)), h n (by omega)]

theorem forLoop_eq_runPairs (op : α → α → α) (xv yv : List α) (n : Nat)
    (T F : Nat → Option Int) (tl fl : List Int) (htl : tl.length = n) (hfl : fl.length = n)
    (hT : ∀ i, i < n → T i = tl[i]?) (hF : ∀ i, i < n → F i = fl[i]?) :
    forLoop n (fun i w => stOp op xv (T i) (F i) w) yv = runPairs op xv (tl.zip fl) yv := by
  rw [runPairs_eq_foldl]
  have e1 : (List.range n).map (fun i => (T i, F i)) =
      (tl.zip fl).map (fun p => (some p.1, some p.2)) := by
    apply List.ext_getElem
    · simp [htl, hfl]
    · intro i h1 h2
      simp only [List.length_map, List.length_range] at h1
      simp [hT i h1, hF i h1, List.getElem?_eq_getElem, htl, hfl, h1]
  have e2 : forLoop n (fun i w => stOp op xv (T i) (F i) w) yv =
      ((List.range n).map (fun i => (T i, F i))).foldl
        (fun acc q => acc.bind (stOp op xv q.1 q.2)) (some yv) := by
    rw [List.foldl_map]; rfl
  rw [e2, e1, List.foldl_map]

theorem scatterLoops_eq_scatterPairs [Add α] [Max α] (cfg : Config) (addv : InsertMode)
    (xv yv : List α) (n : Nat) (T F : Nat → Option Int) (tl fl : List Int)
    (htl : tl.length = n) (hfl : fl.length = n)
    (hT : ∀ i, i < n → T i = tl[i]?) (hF : ∀ i, i < n → F i = fl[i]?) :
    scatterLoops cfg addv n T F xv yv = scatterPairs cfg addv (tl.zip fl) xv yv := by
  unfold scatterLoops scatterPairs modeOp
  simp only [stInsert_eq_stOp, stAdd_eq_stOp, stMax_eq_stOp]
  split
  · rw [forLoop_eq_runPairs _ xv yv n T F tl fl htl hfl hT hF]
  · split
    · rw [forLoop_eq_runPairs _ xv yv n T F tl fl htl hfl hT hF]
    · split
      · rw [forLoop_eq_runPairs _ xv yv n T F tl fl htl hfl hT hF]
      · rfl

end Steps

section Memcpy
variable {α : Type}

theorem splice_set (x y : List α) (a b n : Nat) (ha : a + n < y.length)
    (hb : b + n < x.length) :
    (y.take a ++ ((x.drop b).take n ++ y.drop (a + n))).set (a + n) (x[b + n]) =
      y.take a ++ ((x.drop b).take (n + 1) ++ y.drop (a + n + 1)) := by
  have h1 : (y.take a).length = a := by simp; omega
  have h2 : ((x.drop b).take n).length = n := by simp; omega
  rw [List.set_append]
  simp only [h1, show ¬ (a + n < a) by omega, if_false, show a + n - a = n by omega]
  rw [List.set_append]
  simp only [h2, lt_irrefl, if_false, Nat.sub_self]
  rw [List.drop_eq_getElem_cons (by omega : a + n < y.length)]
  simp only [List.set_cons_zero]
  rw [List.take_succ]
  simp [List.getElem?_drop, List.getElem?_eq_getElem hb]

theorem PetscMemcpy_of_inRange (xv yv : List α) (tf ff : Int) (n : Nat)
    (h : 0 ≤ tf ∧ tf.toNat + n ≤ yv.length ∧ 0 ≤ ff ∧ ff.toNat + n ≤ xv.length) :
    PetscMemcpy yv tf xv ff n =
      some (yv.take tf.toNat ++ ((xv.drop ff.toNat).take n ++ yv.drop (tf.toNat + n))) := by
  unfold PetscMemcpy
  by_cases hn : n = 0
  · subst hn; simp
  · simp [hn, h]

theorem PetscMemcpy_eq_forLoop (xv yv : List α) (tf ff : Int) (n : Nat) :
    PetscMemcpy yv tf xv ff n =
      forLoop n (fun i w => stOp (fun _ a => a) xv (some (tf + (i : Int)))
        (some (ff + (i : Int))) w) yv := by
  induction n with
  | zero => simp [PetscMemcpy, forLoop]
  | succ n ih =>
    rw [forLoop_succ, ← ih]
    by_cases hr : 0 ≤ tf ∧ tf.toNat + (n + 1) ≤ yv.length ∧
        0 ≤ ff ∧ ff.toNat + (n + 1) ≤ xv.length
    · obtain ⟨h1, h2, h3, h4⟩ := hr
      rw [PetscMemcpy_of_inRange xv yv tf ff (n + 1) ⟨h1, h2, h3, h4⟩,
        PetscMemcpy_of_inRange xv yv tf ff n ⟨h1, by omega, h3, by omega⟩]
      simp only [Option.some_bind]
      have hbx : ff.toNat + n < xv.length := by omega
      have hx : rd xv (ff + (n : Int)) = some (xv[ff.toNat + n]) := by
        rw [rd_eq_some_iff]
        refine ⟨by omega, ?_⟩
        have : (ff + (n : Int)).toNat = ff.toNat + n := by omega
        rw [this, List.getElem?_eq_getElem]
      have hlen : (yv.take tf.toNat ++ ((xv.drop ff.toNat).take n ++
          yv.drop (tf.toNat + n))).length = yv.length := by
        simp; omega
      obtain ⟨b, hb⟩ := rd_isSome_of_inRange (v := yv.take tf.toNat ++
        ((xv.drop ff.toNat).take n ++ yv.drop (tf.toNat + n))) (i := tf + (n : Int))
        ⟨by omega, by rw [hlen]; omega⟩
      rw [stOp_of_rd _ hx hb]
      have : (tf + (n : Int)).toNat = tf.toNat + n := by omega
      rw [this, splice_set xv yv tf.toNat ff.toNat n (by omega) (by omega), Nat.add_assoc]
    · have hnone : PetscMemcpy yv tf xv ff (n + 1) = none := by
        unfold PetscMemcpy
        simp [hr]
      rw [hnone]
      by_cases hn : n = 0
      · subst hn
        have h0 : PetscMemcpy yv tf xv ff 0 = some yv := by simp [PetscMemcpy]
        rw [h0]
        simp only [Option.some_bind]
        by_cases hy : InRange yv.length (tf + ((0 : Nat) : Int))
        · have hxx : ¬ InRange xv.length (ff + ((0 : Nat) : Int)) := by
            unfold InRange at hy ⊢
            intro hc
            exact hr ⟨by omega, by omega, by omega, by omega⟩
          rw [stOp_none_of_source _ hxx]
        · rw [stOp_none_of_target _ hy]
      by_cases hr' : 0 ≤ tf ∧ tf.toNat + n ≤ yv.length ∧ 0 ≤ ff ∧ ff.toNat + n ≤ xv.length
      · rw [PetscMemcpy_of_inRange xv yv tf ff n hr']
        simp only [Option.some_bind]
        obtain ⟨h1, h2, h3, h4⟩ := hr'
        have hlen : (yv.take tf.toNat ++ ((xv.drop ff.toNat).take n ++
            yv.drop (tf.toNat + n))).length = yv.length := by
          simp; omega
        by_cases hy : tf.toNat + (n + 1) ≤ yv.length
        · have hxx : ¬ InRange xv.length (ff + (n : Int)) := by
            unfold InRange
            intro hc
            exact hr ⟨h1, hy, h3, by omega⟩
          rw [stOp_none_of_source _ hxx]
        · have hyy : ¬ InRange (yv.take tf.toNat ++ ((xv.drop ff.toNat).take n ++
              yv.drop (tf.toNat + n))).length (tf + (n : Int)) := by
            rw [hlen]
            unfold InRange
            omega
          rw [stOp_none_of_target _ hyy]
      · have h0 : PetscMemcpy yv tf xv ff n = none := by
          unfold PetscMemcpy
          simp [hn, hr']
        rw [h0]
        rfl

end Memcpy

section Kernels
variable {α : Type}

theorem getElem?_stride (n : Nat) (first step : Int) (i : Nat) (hi : i < n) :
    (ISGetIndices (.stride n first step))[i]? = some (first + (i : Int) * step) := by
  simp [ISGetIndices, List.getElem?_range hi]

theorem getElem?_stride_one (n : Nat) (first : Int) (i : Nat) (hi : i < n) :
    (ISGetIndices (.stride n first 1))[i]? = some (first + (i : Int)) := by
  simp [ISGetIndices, List.getElem?_range hi]

theorem length_stride (n : Nat) (first step : Int) :
    (ISGetIndices (.stride n first step)).length = n := by
  simp [ISGetIndices]

theorem length_ISGetIndices (s : IS) : (ISGetIndices s).length = ISGetLocalSize s := by
  cases s with
  | general idx => rfl
  | stride n first step => simp [ISGetIndices, ISGetLocalSize]
  | block bs idx =>
    simp only [ISGetIndices, ISGetLocalSize]
    induction idx with
    | nil => simp
    | cons a l ih => simp [List.flatMap_cons, ih, Nat.mul_succ, Nat.add_comm]

theorem getElem?_take_lt (l : List Int) (n i : Nat) (hi : i < n) : (l.take n)[i]? = l[i]? := by
  simp [List.getElem?_take, hi]

theorem kernel_SGToSG [Add α] [Max α] (cfg : Config) (ctx : VecScatter) (x y : List α)
    (addv : InsertMode) (mode : ScatterMode) (fmt1 fmt2 : VecScatterFormat) (n : Nat)
    (tl fl : List Int) (htl : tl.length = n) (hfl : fl.length = n)
    (hto : ctx.todata = .seqGeneral ⟨fmt1, n, tl.take n⟩)
    (hfrom : ctx.fromdata = .seqGeneral ⟨fmt2, n, fl.take n⟩) :
    VecScatterBegin_SGToSG cfg ctx x y addv mode =
      scatterPairs cfg addv (if mode.isReverse then fl.zip tl else tl.zip fl) x y := by
  simp only [VecScatterBegin_SGToSG, hto, hfrom]
  cases mode.isReverse
  · exact scatterLoops_eq_scatterPairs cfg addv x y n _ _ tl fl htl hfl
      (fun i hi => getElem?_take_lt tl n i hi) (fun i hi => getElem?_take_lt fl n i hi)
  · exact scatterLoops_eq_scatterPairs cfg addv x y n _ _ fl tl hfl htl
      (fun i hi => getElem?_take_lt fl n i hi) (fun i hi => getElem?_take_lt tl n i hi)

theorem kernel_SGToSS [Add α] [Max α] (cfg : Config) (ctx : VecScatter) (x y : List α)
    (addv : InsertMode) (mode : ScatterMode) (fmt1 fmt2 : VecScatterFormat) (n : Nat)
    (first step : Int) (fl : List Int) (hfl : fl.length = n)
    (hto : ctx.todata = .seqStride ⟨fmt1, n, first, step⟩)
    (hfrom : ctx.fromdata = .seqGeneral ⟨fmt2, n, fl.take n⟩) :
    VecScatterBegin_SGToSS cfg ctx x y addv mode =
      scatterPairs cfg addv
        (if mode.isReverse then fl.zip (ISGetIndices (.stride n first step))
         else (ISGetIndices (.stride n first step)).zip fl) x y := by
  simp only [VecScatterBegin_SGToSS, hto, hfrom]
  cases mode.isReverse
  · exact scatterLoops_eq_scatterPairs cfg addv x y n _ _ _ fl (length_stride n first step) hfl
      (fun i hi => (getElem?_stride n first step i hi).symm)
      (fun i hi => getElem?_take_lt fl n i hi)
  · exact scatterLoops_eq_scatterPairs cfg addv x y n _ _ fl _ hfl (length_stride n first step)
      (fun i hi => getElem?_take_lt fl n i hi)
      (fun i hi => (getElem?_stride n first step i hi).symm)

theorem kernel_SGToSS_Stride1 [Add α] [Max α] (cfg : Config) (ctx : VecScatter)
    (x y : List α) (addv : InsertMode) (mode : ScatterMode) (fmt1 fmt2 : VecScatterFormat)
    (n : Nat) (first : Int) (fl : List Int) (hfl : fl.length = n)
    (hto : ctx.todata = .seqStride ⟨fmt1, n, first, 1⟩)
    (hfrom : ctx.fromdata = .seqGeneral ⟨fmt2, n, fl.take n⟩) :
    VecScatterBegin_SGToSS_Stride1 cfg ctx x y addv mode =
      scatterPairs cfg addv
        (if mode.isReverse then fl.zip (ISGetIndices (.stride n first 1))
         else (ISGetIndices (.stride n first 1)).zip fl) x y := by
  simp only [VecScatterBegin_SGToSS_Stride1, hto, hfrom]
  cases mode.isReverse
  · exact scatterLoops_eq_scatterPairs cfg addv x y n _ _ _ fl (length_stride n first 1) hfl
      (fun i hi => (getElem?_stride_one n first i hi).symm)
      (fun i hi => getElem?_take_lt fl n i hi)
  · exact scatterLoops_eq_scatterPairs cfg addv x y n _ _ fl _ hfl (length_stride n first 1)
      (fun i hi => getElem?_take_lt fl n i hi)
      (fun i hi => (getElem?_stride_one n first i hi).symm)

theorem kernel_SSToSG [Add α] [Max α] (cfg : Config) (ctx : VecScatter) (x y : List α)
    (addv : InsertMode) (mode : ScatterMode) (fmt1 fmt2 : VecScatterFormat) (n : Nat)
    (first step : Int) (tl : List Int) (htl : tl.length = n)
    (hto : ctx.todata = .seqGeneral ⟨fmt1, n, tl.take n⟩)
    (hfrom : ctx.fromdata = .seqStride ⟨fmt2, n, first, step⟩) :
    VecScatterBegin_SSToSG cfg ctx x y addv mode =
      scatterPairs cfg addv
        (if mode.isReverse then (ISGetIndices (.stride n first step)).zip tl
         else tl.zip (ISGetIndices (.stride n first step))) x y := by
  simp only [VecScatterBegin_SSToSG, hto, hfrom]
  cases mode.isReverse
  · exact scatterLoops_eq_scatterPairs cfg addv x y n _ _ tl _ htl (length_stride n first step)
      (fun i hi => getElem?_take_lt tl n i hi)
      (fun i hi => (getElem?_stride n first step i hi).symm)
  · exact scatterLoops_eq_scatterPairs cfg addv x y n _ _ _ tl (length_stride n first step) htl
      (fun i hi => (getElem?_stride n first step i hi).symm)
      (fun i hi => getElem?_take_lt tl n i hi)

theorem kernel_SSToSG_Stride1 [Add α] [Max α] (cfg : Config) (ctx : VecScatter)
    (x y : List α) (addv : InsertMode) (mode : ScatterMode) (fmt1 fmt2 : VecScatterFormat)
    (n : Nat) (first : Int) (tl : List Int) (htl : tl.length = n)
    (hto : ctx.todata = .seqGeneral ⟨fmt1, n, tl.take n⟩)
    (hfrom : ctx.fromdata = .seqStride ⟨fmt2, n, first, 1⟩) :
    VecScatterBegin_SSToSG_Stride1 cfg ctx x y addv mode =
      scatterPairs cfg addv
        (if mode.isReverse then (ISGetIndices (.stride n first 1)).zip tl
         else tl.zip (ISGetIndices (.stride n first 1))) x y := by
  simp only [VecScatterBegin_SSToSG_Stride1, hto, hfrom]
  cases mode.isReverse
  · exact scatterLoops_eq_scatterPairs cfg addv x y n _ _ tl _ htl (length_stride n first 1)
      (fun i hi => getElem?_take_lt tl n i hi)
      (fun i hi => (getElem?_stride_one n first i hi).symm)
  · exact scatterLoops_eq_scatterPairs cfg addv x y n _ _ _ tl (length_stride n first 1) htl
      (fun i hi => (getElem?_stride_one n first i hi).symm)
      (fun i hi => getElem?_take_lt tl n i hi)

end Kernels

section KernelSS
variable {α : Type}

theorem forLoop_stride (op : α → α → α) (x y : List α) (n : Nat) (a s b s' : Int) :
    forLoop n (fun i w => stOp op x (some (a + (i : Int) * s)) (some (b + (i : Int) * s')) w) y
      = runPairs op x ((ISGetIndices (.stride n a s)).zip (ISGetIndices (.stride n b s'))) y :=
  forLoop_eq_runPairs op x y n _ _ _ _ (length_stride n a s) (length_stride n b s')
    (fun i hi => (getElem?_stride n a s i hi).symm)
    (fun i hi => (getElem?_stride n b s' i hi).symm)

theorem forLoop_stride_one (op : α → α → α) (x y : List α) (n : Nat) (a b : Int) :
    forLoop n (fun i w => stOp op x (some (a + (i : Int))) (some (b + (i : Int))) w) y
      = runPairs op x ((ISGetIndices (.stride n a 1)).zip (ISGetIndices (.stride n b 1))) y :=
  forLoop_eq_runPairs op x y n _ _ _ _ (length_stride n a 1) (length_stride n b 1)
    (fun i hi => (getElem?_stride_one n a i hi).symm)
    (fun i hi => (getElem?_stride_one n b i hi).symm)

theorem kernel_SSToSS_aux [Add α] [Max α] (cfg : Config) (x y : List α) (addv : InsertMode)
    (n : Nat) (to_first to_step from_first from_step : Int) :
    (if addv = .INSERT_VALUES then
      if to_step = 1 ∧ from_step = 1 then
        (PetscMemcpy y to_first x from_first n).map fun yv => (PetscErrorCode.ok, yv)
      else
        (forLoop n (fun i yv => stInsert x (some (to_first + (i : Int) * to_step))
          (some (from_first + (i : Int) * from_step)) yv) y).map fun yv => (.ok, yv)
    else if addv = .ADD_VALUES then
      if to_step = 1 ∧ from_step = 1 then
        (forLoop n (fun i yv => stAdd x (some (to_first + (i : Int)))
          (some (from_first + (i : Int))) yv) y).map fun yv => (.ok, yv)
      else
        (forLoop n (fun i yv => stAdd x (some (to_first + (i : Int) * to_step))
          (some (from_first + (i : Int) * from_step)) yv) y).map fun yv => (.ok, yv)
    else if cfg.useComplex = false ∧ addv = .MAX_VALUES then
      if to_step = 1 ∧ from_step = 1 then
        (forLoop n (fun i yv => stMax x (some (to_first + (i : Int)))
          (some (from_first + (i : Int))) yv) y).map fun yv => (.ok, yv)
      else
        (forLoop n (fun i yv => stMax x (some (to_first + (i : Int) * to_step))
          (some (from_first + (i : Int) * from_step)) yv) y).map fun yv => (.ok, yv)
    else some (.ERR_ARG_UNKNOWN_TYPE, y)) =
    scatterPairs cfg addv ((ISGetIndices (.stride n to_first to_step)).zip
      (ISGetIndices (.stride n from_first from_step))) x y := by
  unfold scatterPairs modeOp
  simp only [stInsert_eq_stOp, stAdd_eq_stOp, stMax_eq_stOp, PetscMemcpy_eq_forLoop]
  by_cases hu : to_step = 1 ∧ from_step = 1
  · obtain ⟨h1, h2⟩ := hu
    subst h1 h2
    simp only [and_self, if_true, forLoop_stride_one]
    split
    · rfl
    · split
      · rfl
      · split <;> rfl
  · simp only [hu, if_false, forLoop_stride]
    split
    · rfl
    · split
      · rfl
      · split <;> rfl

theorem kernel_SSToSS [Add α] [Max α] (cfg : Config) (ctx : VecScatter) (x y : List α)
    (addv : InsertMode) (mode : ScatterMode) (fmt1 fmt2 : VecScatterFormat) (n : Nat)
    (tf ts ff fs : Int)
    (hto : ctx.todata = .seqStride ⟨fmt1, n, tf, ts⟩)
    (hfrom : ctx.fromdata = .seqStride ⟨fmt2, n, ff, fs⟩) :
    VecScatterBegin_SSToSS cfg ctx x y addv mode =
      scatterPairs cfg addv
        (if mode.isReverse then
          (ISGetIndices (.stride n ff fs)).zip (ISGetIndices (.stride n tf ts))
         else (ISGetIndices (.stride n tf ts)).zip (ISGetIndices (.stride n ff fs))) x y := by
  simp only [VecScatterBegin_SSToSS, hto, hfrom]
  cases mode.isReverse
  · exact kernel_SSToSS_aux cfg x y addv n tf ts ff fs
  · exact kernel_SSToSS_aux cfg x y addv n ff fs tf ts

end KernelSS

section Created
variable {α : Type}

theorem createSeq_GG [Add α] [Max α] (cfg : Config) (ext : ExtRoutines α)
    (merge pack : Bool) (f t : List Int) (nx ny : Nat) (ctx : VecScatter)
    (hc : createSeq cfg merge pack (.general f) (.general t) nx ny = (.ok, ctx)) :
    SeqPlanFacts α cfg ext merge (.general f) (.general t) nx ny ctx := by
  simp [createSeq, VecScatterCreate_Seq, VecScatterCreate_setup, VecScatterCreateEmpty,
    GetInputISType_private, effectiveIS, isTypeId, isStrideType, isBlockType, ISGetLocalSize,
    ISGetIndices, IS_GENERAL_ID, IS_STRIDE_ID, IS_BLOCK_ID, seqLayout] at hc
  split_ifs at hc <;> simp at hc <;> try (exfalso; simp_all; done)
  subst hc
  rename_i hlen _ _
  refine ⟨rfl, rfl, rfl, rfl, rfl, hlen, _, rfl, ?_⟩
  intro w addv mode h1 h2
  simp only [callBegin, planPairs, ISGetIndices]
  rw [kernel_SGToSG cfg w.ctx w.x w.y addv mode .VEC_SCATTER_SEQ_GENERAL
    .VEC_SCATTER_SEQ_GENERAL f.length t f hlen.symm rfl h1 (by rw [h2]; simp)]

theorem createSeq_SS [Add α] [Max α] (cfg : Config) (ext : ExtRoutines α)
    (merge pack : Bool) (n1 : Nat) (a1 s1 : Int) (n2 : Nat) (a2 s2 : Int) (nx ny : Nat)
    (ctx : VecScatter)
    (hc : createSeq cfg merge pack (.stride n1 a1 s1) (.stride n2 a2 s2) nx ny = (.ok, ctx)) :
    SeqPlanFacts α cfg ext merge (.stride n1 a1 s1) (.stride n2 a2 s2) nx ny ctx := by
  simp [createSeq, VecScatterCreate_Seq, VecScatterCreate_setup, VecScatterCreateEmpty,
    GetInputISType_private, effectiveIS, isTypeId, isStrideType, isBlockType, ISGetLocalSize,
    ISGetIndices, IS_GENERAL_ID, IS_STRIDE_ID, IS_BLOCK_ID, seqLayout, ISStrideGetInfo] at hc
  split_ifs at hc
  case neg => simp at hc
  simp at hc
  subst hc
  rename_i hlen
  subst hlen
  refine ⟨rfl, rfl, rfl, rfl, rfl, rfl, _, rfl, ?_⟩
  intro w addv mode h1 h2
  simp only [callBegin, planPairs]
  rw [kernel_SSToSS cfg w.ctx w.x w.y addv mode .VEC_SCATTER_SEQ_STRIDE
    .VEC_SCATTER_SEQ_STRIDE n1 a2 s2 a1 s1 h1 h2]

theorem createSeq_GS [Add α] [Max α] (cfg : Config) (ext : ExtRoutines α)
    (merge pack : Bool) (f : List Int) (n2 : Nat) (a2 s2 : Int) (nx ny : Nat)
    (ctx : VecScatter)
    (hc : createSeq cfg merge pack (.general f) (.stride n2 a2 s2) nx ny = (.ok, ctx)) :
    SeqPlanFacts α cfg ext merge (.general f) (.stride n2 a2 s2) nx ny ctx := by
  simp [createSeq, VecScatterCreate_Seq, VecScatterCreate_setup, VecScatterCreateEmpty,
    GetInputISType_private, effectiveIS, isTypeId, isStrideType, isBlockType, ISGetLocalSize,
    ISGetIndices, IS_GENERAL_ID, IS_STRIDE_ID, IS_BLOCK_ID, seqLayout, ISStrideGetInfo] at hc
  split_ifs at hc <;> simp at hc <;> try (exfalso; simp_all; done)
  all_goals subst hc
  · rename_i hlen _ hs
    subst hlen hs
    refine ⟨rfl, rfl, rfl, rfl, rfl, rfl, _, rfl, ?_⟩
    intro w addv mode h1 h2
    simp only [callBegin, planPairs]
    rw [kernel_SGToSS_Stride1 cfg w.ctx w.x w.y addv mode .VEC_SCATTER_SEQ_STRIDE
      .VEC_SCATTER_SEQ_GENERAL f.length a2 f rfl h1 (by rw [h2]; simp)]
    rfl
  · rename_i hlen _ hs
    subst hlen
    refine ⟨rfl, rfl, rfl, rfl, rfl, rfl, _, rfl, ?_⟩
    intro w addv mode h1 h2
    simp only [callBegin, planPairs]
    rw [kernel_SGToSS cfg w.ctx w.x w.y addv mode .VEC_SCATTER_SEQ_STRIDE
      .VEC_SCATTER_SEQ_GENERAL f.length a2 s2 f rfl h1 (by rw [h2]; simp)]
    rfl

theorem createSeq_SG [Add α] [Max α] (cfg : Config) (ext : ExtRoutines α)
    (merge pack : Bool) (n1 : Nat) (a1 s1 : Int) (t : List Int) (nx ny : Nat)
    (ctx : VecScatter)
    (hc : createSeq cfg merge pack (.stride n1 a1 s1) (.general t) nx ny = (.ok, ctx)) :
    SeqPlanFacts α cfg ext merge (.stride n1 a1 s1) (.general t) nx ny ctx := by
  simp [createSeq, VecScatterCreate_Seq, VecScatterCreate_setup, VecScatterCreateEmpty,
    GetInputISType_private, effectiveIS, isTypeId, isStrideType, isBlockType, ISGetLocalSize,
    ISGetIndices, IS_GENERAL_ID, IS_STRIDE_ID, IS_BLOCK_ID, seqLayout, ISStrideGetInfo] at hc
  split_ifs at hc <;> simp at hc <;> try (exfalso; simp_all; done)
  all_goals subst hc
  · rename_i hlen _ hs
    subst hlen hs
    refine ⟨rfl, rfl, rfl, rfl, rfl, rfl, _, rfl, ?_⟩
    intro w addv mode h1 h2
    simp only [callBegin, planPairs]
    rw [kernel_SSToSG_Stride1 cfg w.ctx w.x w.y addv mode .VEC_SCATTER_SEQ_GENERAL
      .VEC_SCATTER_SEQ_STRIDE t.length a1 t rfl (by simp [h1]) h2]
    rfl
  · rename_i hlen _ hs
    subst hlen
    refine ⟨rfl, rfl, rfl, rfl, rfl, rfl, _, rfl, ?_⟩
    intro w addv mode h1 h2
    simp only [callBegin, planPairs]
    rw [kernel_SSToSG cfg w.ctx w.x w.y addv mode .VEC_SCATTER_SEQ_GENERAL
      .VEC_SCATTER_SEQ_STRIDE t.length a1 s1 t rfl (by simp [h1]) h2]
    rfl



theorem ISIdentity_indices (s : IS) (h : ISIdentity s = true) :
    ISGetIndices s = ISGetIndices (.stride (ISGetLocalSize s) 0 1) := by
  cases s with
  | stride n first step =>
    simp [ISIdentity] at h
    obtain ⟨h1, h2⟩ := h
    subst h1 h2
    rfl
  | general idx =>
    simp only [ISIdentity, beq_iff_eq] at h
    rw [h]
    simp [ISGetIndices]
  | block bs idx =>
    simp only [ISIdentity, beq_iff_eq] at h
    rw [h]
    simp [ISGetIndices]

theorem createSeq_block [Add α] [Max α] (cfg : Config) (ext : ExtRoutines α)
    (merge pack : Bool) (A B : IS) (nx ny : Nat) (ctx : VecScatter)
    (hb : isBlockType A = true ∨ isBlockType B = true)
    (hc : createSeq cfg merge pack A B nx ny = (.ok, ctx)) :
    SeqPlanFacts α cfg ext merge A B nx ny ctx := by
  have hty : ¬ (isTypeId A = IS_GENERAL_ID ∧ isTypeId B = IS_GENERAL_ID) ∧
      ¬ (isTypeId A = IS_STRIDE_ID ∧ isTypeId B = IS_STRIDE_ID) ∧
      ¬ (isTypeId A = IS_GENERAL_ID ∧ isTypeId B = IS_STRIDE_ID) ∧
      ¬ (isTypeId A = IS_STRIDE_ID ∧ isTypeId B = IS_GENERAL_ID) := by
    cases A <;> cases B <;>
      simp [isTypeId, isStrideType, isBlockType, IS_GENERAL_ID, IS_STRIDE_ID, IS_BLOCK_ID] at hb ⊢
  obtain ⟨t1, t2, t3, t4⟩ := hty
  simp only [createSeq, VecScatterCreate_Seq, VecScatterCreate_setup, VecScatterCreateEmpty,
    GetInputISType_private, effectiveIS, t1, t2, t3, t4, if_false] at hc
  split_ifs at hc
  · simp at hc
  · simp only [Prod.mk.injEq, true_and] at hc
    subst hc
    rename_i hlen hid
    have hlen' : ISGetLocalSize A = ISGetLocalSize B := by simpa using hlen
    refine ⟨rfl, rfl, rfl, rfl, rfl, hlen', _, rfl, ?_⟩
    intro w addv mode h1 h2
    simp only [callBegin, planPairs]
    rw [kernel_SSToSS cfg w.ctx w.x w.y addv mode .VEC_SCATTER_SEQ_STRIDE
      .VEC_SCATTER_SEQ_STRIDE (ISGetLocalSize A) 0 1 0 1 h1 h2,
      ISIdentity_indices A hid.1, ISIdentity_indices B hid.2, hlen']
  · simp_all
  · simp_all
  · simp only [Prod.mk.injEq, true_and] at hc
    subst hc
    rename_i hlen hid _ _
    have hlen' : ISGetLocalSize A = ISGetLocalSize B := by simpa using hlen
    refine ⟨rfl, rfl, rfl, rfl, rfl, hlen', _, rfl, ?_⟩
    intro w addv mode h1 h2
    simp only [callBegin, planPairs]
    rw [kernel_SGToSG cfg w.ctx w.x w.y addv mode .VEC_SCATTER_SEQ_GENERAL
      .VEC_SCATTER_SEQ_GENERAL (ISGetLocalSize A) (ISGetIndices B) (ISGetIndices A)
      (by rw [length_ISGetIndices, hlen']) (length_ISGetIndices A) h1 h2]

theorem createSeq_facts [Add α] [Max α] (cfg : Config) (ext : ExtRoutines α)
    (merge pack : Bool) (A B : IS) (nx ny : Nat) (ctx : VecScatter)
    (hc : createSeq cfg merge pack A B nx ny = (.ok, ctx)) :
    SeqPlanFacts α cfg ext merge A B nx ny ctx := by
  cases A with
  | general f =>
    cases B with
    | general t => exact createSeq_GG cfg ext merge pack f t nx ny ctx hc
    | stride n2 a2 s2 => exact createSeq_GS cfg ext merge pack f n2 a2 s2 nx ny ctx hc
    | block bs idx => exact createSeq_block cfg ext merge pack _ _ nx ny ctx (Or.inr rfl) hc
  | stride n1 a1 s1 =>
    cases B with
    | general t => exact createSeq_SG cfg ext merge pack n1 a1 s1 t nx ny ctx hc
    | stride n2 a2 s2 => exact createSeq_SS cfg ext merge pack n1 a1 s1 n2 a2 s2 nx ny ctx hc
    | block bs idx => exact createSeq_block cfg ext merge pack _ _ nx ny ctx (Or.inr rfl) hc
  | block bs idx => exact createSeq_block cfg ext merge pack _ _ nx ny ctx (Or.inl rfl) hc

end Created

section BeginCreated
variable {α : Type}

theorem begin_createSeq [Add α] [Max α] (cfg : Config) (ext : ExtRoutines α)
    (merge pack : Bool) (A B : IS) (nx ny : Nat) (ctx : VecScatter)
    (hc : createSeq cfg merge pack A B nx ny = (.ok, ctx)) (x y : List α)
    (addv : InsertMode) (mode : ScatterMode) :
    VecScatterBegin cfg ext ⟨ctx, x, y⟩ addv mode =
      if cfg.useDebug = true ∧ beginSizeError ctx x y mode = true then
        some (.ERR_ARG_SIZ, ⟨ctx, x, y⟩)
      else (scatterPairs cfg addv (planPairs A B mode) x y).map
        (fun p => (p.1, ⟨{ ctx with inuse := true }, x, p.2⟩)) := by
  obtain ⟨hin, hend, _, _, _, _, r, hr, hk⟩ := createSeq_facts (α := α) cfg ext merge pack A B nx ny ctx hc
  unfold VecScatterBegin
  simp only [hin, Bool.false_eq_true, if_false]
  split
  · rfl
  · simp only [hr]
    rw [hk ⟨{ ctx with inuse := true }, x, y⟩ addv mode rfl rfl]
    cases hs : scatterPairs cfg addv (planPairs A B mode) x y with
    | none => rfl
    | some p =>
      obtain ⟨e, y'⟩ := p
      simp only [Option.map_some']
      by_cases he : e = .ok
      · simp [he, hend]
      · simp [he]

end BeginCreated

section RunPairs
variable {α : Type}

theorem rd_set {y : List α} {t : Int} (ht : InRange y.length t) (v : α) (i : Int) :
    rd (y.set t.toNat v) i = if i = t then some v else rd y i := by
  obtain ⟨h0, h1⟩ := ht
  unfold rd
  by_cases hi : 0 ≤ i
  · simp only [hi, if_true]
    by_cases hit : i = t
    · subst hit
      have : i.toNat < y.length := by omega
      simp [List.getElem?_set, this]
    · have hne : t.toNat ≠ i.toNat := by omega
      simp [hit, List.getElem?_set_ne hne]
  · have hit : i ≠ t := by omega
    simp [hi, hit]

theorem runPairs_cons_some (op : α → α → α) {x y y' : List α} {p : Int × Int}
    {ps : List (Int × Int)} (h : runPairs op x (p :: ps) y = some y') :
    ∃ a b, rd x p.2 = some a ∧ rd y p.1 = some b ∧
      runPairs op x ps (y.set p.1.toNat (op b a)) = some y' := by
  simp only [runPairs] at h
  cases hs : stOp op x (some p.1) (some p.2) y with
  | none => rw [hs] at h; cases h
  | some w =>
    rw [hs] at h
    obtain ⟨a, b, ha, hb, rfl⟩ := (stOp_eq_some_iff op).mp hs
    exact ⟨a, b, ha, hb, h⟩

theorem runPairs_length (op : α → α → α) {x : List α} {ps : List (Int × Int)} {y y' : List α}
    (h : runPairs op x ps y = some y') : y'.length = y.length := by
  induction ps generalizing y with
  | nil => simp only [runPairs, Option.some.injEq] at h; rw [← h]
  | cons p ps ih =>
    obtain ⟨a, b, _, _, h'⟩ := runPairs_cons_some op h
    rw [ih h']; simp

theorem runPairs_of_inRange (op : α → α → α) (x : List α) (ps : List (Int × Int))
    (y : List α) (h : ∀ p ∈ ps, InRange y.length p.1 ∧ InRange x.length p.2) :
    runPairs op x ps y = some (ps.foldl (specStep op x) y) := by
  induction ps generalizing y with
  | nil => rfl
  | cons p ps ih =>
    have hp := h p (List.mem_cons_self _ _)
    simp only [runPairs, List.foldl_cons]
    rw [stOp_eq_specStep op hp.2 hp.1]
    simp only [Option.some_bind]
    apply ih
    intro q hq
    rw [specStep_length]
    exact h q (List.mem_cons_of_mem _ hq)

theorem runPairs_frame (op : α → α → α) {x : List α} {ps : List (Int × Int)}
    {y y' : List α} (h : runPairs op x ps y = some y') (i : Int)
    (hi : ∀ p ∈ ps, p.1 ≠ i) : rd y' i = rd y i := by
  induction ps generalizing y with
  | nil => simp only [runPairs, Option.some.injEq] at h; rw [← h]
  | cons p ps ih =>
    obtain ⟨a, b, _, hb, h'⟩ := runPairs_cons_some op h
    rw [ih h' (fun q hq => hi q (List.mem_cons_of_mem _ hq)), rd_set (inRange_of_rd hb)]
    have : i ≠ p.1 := fun e => hi p (List.mem_cons_self _ _) e.symm
    simp [this]

theorem runPairs_inRange_of_some (op : α → α → α) {x : List α} {ps : List (Int × Int)}
    {y y' : List α} (h : runPairs op x ps y = some y') :
    ∀ p ∈ ps, InRange y.length p.1 ∧ InRange x.length p.2 := by
  induction ps generalizing y with
  | nil => intro p hp; cases hp
  | cons q ps ih =>
    obtain ⟨a, b, ha, hb, h'⟩ := runPairs_cons_some op h
    intro p hp
    rcases List.mem_cons.mp hp with rfl | hp
    · exact ⟨inRange_of_rd hb, inRange_of_rd ha⟩
    · have := ih h' p hp
      simpa using this

theorem stOp_comm (op : α → α → α) (hop : ∀ a b c, op (op a b) c = op (op a c) b)
    (x y : List α) (p q : Int × Int) :
    (stOp op x (some p.1) (some p.2) y).bind (stOp op x (some q.1) (some q.2)) =
      (stOp op x (some q.1) (some q.2) y).bind (stOp op x (some p.1) (some p.2)) := by
  by_cases hp1 : InRange y.length p.1
  swap
  · rw [stOp_none_of_target op hp1]
    cases hq : stOp op x (some q.1) (some q.2) y with
    | none => rfl
    | some w =>
      have hl := stOp_length op hq
      simp only [Option.none_bind, Option.some_bind]
      rw [stOp_none_of_target op (by rw [hl]; exact hp1)]
  by_cases hq1 : InRange y.length q.1
  swap
  · rw [stOp_none_of_target op hq1]
    cases hq : stOp op x (some p.1) (some p.2) y with
    | none => rfl
    | some w =>
      have hl := stOp_length op hq
      simp only [Option.none_bind, Option.some_bind]
      rw [stOp_none_of_target op (by rw [hl]; exact hq1)]
  by_cases hp2 : InRange x.length p.2
  swap
  · rw [stOp_none_of_source op hp2]
    cases hq : stOp op x (some q.1) (some q.2) y with
    | none => rfl
    | some w =>
      simp only [Option.none_bind, Option.some_bind]
      rw [stOp_none_of_source op hp2]
  by_cases hq2 : InRange x.length q.2
  swap
  · rw [stOp_none_of_source op hq2]
    cases hq : stOp op x (some p.1) (some p.2) y with
    | none => rfl
    | some w =>
      simp only [Option.none_bind, Option.some_bind]
      rw [stOp_none_of_source op hq2]
  obtain ⟨pt, pf⟩ := p
  obtain ⟨qt, qf⟩ := q
  simp only at hp1 hq1 hp2 hq2 ⊢
  obtain ⟨a, ha⟩ := rd_isSome_of_inRange hp2
  obtain ⟨c, hc⟩ := rd_isSome_of_inRange hq2
  obtain ⟨b, hb⟩ := rd_isSome_of_inRange hp1
  obtain ⟨d, hd⟩ := rd_isSome_of_inRange hq1
  rw [stOp_of_rd op ha hb, stOp_of_rd op hc hd]
  simp only [Option.some_bind]
  by_cases hpq : pt = qt
  · subst hpq
    have hbd : b = d := by
      rw [hb] at hd; exact Option.some.inj hd
    subst hbd
    have e1 : rd (y.set pt.toNat (op b a)) pt = some (op b a) := by
      rw [rd_set hp1]; simp
    have e2 : rd (y.set pt.toNat (op b c)) pt = some (op b c) := by
      rw [rd_set hp1]; simp
    rw [stOp_of_rd op hc e1, stOp_of_rd op ha e2]
    simp only [List.set_set, hop]
  · have hqp : ¬ qt = pt := fun e => hpq e.symm
    have e1 : rd (y.set pt.toNat (op b a)) qt = some d := by
      rw [rd_set hp1, hd]; simp [hqp]
    have e2 : rd (y.set qt.toNat (op d c)) pt = some b := by
      rw [rd_set hq1, hb]; simp [hpq]
    rw [stOp_of_rd op hc e1, stOp_of_rd op ha e2]
    have hne : pt.toNat ≠ qt.toNat := by
      have h1 := hp1.1
      have h2 := hq1.1
      omega
    rw [List.set_comm _ _ _ hne]

theorem runPairs_perm (op : α → α → α) (hop : ∀ a b c, op (op a b) c = op (op a c) b)
    (x : List α) {l₁ l₂ : List (Int × Int)} (h : l₁.Perm l₂) (y : List α) :
    runPairs op x l₁ y = runPairs op x l₂ y := by
  induction h generalizing y with
  | nil => rfl
  | cons p _ ih =>
    simp only [runPairs]
    congr 1
    funext w
    exact ih w
  | swap p q l =>
    simp only [runPairs]
    rw [← Option.bind_assoc, ← Option.bind_assoc, stOp_comm op hop]
  | trans _ _ ih1 ih2 => exact (ih1 y).trans (ih2 y)

end RunPairs

section CreateResults

theorem check_ok_of_inRange (nmax : Nat) (n : Nat) (idx : List Int)
    (h : ∀ k ∈ idx, InRange nmax k) :
    VecScatterCheckIndices_Private (nmax : Int) n idx = .ok := by
  unfold VecScatterCheckIndices_Private
  rw [if_neg]
  simp only [List.any_eq_true, not_exists, not_and]
  intro k hk
  have := h k (List.mem_of_mem_take hk)
  unfold InRange at this
  simp
  omega

theorem check_cases (nmax : Int) (n : Nat) (idx : List Int) :
    VecScatterCheckIndices_Private nmax n idx = .ok ∨
      VecScatterCheckIndices_Private nmax n idx = .ERR_ARG_OUTOFRANGE := by
  unfold VecScatterCheckIndices_Private
  split
  · exact Or.inr rfl
  · exact Or.inl rfl

theorem createSeq_code (cfg : Config) (merge pack : Bool) (A B : IS) (nx ny : Nat) :
    (ISGetLocalSize A ≠ ISGetLocalSize B ∧
      (createSeq cfg merge pack A B nx ny).1 = .ERR_ARG_SIZ) ∨
    (ISGetLocalSize A = ISGetLocalSize B ∧
      ((createSeq cfg merge pack A B nx ny).1 = .ok ∨
       (createSeq cfg merge pack A B nx ny).1 = .ERR_ARG_OUTOFRANGE)) := by
  have cA := check_cases nx (ISGetLocalSize A) (ISGetIndices A)
  have cB := check_cases ny (ISGetLocalSize B) (ISGetIndices B)
  by_cases hlen : ISGetLocalSize A = ISGetLocalSize B
  · right
    refine ⟨hlen, ?_⟩
    simp only [createSeq, VecScatterCreate_Seq, VecScatterCreate_setup, VecScatterCreateEmpty,
      GetInputISType_private, effectiveIS, seqLayout, hlen, ne_eq, not_true, if_false]
    rw [hlen] at cA
    split_ifs <;> first | exact Or.inl rfl | (rcases cA with h | h <;> simp_all)
  · left
    refine ⟨hlen, ?_⟩
    simp only [createSeq, VecScatterCreate_Seq, VecScatterCreate_setup, VecScatterCreateEmpty,
      GetInputISType_private, effectiveIS, seqLayout, hlen, ne_eq, not_false_eq_true, if_true]
    split_ifs <;> rfl

end CreateResults

section CreateOk

theorem createSeq_ok_of_inRange (cfg : Config) (merge pack : Bool) (A B : IS) (nx ny : Nat)
    (hlen : ISGetLocalSize A = ISGetLocalSize B)
    (hA : ∀ k ∈ ISGetIndices A, InRange nx k) (hB : ∀ k ∈ ISGetIndices B, InRange ny k) :
    (createSeq cfg merge pack A B nx ny).1 = .ok ∧
    (createSeq cfg merge pack A B nx ny).2.todata.n? = some (ISGetLocalSize A) ∧
    (createSeq cfg merge pack A B nx ny).2.fromdata.n? = some (ISGetLocalSize A) := by
  have cA := check_ok_of_inRange nx (ISGetLocalSize B) (ISGetIndices A) hA
  have cB := check_ok_of_inRange ny (ISGetLocalSize B) (ISGetIndices B) hB
  simp only [createSeq, VecScatterCreate_Seq, VecScatterCreate_setup, VecScatterCreateEmpty,
    GetInputISType_private, effectiveIS, seqLayout, hlen, ne_eq, not_true, if_false, cA, cB,
    and_false]
  split_ifs <;> simp [ScatterData.n?]

end CreateOk

section ClaimLemmas
variable {α : Type}

theorem rd_natCast (v : List α) (j : Nat) : rd v (j : Int) = v[j]? := by
  simp [rd]

theorem modeOp_combine [Add α] [Max α] (cfg : Config) (m : InsertMode)
    (hm : m = .INSERT_VALUES ∨ m = .ADD_VALUES ∨ m = .MAX_VALUES)
    (hreal : m = .MAX_VALUES → cfg.useComplex = false) :
    modeOp (α := α) cfg m = some (combine m) := by
  rcases hm with rfl | rfl | rfl
  · rfl
  · rfl
  · simp [modeOp, hreal rfl]
    rfl

theorem begin_createSeq_sized [Add α] [Max α] (cfg : Config) (ext : ExtRoutines α)
    (merge pack : Bool) (A B : IS) (nx ny : Nat) (ctx : VecScatter)
    (hc : createSeq cfg merge pack A B nx ny = (.ok, ctx)) (x y : List α)
    (addv : InsertMode) (mode : ScatterMode)
    (hsz : (mode.isReverse = false ∧ x.length = nx ∧ y.length = ny) ∨
      (mode.isReverse = true ∧ x.length = ny ∧ y.length = nx)) :
    VecScatterBegin cfg ext ⟨ctx, x, y⟩ addv mode =
      (scatterPairs cfg addv (planPairs A B mode) x y).map
        (fun p => (p.1, ⟨{ ctx with inuse := true }, x, p.2⟩)) := by
  rw [begin_createSeq cfg ext merge pack A B nx ny ctx hc]
  obtain ⟨_, _, h1, h2, _⟩ := createSeq_facts (α := α) cfg ext merge pack A B nx ny ctx hc
  have : beginSizeError ctx x y mode = false := by
    rcases hsz with ⟨hm, hx, hy⟩ | ⟨hm, hx, hy⟩ <;>
      simp [beginSizeError, h1, h2, hm, hx, hy]
  simp [this]

theorem mem_zip_fst {l₁ l₂ : List Int} {p : Int × Int} (h : p ∈ l₁.zip l₂) : p.1 ∈ l₁ :=
  (List.of_mem_zip (a := p.1) (b := p.2) h).1

theorem mem_zip_snd {l₁ l₂ : List Int} {p : Int × Int} (h : p ∈ l₁.zip l₂) : p.2 ∈ l₂ :=
  (List.of_mem_zip (a := p.1) (b := p.2) h).2

end ClaimLemmas

/-! ## The claims -/

section Claims
variable {α : Type}

/-- C1: a Forward Begin on a local General/General plan built from index lists `f`, `t` of
equal length with all indices in range, in mode Insert, Add or Max (Max on real scalars),
succeeds and yields the `y` obtained by performing `y[t[k]] := combine(y[t[k]], x[f[k]])`
for `k = 0, .., n-1` in that order; slots of `y` whose index does not occur in `t` keep their
value, the length of `y` is kept, and `x` is unchanged. -/
theorem C1_general_general_forward [Add α] [Max α] (cfg : Config) (ext : ExtRoutines α)
    (merge pack : Bool) (f t : List Int) (x y : List α) (m : InsertMode)
    (hlen : f.length = t.length)
    (hf : ∀ k ∈ f, InRange x.length k) (ht : ∀ k ∈ t, InRange y.length k)
    (hm : m = .INSERT_VALUES ∨ m = .ADD_VALUES ∨ m = .MAX_VALUES)
    (hreal : m = .MAX_VALUES → cfg.useComplex = false) :
    (createSeq cfg merge pack (.general f) (.general t) x.length y.length).1 = .ok ∧
    VecScatterBegin cfg ext
        ⟨(createSeq cfg merge pack (.general f) (.general t) x.length y.length).2, x, y⟩ m
        .SCATTER_FORWARD =
      some (.ok,
        ⟨{ (createSeq cfg merge pack (.general f) (.general t) x.length y.length).2 with
            inuse := true }, x, specScatter (combine m) f t x y⟩) ∧
    (specScatter (combine m) f t x y).length = y.length ∧
    ∀ j : Nat, (j : Int) ∉ t → (specScatter (combine m) f t x y)[j]? = y[j]? := by
  have hok := (createSeq_ok_of_inRange cfg merge pack (.general f) (.general t) x.length
    y.length hlen hf ht).1
  have hrun : runPairs (combine m) x (t.zip f) y = some (specScatter (combine m) f t x y) :=
    runPairs_of_inRange (combine m) x (t.zip f) y
      (fun p hp => ⟨ht _ (mem_zip_fst hp), hf _ (mem_zip_snd hp)⟩)
  refine ⟨hok, ?_, runPairs_length _ hrun, ?_⟩
  · rw [begin_createSeq_sized cfg ext merge pack (.general f) (.general t) x.length y.length _
      (Prod.ext hok rfl) x y m .SCATTER_FORWARD (Or.inl ⟨rfl, rfl, rfl⟩)]
    simp only [scatterPairs, modeOp_combine cfg m hm hreal, planPairs]
    have : ScatterMode.SCATTER_FORWARD.isReverse = false := rfl
    simp only [this, Bool.false_eq_true, if_false, ISGetIndices, hrun, Option.map_some']
  · intro j hj
    have := runPairs_frame _ hrun (j : Int) (fun p hp e => hj (e ▸ mem_zip_fst hp))
    simpa [rd_natCast] using this

/-- Witness of C1, the scenario x=[10,20,30,40,50,60], f=[3,1,4,1,5], t=[0,1,2,3,4] under
Insert, which gives y=[40,20,50,20,60]. -/
theorem C1_general_general_forward_witness :
    ((createSeq ⟨true, false, false, false⟩ false false (.general [3, 1, 4, 1, 5])
        (.general [0, 1, 2, 3, 4]) 6 5).1 = .ok ∧
      VecScatterBegin ⟨true, false, false, false⟩ (noExt Int)
        ⟨(createSeq ⟨true, false, false, false⟩ false false (.general [3, 1, 4, 1, 5])
          (.general [0, 1, 2, 3, 4]) 6 5).2, [10, 20, 30, 40, 50, 60], [0, 0, 0, 0, 0]⟩
        .INSERT_VALUES .SCATTER_FORWARD =
      some (.ok,
        ⟨{ (createSeq ⟨true, false, false, false⟩ false false (.general [3, 1, 4, 1, 5])
            (.general [0, 1, 2, 3, 4]) 6 5).2 with inuse := true },
          [10, 20, 30, 40, 50, 60],
          specScatter (combine .INSERT_VALUES) [3, 1, 4, 1, 5] [0, 1, 2, 3, 4]
            [10, 20, 30, 40, 50, 60] [0, 0, 0, 0, 0]⟩) ∧
      (specScatter (combine InsertMode.INSERT_VALUES) [3, 1, 4, 1, 5] [0, 1, 2, 3, 4]
        [10, 20, 30, 40, 50, 60] [(0 : Int), 0, 0, 0, 0]).length = 5 ∧
      ∀ j : Nat, (j : Int) ∉ [(0 : Int), 1, 2, 3, 4] →
        (specScatter (combine InsertMode.INSERT_VALUES) [3, 1, 4, 1, 5] [0, 1, 2, 3, 4]
          [10, 20, 30, 40, 50, 60] [(0 : Int), 0, 0, 0, 0])[j]? = [(0 : Int), 0, 0, 0, 0][j]?) ∧
    specScatter (combine InsertMode.INSERT_VALUES) [3, 1, 4, 1, 5] [0, 1, 2, 3, 4]
      [10, 20, 30, 40, 50, 60] [(0 : Int), 0, 0, 0, 0] = [40, 20, 50, 20, 60] :=
  ⟨C1_general_general_forward ⟨true, false, false, false⟩ (noExt Int) false false
    [3, 1, 4, 1, 5] [0, 1, 2, 3, 4] [10, 20, 30, 40, 50, 60] [0, 0, 0, 0, 0] .INSERT_VALUES
    (by decide) (by decide) (by decide) (by decide) (by decide), by decide⟩



/-- C4: local Create fails with SizeMismatch exactly when the two index sets have different
lengths, whatever their kinds; with equal lengths and all indices in range it succeeds and
both sides of the plan record that common length. -/
theorem C4_local_create_size_mismatch (cfg : Config) (merge pack : Bool) (A B : IS)
    (nx ny : Nat) :
    ((createSeq cfg merge pack A B nx ny).1 = .ERR_ARG_SIZ ↔
      ISGetLocalSize A ≠ ISGetLocalSize B) ∧
    (ISGetLocalSize A = ISGetLocalSize B →
      (∀ k ∈ ISGetIndices A, InRange nx k) → (∀ k ∈ ISGetIndices B, InRange ny k) →
      (createSeq cfg merge pack A B nx ny).1 = .ok ∧
      (createSeq cfg merge pack A B nx ny).2.todata.n? = some (ISGetLocalSize A) ∧
      (createSeq cfg merge pack A B nx ny).2.fromdata.n? = some (ISGetLocalSize A)) := by
  refine ⟨?_, createSeq_ok_of_inRange cfg merge pack A B nx ny⟩
  rcases createSeq_code cfg merge pack A B nx ny with ⟨h1, h2⟩ | ⟨h1, h2 | h2⟩
  · exact ⟨fun _ => h1, fun _ => h2⟩
  · rw [h2]; exact ⟨fun h => (by cases h), fun h => absurd h1 h⟩
  · rw [h2]; exact ⟨fun h => (by cases h), fun h => absurd h1 h⟩

/-- Witness of C4: a Block of the two blocks 0 and 2 of size 2 against a Stride of length 4 on arrays of
length 6 and 4; a General list of length 1 against a Stride of length 2 is rejected. -/
theorem C4_local_create_size_mismatch_witness :
    (createSeq ⟨true, false, false, false⟩ false false (.general [0]) (.stride 2 0 1) 3 3).1
      = .ERR_ARG_SIZ ∧
    (ISGetLocalSize (.block 2 [0, 2]) = ISGetLocalSize (.stride 4 0 1) ∧
      (∀ k ∈ ISGetIndices (.block 2 [0, 2]), InRange 6 k) ∧
      (∀ k ∈ ISGetIndices (.stride 4 0 1), InRange 4 k) ∧
      (createSeq ⟨true, false, false, false⟩ false false (.block 2 [0, 2]) (.stride 4 0 1)
        6 4).1 = .ok ∧
      (createSeq ⟨true, false, false, false⟩ false false (.block 2 [0, 2]) (.stride 4 0 1)
        6 4).2.todata.n? = some (ISGetLocalSize (.block 2 [0, 2])) ∧
      (createSeq ⟨true, false, false, false⟩ false false (.block 2 [0, 2]) (.stride 4 0 1)
        6 4).2.fromdata.n? = some (ISGetLocalSize (.block 2 [0, 2]))) :=
  ⟨((C4_local_create_size_mismatch ⟨true, false, false, false⟩ false false (.general [0])
      (.stride 2 0 1) 3 3).1).2 (by decide),
    by decide, by decide, by decide,
    (C4_local_create_size_mismatch ⟨true, false, false, false⟩ false false (.block 2 [0, 2])
      (.stride 4 0 1) 6 4).2 (by decide) (by decide) (by decide)⟩



theorem callBegin_local_ctx [Add α] [Max α] (cfg : Config) (ext : ExtRoutines α)
    (r : BeginRoutine) (hr : r.isLocal = true) (w : World α) (addv : InsertMode)
    (mode : ScatterMode) (e : PetscErrorCode) (w' : World α)
    (h : callBegin cfg ext r w addv mode = some (e, w')) : w'.ctx = w.ctx ∧ w'.x = w.x := by
  cases r <;> simp only [BeginRoutine.isLocal, Bool.false_eq_true] at hr <;>
    simp only [callBegin, Option.map_eq_some'] at h <;>
    (obtain ⟨p, _, hp⟩ := h; simp only [Prod.mk.injEq] at hp; rw [← hp.2]; exact ⟨rfl, rfl⟩)

theorem callBegin_header [Add α] [Max α] (cfg : Config) (ext : ExtRoutines α)
    (hext : ext.Frames) (r : BeginRoutine) (w : World α) (addv : InsertMode)
    (mode : ScatterMode) (e : PetscErrorCode) (w' : World α)
    (h : callBegin cfg ext r w addv mode = some (e, w')) :
    w'.ctx.inuse = w.ctx.inuse ∧ w'.ctx.beginandendtogether = w.ctx.beginandendtogether ∧
      w'.ctx.ops = w.ctx.ops := by
  by_cases hr : r.isLocal = true
  · rw [(callBegin_local_ctx cfg ext r hr w addv mode e w' h).1]
    exact ⟨rfl, rfl, rfl⟩
  · have : callBegin cfg ext r w addv mode = ext.begin_ r w addv mode := by
      cases r <;> first | rfl | (exfalso; exact hr rfl)
    rw [this] at h
    exact hext.1 r w addv mode e w' h

/-- C3: on a plan that is not in merged mode or has no end routine, after a successful Begin
every further Begin issued before End fails with WrongState and changes neither `x`, `y` nor
the plan; after End the plan is no longer in use, and for a plan run by a sequential kernel
End restores the plan as it was, from which the same Begin succeeds again. -/
theorem C3_in_use_guard [Add α] [Max α] (cfg : Config) (ext : ExtRoutines α)
    (hext : ext.Frames) (w w1 : World α) (addv : InsertMode) (mode : ScatterMode)
    (hplan : w.ctx.beginandendtogether = false ∨ w.ctx.ops.end_ = none)
    (hb : VecScatterBegin cfg ext w addv mode = some (.ok, w1)) :
    (∀ (x' y' : List α) (addv' : InsertMode) (mode' : ScatterMode),
      VecScatterBegin cfg ext ⟨w1.ctx, x', y'⟩ addv' mode' =
        some (.ERR_ARG_WRONGSTATE, ⟨w1.ctx, x', y'⟩)) ∧
    (∀ (x' y' : List α) (addv' : InsertMode) (mode' : ScatterMode) (e : PetscErrorCode)
      (w2 : World α), VecScatterEnd ext ⟨w1.ctx, x', y'⟩ addv' mode' = some (e, w2) →
        w2.ctx.inuse = false) ∧
    (w.ctx.ops.end_ = none → (∃ r, w.ctx.ops.begin_ = some r ∧ r.isLocal = true) →
      VecScatterEnd ext w1 addv mode = some (.ok, ⟨w.ctx, w1.x, w1.y⟩) ∧
      VecScatterBegin cfg ext ⟨w.ctx, w.x, w.y⟩ addv mode = some (.ok, w1)) := by
  have hidle : w.ctx.inuse = false := by
    cases hi : w.ctx.inuse with
    | false => rfl
    | true => simp [VecScatterBegin, hi] at hb
  -- the state reached by the begin routine
  have key : w1.ctx.inuse = true ∧ w1.ctx.beginandendtogether = w.ctx.beginandendtogether ∧
      w1.ctx.ops = w.ctx.ops ∧
      (∀ r, w.ctx.ops.begin_ = some r → r.isLocal = true →
        w1.ctx = { w.ctx with inuse := true }) := by
    simp only [VecScatterBegin, hidle, Bool.false_eq_true, if_false] at hb
    split at hb
    · cases hb
    · split at hb
      · cases hb
      · rename_i r hr
        split at hb
        · cases hb
        · rename_i e w2 hcb
          have hh := callBegin_header cfg ext hext r _ addv mode e w2 hcb
          split at hb
          · rename_i hne
            simp only [Option.some.injEq, Prod.mk.injEq] at hb
            exact absurd hb.1 hne
          · have hend : w2.ctx.ops.end_ = w.ctx.ops.end_ := by rw [hh.2.2]
            have hmer : w2.ctx.beginandendtogether = w.ctx.beginandendtogether := hh.2.1
            have hw : w2 = w1 := by
              split at hb
              · rename_i r' hr'
                rw [hend] at hr'
                rcases hplan with hp | hp
                · rw [hmer, hp] at hb
                  simp only [Bool.false_eq_true, if_false, Option.some.injEq,
                    Prod.mk.injEq, true_and] at hb
                  exact hb
                · rw [hp] at hr'; cases hr'
              · simp only [Option.some.injEq, Prod.mk.injEq, true_and] at hb
                exact hb
            subst hw
            refine ⟨hh.1, hh.2.1, hh.2.2, ?_⟩
            intro r' hr' hloc
            rw [hr'] at hr
            have hrr : r' = r := Option.some.inj hr
            subst hrr
            exact (callBegin_local_ctx cfg ext _ hloc _ addv mode e w2 hcb).1
  obtain ⟨k1, k2, k3, k4⟩ := key
  refine ⟨?_, ?_, ?_⟩
  · intro x' y' addv' mode'
    simp [VecScatterBegin, k1]
  · intro x' y' addv' mode' e w2 he
    simp only [VecScatterEnd] at he
    split at he
    · simp only [Option.some.injEq, Prod.mk.injEq] at he
      rw [← he.2]
    · split at he
      · exact (hext.2 _ _ _ _ _ _ he).1
      · simp only [Option.some.injEq, Prod.mk.injEq] at he
        rw [← he.2]
  · rintro hend ⟨r, hr, hloc⟩
    have hctx := k4 r hr hloc
    refine ⟨?_, hb⟩
    have : w1.ctx.ops.end_ = none := by rw [k3, hend]
    simp only [VecScatterEnd, this]
    rw [hctx]
    simp only [Option.some.injEq, Prod.mk.injEq, true_and]
    cases w with
    | mk c x y =>
      cases c
      simp only at hidle
      subst hidle
      rfl



theorem callBegin_noDebug [Add α] [Max α] (cfg : Config) (ext : ExtRoutines α)
    (r : BeginRoutine) (w : World α) (addv : InsertMode) (mode : ScatterMode) :
    callBegin { cfg with useDebug := false } ext r w addv mode =
      callBegin cfg ext r w addv mode := by
  cases r <;> rfl

theorem beginSizeError_iff (ctx : VecScatter) (x y : List α) (mode : ScatterMode)
    (h1 : 0 ≤ ctx.from_n) (h2 : 0 ≤ ctx.to_n) :
    beginSizeError ctx x y mode = true ↔ ¬ SizesMatch ctx x y mode := by
  unfold beginSizeError SizesMatch
  cases mode.isReverse <;> simp [h1, h2] <;> tauto

/-- C7: in a debug build, on a plan that is not in use and whose recorded `from_n` and `to_n`
are both non-negative, Begin fails with SizeMismatch, leaving plan, `x` and `y` as they were,
unless the sizes are those of its direction, and it succeeds only with those sizes; when a
recorded length is negative (unknown) Begin behaves as in a build without the size check. -/
theorem C7_begin_size_validation [Add α] [Max α] (cfg : Config) (ext : ExtRoutines α)
    (w : World α) (addv : InsertMode) (mode : ScatterMode) (hdbg : cfg.useDebug = true)
    (hidle : w.ctx.inuse = false) :
    (0 ≤ w.ctx.from_n → 0 ≤ w.ctx.to_n →
      (¬ SizesMatch w.ctx w.x w.y mode →
        VecScatterBegin cfg ext w addv mode = some (.ERR_ARG_SIZ, w)) ∧
      (∀ w', VecScatterBegin cfg ext w addv mode = some (.ok, w') →
        SizesMatch w.ctx w.x w.y mode)) ∧
    ((w.ctx.from_n < 0 ∨ w.ctx.to_n < 0) →
      VecScatterBegin cfg ext w addv mode =
        VecScatterBegin { cfg with useDebug := false } ext w addv mode) := by
  constructor
  · intro h1 h2
    have hfail : ¬ SizesMatch w.ctx w.x w.y mode →
        VecScatterBegin cfg ext w addv mode = some (.ERR_ARG_SIZ, w) := by
      intro hs
      have := (beginSizeError_iff w.ctx w.x w.y mode h1 h2).mpr hs
      simp [VecScatterBegin, hidle, hdbg, this]
    refine ⟨hfail, ?_⟩
    intro w' hw'
    by_contra hs
    rw [hfail hs] at hw'
    cases hw'
  · intro hneg
    have hno : beginSizeError w.ctx w.x w.y mode = false := by
      unfold beginSizeError
      rw [if_neg]
      intro hc
      omega
    simp only [VecScatterBegin, hidle, hno, callBegin_noDebug, Bool.false_eq_true,
      and_false, if_false, false_and]



theorem noExt_frames (α : Type) : (noExt α).Frames :=
  ⟨fun _ _ _ _ _ _ h => (by cases h), fun _ _ _ _ _ _ h => (by cases h)⟩

/-- Witness of C3 on the plan `swapPlan` with x=[5,7], y=[0,0] under Insert. -/
theorem C3_in_use_guard_witness :
    (noExt Int).Frames ∧
    (swapPlan.beginandendtogether = false ∨ swapPlan.ops.end_ = none) ∧
    VecScatterBegin cfgDebug (noExt Int) ⟨swapPlan, [5, 7], [0, 0]⟩ .INSERT_VALUES
      .SCATTER_FORWARD = some (.ok, ⟨{ swapPlan with inuse := true }, [5, 7], [7, 5]⟩) ∧
    ((∀ (x' y' : List Int) (addv' : InsertMode) (mode' : ScatterMode),
      VecScatterBegin cfgDebug (noExt Int) ⟨{ swapPlan with inuse := true }, x', y'⟩ addv'
        mode' = some (.ERR_ARG_WRONGSTATE, ⟨{ swapPlan with inuse := true }, x', y'⟩)) ∧
    (∀ (x' y' : List Int) (addv' : InsertMode) (mode' : ScatterMode) (e : PetscErrorCode)
      (w2 : World Int),
      VecScatterEnd (noExt Int) ⟨{ swapPlan with inuse := true }, x', y'⟩ addv' mode' =
        some (e, w2) → w2.ctx.inuse = false) ∧
    (swapPlan.ops.end_ = none →
      (∃ r, swapPlan.ops.begin_ = some r ∧ r.isLocal = true) →
      VecScatterEnd (noExt Int) ⟨{ swapPlan with inuse := true }, [5, 7], [7, 5]⟩
        .INSERT_VALUES .SCATTER_FORWARD = some (.ok, ⟨swapPlan, [5, 7], [7, 5]⟩) ∧
      VecScatterBegin cfgDebug (noExt Int) ⟨swapPlan, [5, 7], [0, 0]⟩ .INSERT_VALUES
        .SCATTER_FORWARD = some (.ok, ⟨{ swapPlan with inuse := true }, [5, 7], [7, 5]⟩))) :=
  ⟨noExt_frames Int, Or.inl (by decide), by decide,
    C3_in_use_guard cfgDebug (noExt Int) (noExt_frames Int) ⟨swapPlan, [5, 7], [0, 0]⟩
      ⟨{ swapPlan with inuse := true }, [5, 7], [7, 5]⟩ .INSERT_VALUES .SCATTER_FORWARD
      (Or.inl (by decide)) (by decide)⟩

/-- Witness of C7: `swapPlan` expects arrays of length 2 and rejects an `x` of length 3; with
`from_n` recorded as unknown the same call is not size-checked. -/
theorem C7_begin_size_validation_witness :
    cfgDebug.useDebug = true ∧ swapPlan.inuse = false ∧
    (0 : Int) ≤ swapPlan.from_n ∧ (0 : Int) ≤ swapPlan.to_n ∧
    ¬ SizesMatch swapPlan [5, 7, (9 : Int)] [0, (0 : Int)] .SCATTER_FORWARD ∧
    VecScatterBegin cfgDebug (noExt Int) ⟨swapPlan, [5, 7, 9], [0, 0]⟩ .INSERT_VALUES
      .SCATTER_FORWARD = some (.ERR_ARG_SIZ, ⟨swapPlan, [5, 7, 9], [0, 0]⟩) ∧
    ({ swapPlan with from_n := -1 } : VecScatter).from_n < 0 ∧
    VecScatterBegin cfgDebug (noExt Int) ⟨{ swapPlan with from_n := -1 }, [5, 7, 9], [0, 0]⟩
      .INSERT_VALUES .SCATTER_FORWARD =
      VecScatterBegin { cfgDebug with useDebug := false } (noExt Int)
        ⟨{ swapPlan with from_n := -1 }, [5, 7, 9], [0, 0]⟩ .INSERT_VALUES .SCATTER_FORWARD :=
  ⟨by decide, by decide, by decide, by decide, by decide,
    ((C7_begin_size_validation cfgDebug (noExt Int) ⟨swapPlan, [5, 7, 9], [0, 0]⟩
      .INSERT_VALUES .SCATTER_FORWARD (by decide) (by decide)).1 (by decide) (by decide)).1
      (by decide),
    by decide,
    (C7_begin_size_validation cfgDebug (noExt Int)
      ⟨{ swapPlan with from_n := -1 }, [5, 7, 9], [0, 0]⟩ .INSERT_VALUES .SCATTER_FORWARD
      (by decide) (by decide)).2 (Or.inl (by decide))⟩



theorem createSeq_fst (cfg : Config) (merge pack : Bool) (A B : IS) (nx ny : Nat) :
    (createSeq cfg merge pack A B nx ny).1 =
      if ISGetLocalSize A ≠ ISGetLocalSize B then .ERR_ARG_SIZ
      else if cfg.useDebug = true ∧
          ((checksDest A B = true ∧
              VecScatterCheckIndices_Private ny (ISGetLocalSize B) (ISGetIndices B) ≠ .ok) ∨
            (checksSource A B = true ∧
              VecScatterCheckIndices_Private nx (ISGetLocalSize A) (ISGetIndices A) ≠ .ok))
        then .ERR_ARG_OUTOFRANGE
      else .ok := by
  have cA := check_cases nx (ISGetLocalSize A) (ISGetIndices A)
  have cB := check_cases ny (ISGetLocalSize B) (ISGetIndices B)
  by_cases hlen : ISGetLocalSize A = ISGetLocalSize B
  swap
  · rcases createSeq_code cfg merge pack A B nx ny with ⟨_, h2⟩ | ⟨h1, _⟩
    · rw [h2, if_pos hlen]
    · exact absurd h1 hlen
  rw [if_neg (not_not.mpr hlen)]
  cases A <;> cases B <;>
    simp only [createSeq, VecScatterCreate_Seq, VecScatterCreate_setup,
      VecScatterCreateEmpty, GetInputISType_private, effectiveIS, seqLayout, hlen, ne_eq,
      not_true, if_false, isTypeId, isStrideType, isBlockType, IS_GENERAL_ID, IS_STRIDE_ID,
      IS_BLOCK_ID, checksSource, checksDest] <;>
    rw [hlen] at cA <;>
    simp <;>
    split_ifs <;> simp_all



theorem checksDest_swap (A B : IS) : checksDest A B = checksSource B A := by
  cases A <;> cases B <;> simp [checksDest, checksSource, Bool.and_comm]

theorem createSeq_fst_swap (cfg : Config) (merge pack : Bool) (A B : IS) (nx ny : Nat) :
    (createSeq cfg merge pack B A ny nx).1 = (createSeq cfg merge pack A B nx ny).1 := by
  rw [createSeq_fst, createSeq_fst, checksDest_swap A B, checksDest_swap B A]
  by_cases h : ISGetLocalSize A = ISGetLocalSize B
  · rw [← h]
    simp only [ne_eq, not_true, if_false]
    congr 1
    apply propext
    tauto
  · have h' : ¬ ISGetLocalSize B = ISGetLocalSize A := fun e => h e.symm
    simp [h, h']

theorem outcome_map_begin (r : Option (PetscErrorCode × List α)) (c : VecScatter)
    (x : List α) :
    outcome (r.map (fun p => (p.1, (⟨c, x, p.2⟩ : World α)))) = r.map (fun p => (p.1, x, p.2)) := by
  cases r <;> rfl

theorem outcome_begin_createSeq [Add α] [Max α] (cfg : Config) (ext : ExtRoutines α)
    (merge pack : Bool) (A B : IS) (nx ny : Nat)
    (hc : (createSeq cfg merge pack A B nx ny).1 = .ok) (x y : List α)
    (addv : InsertMode) (mode : ScatterMode) :
    outcome (VecScatterBegin cfg ext ⟨(createSeq cfg merge pack A B nx ny).2, x, y⟩ addv mode)
      = if cfg.useDebug = true ∧ ¬ (if mode.isReverse then
            (y.length : Int) = nx ∧ (x.length : Int) = ny
          else (y.length : Int) = ny ∧ (x.length : Int) = nx) then
          some (.ERR_ARG_SIZ, x, y)
        else (scatterPairs cfg addv (planPairs A B mode) x y).map (fun p => (p.1, x, p.2)) := by
  have hc' : createSeq cfg merge pack A B nx ny =
      (.ok, (createSeq cfg merge pack A B nx ny).2) := Prod.ext hc rfl
  rw [begin_createSeq cfg ext merge pack A B nx ny _ hc' x y addv mode]
  obtain ⟨_, _, h1, h2, _⟩ := createSeq_facts (α := α) cfg ext merge pack A B nx ny _ hc'
  have hsz := beginSizeError_iff (createSeq cfg merge pack A B nx ny).2 x y mode
    (by rw [h1]; exact Int.natCast_nonneg _) (by rw [h2]; exact Int.natCast_nonneg _)
  simp only [SizesMatch, h1, h2] at hsz
  by_cases hd : cfg.useDebug = true
  · by_cases hs : beginSizeError (createSeq cfg merge pack A B nx ny).2 x y mode = true
    · rw [if_pos ⟨hd, hs⟩, if_pos ⟨hd, hsz.mp hs⟩]
      rfl
    · rw [if_neg (fun h => hs h.2), if_neg (fun h => hs (hsz.mpr h.2)), outcome_map_begin]
  · rw [if_neg (fun h => hd h.1), if_neg (fun h => hd h.1), outcome_map_begin]

/-- C9: whenever local Create builds a plan from index sets `A`, `B` (in particular with a
Stride on one or both sides, unit steps and the identity included) and also builds the
General/General plan from the explicitly expanded index lists, Begin on the two plans gives
the same error code, the same `x` and the same `y`, for every `x`, `y`, insert mode and
direction. -/
theorem C9_fast_path_equivalence [Add α] [Max α] (cfg : Config) (ext : ExtRoutines α)
    (merge pack : Bool) (A B : IS) (nx ny : Nat)
    (hS : (createSeq cfg merge pack A B nx ny).1 = .ok)
    (hG : (createSeq cfg merge pack (.general (ISGetIndices A)) (.general (ISGetIndices B))
      nx ny).1 = .ok)
    (x y : List α) (addv : InsertMode) (mode : ScatterMode) :
    outcome (VecScatterBegin cfg ext ⟨(createSeq cfg merge pack A B nx ny).2, x, y⟩ addv mode)
      = outcome (VecScatterBegin cfg ext
          ⟨(createSeq cfg merge pack (.general (ISGetIndices A)) (.general (ISGetIndices B))
            nx ny).2, x, y⟩ addv mode) := by
  rw [outcome_begin_createSeq cfg ext merge pack A B nx ny hS,
    outcome_begin_createSeq cfg ext merge pack _ _ nx ny hG]
  rfl

/-- Witness of C9: unit-step Stride to Stride (the bulk copy) against its expanded lists. -/
theorem C9_fast_path_equivalence_witness :
    (createSeq cfgDebug false false (.stride 3 1 1) (.stride 3 0 1) 4 3).1 = .ok ∧
    (createSeq cfgDebug false false (.general (ISGetIndices (.stride 3 1 1)))
      (.general (ISGetIndices (.stride 3 0 1))) 4 3).1 = .ok ∧
    outcome (VecScatterBegin cfgDebug (noExt Int)
        ⟨(createSeq cfgDebug false false (.stride 3 1 1) (.stride 3 0 1) 4 3).2,
          [10, 20, 30, 40], [1, 2, 3]⟩ .INSERT_VALUES .SCATTER_FORWARD) =
      outcome (VecScatterBegin cfgDebug (noExt Int)
        ⟨(createSeq cfgDebug false false (.general (ISGetIndices (.stride 3 1 1)))
          (.general (ISGetIndices (.stride 3 0 1))) 4 3).2,
          [10, 20, 30, 40], [1, 2, 3]⟩ .INSERT_VALUES .SCATTER_FORWARD) ∧
    outcome (VecScatterBegin cfgDebug (noExt Int)
        ⟨(createSeq cfgDebug false false (.stride 3 1 1) (.stride 3 0 1) 4 3).2,
          [10, 20, 30, 40], [1, 2, 3]⟩ .INSERT_VALUES .SCATTER_FORWARD) =
      some (.ok, [10, 20, 30, 40], [20, 30, 40]) :=
  ⟨by decide, by decide,
    C9_fast_path_equivalence cfgDebug (noExt Int) false false (.stride 3 1 1) (.stride 3 0 1)
      4 3 (by decide) (by decide) [10, 20, 30, 40] [1, 2, 3] .INSERT_VALUES .SCATTER_FORWARD,
    by decide⟩

/-- C10: for index sets `A`, `B` for which local Create builds the plan `P` (source `A`,
destination `B`), it also builds the plan `P'` with the roles exchanged, and Begin on `P` in a
reverse direction gives the same error code, `x` and `y` as Begin on `P'` in a forward
direction, for every `x`, `y` and insert mode. -/
theorem C10_reverse_swaps_roles [Add α] [Max α] (cfg : Config) (ext : ExtRoutines α)
    (merge pack : Bool) (A B : IS) (nx ny : Nat)
    (hP : (createSeq cfg merge pack A B nx ny).1 = .ok)
    (x y : List α) (addv : InsertMode) (mr mf : ScatterMode)
    (hr : mr.isReverse = true) (hf : mf.isReverse = false) :
    (createSeq cfg merge pack B A ny nx).1 = .ok ∧
    outcome (VecScatterBegin cfg ext ⟨(createSeq cfg merge pack A B nx ny).2, x, y⟩ addv mr)
      = outcome (VecScatterBegin cfg ext ⟨(createSeq cfg merge pack B A ny nx).2, x, y⟩
          addv mf) := by
  have hP' : (createSeq cfg merge pack B A ny nx).1 = .ok := by
    rw [createSeq_fst_swap]; exact hP
  refine ⟨hP', ?_⟩
  rw [outcome_begin_createSeq cfg ext merge pack A B nx ny hP,
    outcome_begin_createSeq cfg ext merge pack B A ny nx hP']
  simp only [hr, hf, planPairs, if_true, Bool.false_eq_true, if_false]

/-- Witness of C10: a General source against a Stride destination. -/
theorem C10_reverse_swaps_roles_witness :
    (createSeq cfgDebug false false (.general [3, 1, 2]) (.stride 3 0 2) 4 5).1 = .ok ∧
    ScatterMode.SCATTER_REVERSE.isReverse = true ∧
    ScatterMode.SCATTER_FORWARD.isReverse = false ∧
    ((createSeq cfgDebug false false (.stride 3 0 2) (.general [3, 1, 2]) 5 4).1 = .ok ∧
    outcome (VecScatterBegin cfgDebug (noExt Int)
        ⟨(createSeq cfgDebug false false (.general [3, 1, 2]) (.stride 3 0 2) 4 5).2,
          [1, 2, 3, 4, 5], [0, 0, 0, 0]⟩ .ADD_VALUES .SCATTER_REVERSE) =
      outcome (VecScatterBegin cfgDebug (noExt Int)
        ⟨(createSeq cfgDebug false false (.stride 3 0 2) (.general [3, 1, 2]) 5 4).2,
          [1, 2, 3, 4, 5], [0, 0, 0, 0]⟩ .ADD_VALUES .SCATTER_FORWARD)) :=
  ⟨by decide, by decide, by decide,
    C10_reverse_swaps_roles cfgDebug (noExt Int) false false (.general [3, 1, 2])
      (.stride 3 0 2) 4 5 (by decide) [1, 2, 3, 4, 5] [0, 0, 0, 0] .ADD_VALUES
      .SCATTER_REVERSE .SCATTER_FORWARD (by decide) (by decide)⟩



theorem runPairs_insert_values {src : List α} {ps : List (Int × Int)} {z z' : List α}
    (h : runPairs (fun _ a => a) src ps z = some z')
    (hcons : ∀ p ∈ ps, ∀ q ∈ ps, p.1 = q.1 → rd src p.2 = rd src q.2) :
    ∀ p ∈ ps, rd z' p.1 = rd src p.2 := by
  induction ps generalizing z with
  | nil => intro p hp; cases hp
  | cons p ps ih =>
    obtain ⟨a, b, ha, hb, h'⟩ := runPairs_cons_some _ h
    have ih' := ih h' (fun p1 h1 q1 h2 => hcons p1 (List.mem_cons_of_mem _ h1) q1
      (List.mem_cons_of_mem _ h2))
    intro q hq
    rcases List.mem_cons.mp hq with rfl | hq
    · by_cases hex : ∃ q' ∈ ps, q'.1 = q.1
      · obtain ⟨q', hq', he⟩ := hex
        rw [← he, ih' q' hq']
        exact hcons q' (List.mem_cons_of_mem _ hq') q (List.mem_cons_self _ _) he
      · have hfr := runPairs_frame _ h' q.1 (fun q' hq' e => hex ⟨q', hq', e⟩)
        rw [hfr, rd_set (inRange_of_rd hb), ha]
        simp
    · exact ih' q hq

theorem zip_fst_inj {l₁ l₂ : List Int} (hlen : l₁.length = l₂.length) (hnd : l₁.Nodup)
    {p q : Int × Int} (hp : p ∈ l₁.zip l₂) (hq : q ∈ l₁.zip l₂) (h : p.1 = q.1) : p = q := by
  have hsub : ((l₁.zip l₂).map Prod.fst).Nodup := by
    rw [List.map_fst_zip l₁ l₂ (le_of_eq hlen)]
    exact hnd
  exact List.inj_on_of_nodup_map hsub hp hq h

theorem exists_mem_zip_fst {l₁ l₂ : List Int} (hlen : l₁.length = l₂.length) {a : Int}
    (ha : a ∈ l₁) : ∃ p ∈ l₁.zip l₂, p.1 = a := by
  rw [← List.map_fst_zip l₁ l₂ (le_of_eq hlen)] at ha
  obtain ⟨p, hp, rfl⟩ := List.mem_map.mp ha
  exact ⟨p, hp, rfl⟩

theorem mem_zip_swap {l₁ l₂ : List Int} {p : Int × Int} (hp : p ∈ l₁.zip l₂) :
    (p.2, p.1) ∈ l₂.zip l₁ := by
  rw [← List.zip_swap l₁ l₂]
  exact List.mem_map.mpr ⟨p, hp, rfl⟩

theorem end_of_begun (ext : ExtRoutines α) (ctx : VecScatter) (x y : List α)
    (addv : InsertMode) (mode : ScatterMode) (hin : ctx.inuse = false)
    (hend : ctx.ops.end_ = none) :
    VecScatterEnd ext ⟨{ ctx with inuse := true }, x, y⟩ addv mode = some (.ok, ⟨ctx, x, y⟩) := by
  simp only [VecScatterEnd, hend]
  cases ctx
  simp only at hin
  subst hin
  rfl

/-- C2: for a local plan created from index sets `A` (source) and `B` (destination) of equal
length, each free of duplicates and within the bounds of `x` and `y0`, and for `z0` of the
length of `x`: a Forward Insert Begin on `(x, y0)` succeeds with some `y1`, End returns the plan
idle, a Reverse Insert Begin on `(y1, z0)` succeeds with some `x2`, and `x2[f] = x[f]` for
every source index `f`; if the source indices cover all of `x` then `x2 = x`. -/
theorem C2_round_trip_local [Add α] [Max α] (cfg : Config) (ext : ExtRoutines α)
    (merge pack : Bool) (A B : IS) (x y0 z0 : List α) (ctx : VecScatter)
    (hc : createSeq cfg merge pack A B x.length y0.length = (.ok, ctx))
    (_hfnd : (ISGetIndices A).Nodup) (htnd : (ISGetIndices B).Nodup)
    (hf : ∀ k ∈ ISGetIndices A, InRange x.length k)
    (ht : ∀ k ∈ ISGetIndices B, InRange y0.length k)
    (hz : z0.length = x.length) :
    ∃ y1 x2,
      VecScatterBegin cfg ext ⟨ctx, x, y0⟩ .INSERT_VALUES .SCATTER_FORWARD =
        some (.ok, ⟨{ ctx with inuse := true }, x, y1⟩) ∧
      VecScatterEnd ext ⟨{ ctx with inuse := true }, x, y1⟩ .INSERT_VALUES .SCATTER_FORWARD =
        some (.ok, ⟨ctx, x, y1⟩) ∧
      VecScatterBegin cfg ext ⟨ctx, y1, z0⟩ .INSERT_VALUES .SCATTER_REVERSE =
        some (.ok, ⟨{ ctx with inuse := true }, y1, x2⟩) ∧
      (∀ k ∈ ISGetIndices A, rd x2 k = rd x k) ∧
      ((∀ j : Nat, j < x.length → (j : Int) ∈ ISGetIndices A) → x2 = x) := by
  obtain ⟨hin, hend, _, _, _, hlen, _⟩ :=
    createSeq_facts (α := α) cfg ext merge pack A B x.length y0.length ctx hc
  have hlen' : (ISGetIndices B).length = (ISGetIndices A).length := by
    rw [length_ISGetIndices, length_ISGetIndices, hlen]
  -- forward
  have hrun1 := runPairs_of_inRange (fun (_ : α) a => a) x
    ((ISGetIndices B).zip (ISGetIndices A)) y0
    (fun p hp => ⟨ht _ (mem_zip_fst hp), hf _ (mem_zip_snd hp)⟩)
  obtain ⟨y1, hy1⟩ : ∃ y1, runPairs (fun (_ : α) a => a) x
      ((ISGetIndices B).zip (ISGetIndices A)) y0 = some y1 := ⟨_, hrun1⟩
  have hy1len : y1.length = y0.length := runPairs_length _ hy1
  -- reverse
  have hrun2 := runPairs_of_inRange (fun (_ : α) a => a) y1
    ((ISGetIndices A).zip (ISGetIndices B)) z0
    (fun p hp => ⟨by rw [hz]; exact hf _ (mem_zip_fst hp),
      by rw [hy1len]; exact ht _ (mem_zip_snd hp)⟩)
  obtain ⟨x2, hx2⟩ : ∃ x2, runPairs (fun (_ : α) a => a) y1
      ((ISGetIndices A).zip (ISGetIndices B)) z0 = some x2 := ⟨_, hrun2⟩
  have hx2len : x2.length = x.length := by rw [runPairs_length _ hx2, hz]
  have hv1 : ∀ p ∈ (ISGetIndices B).zip (ISGetIndices A), rd y1 p.1 = rd x p.2 :=
    runPairs_insert_values hy1 (fun p hp q hq e => by
      rw [zip_fst_inj hlen' htnd hp hq e])
  have hv2 : ∀ p ∈ (ISGetIndices A).zip (ISGetIndices B), rd x2 p.1 = rd y1 p.2 :=
    runPairs_insert_values hx2 (fun p hp q hq e => by
      have h1 := hv1 _ (mem_zip_swap hp)
      have h2 := hv1 _ (mem_zip_swap hq)
      simp only at h1 h2
      rw [h1, h2, e])
  have hval : ∀ k ∈ ISGetIndices A, rd x2 k = rd x k := by
    intro k hk
    obtain ⟨p, hp, rfl⟩ := exists_mem_zip_fst hlen'.symm hk
    have h1 := hv1 _ (mem_zip_swap hp)
    simp only at h1
    rw [hv2 p hp, h1]
  have hins : modeOp (α := α) cfg .INSERT_VALUES = some (fun _ a => a) := rfl
  refine ⟨y1, x2, ?_, end_of_begun ext ctx x y1 _ _ hin hend, ?_, hval, ?_⟩
  · rw [begin_createSeq_sized cfg ext merge pack A B x.length y0.length ctx hc x y0
      .INSERT_VALUES .SCATTER_FORWARD (Or.inl ⟨rfl, rfl, rfl⟩)]
    simp only [scatterPairs, hins, planPairs]
    have : ScatterMode.SCATTER_FORWARD.isReverse = false := rfl
    simp only [this, Bool.false_eq_true, if_false, hy1, Option.map_some']
  · rw [begin_createSeq_sized cfg ext merge pack A B x.length y0.length ctx hc y1 z0
      .INSERT_VALUES .SCATTER_REVERSE (Or.inr ⟨rfl, hy1len, hz⟩)]
    simp only [scatterPairs, hins, planPairs]
    have : ScatterMode.SCATTER_REVERSE.isReverse = true := rfl
    simp only [this, if_true, hx2, Option.map_some']
  · intro hcov
    apply List.ext_getElem?
    intro j
    by_cases hj : j < x.length
    · have := hval _ (hcov j hj)
      simpa [rd_natCast] using this
    · rw [List.getElem?_eq_none (by omega), List.getElem?_eq_none (by omega)]

/-- Witness of C2: a General source `[2, 0, 1]` against a Stride destination `0, 2, 4`. -/
theorem C2_round_trip_local_witness :
    createSeq cfgDebug false false (.general [2, 0, 1]) (.stride 3 0 2) 3 5 =
      (.ok, (createSeq cfgDebug false false (.general [2, 0, 1]) (.stride 3 0 2) 3 5).2) ∧
    (ISGetIndices (.general [2, 0, 1])).Nodup ∧ (ISGetIndices (.stride 3 0 2)).Nodup ∧
    (∀ k ∈ ISGetIndices (.general [2, 0, 1]), InRange 3 k) ∧
    (∀ k ∈ ISGetIndices (.stride 3 0 2), InRange 5 k) ∧
    ∃ y1 x2,
      VecScatterBegin cfgDebug (noExt Int)
        ⟨(createSeq cfgDebug false false (.general [2, 0, 1]) (.stride 3 0 2) 3 5).2,
          [7, 8, 9], [0, 0, 0, 0, 0]⟩ .INSERT_VALUES .SCATTER_FORWARD =
        some (.ok, ⟨{ (createSeq cfgDebug false false (.general [2, 0, 1]) (.stride 3 0 2)
          3 5).2 with inuse := true }, [7, 8, 9], y1⟩) ∧
      VecScatterEnd (noExt Int)
        ⟨{ (createSeq cfgDebug false false (.general [2, 0, 1]) (.stride 3 0 2) 3 5).2 with
          inuse := true }, [7, 8, 9], y1⟩ .INSERT_VALUES .SCATTER_FORWARD =
        some (.ok, ⟨(createSeq cfgDebug false false (.general [2, 0, 1]) (.stride 3 0 2)
          3 5).2, [7, 8, 9], y1⟩) ∧
      VecScatterBegin cfgDebug (noExt Int)
        ⟨(createSeq cfgDebug false false (.general [2, 0, 1]) (.stride 3 0 2) 3 5).2,
          y1, [1, 1, 1]⟩ .INSERT_VALUES .SCATTER_REVERSE =
        some (.ok, ⟨{ (createSeq cfgDebug false false (.general [2, 0, 1]) (.stride 3 0 2)
          3 5).2 with inuse := true }, y1, x2⟩) ∧
      (∀ k ∈ ISGetIndices (.general [2, 0, 1]), rd x2 k = rd [7, 8, 9] k) ∧
      ((∀ j : Nat, j < [7, 8, (9 : Int)].length → (j : Int) ∈ ISGetIndices (.general [2, 0, 1])) →
        x2 = [7, 8, 9]) :=
  ⟨by decide, by decide, by decide, by decide, by decide,
    C2_round_trip_local cfgDebug (noExt Int) false false (.general [2, 0, 1]) (.stride 3 0 2)
      [7, 8, 9] [0, 0, 0, 0, 0] [1, 1, 1] _ (by decide) (by decide) (by decide) (by decide)
      (by decide) (by decide)⟩



theorem zip_ofFn {n : Nat} (t f : Fin n → Int) :
    (List.ofFn t).zip (List.ofFn f) = List.ofFn (fun k => (t k, f k)) := by
  apply List.ext_getElem
  · simp
  · intro i h1 h2
    simp

theorem runPairs_add_sum [AddCommMonoid α] {x : List α} {ps : List (Int × Int)}
    {y y' : List α} (h : runPairs (fun b a => b + a) x ps y = some y') (j : Int) (b : α)
    (hb : rd y j = some b) :
    rd y' j =
      some (b + (ps.map (fun p => if p.1 = j then (rd x p.2).getD 0 else 0)).sum) := by
  induction ps generalizing y b with
  | nil =>
    simp only [runPairs, Option.some.injEq] at h
    rw [← h, hb]
    simp
  | cons p ps ih =>
    obtain ⟨a0, b0, ha, hb0, h'⟩ := runPairs_cons_some _ h
    have hr := rd_set (inRange_of_rd hb0) (b0 + a0) j
    by_cases hj : j = p.1
    · subst hj
      rw [hb] at hb0
      have hbb : b = b0 := Option.some.inj hb0
      subst hbb
      simp only [if_true] at hr
      rw [ih h' (b + a0) hr]
      simp [ha, add_assoc]
    · simp only [hj, if_false] at hr
      rw [hb] at hr
      rw [ih h' b hr]
      have hj' : ¬ p.1 = j := fun e => hj e.symm
      simp [hj']



theorem scatterPairs_perm [LinearOrderedAddCommGroup α] (cfg : Config) (addv : InsertMode)
    (hmode : addv = .ADD_VALUES ∨ addv = .MAX_VALUES) {l₁ l₂ : List (Int × Int)}
    (h : l₁.Perm l₂) (x y : List α) :
    scatterPairs cfg addv l₁ x y = scatterPairs cfg addv l₂ x y := by
  unfold scatterPairs modeOp
  rcases hmode with rfl | rfl
  · simp only [reduceCtorEq, if_false, if_true]
    rw [runPairs_perm _ (fun a b c => add_right_comm a b c) x h y]
  · by_cases hc : cfg.useComplex = false
    · simp only [reduceCtorEq, if_false, hc, and_self, if_true]
      rw [runPairs_perm _ (fun a b c => by simp only [PetscMax]; rw [max_assoc, max_assoc, max_comm b c])
        x h y]
    · simp [hc]

/-- C8: for a local General/General plan with index lists `f`, `t` of length `n` (indices in
range) over an ordered additive group, and every permutation `s` of the positions, a Forward
Begin under Add or Max with the plan built from `(f ∘ s, t ∘ s)` gives the same result as with
the plan built from `(f, t)`; under Add it succeeds and every slot `j` of `y` ends as its old
value plus the sum of `x[f k]` over the `k` with `t k = j`. -/
theorem C8_combine_order_independence [LinearOrderedAddCommGroup α] (cfg : Config)
    (ext : ExtRoutines α) (merge pack : Bool) (n : Nat) (f t : Fin n → Int)
    (s : Equiv.Perm (Fin n)) (x y : List α) (addv : InsertMode)
    (hmode : addv = .ADD_VALUES ∨ addv = .MAX_VALUES)
    (hf : ∀ k, InRange x.length (f k)) (ht : ∀ k, InRange y.length (t k)) :
    (createSeq cfg merge pack (.general (List.ofFn f)) (.general (List.ofFn t))
      x.length y.length).1 = .ok ∧
    (createSeq cfg merge pack (.general (List.ofFn (f ∘ s))) (.general (List.ofFn (t ∘ s)))
      x.length y.length).1 = .ok ∧
    outcome (VecScatterBegin cfg ext
        ⟨(createSeq cfg merge pack (.general (List.ofFn (f ∘ s)))
          (.general (List.ofFn (t ∘ s))) x.length y.length).2, x, y⟩ addv .SCATTER_FORWARD) =
      outcome (VecScatterBegin cfg ext
        ⟨(createSeq cfg merge pack (.general (List.ofFn f)) (.general (List.ofFn t))
          x.length y.length).2, x, y⟩ addv .SCATTER_FORWARD) ∧
    (addv = .ADD_VALUES →
      ∃ y', outcome (VecScatterBegin cfg ext
          ⟨(createSeq cfg merge pack (.general (List.ofFn f)) (.general (List.ofFn t))
            x.length y.length).2, x, y⟩ addv .SCATTER_FORWARD) = some (.ok, x, y') ∧
        ∀ (j : Nat) (b : α), y[j]? = some b →
          y'[j]? = some (b + ∑ k in Finset.univ.filter (fun k => t k = (j : Int)),
            (rd x (f k)).getD 0)) := by
  have hmem : ∀ (g : Fin n → Int) (len : Nat), (∀ k, InRange len (g k)) →
      ∀ k ∈ ISGetIndices (.general (List.ofFn g)), InRange len k := by
    intro g len hg k hk
    simp only [ISGetIndices, List.mem_ofFn, Set.mem_range] at hk
    obtain ⟨i, rfl⟩ := hk
    exact hg i
  have hP := (createSeq_ok_of_inRange cfg merge pack (.general (List.ofFn f))
    (.general (List.ofFn t)) x.length y.length (by simp [ISGetLocalSize])
    (hmem f _ hf) (hmem t _ ht)).1
  have hP' := (createSeq_ok_of_inRange cfg merge pack (.general (List.ofFn (f ∘ s)))
    (.general (List.ofFn (t ∘ s))) x.length y.length (by simp [ISGetLocalSize])
    (hmem (f ∘ s) _ (fun k => hf (s k))) (hmem (t ∘ s) _ (fun k => ht (s k)))).1
  have hfw : ScatterMode.SCATTER_FORWARD.isReverse = false := rfl
  have hperm : ((List.ofFn (t ∘ s)).zip (List.ofFn (f ∘ s))).Perm
      ((List.ofFn t).zip (List.ofFn f)) := by
    rw [zip_ofFn, zip_ofFn]
    exact Equiv.Perm.ofFn_comp_perm s (fun k => (t k, f k))
  refine ⟨hP, hP', ?_, ?_⟩
  · rw [outcome_begin_createSeq cfg ext merge pack _ _ _ _ hP,
      outcome_begin_createSeq cfg ext merge pack _ _ _ _ hP']
    simp only [planPairs, hfw, Bool.false_eq_true, if_false, ISGetIndices]
    rw [scatterPairs_perm cfg addv hmode hperm]
  · rintro rfl
    rw [outcome_begin_createSeq cfg ext merge pack _ _ _ _ hP]
    simp only [planPairs, hfw, Bool.false_eq_true, if_false, ISGetIndices, and_self,
      not_true, and_false]
    have hrun := runPairs_of_inRange (fun (b : α) a => b + a) x
      ((List.ofFn t).zip (List.ofFn f)) y (fun p hp => by
        have h1 := mem_zip_fst hp
        have h2 := mem_zip_snd hp
        simp only [List.mem_ofFn, Set.mem_range] at h1 h2
        obtain ⟨i, hi⟩ := h1
        obtain ⟨i', hi'⟩ := h2
        rw [← hi, ← hi']
        exact ⟨ht i, hf i'⟩)
    refine ⟨List.foldl (specStep (fun b a => b + a) x) y ((List.ofFn t).zip (List.ofFn f)),
      ?_, ?_⟩
    · simp only [scatterPairs, modeOp, reduceCtorEq, if_false, if_true, hrun,
        Option.map_some']
    · intro j b hb
      have hb' : rd y (j : Int) = some b := by rw [rd_natCast]; exact hb
      have := runPairs_add_sum hrun (j : Int) b hb'
      rw [rd_natCast] at this
      rw [this, zip_ofFn, List.map_ofFn, List.sum_ofFn, Finset.sum_filter]
      rfl



/-- Witness of C8: three contributions into the slots 0, 1, 0, applied in reversed order. -/
theorem C8_combine_order_independence_witness :
    (InsertMode.ADD_VALUES = .ADD_VALUES ∨ InsertMode.ADD_VALUES = .MAX_VALUES) ∧
    (∀ k : Fin 3, InRange [1, 2, (3 : Int)].length ((fun k : Fin 3 => (k.val : Int)) k)) ∧
    (∀ k : Fin 3, InRange [10, (20 : Int)].length ((fun k : Fin 3 => ((k.val % 2 : Nat) : Int)) k)) ∧
    ((createSeq cfgDebug false false (.general (List.ofFn (fun k : Fin 3 => (k.val : Int))))
      (.general (List.ofFn (fun k : Fin 3 => ((k.val % 2 : Nat) : Int))))
      [1, 2, (3 : Int)].length [10, (20 : Int)].length).1 = .ok ∧
    (createSeq cfgDebug false false
      (.general (List.ofFn ((fun k : Fin 3 => (k.val : Int)) ∘ (Equiv.swap (0 : Fin 3) 2))))
      (.general (List.ofFn ((fun k : Fin 3 => ((k.val % 2 : Nat) : Int)) ∘
        (Equiv.swap (0 : Fin 3) 2))))
      [1, 2, (3 : Int)].length [10, (20 : Int)].length).1 = .ok ∧
    outcome (VecScatterBegin cfgDebug (noExt Int)
        ⟨(createSeq cfgDebug false false
          (.general (List.ofFn ((fun k : Fin 3 => (k.val : Int)) ∘ (Equiv.swap (0 : Fin 3) 2))))
          (.general (List.ofFn ((fun k : Fin 3 => ((k.val % 2 : Nat) : Int)) ∘
            (Equiv.swap (0 : Fin 3) 2))))
          [1, 2, (3 : Int)].length [10, (20 : Int)].length).2, [1, 2, 3], [10, 20]⟩
        .ADD_VALUES .SCATTER_FORWARD) =
      outcome (VecScatterBegin cfgDebug (noExt Int)
        ⟨(createSeq cfgDebug false false
          (.general (List.ofFn (fun k : Fin 3 => (k.val : Int))))
          (.general (List.ofFn (fun k : Fin 3 => ((k.val % 2 : Nat) : Int))))
          [1, 2, (3 : Int)].length [10, (20 : Int)].length).2, [1, 2, 3], [10, 20]⟩
        .ADD_VALUES .SCATTER_FORWARD) ∧
    (InsertMode.ADD_VALUES = .ADD_VALUES →
      ∃ y', outcome (VecScatterBegin cfgDebug (noExt Int)
          ⟨(createSeq cfgDebug false false
            (.general (List.ofFn (fun k : Fin 3 => (k.val : Int))))
            (.general (List.ofFn (fun k : Fin 3 => ((k.val % 2 : Nat) : Int))))
            [1, 2, (3 : Int)].length [10, (20 : Int)].length).2, [1, 2, 3], [10, 20]⟩
          .ADD_VALUES .SCATTER_FORWARD) = some (.ok, [1, 2, 3], y') ∧
        ∀ (j : Nat) (b : Int), [10, (20 : Int)][j]? = some b →
          y'[j]? = some (b + ∑ k in Finset.univ.filter
            (fun k : Fin 3 => (fun k : Fin 3 => ((k.val % 2 : Nat) : Int)) k = (j : Int)),
            (rd [1, 2, (3 : Int)] ((fun k : Fin 3 => (k.val : Int)) k)).getD 0))) :=
  ⟨by decide, by decide, by decide,
    C8_combine_order_independence cfgDebug (noExt Int) false false 3
      (fun k : Fin 3 => (k.val : Int)) (fun k : Fin 3 => ((k.val % 2 : Nat) : Int))
      (Equiv.swap (0 : Fin 3) 2) [1, 2, 3] [10, 20] .ADD_VALUES (by decide) (by decide)
      (by decide)⟩



theorem PtoS_rest_size_mismatch (cfg : Config) (bld : Builders) (ctx : VecScatter)
    (ix iy : IS) (ev : List CommEvent) (hlen : ISGetLocalSize ix ≠ ISGetLocalSize iy) :
    VecScatterCreate_PtoS_rest cfg bld ctx ix iy ev = ⟨.ERR_ARG_SIZ, ctx, ev⟩ := by
  unfold VecScatterCreate_PtoS_rest
  cases ix <;> cases iy <;>
    simp only [isBlockType, isStrideType, ISGetBlockSize, ISBlockGetLocalSize,
      ISGetLocalSize, ISStrideGetInfo] at hlen ⊢ <;>
    simp only [Bool.false_eq_true, false_and, and_false, if_false, hlen, ne_eq,
      not_false_eq_true, if_true, true_and] <;>
    split_ifs <;> first
      | rfl
      | (exfalso; rename_i h1 h2; apply hlen; exact_mod_cast h2.symm)
      | (exfalso; rename_i h1 h2; apply hlen
         have hb : _ = _ := Nat.cast_inj.mp h1.1
         rw [hb, h2])



theorem StoP_rest_size_mismatch (cfg : Config) (bld : Builders) (ctx : VecScatter)
    (ix iy : IS) (ev : List CommEvent) (hlen : ISGetLocalSize ix ≠ ISGetLocalSize iy) :
    VecScatterCreate_StoP_rest cfg bld ctx (isTypeId ix) (isTypeId iy) ix iy ev =
      ⟨.ERR_ARG_SIZ, ctx, ev⟩ := by
  unfold VecScatterCreate_StoP_rest
  cases ix <;> cases iy <;>
    simp only [isTypeId, isBlockType, isStrideType, ISGetBlockSize, ISBlockGetLocalSize,
      ISGetLocalSize, ISStrideGetInfo, IS_GENERAL_ID, IS_STRIDE_ID, IS_BLOCK_ID] at hlen ⊢ <;>
    simp only [Bool.false_eq_true, false_and, and_false, if_false, hlen, ne_eq,
      not_false_eq_true, if_true, true_and, reduceCtorEq] <;>
    split_ifs <;> first
      | rfl
      | (exfalso; rename_i h1 h2; apply hlen; exact_mod_cast h2.symm)
      | simp_all

/-- The claim C5 fails for descriptors that are not both Stride: a process with a General
source of length 1 and a General destination of length 2 takes part in three all-reduces
before `VecScatterCreate_PtoS` reports SizeMismatch. -/
theorem C5_size_mismatch_after_allreduce_counterexample :
    ISGetLocalSize (.general [0]) ≠ ISGetLocalSize (.general [0, 1]) ∧
    (VecScatterCreate_PtoS cfgDebug noBuilders (fun _ => false)
      (ptosCtx "mpi1" 2 0 6 0 3 [0, 3, 6] (.general [0]) (.general [0, 1]) 2)).map
        (fun r => (r.ierr, r.events)) =
      some (.ERR_ARG_SIZ, [.allreduce false, .allreduce false, .allreduce false]) := by
  decide

/-- C5, amended: in Distributed-to-Local and Local-to-Distributed Create a process whose two
index sets have different lengths reports SizeMismatch, leaves the context as it was and
calls no peer-set builder; when both index sets are Stride it does so before any all-reduce,
otherwise after having taken part, with the flag false, in the three all-reduces of
`VecScatterCreate_PtoS`, respectively in the one of `VecScatterCreate_StoP`. -/
theorem C5_size_mismatch_before_builder (cfg : Config) (bld : Builders) (ctx : VecScatter)
    (ix iy : IS) (hix : ctx.from_is = some ix) (hiy : ctx.to_is = some iy)
    (hlen : ISGetLocalSize ix ≠ ISGetLocalSize iy) :
    (∀ cando : Nat → Bool,
      VecScatterCreate_PtoS cfg bld cando ctx =
        some ⟨.ERR_ARG_SIZ, ctx,
          if isStrideType ix = true ∧ isStrideType iy = true then []
          else [.allreduce false, .allreduce false, .allreduce false]⟩) ∧
    (∀ cando : Bool,
      VecScatterCreate_StoP cfg bld cando ctx =
        ⟨.ERR_ARG_SIZ, ctx,
          if isStrideType ix = true ∧ isStrideType iy = true then []
          else [.allreduce false]⟩) ∧
    (∀ e ∈ (if isStrideType ix = true ∧ isStrideType iy = true then []
        else [CommEvent.allreduce false, .allreduce false, .allreduce false]),
      e.isBuild = false) := by
  have hS : (isTypeId ix = IS_STRIDE_ID ∧ isTypeId iy = IS_STRIDE_ID) ↔
      (isStrideType ix = true ∧ isStrideType iy = true) := by
    cases ix <;> cases iy <;>
      simp [isTypeId, isStrideType, isBlockType, IS_STRIDE_ID, IS_BLOCK_ID, IS_GENERAL_ID]
  refine ⟨?_, ?_, ?_⟩
  · intro cando
    simp only [VecScatterCreate_PtoS, GetInputISType_private, hix, hiy, effectiveIS, hS,
      VecScatterCreate_PtoS_toAll, VecScatterCreate_PtoS_toOne]
    by_cases hs : isStrideType ix = true ∧ isStrideType iy = true
    · simp [hs, hlen]
    · simp only [hs, if_false, PtoS_rest_size_mismatch cfg bld ctx ix iy _ hlen]
      rfl
  · intro cando
    simp only [VecScatterCreate_StoP, GetInputISType_private, hix, hiy, effectiveIS, hS]
    by_cases hs : isStrideType ix = true ∧ isStrideType iy = true
    · simp [hs, hlen]
    · simp only [hs, if_false, StoP_rest_size_mismatch cfg bld ctx ix iy _ hlen]
  · intro e he
    split_ifs at he
    · cases he
    · simp only [List.mem_cons, List.mem_singleton, or_self, List.not_mem_nil, or_false] at he
      subst he
      rfl

/-- Witness of C5: a Block source of 2 blocks of size 2 against a Stride destination of
length 3, and two Strides of lengths 2 and 3. -/
theorem C5_size_mismatch_before_builder_witness :
    (ptosCtx "mpi3" 2 1 6 3 6 [0, 3, 6] (.block 2 [0, 1]) (.stride 3 0 1) 3).from_is =
      some (.block 2 [0, 1]) ∧
    (ptosCtx "mpi3" 2 1 6 3 6 [0, 3, 6] (.block 2 [0, 1]) (.stride 3 0 1) 3).to_is =
      some (.stride 3 0 1) ∧
    ISGetLocalSize (.block 2 [0, 1]) ≠ ISGetLocalSize (.stride 3 0 1) ∧
    ((∀ cando : Nat → Bool,
      VecScatterCreate_PtoS cfgDebug noBuilders cando
          (ptosCtx "mpi3" 2 1 6 3 6 [0, 3, 6] (.block 2 [0, 1]) (.stride 3 0 1) 3) =
        some ⟨.ERR_ARG_SIZ, ptosCtx "mpi3" 2 1 6 3 6 [0, 3, 6] (.block 2 [0, 1])
            (.stride 3 0 1) 3,
          if isStrideType (.block 2 [0, 1]) = true ∧ isStrideType (.stride 3 0 1) = true
          then [] else [.allreduce false, .allreduce false, .allreduce false]⟩) ∧
    (∀ cando : Bool,
      VecScatterCreate_StoP cfgDebug noBuilders cando
          (ptosCtx "mpi3" 2 1 6 3 6 [0, 3, 6] (.block 2 [0, 1]) (.stride 3 0 1) 3) =
        ⟨.ERR_ARG_SIZ, ptosCtx "mpi3" 2 1 6 3 6 [0, 3, 6] (.block 2 [0, 1])
            (.stride 3 0 1) 3,
          if isStrideType (.block 2 [0, 1]) = true ∧ isStrideType (.stride 3 0 1) = true
          then [] else [.allreduce false]⟩) ∧
    (∀ e ∈ (if isStrideType (.block 2 [0, 1]) = true ∧ isStrideType (.stride 3 0 1) = true
        then [] else [CommEvent.allreduce false, .allreduce false, .allreduce false]),
      e.isBuild = false)) ∧
    VecScatterCreate_PtoS cfgDebug noBuilders (fun _ => true)
        (ptosCtx "mpi1" 2 0 6 0 3 [0, 3, 6] (.stride 2 0 1) (.stride 3 0 1) 3) =
      some ⟨.ERR_ARG_SIZ, ptosCtx "mpi1" 2 0 6 0 3 [0, 3, 6] (.stride 2 0 1) (.stride 3 0 1) 3,
        []⟩ :=
  ⟨by decide, by decide, by decide,
    C5_size_mismatch_before_builder cfgDebug noBuilders
      (ptosCtx "mpi3" 2 1 6 3 6 [0, 3, 6] (.block 2 [0, 1]) (.stride 3 0 1) 3)
      (.block 2 [0, 1]) (.stride 3 0 1) (by decide) (by decide) (by decide),
    by decide⟩



theorem check_ok_mem (nmax : Nat) (n : Nat) (idx : List Int)
    (h : VecScatterCheckIndices_Private (nmax : Int) n idx = .ok) :
    ∀ k ∈ idx.take n, InRange nmax k := by
  unfold VecScatterCheckIndices_Private at h
  split at h
  · cases h
  · rename_i hany
    intro k hk
    simp only [List.any_eq_true, not_exists, not_and, Bool.or_eq_true, decide_eq_true_eq,
      not_or, not_lt, ge_iff_le, not_le] at hany
    exact hany k hk

theorem check_fail_of_mem (nmax : Nat) (n : Nat) (idx : List Int) (hn : idx.length ≤ n)
    (h : ∃ k ∈ idx, ¬ InRange nmax k) :
    VecScatterCheckIndices_Private (nmax : Int) n idx ≠ .ok := by
  intro hok
  obtain ⟨k, hk, hnot⟩ := h
  have := check_ok_mem nmax n idx hok k (by rw [List.take_of_length_le hn]; exact hk)
  exact hnot this

theorem createSeq_vslots (cfg : Config) (merge pack : Bool) (A B : IS) (nx ny : Nat)
    (hdbg : cfg.useDebug = true)
    (hok : (createSeq cfg merge pack A B nx ny).1 = .ok) :
    (∀ k ∈ (createSeq cfg merge pack A B nx ny).2.fromdata.vslots, InRange nx k) ∧
    (∀ k ∈ (createSeq cfg merge pack A B nx ny).2.todata.vslots, InRange ny k) := by
  have mA := check_ok_mem nx (ISGetLocalSize A) (ISGetIndices A)
  have mB := check_ok_mem ny (ISGetLocalSize B) (ISGetIndices B)
  have cA := check_cases nx (ISGetLocalSize A) (ISGetIndices A)
  have cB := check_cases ny (ISGetLocalSize B) (ISGetIndices B)
  by_cases hlen : ISGetLocalSize A = ISGetLocalSize B
  swap
  · rcases createSeq_code cfg merge pack A B nx ny with ⟨_, h2⟩ | ⟨h1, _⟩
    · rw [h2] at hok; cases hok
    · exact absurd h1 hlen
  revert hok
  rw [hlen] at mA cA
  cases A <;> cases B <;>
    simp only [createSeq, VecScatterCreate_Seq, VecScatterCreate_setup,
      VecScatterCreateEmpty, GetInputISType_private, effectiveIS, seqLayout, hlen, ne_eq,
      not_true, if_false, isTypeId, isStrideType, isBlockType, IS_GENERAL_ID, IS_STRIDE_ID,
      IS_BLOCK_ID, hdbg, true_and] <;>
    simp
  all_goals try split_ifs
  all_goals simp_all [ScatterData.vslots]



/-- The claim C6 fails for Stride index sets: in a debug build local Create accepts the
Stride source 5, 6 on an array of length 3 and installs it as `(first 5, step 1, n 2)`. -/
theorem C6_stride_not_checked_counterexample :
    cfgDebug.useDebug = true ∧
    (∃ k ∈ ISGetIndices (.stride 2 5 1), ¬ InRange 3 k) ∧
    (createSeq cfgDebug false false (.stride 2 5 1) (.stride 2 0 1) 3 3).1 = .ok ∧
    (createSeq cfgDebug false false (.stride 2 5 1) (.stride 2 0 1) 3 3).2.fromdata =
      .seqStride ⟨.VEC_SCATTER_SEQ_STRIDE, 2, 5, 1⟩ := by
  decide

/-- C6, amended: in a debug build, local Create on index sets of equal length fails with
IndexOutOfRange whenever an index list that it checks (`checksSource`, `checksDest`: the
list of a General index set paired with a General or Stride one, and both expanded lists
when a Block is involved and not both sides are the identity) has an entry outside its
array; and a plan that it installs has no out-of-range entry in its index tables. A Stride
kept as `(first, step, n)` is not checked. -/
theorem C6_checked_index_lists (cfg : Config) (merge pack : Bool) (A B : IS) (nx ny : Nat)
    (hdbg : cfg.useDebug = true) (hlen : ISGetLocalSize A = ISGetLocalSize B) :
    (((checksSource A B = true ∧ ∃ k ∈ ISGetIndices A, ¬ InRange nx k) ∨
        (checksDest A B = true ∧ ∃ k ∈ ISGetIndices B, ¬ InRange ny k)) →
      (createSeq cfg merge pack A B nx ny).1 = .ERR_ARG_OUTOFRANGE) ∧
    ((createSeq cfg merge pack A B nx ny).1 = .ok →
      (∀ k ∈ (createSeq cfg merge pack A B nx ny).2.fromdata.vslots, InRange nx k) ∧
      (∀ k ∈ (createSeq cfg merge pack A B nx ny).2.todata.vslots, InRange ny k)) := by
  refine ⟨?_, createSeq_vslots cfg merge pack A B nx ny hdbg⟩
  intro h
  rw [createSeq_fst, if_neg (not_not.mpr hlen), if_pos]
  refine ⟨hdbg, ?_⟩
  rcases h with ⟨h1, h2⟩ | ⟨h1, h2⟩
  · exact Or.inr ⟨h1, check_fail_of_mem nx _ _ (le_of_eq (length_ISGetIndices A)) h2⟩
  · exact Or.inl ⟨h1, check_fail_of_mem ny _ _ (le_of_eq (length_ISGetIndices B)) h2⟩

/-- Witness of C6: a General source with the entry 7 on an array of length 3 is rejected,
and the tables of an accepted plan are in range. -/
theorem C6_checked_index_lists_witness :
    cfgDebug.useDebug = true ∧
    ISGetLocalSize (.general [0, 7]) = ISGetLocalSize (.stride 2 0 1) ∧
    ((checksSource (.general [0, 7]) (.stride 2 0 1) = true ∧
        ∃ k ∈ ISGetIndices (.general [0, 7]), ¬ InRange 3 k) ∨
      (checksDest (.general [0, 7]) (.stride 2 0 1) = true ∧
        ∃ k ∈ ISGetIndices (.stride 2 0 1), ¬ InRange 3 k)) ∧
    (createSeq cfgDebug false false (.general [0, 7]) (.stride 2 0 1) 3 3).1 =
      .ERR_ARG_OUTOFRANGE ∧
    ISGetLocalSize (.general [1, 0]) = ISGetLocalSize (.general [0, 1]) ∧
    (createSeq cfgDebug false false (.general [1, 0]) (.general [0, 1]) 2 2).1 = .ok ∧
    ((∀ k ∈ (createSeq cfgDebug false false (.general [1, 0]) (.general [0, 1])
        2 2).2.fromdata.vslots, InRange 2 k) ∧
      (∀ k ∈ (createSeq cfgDebug false false (.general [1, 0]) (.general [0, 1])
        2 2).2.todata.vslots, InRange 2 k)) :=
  ⟨by decide, by decide, by decide,
    (C6_checked_index_lists cfgDebug false false (.general [0, 7]) (.stride 2 0 1) 3 3
      (by decide) (by decide)).1 (by decide),
    by decide, by decide,
    (C6_checked_index_lists cfgDebug false false (.general [1, 0]) (.general [0, 1]) 2 2
      (by decide) (by decide)).2 (by decide)⟩

end Claims

/-! ## Lemmas on remapping, group creation and collective runs -/

section RemapLemmas
variable {α : Type}

theorem callBegin_local_congr [Add α] [Max α] (cfg : Config) (ext : ExtRoutines α)
    (r : BeginRoutine) (hr : r.isLocal = true) (w : World α) (c : VecScatter)
    (h1 : c.todata = w.ctx.todata) (h2 : c.fromdata = w.ctx.fromdata) (addv : InsertMode)
    (mode : ScatterMode) :
    callBegin cfg ext r { w with ctx := c } addv mode =
      (callBegin cfg ext r w addv mode).map fun p => (p.1, { p.2 with ctx := c }) := by
  cases r <;> simp only [BeginRoutine.isLocal, Bool.false_eq_true] at hr <;>
    simp only [callBegin, VecScatterBegin_SGToSG, VecScatterBegin_SGToSS,
      VecScatterBegin_SGToSS_Stride1, VecScatterBegin_SSToSG, VecScatterBegin_SSToSG_Stride1,
      VecScatterBegin_SSToSS, h1, h2, Option.map_map] <;> rfl

theorem beginSizeError_markUnknown (scat : VecScatter) (x y : List α) (mode : ScatterMode) :
    beginSizeError (markUnknown scat) x y mode = false := by
  simp [beginSizeError, markUnknown]

theorem begin_local_eq [Add α] [Max α] (cfg : Config) (ext : ExtRoutines α)
    (w : World α) (r : BeginRoutine) (hb : w.ctx.ops.begin_ = some r)
    (hr : r.isLocal = true) (hend : w.ctx.ops.end_ = none) (hin : w.ctx.inuse = false)
    (addv : InsertMode) (mode : ScatterMode)
    (hs : cfg.useDebug = true → beginSizeError w.ctx w.x w.y mode = false) :
    VecScatterBegin cfg ext w addv mode =
      callBegin cfg ext r { w with ctx := { w.ctx with inuse := true } } addv mode := by
  have hs' : ¬ (cfg.useDebug = true ∧ beginSizeError w.ctx w.x w.y mode = true) := by
    rintro ⟨h1, h2⟩; rw [hs h1] at h2; cases h2
  unfold VecScatterBegin
  simp only [hs', hin, if_false, Bool.false_eq_true, hb]
  cases hcb : callBegin cfg ext r { w with ctx := { w.ctx with inuse := true } } addv mode with
  | none => rfl
  | some p =>
    obtain ⟨e, w2⟩ := p
    have hctx := (callBegin_local_ctx cfg ext r hr _ addv mode e w2 hcb).1
    by_cases he : e = .ok
    · subst he
      simp only [ne_eq, not_true_eq_false, if_false, hctx, hend]
    · simp only [ne_eq, he, not_false_eq_true, if_true]

theorem begin_markUnknown [Add α] [Max α] (cfg : Config) (ext : ExtRoutines α)
    (scat : VecScatter) (r : BeginRoutine) (hb : scat.ops.begin_ = some r)
    (hr : r.isLocal = true) (hend : scat.ops.end_ = none) (hin : scat.inuse = false)
    (x y : List α) (addv : InsertMode) (mode : ScatterMode)
    (hs : cfg.useDebug = true → beginSizeError scat x y mode = false) :
    VecScatterBegin cfg ext ⟨markUnknown scat, x, y⟩ addv mode =
      (VecScatterBegin cfg ext ⟨scat, x, y⟩ addv mode).map
        fun p => (p.1, { p.2 with ctx := markUnknown p.2.ctx }) := by
  rw [begin_local_eq cfg ext ⟨markUnknown scat, x, y⟩ r hb hr hend hin addv mode
      (fun _ => beginSizeError_markUnknown scat x y mode),
    begin_local_eq cfg ext ⟨scat, x, y⟩ r hb hr hend hin addv mode hs]
  have key := callBegin_local_congr cfg ext r hr
    (⟨{ scat with inuse := true }, x, y⟩ : World α)
    { markUnknown scat with inuse := true } rfl rfl addv mode
  rw [show (⟨{ markUnknown scat with inuse := true }, x, y⟩ : World α) =
    { (⟨{ scat with inuse := true }, x, y⟩ : World α) with
      ctx := { markUnknown scat with inuse := true } } from rfl, key]
  cases hcb : callBegin cfg ext r (⟨{ scat with inuse := true }, x, y⟩ : World α) addv mode with
  | none => rfl
  | some p =>
    obtain ⟨e, w2⟩ := p
    have hctx := (callBegin_local_ctx cfg ext r hr _ addv mode e w2 hcb).1
    simp only [Option.map_some', hctx]
    rfl

theorem sizeError_of_sizesMatch (scat : VecScatter) (x y : List α) (mode : ScatterMode)
    (hs : SizesMatch scat x y mode) : beginSizeError scat x y mode = false := by
  by_cases h : 0 ≤ scat.from_n ∧ 0 ≤ scat.to_n
  · have := (beginSizeError_iff scat x y mode h.1 h.2).not.mpr (not_not.mpr hs)
    simpa using this
  · unfold beginSizeError
    rw [if_neg h]

theorem end_markUnknown (ext : ExtRoutines α) (c : VecScatter) (x y : List α)
    (addv : InsertMode) (mode : ScatterMode) (hend : c.ops.end_ = none) :
    VecScatterEnd ext ⟨markUnknown c, x, y⟩ addv mode =
      (VecScatterEnd ext ⟨c, x, y⟩ addv mode).map
        fun p => (p.1, { p.2 with ctx := markUnknown p.2.ctx }) := by
  simp only [VecScatterEnd, markUnknown, hend, Option.map_some']

end RemapLemmas

section RemapIdentity

theorem rd_identityMap (m : Nat) (v : Int) (h : InRange m v) : rd (identityMap m) v = some v := by
  obtain ⟨h0, h1⟩ := h
  have hlt : v.toNat < m := by omega
  simp only [rd, h0, if_true, identityMap]
  rw [List.getElem?_map, List.getElem?_range hlt]
  simp only [Option.map_some', Option.some.injEq]
  omega

theorem set_getElem_eq {β : Type} (l : List β) (i : Nat) (h : i < l.length) :
    l.set i l[i] = l := by
  apply List.ext_getElem (by simp)
  intro n h1 h2
  rw [List.getElem_set]
  split
  · next hin => subst hin; rfl
  · rfl

theorem remapLoop_identity (m n : Nat) (v : List Int) (hn : n ≤ v.length)
    (hv : ∀ a ∈ v.take n, InRange m a) : remapLoop (identityMap m) n v = some v := by
  unfold remapLoop
  induction n with
  | zero => rfl
  | succ k ih =>
    rw [forLoop_succ, ih (by omega)]
    · have hk : k < v.length := by omega
      have hmem : v[k] ∈ v.take (k + 1) := by
        rw [List.mem_iff_getElem]
        exact ⟨k, by simp; omega, by simp⟩
      have h1 : rd v (k : Int) = some v[k] := by
        rw [rd_natCast]; exact List.getElem?_eq_getElem hk
      simp only [Option.some_bind, h1, rd_identityMap m _ (hv _ hmem)]
      rw [wr_of_inRange _ ⟨by omega, by omega⟩]
      simp only [Int.toNat_ofNat, Option.some.injEq]
      exact set_getElem_eq v k hk
    · intro a ha
      exact hv a (List.mem_of_mem_take (by
        have : v.take k = (v.take (k + 1)).take k := by simp [List.take_take]
        rw [this] at ha; exact ha))

theorem remapIsIdentity_identity (m n : Nat) (hn : n ≤ m) :
    remapIsIdentity (identityMap m) n = some true := by
  unfold remapIsIdentity
  induction n with
  | zero => rfl
  | succ k ih =>
    rw [List.range_succ, List.foldl_append, ih (by omega)]
    simp only [List.foldl_cons, List.foldl_nil]
    rw [rd_identityMap m _ ⟨by omega, by omega⟩]
    simp

end RemapIdentity

section GroupCreate

theorem selected_callBuilder (bld : Builders) (name : BuilderName) (nx : Nat) (idx : List Int)
    (ny : Nat) (idy : List Int) (bs : Int) (ctx : VecScatter) (ev : List CommEvent) :
    (callBuilder bld name nx idx ny idy bs ctx ev).selected = some (.peerSet bs) := by
  simp [callBuilder, CreateResult.selected]

theorem PtoS_rest_selected (cfg : Config) (bld : Builders) (ctx : VecScatter) (ix iy : IS)
    (ev : List CommEvent)
    (hok : (VecScatterCreate_PtoS_rest cfg bld ctx ix iy ev).ierr = .ok) :
    ∃ bs, (VecScatterCreate_PtoS_rest cfg bld ctx ix iy ev).selected = some (.peerSet bs) := by
  unfold VecScatterCreate_PtoS_rest at hok ⊢
  simp only at hok ⊢
  split_ifs at hok ⊢ <;>
    exact ⟨_, selected_callBuilder _ _ _ _ _ _ _ _ _⟩

theorem installToAll_begin (cfg : Config) (fmt : VecScatterFormat) (b : BeginRoutine)
    (ctx : VecScatter) (p : PetscErrorCode × VecScatter)
    (h : installToAll cfg fmt b ctx = some p) (hok : p.1 = .ok) :
    p.2.ops.begin_ = some b := by
  unfold installToAll at h
  simp only at h
  split_ifs at h
  · simp only [Option.some.injEq] at h
    subst h
    simp at hok
  · simp only [Option.some.injEq] at h
    subst h
    simp

/-- For a process with a stride on both sides that returns without error in a 32-bit index
build, the specialization is decided by the results of the three all-reduces alone. -/
theorem PtoS_selected_stride (cfg : Config) (h32 : cfg.use64BitIndices = false)
    (bld : Builders) (cando : Nat → Bool) (ctx : VecScatter) (r : CreateResult)
    (hs : PtoS_bothStride ctx = true)
    (h : VecScatterCreate_PtoS cfg bld cando ctx = some r) (hok : r.ierr = .ok) :
    (cando 0 = true → r.selected = some .localExtraction) ∧
    (cando 0 = false → cando 1 = true → r.selected = some .broadcast) ∧
    (cando 0 = false → cando 1 = false → cando 2 = true → r.selected = some .gatherToRoot) ∧
    (cando 0 = false → cando 1 = false → cando 2 = false →
      ∃ bs, r.selected = some (.peerSet bs)) := by
  unfold PtoS_bothStride at hs
  unfold VecScatterCreate_PtoS at h
  cases hty : GetInputISType_private ctx VEC_MPI_ID VEC_SEQ_ID with
  | error e => simp [hty] at hs
  | ok ty =>
    simp only [hty, decide_eq_true_eq] at hs h
    cases hix : effectiveIS ty.tix ctx.from_is with
    | none =>
      simp only [hix, Option.some.injEq] at h
      subst h
      simp at hok
    | some ix =>
      cases hiy : effectiveIS ty.tiy ctx.to_is with
      | none =>
        simp only [hix, hiy, Option.some.injEq] at h
        subst h
        simp at hok
      | some iy =>
        simp only [hix, hiy, hs, and_self, if_true] at h
        by_cases hn : ISGetLocalSize ix = ISGetLocalSize iy
        · simp only [hn, ne_eq, not_true_eq_false, if_false] at h
          cases h0 : cando 0
          · simp only [h0, Bool.false_eq_true, if_false, VecScatterCreate_PtoS_toAll, hs,
              and_self, if_true, hn, ne_eq, not_true_eq_false, h32, false_implies, and_true] at h
            cases h1 : cando 1
            · simp only [h1, Bool.false_eq_true, if_false, VecScatterCreate_PtoS_toOne, hs,
                and_self, if_true, hn, ne_eq, not_true_eq_false, h32, false_implies,
                and_true] at h
              cases h2 : cando 2
              · simp only [h2, Bool.false_eq_true, if_false, Option.some.injEq] at h
                subst h
                refine ⟨by simp, by simp, by simp, fun _ _ _ => ?_⟩
                exact PtoS_rest_selected cfg bld ctx ix iy _ hok
              · simp only [h2, if_true, Option.map_eq_some'] at h
                obtain ⟨p, hp, rfl⟩ := h
                have hb := installToAll_begin cfg _ _ ctx p hp hok
                refine ⟨by simp, by simp, fun _ _ _ => ?_, by simp⟩
                simp [CreateResult.selected, hb]
            · simp only [h1, if_true, Option.map_eq_some'] at h
              obtain ⟨p, hp, rfl⟩ := h
              have hb := installToAll_begin cfg _ _ ctx p hp hok
              refine ⟨by simp, fun _ _ => ?_, by simp, by simp⟩
              simp [CreateResult.selected, hb]
          · simp only [h0, if_true, Option.some.injEq] at h
            subst h
            refine ⟨fun _ => ?_, by simp, by simp, by simp⟩
            simp [CreateResult.selected]
        · simp only [hn, ne_eq, not_false_eq_true, if_true, Option.some.injEq] at h
          subst h
          simp at hok

end GroupCreate

section GroupCreate2

theorem allreduceFlags_append_build (ev : List CommEvent) (name : BuilderName) (nx : Nat)
    (idx : List Int) (ny : Nat) (idy : List Int) (bs : Int) :
    allreduceFlags (ev ++ [.build name nx idx ny idy bs]) = allreduceFlags ev := by
  induction ev with
  | nil => rfl
  | cons e ev ih => cases e <;> simp [allreduceFlags, ih]

theorem allreduceFlags_append_allreduce (ev : List CommEvent) (f : Bool) :
    allreduceFlags (ev ++ [.allreduce f]) = allreduceFlags ev ++ [f] := by
  induction ev with
  | nil => rfl
  | cons e ev ih => cases e <;> simp [allreduceFlags, ih]

theorem PtoS_rest_flags (cfg : Config) (bld : Builders) (ctx : VecScatter) (ix iy : IS)
    (ev : List CommEvent) :
    allreduceFlags (VecScatterCreate_PtoS_rest cfg bld ctx ix iy ev).events =
      allreduceFlags ev := by
  unfold VecScatterCreate_PtoS_rest
  simp only
  split_ifs <;> simp [callBuilder, allreduceFlags_append_build]

theorem ISCreateStride_error (n first step : Int) (e : PetscErrorCode) {β : Type}
    (f : IS → β) (h : (ISCreateStride n first step).map f = .error e) : e ≠ .ok := by
  unfold ISCreateStride at h
  split_ifs at h
  · cases h
    decide
  · cases h

theorem GetInputISType_error (ctx : VecScatter) (a b : Nat) (e : PetscErrorCode)
    (h : GetInputISType_private ctx a b = .error e) : e ≠ .ok := by
  unfold GetInputISType_private at h
  simp only at h
  split at h
  · next e' hx =>
    cases h
    split at hx
    · cases hx
    · split_ifs at hx
      · exact ISCreateStride_error _ _ _ _ _ hx
      · exact ISCreateStride_error _ _ _ _ _ hx
      · exact ISCreateStride_error _ _ _ _ _ hx
      · cases hx
        decide
  · split at h
    · next e' hy =>
      cases h
      split at hy
      · cases hy
      · split_ifs at hy
        · exact ISCreateStride_error _ _ _ _ _ hy
        · exact ISCreateStride_error _ _ _ _ _ hy
        · exact ISCreateStride_error _ _ _ _ _ hy
        · cases hy
          decide
    · cases h

/-- A process without a stride on both sides contributes false to every all-reduce and
ignores their results. -/
theorem PtoS_nonstride (cfg : Config) (bld : Builders) (cando : Nat → Bool) (ctx : VecScatter)
    (hs : PtoS_bothStride ctx = false) :
    VecScatterCreate_PtoS cfg bld cando ctx =
      VecScatterCreate_PtoS cfg bld (fun _ => false) ctx ∧
    (∀ k, PtoS_flag cfg ctx k ≠ some true) ∧
    (∀ r, VecScatterCreate_PtoS cfg bld cando ctx = some r → r.ierr = .ok →
      ∃ bs, r.selected = some (.peerSet bs)) := by
  unfold PtoS_bothStride at hs
  unfold PtoS_flag
  unfold VecScatterCreate_PtoS
  cases hty : GetInputISType_private ctx VEC_MPI_ID VEC_SEQ_ID with
  | error e =>
    refine ⟨rfl, by simp [allreduceFlags], ?_⟩
    intro r h hok
    simp only [Option.some.injEq] at h
    subst h
    exact absurd hok (GetInputISType_error ctx _ _ e hty)
  | ok ty =>
    simp only [hty, decide_eq_false_iff_not] at hs
    simp only
    cases hix : effectiveIS ty.tix ctx.from_is with
    | none =>
      refine ⟨rfl, by simp [allreduceFlags], ?_⟩
      intro r h hok
      simp only [Option.some.injEq] at h
      subst h
      simp at hok
    | some ix =>
      cases hiy : effectiveIS ty.tiy ctx.to_is with
      | none =>
        refine ⟨rfl, by simp [allreduceFlags], ?_⟩
        intro r h hok
        simp only [Option.some.injEq] at h
        subst h
        simp at hok
      | some iy =>
        simp only [hs, if_false, VecScatterCreate_PtoS_toAll, VecScatterCreate_PtoS_toOne]
        refine ⟨trivial, ?_, ?_⟩
        · intro k
          simp only [Option.some_bind, PtoS_rest_flags, allreduceFlags]
          intro hk
          have : k < 3 := by
            by_contra hc
            rw [List.getElem?_eq_none (by simp; omega)] at hk
            cases hk
          interval_cases k <;> simp at hk
        · intro r h hok
          simp only [Option.some.injEq] at h
          subst h
          exact PtoS_rest_selected cfg bld ctx ix iy _ hok

theorem groupCando_false_of_nonstride (cfg : Config) (ctxs : List VecScatter) (c : VecScatter)
    (hc : c ∈ ctxs) (hs : PtoS_bothStride c = false) (k : Nat) : groupCando cfg ctxs k = false := by
  unfold groupCando
  rw [List.all_eq_false]
  refine ⟨c, hc, ?_⟩
  have := (PtoS_nonstride cfg noBuilders (fun _ => false) c hs).2.1 k
  simpa using this

/-- The processes of a group that all return without error in a 32-bit index build end on
one and the same kind of specialization. -/
theorem group_selection_cases (cfg : Config) (h32 : cfg.use64BitIndices = false)
    (bld : Builders) (ctxs : List VecScatter)
    (hok : ∀ o ∈ VecScatterCreate_PtoS_group cfg bld ctxs, ∃ r, o = some r ∧ r.ierr = .ok) :
    (groupCando cfg ctxs 0 = true ∧
      ∀ o ∈ VecScatterCreate_PtoS_group cfg bld ctxs,
        ∃ r, o = some r ∧ r.selected = some .localExtraction) ∨
    (groupCando cfg ctxs 0 = false ∧ groupCando cfg ctxs 1 = true ∧
      ∀ o ∈ VecScatterCreate_PtoS_group cfg bld ctxs,
        ∃ r, o = some r ∧ r.selected = some .broadcast) ∨
    (groupCando cfg ctxs 0 = false ∧ groupCando cfg ctxs 1 = false ∧
      groupCando cfg ctxs 2 = true ∧
      ∀ o ∈ VecScatterCreate_PtoS_group cfg bld ctxs,
        ∃ r, o = some r ∧ r.selected = some .gatherToRoot) ∨
    (groupCando cfg ctxs 0 = false ∧ groupCando cfg ctxs 1 = false ∧
      groupCando cfg ctxs 2 = false ∧
      ∀ o ∈ VecScatterCreate_PtoS_group cfg bld ctxs,
        ∃ r bs, o = some r ∧ r.selected = some (.peerSet bs)) := by
  have hmem : ∀ o ∈ VecScatterCreate_PtoS_group cfg bld ctxs, ∃ c ∈ ctxs, ∃ r,
      VecScatterCreate_PtoS cfg bld (groupCando cfg ctxs) c = some r ∧ o = some r ∧
      r.ierr = .ok := by
    intro o ho
    obtain ⟨r, hr, hrok⟩ := hok o ho
    unfold VecScatterCreate_PtoS_group at ho
    obtain ⟨c, hc, hco⟩ := List.mem_map.mp ho
    exact ⟨c, hc, r, by rw [hco, hr], hr, hrok⟩
  by_cases hall : ∀ c ∈ ctxs, PtoS_bothStride c = true
  · cases h0 : groupCando cfg ctxs 0
    · cases h1 : groupCando cfg ctxs 1
      · cases h2 : groupCando cfg ctxs 2
        · refine Or.inr (Or.inr (Or.inr ⟨rfl, rfl, rfl, fun o ho => ?_⟩))
          obtain ⟨c, hc, r, hrun, hr, hrok⟩ := hmem o ho
          obtain ⟨bs, hbs⟩ := (PtoS_selected_stride cfg h32 bld _ c r (hall c hc) hrun hrok).2.2.2
            h0 h1 h2
          exact ⟨r, bs, hr, hbs⟩
        · refine Or.inr (Or.inr (Or.inl ⟨rfl, rfl, rfl, fun o ho => ?_⟩))
          obtain ⟨c, hc, r, hrun, hr, hrok⟩ := hmem o ho
          exact ⟨r, hr, (PtoS_selected_stride cfg h32 bld _ c r (hall c hc) hrun hrok).2.2.1
            h0 h1 h2⟩
      · refine Or.inr (Or.inl ⟨rfl, rfl, fun o ho => ?_⟩)
        obtain ⟨c, hc, r, hrun, hr, hrok⟩ := hmem o ho
        exact ⟨r, hr, (PtoS_selected_stride cfg h32 bld _ c r (hall c hc) hrun hrok).2.1 h0 h1⟩
    · refine Or.inl ⟨rfl, fun o ho => ?_⟩
      obtain ⟨c, hc, r, hrun, hr, hrok⟩ := hmem o ho
      exact ⟨r, hr, (PtoS_selected_stride cfg h32 bld _ c r (hall c hc) hrun hrok).1 h0⟩
  · push_neg at hall
    obtain ⟨c0, hc0, hs0⟩ := hall
    have hs0' : PtoS_bothStride c0 = false := by simpa using hs0
    have hk := groupCando_false_of_nonstride cfg ctxs c0 hc0 hs0'
    refine Or.inr (Or.inr (Or.inr ⟨hk 0, hk 1, hk 2, fun o ho => ?_⟩))
    obtain ⟨c, hc, r, hrun, hr, hrok⟩ := hmem o ho
    cases hsc : PtoS_bothStride c
    · obtain ⟨bs, hbs⟩ := (PtoS_nonstride cfg bld _ c hsc).2.2 r hrun hrok
      exact ⟨r, bs, hr, hbs⟩
    · obtain ⟨bs, hbs⟩ := (PtoS_selected_stride cfg h32 bld _ c r hsc hrun hrok).2.2.2
        (hk 0) (hk 1) (hk 2)
      exact ⟨r, bs, hr, hbs⟩

end GroupCreate2

section Layout
variable {α : Type}

theorem length_rangeFrom (o : Nat) (sizes : List Nat) :
    (rangeFrom o sizes).length = sizes.length + 1 := by
  induction sizes generalizing o with
  | nil => rfl
  | cons s rest ih => simp [rangeFrom, ih]

theorem getElem?_rangeFrom (o : Nat) (sizes : List Nat) (p : Nat) (hp : p ≤ sizes.length) :
    (rangeFrom o sizes)[p]? = some (((o + (sizes.take p).sum : Nat) : Int)) := by
  induction sizes generalizing o p with
  | nil =>
    have : p = 0 := by simpa using hp
    subst this
    simp [rangeFrom]
  | cons s rest ih =>
    cases p with
    | zero => simp [rangeFrom]
    | succ q =>
      simp only [rangeFrom, List.getElem?_cons_succ, List.take_succ_cons, List.sum_cons]
      rw [ih (o + s) q (by simpa using hp)]
      simp only [Option.some.injEq, Nat.cast_inj]
      omega

theorem getD_rangeFrom (o : Nat) (sizes : List Nat) (p : Nat) (hp : p ≤ sizes.length) :
    (rangeFrom o sizes).getD p 0 = ((o + (sizes.take p).sum : Nat) : Int) := by
  rw [List.getD_eq_getElem?_getD, getElem?_rangeFrom o sizes p hp]
  rfl

theorem range_step (sizes : List Nat) (p : Nat) (hp : p < sizes.length) :
    (rangeFrom 0 sizes).getD (p + 1) 0 - (rangeFrom 0 sizes).getD p 0 = (sizes.getD p 0 : Int) := by
  rw [getD_rangeFrom 0 sizes (p + 1) (by omega), getD_rangeFrom 0 sizes p (by omega)]
  have : (sizes.take (p + 1)).sum = (sizes.take p).sum + sizes.getD p 0 := by
    rw [List.take_succ, List.sum_append, List.getD_eq_getElem?_getD]
    simp [List.getElem?_eq_getElem hp]
  rw [this]
  push_cast
  ring

theorem map_getD_range (l : List α) (d : α) :
    (List.range l.length).map (fun p => l.getD p d) = l := by
  apply List.ext_getElem?
  intro i
  by_cases hi : i < l.length
  · rw [List.getElem?_map, List.getElem?_range hi]
    simp [List.getD_eq_getElem?_getD, List.getElem?_eq_getElem hi]
  · rw [List.getElem?_eq_none (by simpa using hi), List.getElem?_eq_none (by simpa using hi)]

theorem map_getD_take (l : List Int) (n : Nat) (hn : n ≤ l.length) :
    (List.range n).map (fun i => l.getD i 0) = l.take n := by
  apply List.ext_getElem?
  intro i
  by_cases hi : i < n
  · rw [List.getElem?_map, List.getElem?_range hi, List.getElem?_take]
    have : i < l.length := by omega
    simp [hi, List.getD_eq_getElem?_getD, List.getElem?_eq_getElem this]
  · rw [List.getElem?_eq_none (by simpa using hi), List.getElem?_eq_none]
    simp
    omega

/-- The table `count` that `installToAll` computes from the layout of `sizes`. -/
theorem count_of_layout (sizes : List Nat) :
    (List.range sizes.length).map
      (fun i => (rangeFrom 0 sizes).getD (i + 1) 0 - (rangeFrom 0 sizes).getD i 0) =
    sizes.map fun (s : Nat) => (s : Int) := by
  apply List.ext_getElem?
  intro i
  by_cases hi : i < sizes.length
  · rw [List.getElem?_map, List.getElem?_range hi, List.getElem?_map,
      List.getElem?_eq_getElem hi]
    simp only [Option.map_some', Option.some.injEq]
    rw [range_step sizes i hi, List.getD_eq_getElem?_getD, List.getElem?_eq_getElem hi]
    rfl
  · rw [List.getElem?_eq_none (by simpa using hi), List.getElem?_eq_none (by simpa using hi)]

end Layout

section Gather
variable {α : Type}

theorem memcpy_place (pre s tail : List α) :
    PetscMemcpy (pre ++ tail) (pre.length : Int) s 0 s.length =
      if s.length ≤ tail.length then some (pre ++ s ++ tail.drop s.length)
      else if s.length = 0 then some (pre ++ tail) else none := by
  unfold PetscMemcpy
  by_cases h0 : s.length = 0
  · have : s = [] := List.length_eq_zero.mp h0
    subst this
    simp
  · simp only [h0, if_false]
    by_cases hle : s.length ≤ tail.length
    · rw [if_pos hle, if_pos]
      · simp only [Int.toNat_ofNat, Int.toNat_zero, List.drop_zero, List.take_length,
          List.take_left', Option.some.injEq, List.append_assoc, List.append_cancel_left_eq]
        rw [List.drop_append_eq_append_drop]
        simp
      · refine ⟨by omega, ?_, le_refl _, ?_⟩
        · simp; omega
        · simp
    · rw [if_neg hle, if_neg]
      intro hc
      apply hle
      have := hc.2.1
      simp at this
      omega

theorem gather_fold (xs : List (List α)) (o : Nat) (pre tail : List α)
    (hpre : pre.length = o) (htail : tail.length = xs.flatten.length) :
    (xs.zip ((xs.map fun s => (s.length : Int)).zip
        ((rangeFrom o (xs.map List.length)).take xs.length))).foldl
      (fun acc s => acc.bind fun buf =>
        if (s.1.length : Int) = s.2.1 then PetscMemcpy buf s.2.2 s.1 0 s.1.length else none)
      (some (pre ++ tail)) = some (pre ++ xs.flatten) := by
  induction xs generalizing o pre tail with
  | nil =>
    have : tail = [] := List.length_eq_zero.mp (by simpa using htail)
    subst this
    simp
  | cons s rest ih =>
    simp only [List.map_cons, rangeFrom, List.length_cons, List.take_succ_cons, List.zip_cons_cons,
      List.foldl_cons, Option.some_bind, if_true]
    rw [← hpre, memcpy_place pre s tail]
    have hle : s.length ≤ tail.length := by
      rw [htail]; simp
    rw [if_pos hle]
    have := ih (pre.length + s.length) (pre ++ s) (tail.drop s.length) (by simp)
      (by simp [htail])
    rw [this]
    simp

/-- Gathering the parts `xs` of a parallel vector with the tables of its layout gives the
parts in rank order. -/
theorem gatherv_layout (xs : List (List α)) (buf : List α)
    (hbuf : buf.length = xs.flatten.length) :
    MPI_Gatherv xs buf ((xs.map List.length).map fun (s : Nat) => (s : Int))
      ((rangeFrom 0 (xs.map List.length)).take xs.length) = some xs.flatten := by
  unfold MPI_Gatherv
  rw [if_neg]
  · have := gather_fold xs 0 [] buf rfl hbuf
    simpa [List.map_map, Function.comp] using this
  · simp [length_rangeFrom]

end Gather

section Collective
variable {α : Type}

theorem flatten_slice (xs : List (List α)) (p : Nat) (hp : p < xs.length) :
    (xs.flatten.drop ((xs.map List.length).take p).sum).take (xs.getD p []).length =
      xs.getD p [] := by
  induction xs generalizing p with
  | nil => simp at hp
  | cons s rest ih =>
    cases p with
    | zero => simp
    | succ q =>
      simp only [List.flatten_cons, List.map_cons, List.take_succ_cons, List.sum_cons,
        List.getD_cons_succ]
      rw [List.drop_append_eq_append_drop]
      have h1 : s.length + ((rest.map List.length).take q).sum - s.length =
          ((rest.map List.length).take q).sum := by omega
      rw [List.drop_eq_nil_of_le (by omega), h1, List.nil_append]
      exact ih q (by simpa using hp)

theorem take_sum_le (sizes : List Nat) (p : Nat) (hp : p < sizes.length) :
    (sizes.take p).sum + sizes.getD p 0 ≤ sizes.sum := by
  have h1 : (sizes.take (p + 1)).sum = (sizes.take p).sum + sizes.getD p 0 := by
    rw [List.take_succ, List.sum_append, List.getD_eq_getElem?_getD]
    simp [List.getElem?_eq_getElem hp]
  have h2 := List.sum_take_add_sum_drop sizes (p + 1)
  omega

theorem getD_map_length (xs : List (List α)) (p : Nat) :
    (xs.map List.length).getD p 0 = (xs.getD p []).length := by
  simp only [List.getD_eq_getElem?_getD, List.getElem?_map]
  cases xs[p]? <;> rfl

/-- Copying the part of process `p` out of the concatenation of all parts. -/
theorem memcpy_slice (xs : List (List α)) (p : Nat) (hp : p < xs.length) (z : List α)
    (hz : z.length = (xs.getD p []).length) :
    PetscMemcpy z 0 xs.flatten ((((xs.map List.length).take p).sum : Nat) : Int) z.length =
      some (xs.getD p []) := by
  unfold PetscMemcpy
  by_cases h0 : z.length = 0
  · rw [if_pos h0]
    have h1 : z = [] := List.length_eq_zero.mp h0
    have h2 : xs.getD p [] = [] := List.length_eq_zero.mp (by omega)
    rw [h1, h2]
  · rw [if_neg h0, if_pos]
    · simp only [Int.toNat_zero, List.take_zero, Int.toNat_ofNat, zero_add, List.nil_append,
        Option.some.injEq]
      rw [List.drop_eq_nil_of_le (le_refl _), List.append_nil, hz]
      exact flatten_slice xs p hp
    · refine ⟨le_refl _, by simp, by omega, ?_⟩
      have := take_sum_le (xs.map List.length) p (by simpa using hp)
      rw [getD_map_length] at this
      simp only [Int.toNat_ofNat, List.length_flatten, hz]
      exact this

end Collective

section StrideRuns
variable {α : Type}

theorem foldl_min_le (l : List Int) (a : Int) :
    l.foldl min a ≤ a ∧ ∀ v ∈ l, l.foldl min a ≤ v := by
  induction l generalizing a with
  | nil => simp
  | cons b l ih =>
    simp only [List.foldl_cons, List.mem_cons, forall_eq_or_imp]
    have h := ih (min a b)
    exact ⟨le_trans h.1 (min_le_left _ _), le_trans h.1 (min_le_right _ _), h.2⟩

theorem le_foldl_max (l : List Int) (a : Int) :
    a ≤ l.foldl max a ∧ ∀ v ∈ l, v ≤ l.foldl max a := by
  induction l generalizing a with
  | nil => simp
  | cons b l ih =>
    simp only [List.foldl_cons, List.mem_cons, forall_eq_or_imp]
    have h := ih (max a b)
    exact ⟨le_trans (le_max_left _ _) h.1, le_trans (le_max_right _ _) h.1, h.2⟩

/-- Every index that an index set denotes lies between the two values of `ISGetMinMax`. -/
theorem ISGetMinMax_bounds (cfg : Config) (s : IS) (v : Int) (hv : v ∈ ISGetIndices s) :
    (ISGetMinMax cfg s).1 ≤ v ∧ v ≤ (ISGetMinMax cfg s).2 := by
  unfold ISGetMinMax
  cases h : ISGetIndices s with
  | nil => rw [h] at hv; cases hv
  | cons a l =>
    rw [h] at hv
    simp only
    rcases List.mem_cons.mp hv with rfl | hm
    · exact ⟨(foldl_min_le l v).1, (le_foldl_max l v).1⟩
    · exact ⟨(foldl_min_le l a).2 v hm, (le_foldl_max l a).2 v hm⟩

theorem mem_stride (n : Nat) (first step : Int) (i : Nat) (hi : i < n) :
    first + (i : Int) * step ∈ ISGetIndices (.stride n first step) := by
  simp only [ISGetIndices, List.mem_map, List.mem_range]
  exact ⟨i, hi, rfl⟩

/-- The run of `VecScatterCreate_PtoS` on a process both of whose descriptors are strides of
one length. -/
theorem PtoS_stride_unfold (cfg : Config) (bld : Builders) (cando : Nat → Bool)
    (ctx : VecScatter) (n : Nat) (ff fs tf ts : Int)
    (hx : ctx.from_is = some (.stride n ff fs)) (hy : ctx.to_is = some (.stride n tf ts)) :
    VecScatterCreate_PtoS cfg bld cando ctx =
      if cando 0 = true then
        some ⟨.ok, stridePlan ctx n tf ts (ff - ctx.from_v.rstart) fs,
          [.allreduce (decide ((ISGetMinMax cfg (.stride n ff fs)).1 ≥ ctx.from_v.rstart ∧
            (ISGetMinMax cfg (.stride n ff fs)).2 < ctx.from_v.rend))]⟩
      else if cando 1 = true ∧ (cfg.use64BitIndices = true → ctx.to_v.N < PETSC_MPI_INT_MAX) then
        (installToAll cfg .VEC_SCATTER_MPI_TOALL .MPI_ToAll ctx).map fun r =>
          ⟨r.1, r.2,
            [.allreduce (decide ((ISGetMinMax cfg (.stride n ff fs)).1 ≥ ctx.from_v.rstart ∧
              (ISGetMinMax cfg (.stride n ff fs)).2 < ctx.from_v.rend))] ++
            [.allreduce (totalTest n ctx.from_v.N (.stride n ff fs) (.stride n tf ts))]⟩
      else if cando 2 = true ∧ (cfg.use64BitIndices = true → ctx.to_v.N < PETSC_MPI_INT_MAX) then
        (installToAll cfg .VEC_SCATTER_MPI_TOONE .MPI_ToOne ctx).map fun r =>
          ⟨r.1, r.2,
            [.allreduce (decide ((ISGetMinMax cfg (.stride n ff fs)).1 ≥ ctx.from_v.rstart ∧
              (ISGetMinMax cfg (.stride n ff fs)).2 < ctx.from_v.rend))] ++
            [.allreduce (totalTest n ctx.from_v.N (.stride n ff fs) (.stride n tf ts))] ++
            [.allreduce (if ctx.from_v.rank = 0 then
                totalTest n ctx.from_v.N (.stride n ff fs) (.stride n tf ts)
              else decide (n = 0))]⟩
      else
        some (VecScatterCreate_PtoS_rest cfg bld ctx (.stride n ff fs) (.stride n tf ts)
          ([.allreduce (decide ((ISGetMinMax cfg (.stride n ff fs)).1 ≥ ctx.from_v.rstart ∧
              (ISGetMinMax cfg (.stride n ff fs)).2 < ctx.from_v.rend))] ++
            [.allreduce (totalTest n ctx.from_v.N (.stride n ff fs) (.stride n tf ts))] ++
            [.allreduce (if ctx.from_v.rank = 0 then
                totalTest n ctx.from_v.N (.stride n ff fs) (.stride n tf ts)
              else decide (n = 0))])) := by
  unfold VecScatterCreate_PtoS
  simp only [GetInputISType_private, hx, hy, effectiveIS, isTypeId, isStrideType, if_true,
    and_self, ISGetLocalSize, ne_eq, not_true_eq_false, if_false, ISStrideGetInfo,
    VecScatterCreate_PtoS_toAll, VecScatterCreate_PtoS_toOne, stridePlan]

/-- The flags that such a process contributes to the three all-reduces. -/
theorem PtoS_flag_stride (cfg : Config) (ctx : VecScatter) (n : Nat) (ff fs tf ts : Int)
    (hx : ctx.from_is = some (.stride n ff fs)) (hy : ctx.to_is = some (.stride n tf ts)) :
    PtoS_flag cfg ctx 0 = some (decide ((ISGetMinMax cfg (.stride n ff fs)).1 ≥
        ctx.from_v.rstart ∧ (ISGetMinMax cfg (.stride n ff fs)).2 < ctx.from_v.rend)) ∧
    PtoS_flag cfg ctx 1 =
      some (totalTest n ctx.from_v.N (.stride n ff fs) (.stride n tf ts)) ∧
    PtoS_flag cfg ctx 2 = some (if ctx.from_v.rank = 0 then
        totalTest n ctx.from_v.N (.stride n ff fs) (.stride n tf ts) else decide (n = 0)) := by
  unfold PtoS_flag
  rw [PtoS_stride_unfold cfg noBuilders _ ctx n ff fs tf ts hx hy]
  simp only [Bool.false_eq_true, if_false, false_and, Option.some_bind, PtoS_rest_flags]
  refine ⟨rfl, rfl, rfl⟩

end StrideRuns

section StrideBegin
variable {α : Type}

theorem mem_zip_stride (n : Nat) (tf ts ff fs : Int) (p : Int × Int) :
    p ∈ (ISGetIndices (.stride n tf ts)).zip (ISGetIndices (.stride n ff fs)) ↔
      ∃ i : Nat, i < n ∧ p = (tf + (i : Int) * ts, ff + (i : Int) * fs) := by
  simp only [ISGetIndices, List.zip_map', List.mem_map, List.mem_range]
  constructor
  · rintro ⟨i, hi, rfl⟩; exact ⟨i, hi, rfl⟩
  · rintro ⟨i, hi, rfl⟩; exact ⟨i, hi, rfl⟩

/-- A Forward Insert Begin on an idle Stride/Stride plan whose strides stay within `x` and
`y` and whose destination slots are distinct. -/
theorem begin_SS_insert [Add α] [Max α] (cfg : Config) (ext : ExtRoutines α) (c : VecScatter)
    (f1 f2 : VecScatterFormat) (n : Nat) (tf ts ff fs : Int)
    (hto : c.todata = .seqStride ⟨f1, n, tf, ts⟩)
    (hfrom : c.fromdata = .seqStride ⟨f2, n, ff, fs⟩)
    (hb : c.ops.begin_ = some .SSToSS) (hend : c.ops.end_ = none) (hin : c.inuse = false)
    (x y : List α)
    (hs : cfg.useDebug = true → beginSizeError c x y .SCATTER_FORWARD = false)
    (hy : ∀ i : Nat, i < n → InRange y.length (tf + (i : Int) * ts))
    (hx : ∀ i : Nat, i < n → InRange x.length (ff + (i : Int) * fs))
    (hinj : ts ≠ 0 ∨ n ≤ 1) :
    ∃ y', VecScatterBegin cfg ext ⟨c, x, y⟩ .INSERT_VALUES .SCATTER_FORWARD =
        some (.ok, ⟨{ c with inuse := true }, x, y'⟩) ∧
      ∀ i : Nat, i < n → rd y' (tf + (i : Int) * ts) = rd x (ff + (i : Int) * fs) := by
  rw [begin_local_eq cfg ext ⟨c, x, y⟩ .SSToSS hb rfl hend hin _ _ hs]
  simp only [callBegin]
  rw [kernel_SSToSS cfg { c with inuse := true } x y .INSERT_VALUES .SCATTER_FORWARD f1 f2 n
    tf ts ff fs hto hfrom]
  have hrev : ScatterMode.SCATTER_FORWARD.isReverse = false := rfl
  simp only [hrev, Bool.false_eq_true, if_false]
  have hins : modeOp (α := α) cfg .INSERT_VALUES = some (fun _ a => a) := rfl
  simp only [scatterPairs, hins]
  have hrun := runPairs_of_inRange (fun (_ : α) a => a) x
    ((ISGetIndices (.stride n tf ts)).zip (ISGetIndices (.stride n ff fs))) y (by
      intro p hp
      obtain ⟨i, hi, rfl⟩ := (mem_zip_stride n tf ts ff fs p).mp hp
      exact ⟨hy i hi, hx i hi⟩)
  rw [hrun]
  refine ⟨_, rfl, ?_⟩
  intro i hi
  refine runPairs_insert_values hrun ?_ (tf + (i : Int) * ts, ff + (i : Int) * fs)
    ((mem_zip_stride n tf ts ff fs _).mpr ⟨i, hi, rfl⟩)
  intro p hp q hq hpq
  obtain ⟨i1, hi1, rfl⟩ := (mem_zip_stride n tf ts ff fs p).mp hp
  obtain ⟨i2, hi2, rfl⟩ := (mem_zip_stride n tf ts ff fs q).mp hq
  simp only at hpq
  have : i1 = i2 := by
    rcases hinj with h | h
    · have h3 : ((i1 : Int) - (i2 : Int)) * ts = 0 := by linarith
      rcases mul_eq_zero.mp h3 with h4 | h4
      · omega
      · exact absurd h4 h
    · omega
  subst this
  rfl

theorem rd_local (X : List α) (s m : Nat) (k : Int) (hk : InRange m k) :
    rd ((X.drop s).take m) k = rd X ((s : Int) + k) := by
  obtain ⟨h0, h1⟩ := hk
  have h2 : 0 ≤ (s : Int) + k := by omega
  simp only [rd, h0, h2, if_true, List.getElem?_take, List.getElem?_drop]
  have h3 : k.toNat < m := by omega
  have h4 : ((s : Int) + k).toNat = s + k.toNat := by omega
  rw [if_pos h3, h4]

theorem rstart_mpiLayout (sizes : List Nat) (p : Nat) (hp : p < sizes.length) :
    (mpiLayout sizes p).rstart = (((sizes.take p).sum : Nat) : Int) ∧
    (mpiLayout sizes p).rend = (((sizes.take p).sum + sizes.getD p 0 : Nat) : Int) := by
  have h1 := getD_rangeFrom 0 sizes p (by omega)
  have h2 := range_step sizes p hp
  simp only [zero_add] at h1
  simp only [mpiLayout]
  refine ⟨h1, ?_⟩
  rw [h1] at h2
  rw [Nat.cast_add]
  linarith

end StrideBegin

section CollectiveBegin
variable {α : Type}

theorem mem_le_sum (sizes : List Nat) (s : Nat) (h : s ∈ sizes) : s ≤ sizes.sum := by
  induction sizes with
  | nil => cases h
  | cons a l ih =>
    rcases List.mem_cons.mp h with rfl | h
    · simp
    · have := ih h
      simp only [List.sum_cons]
      omega

theorem mem_rangeFrom_le (sizes : List Nat) (a : Int) (h : a ∈ rangeFrom 0 sizes) :
    a ≤ (sizes.sum : Int) := by
  obtain ⟨i, hi, hget⟩ := List.mem_iff_getElem.mp h
  rw [length_rangeFrom] at hi
  have h1 := getElem?_rangeFrom 0 sizes i (by omega)
  rw [List.getElem?_eq_getElem (by rw [length_rangeFrom]; omega), hget] at h1
  simp only [zero_add, Option.some.injEq] at h1
  rw [h1]
  have := List.sum_take_add_sum_drop sizes i
  exact_mod_cast (by omega : (sizes.take i).sum ≤ sizes.sum)

/-- What `installToAll` installs on a process of the parallel vector with local sizes
`sizes`, when the global length fits an MPI integer. -/
theorem installToAll_layout (cfg : Config) (fmt : VecScatterFormat) (b : BeginRoutine)
    (typ : String) (sizes : List Nat) (p : Nat) (ix iy : IS) (ny : Nat)
    (hfit : cfg.use64BitIndices = true → (sizes.sum : Int) ≤ PETSC_MPI_INT_MAX) :
    installToAll cfg fmt b (ptosMember typ sizes p ix iy ny) =
      some (.ok, { ptosMember typ sizes p ix iy ny with
        todata := .mpiToAll ⟨fmt, sizes.map fun (s : Nat) => (s : Int),
          (rangeFrom 0 sizes).take sizes.length, none, none⟩
        fromdata := .null
        ops := { begin_ := some b, end_ := none, destroy := some .MPI_ToAll,
                 copy := some .MPI_ToAll, view := some .MPI_ToAll } }) := by
  have hsize : (ptosMember typ sizes p ix iy ny).comm_size = sizes.length := rfl
  have hrange : (ptosMember typ sizes p ix iy ny).from_v.range = rangeFrom 0 sizes := rfl
  unfold installToAll
  simp only [hsize, hrange, length_rangeFrom, lt_irrefl, if_false, count_of_layout,
    map_getD_take (rangeFrom 0 sizes) sizes.length (by rw [length_rangeFrom]; omega)]
  rw [if_neg]
  rintro ⟨h64, hany⟩
  have hN := hfit h64
  rw [List.any_eq_true] at hany
  obtain ⟨a, ha, hgt⟩ := hany
  simp only [decide_eq_true_eq] at hgt
  rcases List.mem_append.mp ha with h | h
  · obtain ⟨s, hs, rfl⟩ := List.mem_map.mp h
    have := mem_le_sum sizes s hs
    have : (s : Int) ≤ (sizes.sum : Int) := by exact_mod_cast this
    omega
  · have := mem_rangeFrom_le sizes a (List.mem_of_mem_take h)
    omega

theorem callBegin_ext [Add α] [Max α] (cfg : Config) (ext : ExtRoutines α) (r : BeginRoutine)
    (hr : r.isLocal = false) (w : World α) (addv : InsertMode) (mode : ScatterMode) :
    callBegin cfg ext r w addv mode = ext.begin_ r w addv mode := by
  cases r <;> first | rfl | (simp [BeginRoutine.isLocal] at hr)

/-- Begin on an idle plan whose begin routine is outside the sequential kernels and returns
without error, leaving a plan without end routine. -/
theorem begin_ext_eq [Add α] [Max α] (cfg : Config) (ext : ExtRoutines α) (w : World α)
    (r : BeginRoutine) (hb : w.ctx.ops.begin_ = some r) (hr : r.isLocal = false)
    (hin : w.ctx.inuse = false) (addv : InsertMode) (mode : ScatterMode)
    (hs : cfg.useDebug = true → beginSizeError w.ctx w.x w.y mode = false) (w2 : World α)
    (hcall : ext.begin_ r { w with ctx := { w.ctx with inuse := true } } addv mode =
      some (.ok, w2))
    (hend : w2.ctx.ops.end_ = none) :
    VecScatterBegin cfg ext w addv mode = some (.ok, w2) := by
  have hs' : ¬ (cfg.useDebug = true ∧ beginSizeError w.ctx w.x w.y mode = true) := by
    rintro ⟨h1, h2⟩; rw [hs h1] at h2; cases h2
  unfold VecScatterBegin
  simp only [hs', hin, if_false, Bool.false_eq_true, hb, callBegin_ext cfg ext r hr, hcall,
    ne_eq, not_true_eq_false, hend]

end CollectiveBegin

section CollectiveRuns
variable {α : Type}

theorem collectivePlan_layout (cfg : Config) (fmt : VecScatterFormat) (b : BeginRoutine)
    (typ : String) (sizes : List Nat) (p : Nat) (ix iy : IS) (ny : Nat)
    (hfit : cfg.use64BitIndices = true → (sizes.sum : Int) ≤ PETSC_MPI_INT_MAX) :
    collectivePlan cfg fmt b (ptosMember typ sizes p ix iy ny) =
      { ptosMember typ sizes p ix iy ny with
        todata := .mpiToAll ⟨fmt, sizes.map fun (s : Nat) => (s : Int),
          (rangeFrom 0 sizes).take sizes.length, none, none⟩
        fromdata := .null
        ops := { begin_ := some b, end_ := none, destroy := some .MPI_ToAll,
                 copy := some .MPI_ToAll, view := some .MPI_ToAll } } := by
  unfold collectivePlan
  rw [installToAll_layout cfg fmt b typ sizes p ix iy ny hfit]

theorem toAll_forward_insert [Add α] [Max α] (cfg : Config) (grp : List (Member α))
    (w : World α) (xmap ymap : VecLayout) (scat : VecScatter_MPI_ToAll)
    (h : w.ctx.todata = .mpiToAll scat) :
    VecScatterBegin_MPI_ToAll cfg grp ⟨w, xmap, ymap⟩ .INSERT_VALUES .SCATTER_FORWARD =
      (MPI_Gatherv (grp.map fun m => m.w.x) w.y scat.count scat.displx).map fun yv =>
        (.ok, { w with y := yv }) := by
  have hrev : ScatterMode.SCATTER_FORWARD.isReverse = false := rfl
  simp only [VecScatterBegin_MPI_ToAll, h, hrev, Bool.false_eq_true, if_false, if_true]

theorem forwardGroup_xs (plan : Nat → VecScatter) (xs : List (List α)) (ys : Nat → List α) :
    (forwardGroup plan xs ys).map (fun m => m.w.x) = xs := by
  unfold forwardGroup
  rw [List.map_map]
  exact map_getD_range xs []

theorem sizes_forward [Add α] [Max α] (cfg : Config) (c : VecScatter) (x y : List α)
    (h1 : c.from_n = (x.length : Int)) (h2 : c.to_n = (y.length : Int)) :
    cfg.useDebug = true → beginSizeError c x y .SCATTER_FORWARD = false := by
  intro _
  apply sizeError_of_sizesMatch
  unfold SizesMatch
  have hrev : ScatterMode.SCATTER_FORWARD.isReverse = false := rfl
  simp only [hrev, Bool.false_eq_true, if_false]
  exact ⟨h2.symm, h1.symm⟩

/-- Forward Insert through a broadcast plan built for the layout of `xs`: every process
receives the concatenation of all local parts. -/
theorem groupBegin_broadcast [Add α] [Max α] (cfg : Config) (typ : String)
    (xs : List (List α)) (ys : Nat → List α) (ix iy : Nat → IS)
    (hfit : cfg.use64BitIndices = true →
      ((xs.map List.length).sum : Int) ≤ PETSC_MPI_INT_MAX)
    (hys : ∀ p, p < xs.length → (ys p).length = (xs.map List.length).sum) :
    groupBegin cfg (forwardGroup (fun p => collectivePlan cfg .VEC_SCATTER_MPI_TOALL .MPI_ToAll
        (ptosMember typ (xs.map List.length) p (ix p) (iy p) (xs.map List.length).sum)) xs ys)
        .INSERT_VALUES .SCATTER_FORWARD =
      (List.range xs.length).map fun p => some (.ok,
        ⟨{ collectivePlan cfg .VEC_SCATTER_MPI_TOALL .MPI_ToAll
            (ptosMember typ (xs.map List.length) p (ix p) (iy p) (xs.map List.length).sum)
            with inuse := true }, xs.getD p [], xs.flatten⟩) := by
  unfold groupBegin
  rw [forwardGroup, List.map_map]
  apply List.map_congr_left
  intro p hp
  have hp' := List.mem_range.mp hp
  simp only [Function.comp]
  rw [← forwardGroup]
  have hplan := collectivePlan_layout cfg .VEC_SCATTER_MPI_TOALL .MPI_ToAll typ
    (xs.map List.length) p (ix p) (iy p) (xs.map List.length).sum hfit
  apply begin_ext_eq cfg _ _ .MPI_ToAll
  · rw [hplan]
  · rfl
  · rw [hplan]; rfl
  · apply sizes_forward
    · rw [hplan]
      show (((xs.map List.length).getD p 0 : Nat) : Int) = _
      rw [getD_map_length]
    · rw [hplan]
      show (((xs.map List.length).sum : Nat) : Int) = _
      rw [hys p hp']
  · simp only [collectiveExt]
    rw [toAll_forward_insert cfg _ _ _ _ _ (by rw [hplan]), forwardGroup_xs]
    have hg := gatherv_layout xs (ys p) (by rw [hys p hp', List.length_flatten])
    simp only [List.length_map]
    rw [hg]
    rfl
  · rw [hplan]

theorem totalTest_full (N : Nat) :
    totalTest N (N : Int) (.stride N 0 1) (.stride N 0 1) = true := by
  simp [totalTest, ISStrideGetInfo]

/-- In a group of more than one process over a non-empty parallel vector, not every process
owns the entire vector: the first all-reduce delivers false when all ask for all of it. -/
theorem groupCando_broadcast (cfg : Config) (typ : String) (sizes : List Nat)
    (hsize : 2 ≤ sizes.length) (hN : 0 < sizes.sum) :
    groupCando cfg ((List.range sizes.length).map (broadcastCtxOf typ sizes)) 0 = false ∧
    groupCando cfg ((List.range sizes.length).map (broadcastCtxOf typ sizes)) 1 = true := by
  have hfl := fun p => PtoS_flag_stride cfg (broadcastCtxOf typ sizes p) sizes.sum 0 1 0 1
    rfl rfl
  constructor
  · unfold groupCando
    rw [List.all_eq_false]
    have hb0 := ISGetMinMax_bounds cfg (.stride sizes.sum 0 1) (0 + ((0 : Nat) : Int) * 1)
      (mem_stride sizes.sum 0 1 0 hN)
    have hb1 := ISGetMinMax_bounds cfg (.stride sizes.sum 0 1)
      (0 + ((sizes.sum - 1 : Nat) : Int) * 1) (mem_stride sizes.sum 0 1 (sizes.sum - 1) (by omega))
    by_cases hA : sizes.getD 0 0 < sizes.sum
    · refine ⟨broadcastCtxOf typ sizes 0, List.mem_map.mpr ⟨0, List.mem_range.mpr (by omega),
        rfl⟩, ?_⟩
      rw [(hfl 0).1]
      have h2 := (rstart_mpiLayout sizes 0 (by omega)).2
      have hr : (broadcastCtxOf typ sizes 0).from_v.rend = (mpiLayout sizes 0).rend := rfl
      simp only [beq_iff_eq, Option.some.injEq, decide_eq_true_eq, not_and, not_lt, hr, h2]
      intro _
      simp only [List.take_zero, List.sum_nil, zero_add]
      have := hb1.2
      push_cast at this ⊢
      omega
    · refine ⟨broadcastCtxOf typ sizes 1, List.mem_map.mpr ⟨1, List.mem_range.mpr (by omega),
        rfl⟩, ?_⟩
      rw [(hfl 1).1]
      have h1 := (rstart_mpiLayout sizes 1 (by omega)).1
      have hr : (broadcastCtxOf typ sizes 1).from_v.rstart = (mpiLayout sizes 1).rstart := rfl
      have h3 : (sizes.take 1).sum = sizes.getD 0 0 := by
        cases sizes with
        | nil => simp at hsize
        | cons a l => simp
      simp only [beq_iff_eq, Option.some.injEq, decide_eq_true_eq, not_and, hr, h1, h3]
      intro hc
      have := hb0.1
      push_cast at this hc
      omega
  · unfold groupCando
    rw [List.all_eq_true]
    intro c hc
    obtain ⟨p, _, rfl⟩ := List.mem_map.mp hc
    rw [(hfl p).2.1]
    have : (broadcastCtxOf typ sizes p).from_v.N = (sizes.sum : Int) := rfl
    rw [this, totalTest_full]
    rfl

end CollectiveRuns

section RoundTrip
variable {α : Type}

theorem sizes_reverse [Add α] [Max α] (cfg : Config) (c : VecScatter) (x y : List α)
    (h1 : c.from_n = (y.length : Int)) (h2 : c.to_n = (x.length : Int)) :
    cfg.useDebug = true → beginSizeError c x y .SCATTER_REVERSE = false := by
  intro _
  apply sizeError_of_sizesMatch
  unfold SizesMatch
  have hrev : ScatterMode.SCATTER_REVERSE.isReverse = true := rfl
  simp only [hrev, if_true]
  exact ⟨h1.symm, h2.symm⟩

theorem toAll_reverse_insert [Add α] [Max α] (cfg : Config) (grp : List (Member α))
    (w : World α) (xmap ymap : VecLayout) (scat : VecScatter_MPI_ToAll)
    (h : w.ctx.todata = .mpiToAll scat) :
    VecScatterBegin_MPI_ToAll cfg grp ⟨w, xmap, ymap⟩ .INSERT_VALUES .SCATTER_REVERSE =
      (PetscMemcpy w.y 0 w.x ymap.rstart w.y.length).map fun yv =>
        (.ok, { w with y := yv }) := by
  have hrev : ScatterMode.SCATTER_REVERSE.isReverse = true := rfl
  simp only [VecScatterBegin_MPI_ToAll, h, hrev, if_true]

theorem toOne_forward_insert [Add α] [Max α] (cfg : Config) (grp : List (Member α))
    (w : World α) (xmap ymap : VecLayout) (scat : VecScatter_MPI_ToAll)
    (h : w.ctx.todata = .mpiToAll scat) :
    VecScatterBegin_MPI_ToOne cfg grp ⟨w, xmap, ymap⟩ .INSERT_VALUES .SCATTER_FORWARD =
      if xmap.rank = 0 then
        (MPI_Gatherv (grp.map fun m => m.w.x) w.y scat.count scat.displx).map fun yv =>
          (.ok, { w with y := yv })
      else some (.ok, w) := by
  have hrev : ScatterMode.SCATTER_FORWARD.isReverse = false := rfl
  simp only [VecScatterBegin_MPI_ToOne, h, hrev, Bool.false_eq_true, if_false, if_true]

theorem toOne_reverse_insert [Add α] [Max α] (cfg : Config) (grp : List (Member α))
    (w root : World α) (xmap ymap : VecLayout) (scat rscat : VecScatter_MPI_ToAll)
    (h : w.ctx.todata = .mpiToAll scat)
    (hroot : (if ymap.rank = 0 then some w else grp.head?.map fun m => m.w) = some root)
    (hr : root.ctx.todata = .mpiToAll rscat) :
    VecScatterBegin_MPI_ToOne cfg grp ⟨w, xmap, ymap⟩ .INSERT_VALUES .SCATTER_REVERSE =
      (MPI_Scatterv root.x rscat.count rscat.displx ymap.rank w.y w.y.length).map fun yv =>
        (.ok, { w with y := yv }) := by
  have hrev : ScatterMode.SCATTER_REVERSE.isReverse = true := rfl
  simp only [VecScatterBegin_MPI_ToOne, h, hrev, if_true, hroot, hr]

/-- Scattering the concatenation of the parts back with the tables of the layout. -/
theorem scatterv_layout (xs : List (List α)) (p : Nat) (hp : p < xs.length) (z : List α)
    (hz : z.length = (xs.getD p []).length) :
    MPI_Scatterv xs.flatten ((xs.map List.length).map fun (s : Nat) => (s : Int))
      ((rangeFrom 0 (xs.map List.length)).take (xs.map List.length).length) p z z.length =
      some (xs.getD p []) := by
  unfold MPI_Scatterv
  have h1 : ((xs.map List.length).map fun (s : Nat) => (s : Int))[p]? =
      some ((xs.getD p []).length : Int) := by
    rw [List.getElem?_map, List.getElem?_map, List.getElem?_eq_getElem hp]
    simp [List.getD_eq_getElem?_getD, List.getElem?_eq_getElem hp]
  have h2 : ((rangeFrom 0 (xs.map List.length)).take (xs.map List.length).length)[p]? =
      some ((((xs.map List.length).take p).sum : Nat) : Int) := by
    rw [List.getElem?_take, if_pos (by simpa using hp),
      getElem?_rangeFrom 0 _ p (by simp; omega)]
    simp
  rw [h1, h2]
  simp only [hz, if_true]
  rw [← hz]
  exact memcpy_slice xs p hp z hz

end RoundTrip

section RoundTrip2
variable {α : Type}

theorem groupEnd_forward [Add α] [Max α] (cfg : Config) (plan : Nat → VecScatter)
    (xs : List (List α)) (ys : Nat → List α) (addv : InsertMode) (mode : ScatterMode)
    (hin : ∀ p, p < xs.length → (plan p).inuse = false)
    (hend : ∀ p, p < xs.length → (plan p).ops.end_ = none) :
    groupEnd cfg (forwardGroup (fun p => { plan p with inuse := true }) xs ys) addv mode =
      (List.range xs.length).map fun p => some (.ok, ⟨plan p, xs.getD p [], ys p⟩) := by
  unfold groupEnd
  rw [forwardGroup, List.map_map]
  apply List.map_congr_left
  intro p hp
  have hp' := List.mem_range.mp hp
  exact end_of_begun _ (plan p) _ _ addv mode (hin p hp') (hend p hp')

theorem getD_length_of_map_eq (xs zs : List (List α))
    (hzs : zs.map List.length = xs.map List.length) (p : Nat) :
    (zs.getD p []).length = (xs.getD p []).length := by
  rw [← getD_map_length, ← getD_map_length, hzs]

theorem length_of_map_eq (xs zs : List (List α))
    (hzs : zs.map List.length = xs.map List.length) : zs.length = xs.length := by
  have := congrArg List.length hzs
  simpa using this

/-- Reverse Insert through the broadcast plans: every process copies its own part out of
its sequential vector. -/
theorem groupBegin_broadcast_reverse [Add α] [Max α] (cfg : Config) (typ : String)
    (xs zs : List (List α)) (ix iy : Nat → IS)
    (hfit : cfg.use64BitIndices = true →
      ((xs.map List.length).sum : Int) ≤ PETSC_MPI_INT_MAX)
    (hzs : zs.map List.length = xs.map List.length) :
    groupBegin cfg (reverseGroup (fun p => collectivePlan cfg .VEC_SCATTER_MPI_TOALL .MPI_ToAll
        (ptosMember typ (xs.map List.length) p (ix p) (iy p) (xs.map List.length).sum))
        (fun _ => xs.flatten) zs) .INSERT_VALUES .SCATTER_REVERSE =
      (List.range xs.length).map fun p => some (.ok,
        ⟨{ collectivePlan cfg .VEC_SCATTER_MPI_TOALL .MPI_ToAll
            (ptosMember typ (xs.map List.length) p (ix p) (iy p) (xs.map List.length).sum)
            with inuse := true }, xs.flatten, xs.getD p []⟩) := by
  unfold groupBegin
  rw [reverseGroup, List.map_map, length_of_map_eq xs zs hzs, hzs]
  apply List.map_congr_left
  intro p hp
  have hp' := List.mem_range.mp hp
  simp only [Function.comp]
  have hplan := collectivePlan_layout cfg .VEC_SCATTER_MPI_TOALL .MPI_ToAll typ
    (xs.map List.length) p (ix p) (iy p) (xs.map List.length).sum hfit
  have hz := getD_length_of_map_eq xs zs hzs p
  apply begin_ext_eq cfg _ _ .MPI_ToAll
  · rw [hplan]
  · rfl
  · rw [hplan]; rfl
  · apply sizes_reverse
    · rw [hplan]
      show (((xs.map List.length).getD p 0 : Nat) : Int) = _
      rw [getD_map_length, hz]
    · rw [hplan]
      show (((xs.map List.length).sum : Nat) : Int) = _
      rw [List.length_flatten]
  · simp only [collectiveExt]
    rw [toAll_reverse_insert cfg _ _ _ _ _ (by rw [hplan])]
    have h1 := (rstart_mpiLayout (xs.map List.length) p (by simpa using hp')).1
    simp only [h1]
    rw [memcpy_slice xs p hp' (zs.getD p []) hz]
    rfl
  · rw [hplan]

/-- Forward Insert through the gather-to-root plans: process 0 receives the concatenation
of all local parts, the other processes keep their `y`. -/
theorem groupBegin_gather [Add α] [Max α] (cfg : Config) (typ : String)
    (xs : List (List α)) (ys : Nat → List α) (ix iy : Nat → IS)
    (hfit : cfg.use64BitIndices = true →
      ((xs.map List.length).sum : Int) ≤ PETSC_MPI_INT_MAX)
    (hy0 : (ys 0).length = (xs.map List.length).sum) :
    groupBegin cfg (forwardGroup (fun p => collectivePlan cfg .VEC_SCATTER_MPI_TOONE .MPI_ToOne
        (ptosMember typ (xs.map List.length) p (ix p) (iy p) (ys p).length)) xs ys)
        .INSERT_VALUES .SCATTER_FORWARD =
      (List.range xs.length).map fun p => some (.ok,
        ⟨{ collectivePlan cfg .VEC_SCATTER_MPI_TOONE .MPI_ToOne
            (ptosMember typ (xs.map List.length) p (ix p) (iy p) (ys p).length)
            with inuse := true }, xs.getD p [], if p = 0 then xs.flatten else ys p⟩) := by
  unfold groupBegin
  rw [forwardGroup, List.map_map]
  apply List.map_congr_left
  intro p hp
  simp only [Function.comp]
  rw [← forwardGroup]
  have hplan := collectivePlan_layout cfg .VEC_SCATTER_MPI_TOONE .MPI_ToOne typ
    (xs.map List.length) p (ix p) (iy p) (ys p).length hfit
  apply begin_ext_eq cfg _ _ .MPI_ToOne
  · rw [hplan]
  · rfl
  · rw [hplan]; rfl
  · apply sizes_forward
    · rw [hplan]
      show (((xs.map List.length).getD p 0 : Nat) : Int) = _
      rw [getD_map_length]
    · rw [hplan]
      rfl
  · simp only [collectiveExt]
    rw [toOne_forward_insert cfg _ _ _ _ _ (by rw [hplan]), forwardGroup_xs]
    have hrank : (mpiLayout (xs.map List.length) p).rank = p := rfl
    rw [hrank]
    by_cases h0 : p = 0
    · subst h0
      have hg := gatherv_layout xs (ys 0) (by rw [hy0, List.length_flatten])
      simp only [List.length_map, if_true]
      rw [hg]
      rfl
    · simp only [h0, if_false]
  · rw [hplan]

/-- Reverse Insert through the gather-to-root plans: process 0 spreads the parts of its
sequential vector back. -/
theorem groupBegin_gather_reverse [Add α] [Max α] (cfg : Config) (typ : String)
    (xs zs : List (List α)) (ys : Nat → List α) (ix iy : Nat → IS)
    (hfit : cfg.use64BitIndices = true →
      ((xs.map List.length).sum : Int) ≤ PETSC_MPI_INT_MAX)
    (hy0 : (ys 0).length = (xs.map List.length).sum)
    (hzs : zs.map List.length = xs.map List.length) :
    groupBegin cfg (reverseGroup (fun p => collectivePlan cfg .VEC_SCATTER_MPI_TOONE .MPI_ToOne
        (ptosMember typ (xs.map List.length) p (ix p) (iy p) (ys p).length))
        (fun p => if p = 0 then xs.flatten else ys p) zs) .INSERT_VALUES .SCATTER_REVERSE =
      (List.range xs.length).map fun p => some (.ok,
        ⟨{ collectivePlan cfg .VEC_SCATTER_MPI_TOONE .MPI_ToOne
            (ptosMember typ (xs.map List.length) p (ix p) (iy p) (ys p).length)
            with inuse := true }, if p = 0 then xs.flatten else ys p, xs.getD p []⟩) := by
  unfold groupBegin
  rw [reverseGroup, List.map_map, length_of_map_eq xs zs hzs, hzs]
  apply List.map_congr_left
  intro p hp
  have hp' := List.mem_range.mp hp
  simp only [Function.comp]
  have hplan := fun q => collectivePlan_layout cfg .VEC_SCATTER_MPI_TOONE .MPI_ToOne typ
    (xs.map List.length) q (ix q) (iy q) (ys q).length hfit
  have hz := getD_length_of_map_eq xs zs hzs p
  apply begin_ext_eq cfg _ _ .MPI_ToOne
  · rw [hplan]
  · rfl
  · rw [hplan]; rfl
  · apply sizes_reverse
    · rw [hplan]
      show (((xs.map List.length).getD p 0 : Nat) : Int) = _
      rw [getD_map_length, hz]
    · rw [hplan]
      show (((ys p).length : Nat) : Int) = _
      by_cases h0 : p = 0
      · subst h0
        simp only [if_true, List.length_flatten, hy0]
      · simp only [h0, if_false]
  · simp only [collectiveExt]
    have hrank : (mpiLayout (xs.map List.length) p).rank = p := rfl
    have hpos : 0 < xs.length := by omega
    obtain ⟨root, hroot, hrx, hrt⟩ : ∃ root : World α,
        (if (mpiLayout (xs.map List.length) p).rank = 0 then
          some (⟨{ collectivePlan cfg .VEC_SCATTER_MPI_TOONE .MPI_ToOne
              (ptosMember typ (xs.map List.length) p (ix p) (iy p) (ys p).length)
              with inuse := true }, if p = 0 then xs.flatten else ys p, zs.getD p []⟩ : World α)
        else (List.map (fun p => (⟨⟨collectivePlan cfg .VEC_SCATTER_MPI_TOONE .MPI_ToOne
              (ptosMember typ (xs.map List.length) p (ix p) (iy p) (ys p).length),
              if p = 0 then xs.flatten else ys p, zs.getD p []⟩,
              seqLayout (if p = 0 then xs.flatten else ys p).length,
              mpiLayout (xs.map List.length) p⟩ : Member α))
            (List.range xs.length)).head?.map fun m => m.w) = some root ∧
        root.x = xs.flatten ∧
        root.ctx.todata = .mpiToAll ⟨.VEC_SCATTER_MPI_TOONE,
          (xs.map List.length).map fun (s : Nat) => (s : Int),
          (rangeFrom 0 (xs.map List.length)).take (xs.map List.length).length, none, none⟩ := by
      rw [hrank]
      by_cases h0 : p = 0
      · subst h0
        refine ⟨_, by rw [if_pos rfl], by simp, ?_⟩
        simp only [hplan 0]
      · rw [if_neg h0]
        obtain ⟨m, hm⟩ : ∃ m, xs.length = m + 1 := ⟨xs.length - 1, by omega⟩
        rw [hm, List.range_succ_eq_map]
        refine ⟨⟨collectivePlan cfg .VEC_SCATTER_MPI_TOONE .MPI_ToOne
          (ptosMember typ (xs.map List.length) 0 (ix 0) (iy 0) (ys 0).length), xs.flatten,
          zs.getD 0 []⟩, ?_, rfl, ?_⟩
        · simp
        · simp only [hplan 0]
    rw [toOne_reverse_insert cfg _ _ root _ _ _ _ (by rw [hplan]) hroot hrt, hrx, hrank]
    simp only
    rw [scatterv_layout xs p hp' (zs.getD p []) hz]
    rfl
  · rw [hplan]

end RoundTrip2

section GroupCreate3

/-- A process that gets false from the first all-reduce and returns without error has not
installed the local extraction, in every build. -/
theorem PtoS_not_local_extraction (cfg : Config) (bld : Builders) (cando : Nat → Bool)
    (ctx : VecScatter) (r : CreateResult) (h0 : cando 0 = false)
    (h : VecScatterCreate_PtoS cfg bld cando ctx = some r) (hok : r.ierr = .ok) :
    r.selected ≠ some .localExtraction := by
  cases hs : PtoS_bothStride ctx
  · obtain ⟨bs, hbs⟩ := (PtoS_nonstride cfg bld cando ctx hs).2.2 r h hok
    rw [hbs]; simp
  · unfold PtoS_bothStride at hs
    unfold VecScatterCreate_PtoS at h
    cases hty : GetInputISType_private ctx VEC_MPI_ID VEC_SEQ_ID with
    | error e => simp [hty] at hs
    | ok ty =>
      simp only [hty, decide_eq_true_eq] at hs h
      cases hix : effectiveIS ty.tix ctx.from_is with
      | none =>
        simp only [hix, Option.some.injEq] at h
        subst h
        simp at hok
      | some ix =>
        cases hiy : effectiveIS ty.tiy ctx.to_is with
        | none =>
          simp only [hix, hiy, Option.some.injEq] at h
          subst h
          simp at hok
        | some iy =>
          simp only [hix, hiy, hs, and_self, if_true] at h
          by_cases hn : ISGetLocalSize ix = ISGetLocalSize iy
          · simp only [hn, ne_eq, not_true_eq_false, if_false, h0, Bool.false_eq_true,
              VecScatterCreate_PtoS_toAll, hs, and_self, if_true,
              VecScatterCreate_PtoS_toOne] at h
            split_ifs at h
            all_goals first
              | (simp only [Option.map_eq_some'] at h
                 obtain ⟨p, hp, rfl⟩ := h
                 have hb := installToAll_begin cfg _ _ ctx p hp hok
                 simp [CreateResult.selected, hb])
              | (simp only [Option.some.injEq] at h
                 subst h
                 obtain ⟨bs, hbs⟩ := PtoS_rest_selected cfg bld ctx ix iy _ hok
                 rw [hbs]; simp)
          · simp only [hn, ne_eq, not_false_eq_true, if_true, Option.some.injEq] at h
            subst h
            simp at hok

/-- In a 64-bit index build the broadcast is refused when the length of the sequential
vector does not stay below `PETSC_MPI_INT_MAX`: every process of a group that asks for the
entire vector goes on to the general case and calls the peer-set builder. -/
theorem broadcast_refused (cfg : Config) (h64 : cfg.use64BitIndices = true) (bld : Builders)
    (typ : String) (sizes : List Nat) (hsize : 2 ≤ sizes.length) (hN : 0 < sizes.sum)
    (hbig : PETSC_MPI_INT_MAX ≤ (sizes.sum : Int)) (p : Nat) :
    ∃ ev, VecScatterCreate_PtoS cfg bld
        (groupCando cfg ((List.range sizes.length).map (broadcastCtxOf typ sizes)))
        (broadcastCtxOf typ sizes p) =
      some (callBuilder bld (ptosBuilder cfg ((broadcastCtxOf typ sizes p).type_name == "mpi1"))
        sizes.sum (ISGetIndices (.stride sizes.sum 0 1)) sizes.sum
        (ISGetIndices (.stride sizes.sum 0 1)) 1 (broadcastCtxOf typ sizes p) ev) := by
  obtain ⟨hc0, hc1⟩ := groupCando_broadcast cfg typ sizes hsize hN
  have hN' : (broadcastCtxOf typ sizes p).to_v.N = (sizes.sum : Int) := rfl
  have hg : ¬ ((sizes.sum : Int) < PETSC_MPI_INT_MAX) := not_lt.mpr hbig
  rw [PtoS_stride_unfold cfg bld _ (broadcastCtxOf typ sizes p) sizes.sum 0 1 0 1 rfl rfl,
    hc0, hc1]
  simp only [Bool.false_eq_true, if_false, true_and, hN', h64, true_implies, hg, and_false]
  unfold VecScatterCreate_PtoS_rest
  simp only [isBlockType, Bool.false_eq_true, false_and, if_false, ISGetLocalSize, ne_eq,
    not_true_eq_false]
  exact ⟨_, rfl⟩

end GroupCreate3

/-! ## The claims on process groups and remapping -/

section GroupClaims
variable {α : Type}

theorem ok_of_map_ierr {o : Option CreateResult}
    (h : (o.map fun r => r.ierr) = some .ok) : ∃ r, o = some r ∧ r.ierr = .ok := by
  cases o with
  | none => cases h
  | some r => exact ⟨r, rfl, by simpa using h⟩

/-- C11: in `VecScatterCreate_PtoS` run by a group in a 32-bit index build, with every
all-reduce delivering the logical AND of the flags, if every process returns without error
then each of local extraction, broadcast and gather-to-root is selected by every process of
the group or by none. -/
theorem C11_collective_agreement (cfg : Config) (h32 : cfg.use64BitIndices = false)
    (bld : Builders) (ctxs : List VecScatter)
    (hok : ∀ o ∈ VecScatterCreate_PtoS_group cfg bld ctxs,
      (o.map fun r => r.ierr) = some .ok)
    (s : Specialization)
    (hs : s = .localExtraction ∨ s = .broadcast ∨ s = .gatherToRoot) :
    (∀ o ∈ VecScatterCreate_PtoS_group cfg bld ctxs, ∃ r, o = some r ∧ r.selected = some s) ∨
    (∀ o ∈ VecScatterCreate_PtoS_group cfg bld ctxs, ∀ r, o = some r →
      r.selected ≠ some s) := by
  have hcases := group_selection_cases cfg h32 bld ctxs (fun o ho => ok_of_map_ierr (hok o ho))
  rcases hcases with ⟨_, h⟩ | ⟨_, _, h⟩ | ⟨_, _, _, h⟩ | ⟨_, _, _, h⟩
  · rcases hs with rfl | rfl | rfl
    · exact Or.inl h
    · refine Or.inr fun o ho r hr => ?_
      obtain ⟨r', hr', hsel⟩ := h o ho
      rw [hr] at hr'; cases hr'; rw [hsel]; decide
    · refine Or.inr fun o ho r hr => ?_
      obtain ⟨r', hr', hsel⟩ := h o ho
      rw [hr] at hr'; cases hr'; rw [hsel]; decide
  · rcases hs with rfl | rfl | rfl
    · refine Or.inr fun o ho r hr => ?_
      obtain ⟨r', hr', hsel⟩ := h o ho
      rw [hr] at hr'; cases hr'; rw [hsel]; decide
    · exact Or.inl h
    · refine Or.inr fun o ho r hr => ?_
      obtain ⟨r', hr', hsel⟩ := h o ho
      rw [hr] at hr'; cases hr'; rw [hsel]; decide
  · rcases hs with rfl | rfl | rfl
    · refine Or.inr fun o ho r hr => ?_
      obtain ⟨r', hr', hsel⟩ := h o ho
      rw [hr] at hr'; cases hr'; rw [hsel]; decide
    · refine Or.inr fun o ho r hr => ?_
      obtain ⟨r', hr', hsel⟩ := h o ho
      rw [hr] at hr'; cases hr'; rw [hsel]; decide
    · exact Or.inl h
  · refine Or.inr fun o ho r hr => ?_
    obtain ⟨r', bs, hr', hsel⟩ := h o ho
    rw [hr] at hr'; cases hr'; rw [hsel]
    rcases hs with rfl | rfl | rfl <;> simp

/-- Witness of C11: two processes that both ask for the entire vector both select the
broadcast. -/
theorem C11_collective_agreement_witness :
    (∀ o ∈ VecScatterCreate_PtoS_group cfgDebug noBuilders [bcastCtx 0, bcastCtx 1],
      (o.map fun r => r.ierr) = some .ok) ∧
    ((VecScatterCreate_PtoS_group cfgDebug noBuilders [bcastCtx 0, bcastCtx 1]).map
      fun o => o.bind fun r => r.selected) = [some .broadcast, some .broadcast] ∧
    ((∀ o ∈ VecScatterCreate_PtoS_group cfgDebug noBuilders [bcastCtx 0, bcastCtx 1],
        ∃ r, o = some r ∧ r.selected = some .broadcast) ∨
      (∀ o ∈ VecScatterCreate_PtoS_group cfgDebug noBuilders [bcastCtx 0, bcastCtx 1],
        ∀ r, o = some r → r.selected ≠ some .broadcast)) :=
  ⟨by decide, by decide,
    C11_collective_agreement cfgDebug (by decide) noBuilders [bcastCtx 0, bcastCtx 1]
      (by decide) .broadcast (Or.inr (Or.inl rfl))⟩

/-- C12 fails as stated: the local-extraction test is true on process 0 (it owns all it
asks for) and false on process 1, yet both processes end on the broadcast and none on the
general fallback. -/
theorem C12_dissent_then_broadcast_counterexample :
    PtoS_flag cfgDebug (dissentCtx 0) 0 = some true ∧
    PtoS_flag cfgDebug (dissentCtx 1) 0 = some false ∧
    ((VecScatterCreate_PtoS_group cfgDebug noBuilders [dissentCtx 0, dissentCtx 1]).map
      fun o => o.map fun r => (r.ierr, r.selected)) =
      [some (.ok, some .broadcast), some (.ok, some .broadcast)] := by
  refine ⟨by decide, by decide, by decide⟩

/-- C12 (amended): if some process of the group does not pass the local-extraction test and
every process returns without error, then no process ends on local extraction; the processes
go on to the later tests, and in a 32-bit index build they either all end on the broadcast,
or all on gather-to-root, or all call a peer-set builder. -/
theorem C12_dissent_excludes_local_extraction (cfg : Config) (bld : Builders)
    (ctxs : List VecScatter)
    (hok : ∀ o ∈ VecScatterCreate_PtoS_group cfg bld ctxs,
      (o.map fun r => r.ierr) = some .ok)
    (c : VecScatter) (hc : c ∈ ctxs) (hdis : PtoS_flag cfg c 0 ≠ some true) :
    (∀ o ∈ VecScatterCreate_PtoS_group cfg bld ctxs, ∀ r, o = some r →
      r.selected ≠ some .localExtraction) ∧
    (cfg.use64BitIndices = false →
      (∀ o ∈ VecScatterCreate_PtoS_group cfg bld ctxs,
        ∃ r, o = some r ∧ r.selected = some .broadcast) ∨
      (∀ o ∈ VecScatterCreate_PtoS_group cfg bld ctxs,
        ∃ r, o = some r ∧ r.selected = some .gatherToRoot) ∨
      (∀ o ∈ VecScatterCreate_PtoS_group cfg bld ctxs,
        ∃ r bs, o = some r ∧ r.selected = some (.peerSet bs))) := by
  have h0 : groupCando cfg ctxs 0 = false := by
    unfold groupCando
    rw [List.all_eq_false]
    exact ⟨c, hc, by simpa using hdis⟩
  constructor
  · intro o ho r hr
    obtain ⟨r', hr', hrok⟩ := ok_of_map_ierr (hok o ho)
    rw [hr] at hr'; cases hr'
    unfold VecScatterCreate_PtoS_group at ho
    obtain ⟨c', _, hco⟩ := List.mem_map.mp ho
    exact PtoS_not_local_extraction cfg bld _ c' r h0 (by rw [hco, hr]) hrok
  · intro h32
    have hcases := group_selection_cases cfg h32 bld ctxs
      (fun o ho => ok_of_map_ierr (hok o ho))
    rcases hcases with ⟨h, _⟩ | ⟨_, _, h⟩ | ⟨_, _, _, h⟩ | ⟨_, _, _, h⟩
    · rw [h0] at h; cases h
    · exact Or.inl h
    · exact Or.inr (Or.inl h)
    · exact Or.inr (Or.inr h)

/-- Witness of C12: the two processes of `dissentCtx`; process 1 does not pass the
local-extraction test. -/
theorem C12_dissent_excludes_local_extraction_witness :
    PtoS_flag cfgDebug (dissentCtx 1) 0 ≠ some true ∧
    (∀ o ∈ VecScatterCreate_PtoS_group cfgDebug noBuilders [dissentCtx 0, dissentCtx 1],
      ∀ r, o = some r → r.selected ≠ some .localExtraction) ∧
    ((∀ o ∈ VecScatterCreate_PtoS_group cfgDebug noBuilders [dissentCtx 0, dissentCtx 1],
        ∃ r, o = some r ∧ r.selected = some .broadcast) ∨
      (∀ o ∈ VecScatterCreate_PtoS_group cfgDebug noBuilders [dissentCtx 0, dissentCtx 1],
        ∃ r, o = some r ∧ r.selected = some .gatherToRoot) ∨
      (∀ o ∈ VecScatterCreate_PtoS_group cfgDebug noBuilders [dissentCtx 0, dissentCtx 1],
        ∃ r bs, o = some r ∧ r.selected = some (.peerSet bs))) :=
  ⟨by decide,
    (C12_dissent_excludes_local_extraction cfgDebug noBuilders
      [dissentCtx 0, dissentCtx 1] (by decide) (dissentCtx 1) (by decide) (by decide)).1,
    (C12_dissent_excludes_local_extraction cfgDebug noBuilders
      [dissentCtx 0, dissentCtx 1] (by decide) (dissentCtx 1) (by decide) (by decide)).2 rfl⟩

theorem selected_peerSet {r : CreateResult} {bs : Int}
    (h : r.selected = some (.peerSet bs)) :
    ∃ name nx idx ny idy, r.events.getLast? = some (.build name nx idx ny idy bs) := by
  unfold CreateResult.selected at h
  split at h
  · next name nx idx ny idy bs' hl =>
    simp only [Option.some.injEq, Specialization.peerSet.injEq] at h
    subst h
    exact ⟨name, nx, idx, ny, idy, hl⟩
  · split at h <;> simp at h

theorem isTypeId_stride (s : IS) : isTypeId s = IS_STRIDE_ID ↔ isStrideType s = true := by
  cases s <;> simp [isTypeId, isStrideType, isBlockType, IS_STRIDE_ID, IS_BLOCK_ID, IS_GENERAL_ID]

theorem isTypeId_block (s : IS) : isTypeId s = IS_BLOCK_ID ↔ isBlockType s = true := by
  cases s <;> simp [isTypeId, isStrideType, isBlockType, IS_STRIDE_ID, IS_BLOCK_ID, IS_GENERAL_ID]

theorem PtoS_rest_bs (cfg : Config) (bld : Builders) (ctx : VecScatter) (ix iy : IS)
    (ev : List CommEvent) (f : Bool) (hev : ev.getLast? = some (.allreduce f)) (bs : Int)
    (h : (VecScatterCreate_PtoS_rest cfg bld ctx ix iy ev).selected = some (.peerSet bs)) :
    bs = if blockToBlock ix iy = true ∨ blockToStride ix iy = true then ISGetBlockSize ix
      else 1 := by
  obtain ⟨name, nx, idx, ny, idy, hl⟩ := selected_peerSet h
  unfold VecScatterCreate_PtoS_rest at hl
  simp only at hl
  have hbb : blockToBlock ix iy = true ↔ (isBlockType ix = true ∧ isBlockType iy = true ∧
      ISGetBlockSize ix = ISGetBlockSize iy ∧
      VecScatterOptimizedBS (ISGetBlockSize ix) = true) := by
    simp [blockToBlock, and_assoc]
  have hbs : blockToStride ix iy = true ↔ (isBlockType ix = true ∧ isStrideType iy = true ∧
      VecScatterOptimizedBS (ISGetBlockSize ix) = true ∧
      (ISStrideGetInfo iy).1.tmod (ISGetBlockSize ix) = 0 ∧ (ISStrideGetInfo iy).2 = 1 ∧
      ((ISGetLocalSize iy : Nat) : Int).tmod (ISGetBlockSize ix) = 0) := by
    simp [blockToStride, and_assoc]
  split_ifs at hl with h1 h2 h3 h4 h5
  · rw [hev] at hl; cases hl
  · simp only [callBuilder, List.getLast?_append, List.getLast?_singleton, Option.or,
      Option.some.injEq, CommEvent.build.injEq] at hl
    rw [if_pos (Or.inl (hbb.mpr h1))]
    exact hl.2.2.2.2.2.symm
  · rw [hev] at hl; cases hl
  · simp only [callBuilder, List.getLast?_append, List.getLast?_singleton, Option.or,
      Option.some.injEq, CommEvent.build.injEq] at hl
    rw [if_pos (Or.inr (hbs.mpr ⟨h3.1, h3.2.2.1, h3.2.2.2⟩))]
    exact hl.2.2.2.2.2.symm
  · rw [hev] at hl; cases hl
  · simp only [callBuilder, List.getLast?_append, List.getLast?_singleton, Option.or,
      Option.some.injEq, CommEvent.build.injEq] at hl
    rw [if_neg]
    · exact hl.2.2.2.2.2.symm
    · rintro (hc | hc)
      · exact h1 (hbb.mp hc)
      · have := hbs.mp hc
        apply h3
        refine ⟨this.1, ?_, this.2.1, this.2.2⟩
        cases iy <;> simp_all [isBlockType, isStrideType]

theorem GetInputISType_given (ctx : VecScatter) (ix iy : IS) (a b : Nat)
    (hx : ctx.from_is = some ix) (hy : ctx.to_is = some iy) :
    GetInputISType_private ctx a b = .ok ⟨isTypeId ix, none, isTypeId iy, none⟩ := by
  simp [GetInputISType_private, hx, hy]

theorem installToAll_events (cfg : Config) (fmt : VecScatterFormat) (b : BeginRoutine)
    (ctx : VecScatter) (ev : List CommEvent) (f : Bool) (r : CreateResult)
    (h : ((installToAll cfg fmt b ctx).map fun p =>
      (⟨p.1, p.2, ev ++ [.allreduce f]⟩ : CreateResult)) = some r) :
    r.events.getLast? = some (.allreduce f) := by
  simp only [Option.map_eq_some'] at h
  obtain ⟨p, _, rfl⟩ := h
  simp

theorem getLast?_append_allreduce (ev : List CommEvent) (f : Bool) :
    (ev ++ [CommEvent.allreduce f]).getLast? = some (CommEvent.allreduce f) := by simp

theorem getLast?_single_allreduce (f : Bool) :
    [CommEvent.allreduce f].getLast? = some (.allreduce f) := rfl

theorem PtoS_result_shape (cfg : Config) (bld : Builders) (cando : Nat → Bool)
    (ctx : VecScatter) (ix iy : IS) (hx : ctx.from_is = some ix) (hy : ctx.to_is = some iy)
    (r : CreateResult) (h : VecScatterCreate_PtoS cfg bld cando ctx = some r) :
    r.events = [] ∨ (∃ f, r.events.getLast? = some (.allreduce f)) ∨
    ∃ ev f, ev.getLast? = some (.allreduce f) ∧
      r = VecScatterCreate_PtoS_rest cfg bld ctx ix iy ev := by
  unfold VecScatterCreate_PtoS at h
  simp only [GetInputISType_given ctx ix iy _ _ hx hy, effectiveIS, hx, hy,
    VecScatterCreate_PtoS_toAll, VecScatterCreate_PtoS_toOne] at h
  split_ifs at h <;>
    first
    | (simp only [Option.some.injEq] at h
       subst h
       first
       | exact Or.inl rfl
       | exact Or.inr (Or.inl ⟨_, getLast?_single_allreduce _⟩)
       | exact Or.inr (Or.inl ⟨_, getLast?_append_allreduce _ _⟩)
       | exact Or.inr (Or.inr ⟨_, _, getLast?_append_allreduce _ _, rfl⟩))
    | exact Or.inr (Or.inl ⟨_, installToAll_events _ _ _ _ _ _ _ h⟩)

theorem StoP_rest_bs (cfg : Config) (bld : Builders) (ctx : VecScatter) (ix iy : IS)
    (ev : List CommEvent) (f : Bool) (hev : ev.getLast? = some (.allreduce f)) (bs : Int)
    (h : (VecScatterCreate_StoP_rest cfg bld ctx (isTypeId ix) (isTypeId iy) ix iy ev).selected
      = some (.peerSet bs)) :
    bs = if blockToStride ix iy = true then ISGetBlockSize ix else 1 := by
  obtain ⟨name, nx, idx, ny, idy, hl⟩ := selected_peerSet h
  unfold VecScatterCreate_StoP_rest at hl
  simp only [isTypeId_block, isTypeId_stride] at hl
  have hbs : blockToStride ix iy = true ↔ (isBlockType ix = true ∧ isStrideType iy = true ∧
      VecScatterOptimizedBS (ISGetBlockSize ix) = true ∧
      (ISStrideGetInfo iy).1.tmod (ISGetBlockSize ix) = 0 ∧ (ISStrideGetInfo iy).2 = 1 ∧
      ((ISGetLocalSize iy : Nat) : Int).tmod (ISGetBlockSize ix) = 0) := by
    simp [blockToStride, and_assoc]
  unfold stopBuild at hl
  split_ifs at hl with h1 h2 h3 h4 h5 h6 h7
  · rw [hev] at hl; cases hl
  · simp only [callBuilder, List.getLast?_append, List.getLast?_singleton, Option.or,
      Option.some.injEq, CommEvent.build.injEq] at hl
    rw [if_pos (hbs.mpr h1)]
    exact hl.2.2.2.2.2.symm
  · simp only [callBuilder, List.getLast?_append, List.getLast?_singleton, Option.or,
      Option.some.injEq, CommEvent.build.injEq] at hl
    rw [if_pos (hbs.mpr h1)]
    exact hl.2.2.2.2.2.symm
  · rw [hev] at hl; cases hl
  · rw [hev] at hl; cases hl
  · simp only [callBuilder, List.getLast?_append, List.getLast?_singleton, Option.or,
      Option.some.injEq, CommEvent.build.injEq] at hl
    rw [if_neg (fun hc => h1 (hbs.mp hc))]
    exact hl.2.2.2.2.2.symm
  · simp only [callBuilder, List.getLast?_append, List.getLast?_singleton, Option.or,
      Option.some.injEq, CommEvent.build.injEq] at hl
    rw [if_neg (fun hc => h1 (hbs.mp hc))]
    exact hl.2.2.2.2.2.symm
  · rw [hev] at hl; cases hl

theorem StoP_result_shape (cfg : Config) (bld : Builders) (cando : Bool)
    (ctx : VecScatter) (ix iy : IS) (hx : ctx.from_is = some ix) (hy : ctx.to_is = some iy) :
    (VecScatterCreate_StoP cfg bld cando ctx).events = [] ∨
    (∃ f, (VecScatterCreate_StoP cfg bld cando ctx).events.getLast? = some (.allreduce f)) ∨
    ∃ ev f, ev.getLast? = some (.allreduce f) ∧
      VecScatterCreate_StoP cfg bld cando ctx =
        VecScatterCreate_StoP_rest cfg bld ctx (isTypeId ix) (isTypeId iy) ix iy ev := by
  unfold VecScatterCreate_StoP
  simp only [GetInputISType_given ctx ix iy _ _ hx hy, effectiveIS, hx, hy]
  split_ifs <;>
    first
    | exact Or.inl rfl
    | exact Or.inr (Or.inl ⟨_, getLast?_single_allreduce _⟩)
    | exact Or.inr (Or.inr ⟨_, _, getLast?_single_allreduce _, rfl⟩)

/-- C13 fails as stated: in a group of two, process 0 calls the peer-set builder with block
size 2 although process 1, whose descriptors are index lists, passes no block-alignment test;
none of the three all-reduces delivers true. The same happens in `VecScatterCreate_StoP`. -/
theorem C13_block_path_without_agreement_counterexample :
    ((VecScatterCreate_PtoS_group cfgDebug noBuilders [blockCtx, listCtx]).map
      fun o => o.map fun r => (r.ierr, r.selected)) =
      [some (.ok, some (.peerSet 2)), some (.ok, some (.peerSet 1))] ∧
    blockToBlock (.general [4, 5]) (.general [0, 1]) = false ∧
    blockToStride (.general [4, 5]) (.general [0, 1]) = false ∧
    groupCando cfgDebug [blockCtx, listCtx] 0 = false ∧
    groupCando cfgDebug [blockCtx, listCtx] 1 = false ∧
    groupCando cfgDebug [blockCtx, listCtx] 2 = false ∧
    ((VecScatterCreate_StoP_group cfgDebug noBuilders [blockStopCtx, listStopCtx]).map
      fun r => (r.ierr, r.selected)) =
      [(.ok, some (.peerSet 2)), (.ok, some (.peerSet 1))] ∧
    blockToStride (.general [0, 1]) (.general [4, 5]) = false := by
  refine ⟨by decide, by decide, by decide, ?_, ?_, ?_, by decide, by decide⟩ <;>
    exact groupCando_false_of_nonstride cfgDebug _ listCtx (by simp) (by decide) _

/-- C13 (amended): a process commits to the block-aligned path on the strength of its own
descriptors alone. Whatever the all-reduces deliver, when a process of
`VecScatterCreate_PtoS` calls a peer-set builder the block size it passes is that of its own
Block source if its own descriptors pass a block-alignment test, and 1 otherwise; likewise in
`VecScatterCreate_StoP` with the block-to-stride test. -/
theorem C13_block_alignment_is_local (cfg : Config) (bld : Builders) (ctx : VecScatter)
    (ix iy : IS) (hx : ctx.from_is = some ix) (hy : ctx.to_is = some iy) :
    (∀ (cando : Nat → Bool) (r : CreateResult) (bs : Int),
      VecScatterCreate_PtoS cfg bld cando ctx = some r → r.selected = some (.peerSet bs) →
      bs = if blockToBlock ix iy = true ∨ blockToStride ix iy = true then ISGetBlockSize ix
        else 1) ∧
    (∀ (cando : Bool) (bs : Int),
      (VecScatterCreate_StoP cfg bld cando ctx).selected = some (.peerSet bs) →
      bs = if blockToStride ix iy = true then ISGetBlockSize ix else 1) := by
  constructor
  · intro cando r bs hrun hsel
    rcases PtoS_result_shape cfg bld cando ctx ix iy hx hy r hrun with h | ⟨f, h⟩ | ⟨ev, f, hev, h⟩
    · obtain ⟨_, _, _, _, _, hl⟩ := selected_peerSet hsel
      rw [h] at hl; cases hl
    · obtain ⟨_, _, _, _, _, hl⟩ := selected_peerSet hsel
      rw [h] at hl; cases hl
    · rw [h] at hsel
      exact PtoS_rest_bs cfg bld ctx ix iy ev f hev bs hsel
  · intro cando bs hsel
    rcases StoP_result_shape cfg bld cando ctx ix iy hx hy with h | ⟨f, h⟩ | ⟨ev, f, hev, h⟩
    · obtain ⟨_, _, _, _, _, hl⟩ := selected_peerSet hsel
      rw [h] at hl; cases hl
    · obtain ⟨_, _, _, _, _, hl⟩ := selected_peerSet hsel
      rw [h] at hl; cases hl
    · rw [h] at hsel
      exact StoP_rest_bs cfg bld ctx ix iy ev f hev bs hsel

/-- Witness of C13: process 0 of `blockCtx` passes the block-to-block test and calls the
builder with block size 2 whatever the all-reduces deliver. -/
theorem C13_block_alignment_is_local_witness :
    blockCtx.from_is = some (.block 2 [0, 1]) ∧ blockCtx.to_is = some (.block 2 [0, 1]) ∧
    blockToBlock (.block 2 [0, 1]) (.block 2 [0, 1]) = true ∧
    ((VecScatterCreate_PtoS cfgDebug noBuilders (fun _ => false) blockCtx).bind
      fun r => r.selected) = some (.peerSet 2) ∧
    ((∀ (cando : Nat → Bool) (r : CreateResult) (bs : Int),
      VecScatterCreate_PtoS cfgDebug noBuilders cando blockCtx = some r →
      r.selected = some (.peerSet bs) →
      bs = if blockToBlock (.block 2 [0, 1]) (.block 2 [0, 1]) = true ∨
          blockToStride (.block 2 [0, 1]) (.block 2 [0, 1]) = true
        then ISGetBlockSize (.block 2 [0, 1]) else 1) ∧
    (∀ (cando : Bool) (bs : Int),
      (VecScatterCreate_StoP cfgDebug noBuilders cando blockCtx).selected =
        some (.peerSet bs) →
      bs = if blockToStride (.block 2 [0, 1]) (.block 2 [0, 1]) = true
        then ISGetBlockSize (.block 2 [0, 1]) else 1)) :=
  ⟨by decide, by decide, by decide, by decide,
    C13_block_alignment_is_local cfgDebug noBuilders blockCtx (.block 2 [0, 1])
      (.block 2 [0, 1]) (by decide) (by decide)⟩

/-- C14 fails as stated: with a destination stride of step 0 the two values that process 0
extracts go to one slot, which ends as the second of them; `y[toFirst + 0*toStep]` is then
`X[fromFirst + 1*fromStep] = 20`, not `X[fromFirst + 0*fromStep] = 10`. -/
theorem C14_zero_step_counterexample :
    ((VecScatterCreate_PtoS_group cfgDebug noBuilders [zeroStepCtx 0, zeroStepCtx 1]).map
      fun o => o.map fun r => (r.ierr, r.selected, r.ctx)) =
      [some (.ok, some .localExtraction, stridePlan (zeroStepCtx 0) 2 0 0 0 1),
       some (.ok, some .localExtraction, stridePlan (zeroStepCtx 1) 3 0 1 0 1)] ∧
    VecScatterBegin cfgDebug (noExt Int)
        ⟨stridePlan (zeroStepCtx 0) 2 0 0 0 1, [10, 20, 30], [0]⟩ .INSERT_VALUES
        .SCATTER_FORWARD =
      some (.ok, ⟨{ stridePlan (zeroStepCtx 0) 2 0 0 0 1 with inuse := true },
        [10, 20, 30], [20]⟩) ∧
    rd [(20 : Int)] (0 + 0 * 0) ≠ rd [(10 : Int), 20, 30, 40, 50, 60] (0 + 0 * 1) := by
  refine ⟨by decide, by decide, by decide⟩

/-- C14 (amended): in `VecScatterCreate_PtoS` run by a group, if on every process both
descriptors are strides of one length and `ISGetMinMax` of the source stride lies in the owned
range `[start, end)`, then every process obtains the Stride/Stride plan with `to = (toFirst,
toStep, n)` and `from = (fromFirst - start, fromStep, n)`; every source index of that plan
lies in `[0, end - start)`; and when the destination stride stays within `y` and its slots
are distinct (`toStep` is not 0, or `n` is at most 1), a Forward Insert Begin on the local part
of the global array `X` gives `y[toFirst + i*toStep] = X[fromFirst + i*fromStep]` for every
`i < n`. -/
theorem C14_local_extraction [Add α] [Max α] (cfg : Config) (bld : Builders)
    (ext : ExtRoutines α) (typ : String) (sizes : List Nat) (n ny : Nat → Nat)
    (ff fs tf ts : Nat → Int)
    (hloc : ∀ p, p < sizes.length →
      (ISGetMinMax cfg (.stride (n p) (ff p) (fs p))).1 ≥ (mpiLayout sizes p).rstart ∧
      (ISGetMinMax cfg (.stride (n p) (ff p) (fs p))).2 < (mpiLayout sizes p).rend) :
    VecScatterCreate_PtoS_group cfg bld ((List.range sizes.length).map fun p =>
        ptosMember typ sizes p (.stride (n p) (ff p) (fs p)) (.stride (n p) (tf p) (ts p))
          (ny p)) =
      (List.range sizes.length).map (fun p => some ⟨.ok,
        stridePlan (ptosMember typ sizes p (.stride (n p) (ff p) (fs p))
          (.stride (n p) (tf p) (ts p)) (ny p)) (n p) (tf p) (ts p)
          (ff p - (mpiLayout sizes p).rstart) (fs p), [.allreduce true]⟩) ∧
    ∀ p, p < sizes.length →
      (∀ i : Nat, i < n p →
        InRange (sizes.getD p 0) (ff p - (mpiLayout sizes p).rstart + (i : Int) * fs p)) ∧
      ∀ (X y : List α), X.length = sizes.sum → y.length = ny p →
        (∀ i : Nat, i < n p → InRange y.length (tf p + (i : Int) * ts p)) →
        (ts p ≠ 0 ∨ n p ≤ 1) →
        ∃ y', VecScatterBegin cfg ext
            ⟨stridePlan (ptosMember typ sizes p (.stride (n p) (ff p) (fs p))
              (.stride (n p) (tf p) (ts p)) (ny p)) (n p) (tf p) (ts p)
              (ff p - (mpiLayout sizes p).rstart) (fs p),
              (X.drop (mpiLayout sizes p).rstart.toNat).take (sizes.getD p 0), y⟩
            .INSERT_VALUES .SCATTER_FORWARD =
          some (.ok, ⟨{ stridePlan (ptosMember typ sizes p (.stride (n p) (ff p) (fs p))
              (.stride (n p) (tf p) (ts p)) (ny p)) (n p) (tf p) (ts p)
              (ff p - (mpiLayout sizes p).rstart) (fs p) with inuse := true },
              (X.drop (mpiLayout sizes p).rstart.toNat).take (sizes.getD p 0), y'⟩) ∧
          ∀ i : Nat, i < n p →
            rd y' (tf p + (i : Int) * ts p) = rd X (ff p + (i : Int) * fs p) := by
  have hflag : ∀ p, p < sizes.length →
      PtoS_flag cfg (ptosMember typ sizes p (.stride (n p) (ff p) (fs p))
        (.stride (n p) (tf p) (ts p)) (ny p)) 0 = some true := by
    intro p hp
    rw [(PtoS_flag_stride cfg _ (n p) (ff p) (fs p) (tf p) (ts p) rfl rfl).1]
    have := hloc p hp
    simp only [Option.some.injEq, decide_eq_true_eq]
    exact this
  have hc0 : groupCando cfg ((List.range sizes.length).map fun p =>
        ptosMember typ sizes p (.stride (n p) (ff p) (fs p)) (.stride (n p) (tf p) (ts p))
          (ny p)) 0 = true := by
    unfold groupCando
    rw [List.all_eq_true]
    intro c hc
    obtain ⟨p, hp, rfl⟩ := List.mem_map.mp hc
    rw [hflag p (List.mem_range.mp hp)]
    rfl
  have hrange : ∀ p, p < sizes.length → ∀ i : Nat, i < n p →
      InRange (sizes.getD p 0) (ff p - (mpiLayout sizes p).rstart + (i : Int) * fs p) := by
    intro p hp i hi
    have hb := ISGetMinMax_bounds cfg (.stride (n p) (ff p) (fs p)) _
      (mem_stride (n p) (ff p) (fs p) i hi)
    have hl := hloc p hp
    obtain ⟨h1, h2⟩ := rstart_mpiLayout sizes p hp
    rw [h1] at hl ⊢
    rw [h2] at hl
    unfold InRange
    push_cast at hl ⊢
    constructor <;> linarith [hb.1, hb.2, hl.1, hl.2]
  refine ⟨?_, fun p hp => ⟨hrange p hp, ?_⟩⟩
  · unfold VecScatterCreate_PtoS_group
    rw [List.map_map]
    apply List.map_congr_left
    intro p hp
    have hp' := List.mem_range.mp hp
    simp only [Function.comp]
    rw [PtoS_stride_unfold cfg bld _ _ (n p) (ff p) (fs p) (tf p) (ts p) rfl rfl, if_pos hc0]
    have := hloc p hp'
    simp only [Option.some.injEq, CreateResult.mk.injEq, true_and, List.cons.injEq,
      CommEvent.allreduce.injEq, decide_eq_true_eq, and_true]
    exact ⟨rfl, this⟩
  · intro X y hX hy hyr hinj
    obtain ⟨h1, h2⟩ := rstart_mpiLayout sizes p hp
    have hlen : ((X.drop (mpiLayout sizes p).rstart.toNat).take (sizes.getD p 0)).length =
        sizes.getD p 0 := by
      rw [h1]
      have := take_sum_le sizes p hp
      simp only [Int.toNat_ofNat, List.length_take, List.length_drop, hX]
      omega
    obtain ⟨y', hy', hval⟩ := begin_SS_insert cfg ext
      (stridePlan (ptosMember typ sizes p (.stride (n p) (ff p) (fs p))
        (.stride (n p) (tf p) (ts p)) (ny p)) (n p) (tf p) (ts p)
        (ff p - (mpiLayout sizes p).rstart) (fs p)) _ _ (n p) (tf p) (ts p)
      (ff p - (mpiLayout sizes p).rstart) (fs p) rfl rfl rfl rfl rfl
      ((X.drop (mpiLayout sizes p).rstart.toNat).take (sizes.getD p 0)) y
      (fun _ => by
        apply sizeError_of_sizesMatch
        unfold SizesMatch
        have hrev : ScatterMode.SCATTER_FORWARD.isReverse = false := rfl
        simp only [hrev, Bool.false_eq_true, if_false]
        refine ⟨?_, ?_⟩
        · show (y.length : Int) = ((ny p : Nat) : Int)
          rw [hy]
        · rw [hlen]
          rfl)
      hyr (fun i hi => by rw [hlen]; exact hrange p hp i hi) hinj
    refine ⟨y', hy', fun i hi => ?_⟩
    rw [hval i hi, rd_local X _ _ _ (hrange p hp i hi), h1]
    simp only [Int.toNat_ofNat]
    congr 1
    ring

/-- Witness of C14: two processes owning 3 entries each of the array `[10, .., 60]`, each
asking for its own range; process 1 extracts `[40, 50, 60]`. -/
theorem C14_local_extraction_witness :
    (∀ p, p < [3, 3].length →
      (ISGetMinMax cfgDebug (.stride 3 (3 * (p : Int)) 1)).1 ≥ (mpiLayout [3, 3] p).rstart ∧
      (ISGetMinMax cfgDebug (.stride 3 (3 * (p : Int)) 1)).2 < (mpiLayout [3, 3] p).rend) ∧
    VecScatterCreate_PtoS_group cfgDebug noBuilders [ownRangeCtx 0, ownRangeCtx 1] =
      [some ⟨.ok, stridePlan (ownRangeCtx 0) 3 0 1 0 1, [.allreduce true]⟩,
        some ⟨.ok, stridePlan (ownRangeCtx 1) 3 0 1 0 1, [.allreduce true]⟩] ∧
    ∃ y', VecScatterBegin cfgDebug (noExt Int)
        ⟨stridePlan (ownRangeCtx 1) 3 0 1 0 1, [40, 50, 60], [0, 0, 0]⟩
        .INSERT_VALUES .SCATTER_FORWARD =
      some (.ok, ⟨{ stridePlan (ownRangeCtx 1) 3 0 1 0 1 with inuse := true },
        [40, 50, 60], y'⟩) ∧
      ∀ i : Nat, i < 3 →
        rd y' (0 + (i : Int) * 1) = rd [10, 20, 30, 40, 50, 60] (3 * ((1 : Nat) : Int) + (i : Int) * 1) :=
  ⟨by decide,
    (C14_local_extraction cfgDebug noBuilders (noExt Int) "mpi1" [3, 3] (fun _ => 3)
      (fun _ => 3) (fun p => 3 * (p : Int)) (fun _ => 1) (fun _ => 0) (fun _ => 1)
      (by decide)).1,
    ((C14_local_extraction cfgDebug noBuilders (noExt Int) "mpi1" [3, 3] (fun _ => 3)
      (fun _ => 3) (fun p => 3 * (p : Int)) (fun _ => 1) (fun _ => 0) (fun _ => 1)
      (by decide)).2 1 (by decide)).2 [10, 20, 30, 40, 50, 60] [0, 0, 0] rfl rfl (by decide)
      (Or.inl (by decide))⟩

/-- C15 fails as stated in a 64-bit index build: two processes owning 2147483646 entries and
1 entry of a vector of global length `N = 2147483647 = PETSC_MPI_INT_MAX` both pass
Stride(first 0, step 1, length N) on both sides, and no process installs the broadcast; both
call the peer-set builder with block size 1. -/
theorem C15_refused_in_64bit_counterexample :
    ((VecScatterCreate_PtoS_group cfg64 noBuilders
        ((List.range 2).map (broadcastCtxOf "mpi1" [2147483646, 1]))).map
      fun o => o.map fun r => (r.ierr, r.selected)) =
      [some (.ok, some (.peerSet 1)), some (.ok, some (.peerSet 1))] := by
  obtain ⟨ev0, h0⟩ := broadcast_refused cfg64 rfl noBuilders "mpi1" [2147483646, 1]
    (by decide) (by decide) (by decide) 0
  obtain ⟨ev1, h1⟩ := broadcast_refused cfg64 rfl noBuilders "mpi1" [2147483646, 1]
    (by decide) (by decide) (by decide) 1
  have hl : ([2147483646, 1] : List Nat).length = 2 := rfl
  rw [hl] at h0 h1
  have hm : ∀ f : VecScatter → Option CreateResult,
      ((List.range 2).map (broadcastCtxOf "mpi1" [2147483646, 1])).map f =
        [f (broadcastCtxOf "mpi1" [2147483646, 1] 0),
          f (broadcastCtxOf "mpi1" [2147483646, 1] 1)] := fun _ => rfl
  rw [VecScatterCreate_PtoS_group, hm, h0, h1]
  simp only [List.map_cons, List.map_nil, Option.map_some', selected_callBuilder]
  simp only [callBuilder, noBuilders]

/-- C15 (amended): in a group of more than one process over a parallel vector of global length
`N > 0`, in a 32-bit index build or with `N < PETSC_MPI_INT_MAX`, if every process passes the stride `(0, 1, N)` on both sides then
`VecScatterCreate_PtoS` installs the broadcast plan on every process, with `count[i] =
range[i+1] - range[i]` and `displx[i] = range[i]`; a Forward Insert Begin through these plans
leaves every process with `y` equal to the concatenation of the local parts of `x` in rank
order. -/
theorem C15_broadcast [Add α] [Max α] (cfg : Config) (bld : Builders) (typ : String)
    (xs : List (List α)) (ys : Nat → List α) (hsize : 2 ≤ xs.length)
    (hN : 0 < (xs.map List.length).sum)
    (hfit : cfg.use64BitIndices = true →
      ((xs.map List.length).sum : Int) < PETSC_MPI_INT_MAX)
    (hys : ∀ p, p < xs.length → (ys p).length = (xs.map List.length).sum) :
    (∀ p, p < xs.length → ∃ r,
      (VecScatterCreate_PtoS_group cfg bld ((List.range (xs.map List.length).length).map
        (broadcastCtxOf typ (xs.map List.length))))[p]? = some (some r) ∧
      r.ierr = .ok ∧ r.ctx = broadcastPlan cfg typ (xs.map List.length) p ∧
      r.selected = some .broadcast) ∧
    (∀ p, p < xs.length → ∃ count displx,
      (broadcastPlan cfg typ (xs.map List.length) p).todata =
        .mpiToAll ⟨.VEC_SCATTER_MPI_TOALL, count, displx, none, none⟩ ∧
      ∀ i, i < xs.length →
        count[i]? = some ((rangeFrom 0 (xs.map List.length)).getD (i + 1) 0 -
          (rangeFrom 0 (xs.map List.length)).getD i 0) ∧
        displx[i]? = some ((rangeFrom 0 (xs.map List.length)).getD i 0)) ∧
    groupBegin cfg (forwardGroup (broadcastPlan cfg typ (xs.map List.length)) xs ys)
        .INSERT_VALUES .SCATTER_FORWARD =
      (List.range xs.length).map fun p => some (.ok,
        ⟨{ broadcastPlan cfg typ (xs.map List.length) p with inuse := true },
          xs.getD p [], xs.flatten⟩) := by
  have hfit' : cfg.use64BitIndices = true →
      ((xs.map List.length).sum : Int) ≤ PETSC_MPI_INT_MAX := fun h => le_of_lt (hfit h)
  have hlen : (xs.map List.length).length = xs.length := List.length_map _ _
  obtain ⟨hc0, hc1⟩ := groupCando_broadcast cfg typ (xs.map List.length) (by omega) hN
  have hplan := fun p => collectivePlan_layout cfg .VEC_SCATTER_MPI_TOALL .MPI_ToAll typ
    (xs.map List.length) p (.stride (xs.map List.length).sum 0 1)
    (.stride (xs.map List.length).sum 0 1) (xs.map List.length).sum hfit'
  refine ⟨?_, ?_, ?_⟩
  · intro p hp
    have hrun : VecScatterCreate_PtoS cfg bld
        (groupCando cfg ((List.range (xs.map List.length).length).map
          (broadcastCtxOf typ (xs.map List.length))))
        (broadcastCtxOf typ (xs.map List.length) p) =
        some ⟨.ok, broadcastPlan cfg typ (xs.map List.length) p,
          [.allreduce (decide ((ISGetMinMax cfg (.stride (xs.map List.length).sum 0 1)).1 ≥
              (broadcastCtxOf typ (xs.map List.length) p).from_v.rstart ∧
            (ISGetMinMax cfg (.stride (xs.map List.length).sum 0 1)).2 <
              (broadcastCtxOf typ (xs.map List.length) p).from_v.rend))] ++
          [.allreduce true]⟩ := by
      rw [PtoS_stride_unfold cfg bld _ (broadcastCtxOf typ (xs.map List.length) p)
        (xs.map List.length).sum 0 1 0 1 rfl rfl, hc0, hc1]
      have hN' : (broadcastCtxOf typ (xs.map List.length) p).to_v.N =
          ((xs.map List.length).sum : Int) := rfl
      simp only [Bool.false_eq_true, if_false, true_and, hN']
      rw [if_pos hfit]
      have hfrom : (broadcastCtxOf typ (xs.map List.length) p).from_v.N =
          ((xs.map List.length).sum : Int) := rfl
      rw [hfrom, totalTest_full]
      unfold broadcastPlan collectivePlan
      unfold broadcastCtxOf
      rw [installToAll_layout cfg _ _ typ (xs.map List.length) p _ _ _ hfit']
      rfl
    have hget : (VecScatterCreate_PtoS_group cfg bld
        ((List.range (xs.map List.length).length).map
          (broadcastCtxOf typ (xs.map List.length))))[p]? =
        some (VecScatterCreate_PtoS cfg bld
          (groupCando cfg ((List.range (xs.map List.length).length).map
            (broadcastCtxOf typ (xs.map List.length))))
          (broadcastCtxOf typ (xs.map List.length) p)) := by
      unfold VecScatterCreate_PtoS_group
      rw [List.getElem?_map, List.getElem?_map, List.getElem?_range (by omega)]
      rfl
    rw [hget, hrun]
    refine ⟨_, rfl, rfl, rfl, ?_⟩
    simp only [CreateResult.selected, broadcastPlan, broadcastCtxOf, hplan p]
    simp
  · intro p hp
    refine ⟨_, _, by rw [broadcastPlan, broadcastCtxOf, hplan p], ?_⟩
    intro i hi
    constructor
    · rw [List.getElem?_map, List.getElem?_eq_getElem (by omega)]
      simp only [Option.map_some', Option.some.injEq]
      rw [range_step _ i (by omega), List.getD_eq_getElem?_getD,
        List.getElem?_eq_getElem (by omega)]
      rfl
    · rw [List.getElem?_take, if_pos (by omega), List.getD_eq_getElem?_getD]
      rw [List.getElem?_eq_getElem (by rw [length_rangeFrom]; omega)]
      rfl
  · exact groupBegin_broadcast cfg typ xs ys _ _ hfit' hys

/-- Witness of C15: two processes owning `[1, 2, 3]` and `[4, 5, 6]`; after the broadcast
every process holds `[1, 2, 3, 4, 5, 6]`. -/
theorem C15_broadcast_witness :
    2 ≤ [[1, 2, 3], [4, 5, (6 : Int)]].length ∧
    0 < ([[1, 2, 3], [4, 5, (6 : Int)]].map List.length).sum ∧
    groupBegin cfgDebug (forwardGroup (broadcastPlan cfgDebug "mpi1" [3, 3])
        [[1, 2, 3], [4, 5, (6 : Int)]] (fun _ => [0, 0, 0, 0, 0, 0]))
        .INSERT_VALUES .SCATTER_FORWARD =
      [some (.ok, ⟨{ broadcastPlan cfgDebug "mpi1" [3, 3] 0 with inuse := true },
          [1, 2, 3], [1, 2, 3, 4, 5, 6]⟩),
        some (.ok, ⟨{ broadcastPlan cfgDebug "mpi1" [3, 3] 1 with inuse := true },
          [4, 5, 6], [1, 2, 3, 4, 5, 6]⟩)] :=
  ⟨by decide, by decide,
    (C15_broadcast cfgDebug noBuilders "mpi1" [[1, 2, 3], [4, 5, (6 : Int)]]
      (fun _ => [0, 0, 0, 0, 0, 0]) (by decide) (by decide) (by decide) (by decide)).2.2⟩

/-- C16: for the broadcast plans and for the gather-to-root plans of a group over the
parallel layout of `xs` (global length fitting an MPI integer), a Forward Insert Begin from
the parallel `x` with parts `xs` into the sequential vectors, End, and a Reverse Insert Begin
from those sequential vectors into a parallel `z` of the same layout leave every process with
its local part of `z` equal to its local part of `x`. -/
theorem C16_collective_round_trip [Add α] [Max α] (cfg : Config) (typ : String)
    (xs zs : List (List α)) (ys : Nat → List α) (ix iy : Nat → IS)
    (hfit : cfg.use64BitIndices = true →
      ((xs.map List.length).sum : Int) ≤ PETSC_MPI_INT_MAX)
    (hzs : zs.map List.length = xs.map List.length) :
    ((∀ p, p < xs.length → (ys p).length = (xs.map List.length).sum) →
      groupBegin cfg (forwardGroup (broadcastPlan cfg typ (xs.map List.length)) xs ys)
          .INSERT_VALUES .SCATTER_FORWARD =
        ((List.range xs.length).map fun p => some (.ok,
          ⟨{ broadcastPlan cfg typ (xs.map List.length) p with inuse := true },
            xs.getD p [], xs.flatten⟩)) ∧
      groupEnd cfg (forwardGroup
          (fun p => { broadcastPlan cfg typ (xs.map List.length) p with inuse := true })
          xs (fun _ => xs.flatten)) .INSERT_VALUES .SCATTER_FORWARD =
        ((List.range xs.length).map fun p => some (.ok,
          ⟨broadcastPlan cfg typ (xs.map List.length) p, xs.getD p [], xs.flatten⟩)) ∧
      groupBegin cfg (reverseGroup (broadcastPlan cfg typ (xs.map List.length))
          (fun _ => xs.flatten) zs) .INSERT_VALUES .SCATTER_REVERSE =
        ((List.range xs.length).map fun p => some (.ok,
          ⟨{ broadcastPlan cfg typ (xs.map List.length) p with inuse := true },
            xs.flatten, xs.getD p []⟩))) ∧
    ((ys 0).length = (xs.map List.length).sum →
      groupBegin cfg (forwardGroup
          (gatherPlan cfg typ (xs.map List.length) ix iy fun p => (ys p).length) xs ys)
          .INSERT_VALUES .SCATTER_FORWARD =
        ((List.range xs.length).map fun p => some (.ok,
          ⟨{ gatherPlan cfg typ (xs.map List.length) ix iy (fun p => (ys p).length) p
              with inuse := true },
            xs.getD p [], if p = 0 then xs.flatten else ys p⟩)) ∧
      groupEnd cfg (forwardGroup
          (fun p => { gatherPlan cfg typ (xs.map List.length) ix iy (fun p => (ys p).length) p
            with inuse := true })
          xs (fun p => if p = 0 then xs.flatten else ys p)) .INSERT_VALUES .SCATTER_FORWARD =
        ((List.range xs.length).map fun p => some (.ok,
          ⟨gatherPlan cfg typ (xs.map List.length) ix iy (fun p => (ys p).length) p,
            xs.getD p [], if p = 0 then xs.flatten else ys p⟩)) ∧
      groupBegin cfg (reverseGroup
          (gatherPlan cfg typ (xs.map List.length) ix iy fun p => (ys p).length)
          (fun p => if p = 0 then xs.flatten else ys p) zs) .INSERT_VALUES .SCATTER_REVERSE =
        ((List.range xs.length).map fun p => some (.ok,
          ⟨{ gatherPlan cfg typ (xs.map List.length) ix iy (fun p => (ys p).length) p
              with inuse := true },
            if p = 0 then xs.flatten else ys p, xs.getD p []⟩))) := by
  constructor
  · intro hys
    refine ⟨groupBegin_broadcast cfg typ xs ys _ _ hfit hys, ?_,
      groupBegin_broadcast_reverse cfg typ xs zs _ _ hfit hzs⟩
    apply groupEnd_forward
    · intro p _
      simp only [broadcastPlan, broadcastCtxOf, collectivePlan_layout cfg _ _ typ _ p _ _ _ hfit]
      rfl
    · intro p _
      simp only [broadcastPlan, broadcastCtxOf, collectivePlan_layout cfg _ _ typ _ p _ _ _ hfit]
  · intro hy0
    refine ⟨groupBegin_gather cfg typ xs ys ix iy hfit hy0, ?_,
      groupBegin_gather_reverse cfg typ xs zs ys ix iy hfit hy0 hzs⟩
    apply groupEnd_forward
    · intro p _
      simp only [gatherPlan, collectivePlan_layout cfg _ _ typ _ p _ _ _ hfit]
      rfl
    · intro p _
      simp only [gatherPlan, collectivePlan_layout cfg _ _ typ _ p _ _ _ hfit]

/-- Witness of C16: two processes owning `[1, 2, 3]` and `[4, 5, 6]`; through the broadcast
plans and back, each process gets its own part again. -/
theorem C16_collective_round_trip_witness :
    (cfgDebug.use64BitIndices = true →
      (([[1, 2, 3], [4, 5, (6 : Int)]].map List.length).sum : Int) ≤ PETSC_MPI_INT_MAX) ∧
    [[0, 0, 0], [0, 0, (0 : Int)]].map List.length =
      [[1, 2, 3], [4, 5, (6 : Int)]].map List.length ∧
    groupBegin cfgDebug (reverseGroup (broadcastPlan cfgDebug "mpi1" [3, 3])
        (fun _ => [1, 2, 3, 4, 5, (6 : Int)]) [[0, 0, 0], [0, 0, 0]])
        .INSERT_VALUES .SCATTER_REVERSE =
      [some (.ok, ⟨{ broadcastPlan cfgDebug "mpi1" [3, 3] 0 with inuse := true },
          [1, 2, 3, 4, 5, 6], [1, 2, 3]⟩),
        some (.ok, ⟨{ broadcastPlan cfgDebug "mpi1" [3, 3] 1 with inuse := true },
          [1, 2, 3, 4, 5, 6], [4, 5, 6]⟩)] :=
  ⟨by decide, by decide,
    ((C16_collective_round_trip cfgDebug "mpi1" [[1, 2, 3], [4, 5, (6 : Int)]]
      [[0, 0, 0], [0, 0, 0]] (fun _ => [0, 0, 0, 0, 0, 0]) (fun _ => .stride 6 0 1)
      (fun _ => .stride 6 0 1) (by decide) (by decide)).1 (by decide)).2.2⟩

/-- C17, the code at a failing input: two processes run the broadcast plans of a parallel
vector with one entry each in Reverse with `MAX_VALUES`; the sequential vectors are `[3, 5]`
and `[4, 1]`, the parallel destination holds 0 and 9. Slot 0 ends as `max(0, 3 + 4) = 7`, not
as `max(0, 3, 4) = 4`: the contributions are summed by `MPI_Reduce(.., MPIU_SUM, ..)` before
the maximum with the old value is taken. -/
theorem C17_reverse_max_sums_contributions :
    ((groupBegin cfgDebug (reverseGroup (broadcastPlan cfgDebug "mpi1" [1, 1])
        (fun p => if p = 0 then [3, 5] else [4, (1 : Int)]) [[0], [9]])
        .MAX_VALUES .SCATTER_REVERSE).map fun o => o.map fun r => (r.1, r.2.y)) =
      [some (.ok, [7]), some (.ok, [9])] ∧
    max (max (0 : Int) 3) 4 = 4 ∧ max (max (9 : Int) 5) 1 = 9 := by
  refine ⟨by decide, by decide, by decide⟩

/-- C18: `VecScatterRemap` called with a From-side map and no To-side map returns
`PETSC_ERR_SUP` and leaves the whole plan, stored indices and recorded lengths included, as it
was. -/
theorem C18_remap_from_side_unsupported (opt : LocalOptimizeCopy) (scat : VecScatter)
    (frommap : List Int) :
    VecScatterRemap opt scat none (some frommap) = some (.ERR_SUP, scat) := by
  simp [VecScatterRemap, remapTo]

/-- C19: after a successful `VecScatterRemap` the recorded `from_n` and `to_n` are both `-1`,
and a Begin on the remapped plan raises no size error whatever the lengths of `x` and `y`: it
behaves as in a build without the size check. -/
theorem C19_remap_marks_lengths_unknown [Add α] [Max α] (cfg : Config)
    (opt : LocalOptimizeCopy) (ext : ExtRoutines α) (scat scat' : VecScatter)
    (tomap frommap : Option (List Int))
    (h : VecScatterRemap opt scat tomap frommap = some (.ok, scat')) :
    scat'.from_n = -1 ∧ scat'.to_n = -1 ∧
    ∀ (x y : List α) (addv : InsertMode) (mode : ScatterMode),
      beginSizeError scat' x y mode = false ∧
      VecScatterBegin cfg ext ⟨scat', x, y⟩ addv mode =
        VecScatterBegin { cfg with useDebug := false } ext ⟨scat', x, y⟩ addv mode := by
  have hmark : ∃ s, scat' = markUnknown s := by
    unfold VecScatterRemap at h
    cases hA : remapTo opt scat tomap with
    | none => simp [hA] at h
    | some p =>
      obtain ⟨e, s1⟩ := p
      simp only [hA] at h
      by_cases he : e = .ok
      · subst he
        cases hf : frommap.isSome
        · simp [hf] at h
          exact ⟨s1, h.symm⟩
        · simp [hf] at h
      · simp [he] at h
  obtain ⟨s, rfl⟩ := hmark
  refine ⟨rfl, rfl, fun x y addv mode => ⟨beginSizeError_markUnknown s x y mode, ?_⟩⟩
  simp only [VecScatterBegin, beginSizeError_markUnknown, callBegin_noDebug,
    Bool.false_eq_true, and_false, if_false]

/-- Witness of C19: the identity remap of `swapPlan` (created for arrays of length 2)
succeeds; before it Begin rejects arrays of length 3 in a debug build, after it Begin accepts
them. -/
theorem C19_remap_marks_lengths_unknown_witness :
    VecScatterRemap noOptimize swapPlan (some (identityMap 2)) none =
      some (.ok, markUnknown swapPlan) ∧
    VecScatterBegin cfgDebug (noExt Int) ⟨swapPlan, [5, 7, 9], [0, 0, 0]⟩ .INSERT_VALUES
      .SCATTER_FORWARD = some (.ERR_ARG_SIZ, ⟨swapPlan, [5, 7, 9], [0, 0, 0]⟩) ∧
    VecScatterBegin cfgDebug (noExt Int) ⟨markUnknown swapPlan, [5, 7, 9], [0, 0, 0]⟩
      .INSERT_VALUES .SCATTER_FORWARD =
      some (.ok, ⟨{ markUnknown swapPlan with inuse := true }, [5, 7, 9], [7, 5, 0]⟩) ∧
    ((markUnknown swapPlan).from_n = -1 ∧ (markUnknown swapPlan).to_n = -1 ∧
    ∀ (x y : List Int) (addv : InsertMode) (mode : ScatterMode),
      beginSizeError (markUnknown swapPlan) x y mode = false ∧
      VecScatterBegin cfgDebug (noExt Int) ⟨markUnknown swapPlan, x, y⟩ addv mode =
        VecScatterBegin { cfgDebug with useDebug := false } (noExt Int)
          ⟨markUnknown swapPlan, x, y⟩ addv mode) :=
  ⟨by decide, by decide, by decide,
    C19_remap_marks_lengths_unknown cfgDebug noOptimize (noExt Int) swapPlan
      (markUnknown swapPlan) (some (identityMap 2)) none (by decide)⟩

/-- C20 fails as stated: the identity remap of a Stride/Stride plan whose source stride
starts at 1 is refused with `PETSC_ERR_ARG_SIZ`, and so is the identity remap of a broadcast
plan; both plans are left as they were. -/
theorem C20_identity_remap_refused_counterexample :
    (createSeq cfgDebug false false (.stride 2 1 1) (.stride 2 0 1) 3 2).1 = .ok ∧
    VecScatterRemap noOptimize
        (createSeq cfgDebug false false (.stride 2 1 1) (.stride 2 0 1) 3 2).2
        (some (identityMap 3)) none =
      some (.ERR_ARG_SIZ,
        (createSeq cfgDebug false false (.stride 2 1 1) (.stride 2 0 1) 3 2).2) ∧
    ((installToAll cfgDebug .VEC_SCATTER_MPI_TOALL .MPI_ToAll
        (ptosCtx "mpi1" 2 0 2 0 1 [0, 1, 2] (.stride 2 0 1) (.stride 2 0 1) 2)).map
      fun p => (p.1, VecScatterRemap noOptimize p.2 (some (identityMap 2)) none)) =
      ((installToAll cfgDebug .VEC_SCATTER_MPI_TOALL .MPI_ToAll
        (ptosCtx "mpi1" 2 0 2 0 1 [0, 1, 2] (.stride 2 0 1) (.stride 2 0 1) 2)).map
      fun p => (.ok, some (.ERR_ARG_SIZ, p.2))) ∧
    (installToAll cfgDebug .VEC_SCATTER_MPI_TOALL .MPI_ToAll
        (ptosCtx "mpi1" 2 0 2 0 1 [0, 1, 2] (.stride 2 0 1) (.stride 2 0 1) 2)).isSome = true := by
  refine ⟨by decide, by decide, by decide, by decide⟩

/-- C20 (amended): the identity remap on `m` indices succeeds on a plan whose `todata` is
neither a broadcast table nor a peer set and whose `fromdata` is an index list (with entries
below `m`) or the stride with first 0 and step 1, and changes nothing but the recorded
lengths, which become unknown; on a peer-set plan (with indices below `m`) it succeeds as
well, leaves the index tables as they were, clears the two `made_of_copies` marks and calls
`VecScatterLocalOptimizeCopy_Private` on these tables. On a plan run by a sequential kernel
every Begin on correctly sized `x` and `y` and every End give the result they gave before the
remap, up to the recorded lengths. -/
theorem C20_identity_remap_supported [Add α] [Max α] (cfg : Config)
    (opt : LocalOptimizeCopy) (ext : ExtRoutines α) (scat : VecScatter) (m : Nat) :
    ((∃ f, scat.todata.format? = some f ∧ f ≠ .VEC_SCATTER_MPI_TOALL ∧
        f ≠ .VEC_SCATTER_MPI_GENERAL) →
      ((∃ d, scat.fromdata = .seqGeneral d ∧ d.format = .VEC_SCATTER_SEQ_GENERAL ∧
          d.n ≤ d.vslots.length ∧ ∀ v ∈ d.vslots.take d.n, InRange m v) ∨
        (∃ n, scat.fromdata = .seqStride ⟨.VEC_SCATTER_SEQ_STRIDE, n, 0, 1⟩ ∧ n ≤ m)) →
      VecScatterRemap opt scat (some (identityMap m)) none = some (.ok, markUnknown scat)) ∧
    (∀ (to_ from_ : VecScatter_MPI_General) (k : Int),
      scat.todata = .mpiGeneral to_ → to_.format = .VEC_SCATTER_MPI_GENERAL →
      scat.fromdata = .mpiGeneral from_ → rd to_.starts to_.n = some k →
      k.toNat ≤ to_.indices.length → (∀ v ∈ to_.indices.take k.toNat, InRange m v) →
      to_.local_n ≤ to_.local_vslots.length →
      (∀ v ∈ to_.local_vslots.take to_.local_n, InRange m v) →
      VecScatterRemap opt scat (some (identityMap m)) none =
        some (.ok, markUnknown { scat with
          todata := .mpiGeneral (opt.run scat { to_ with local_made_of_copies := false }
            { from_ with local_made_of_copies := false } to_.bs).1
          fromdata := .mpiGeneral (opt.run scat { to_ with local_made_of_copies := false }
            { from_ with local_made_of_copies := false } to_.bs).2 })) ∧
    (markUnknown scat).todata = scat.todata ∧ (markUnknown scat).fromdata = scat.fromdata ∧
    (∀ r, scat.ops.begin_ = some r → r.isLocal = true → scat.ops.end_ = none →
      scat.inuse = false →
      ∀ (x y : List α) (addv : InsertMode) (mode : ScatterMode), SizesMatch scat x y mode →
        VecScatterBegin cfg ext ⟨markUnknown scat, x, y⟩ addv mode =
          (VecScatterBegin cfg ext ⟨scat, x, y⟩ addv mode).map
            fun p => (p.1, { p.2 with ctx := markUnknown p.2.ctx })) ∧
    (∀ (c : VecScatter) (x y : List α) (addv : InsertMode) (mode : ScatterMode),
      c.ops.end_ = none →
      VecScatterEnd ext ⟨markUnknown c, x, y⟩ addv mode =
        (VecScatterEnd ext ⟨c, x, y⟩ addv mode).map
          fun p => (p.1, { p.2 with ctx := markUnknown p.2.ctx })) := by
  refine ⟨?_, ?_, rfl, rfl, ?_, ?_⟩
  · intro hto hfrom
    obtain ⟨f, hf, hf1, hf2⟩ := hto
    have hr : remapTo opt scat (some (identityMap m)) = some (.ok, scat) := by
      rcases hfrom with ⟨d, hd, hfmt, hn, hv⟩ | ⟨n, hd, hn⟩
      · have h1 : scat.fromdata.format? = some .VEC_SCATTER_SEQ_GENERAL := by
          rw [hd]; exact congrArg some hfmt
        unfold remapTo
        simp only [hf, hf1, hf2, if_false, h1, if_true]
        simp only [hd, remapLoop_identity m d.n d.vslots hn hv, Option.map_some']
        rw [← hd]
      · have h1 : scat.fromdata.format? = some .VEC_SCATTER_SEQ_STRIDE := by
          rw [hd]; rfl
        unfold remapTo
        simp only [hf, hf1, hf2, if_false, h1, if_true]
        simp [hd, remapIsIdentity_identity m n hn]
    simp [VecScatterRemap, hr, markUnknown]
  · intro to_ from_ k hto hfmt hfrom hk hlen hv hlen2 hv2
    have h1 : scat.todata.format? = some .VEC_SCATTER_MPI_GENERAL := by
      rw [hto]; exact congrArg some hfmt
    have hr : remapTo opt scat (some (identityMap m)) = some (.ok, { scat with
          todata := .mpiGeneral (opt.run scat { to_ with local_made_of_copies := false }
            { from_ with local_made_of_copies := false } to_.bs).1
          fromdata := .mpiGeneral (opt.run scat { to_ with local_made_of_copies := false }
            { from_ with local_made_of_copies := false } to_.bs).2 }) := by
      unfold remapTo
      simp only [h1, if_true, hto, hfrom, hk, Option.some_bind,
        remapLoop_identity m k.toNat to_.indices hlen hv,
        remapLoop_identity m to_.local_n to_.local_vslots hlen2 hv2]
      simp [ScatterData.format?, hfmt]
    simp [VecScatterRemap, hr, markUnknown]
  · intro r hb hr hend hin x y addv mode hs
    exact begin_markUnknown cfg ext scat r hb hr hend hin x y addv mode
      (fun _ => sizeError_of_sizesMatch scat x y mode hs)
  · intro c x y addv mode hend
    exact end_markUnknown ext c x y addv mode hend

/-- Witness of C20: the identity remap of `swapPlan`, a General/General plan on arrays of
length 2, and of the peer-set plan `peerPlan`. -/
theorem C20_identity_remap_supported_witness :
    (∃ f, swapPlan.todata.format? = some f ∧ f ≠ .VEC_SCATTER_MPI_TOALL ∧
      f ≠ .VEC_SCATTER_MPI_GENERAL) ∧
    VecScatterRemap noOptimize swapPlan (some (identityMap 2)) none =
      some (.ok, markUnknown swapPlan) ∧
    VecScatterRemap noOptimize peerPlan (some (identityMap 2)) none =
      some (.ok, markUnknown { peerPlan with
        todata := .mpiGeneral ⟨.VEC_SCATTER_MPI_GENERAL, 1, [0, 2], [1, 0], 1, 1, [0], false⟩
        fromdata :=
          .mpiGeneral ⟨.VEC_SCATTER_MPI_GENERAL, 1, [0, 2], [0, 1], 1, 1, [1], false⟩ }) ∧
    VecScatterBegin cfgDebug (noExt Int) ⟨markUnknown swapPlan, [5, 7], [0, 0]⟩ .INSERT_VALUES
      .SCATTER_FORWARD =
      (VecScatterBegin cfgDebug (noExt Int) ⟨swapPlan, [5, 7], [0, 0]⟩ .INSERT_VALUES
        .SCATTER_FORWARD).map fun p => (p.1, { p.2 with ctx := markUnknown p.2.ctx }) :=
  ⟨⟨.VEC_SCATTER_SEQ_GENERAL, by decide, by decide, by decide⟩,
    (C20_identity_remap_supported cfgDebug noOptimize (noExt Int) swapPlan 2).1
      ⟨.VEC_SCATTER_SEQ_GENERAL, by decide, by decide, by decide⟩
      (Or.inl ⟨⟨.VEC_SCATTER_SEQ_GENERAL, 2, [1, 0]⟩, by decide, by decide, by decide,
        by decide⟩),
    (C20_identity_remap_supported cfgDebug noOptimize (noExt Int) peerPlan 2).2.1
      ⟨.VEC_SCATTER_MPI_GENERAL, 1, [0, 2], [1, 0], 1, 1, [0], true⟩
      ⟨.VEC_SCATTER_MPI_GENERAL, 1, [0, 2], [0, 1], 1, 1, [1], true⟩ 2
      rfl rfl rfl rfl (by decide) (by decide) (by decide) (by decide),
    (C20_identity_remap_supported cfgDebug noOptimize (noExt Int) swapPlan 2).2.2.2.2.1
      .SGToSG (by decide) (by decide) (by decide) (by decide)
      [5, 7] [0, 0] .INSERT_VALUES .SCATTER_FORWARD (by decide)⟩

end GroupClaims

/-! ## Lemmas on remapped tables, unsupported modes, copies and collective plans -/

section RemapTables
variable {α : Type}

theorem rd_getD (tomap : List Int) (s : Int) (h : InRange tomap.length s) :
    rd tomap s = some (tomap.getD s.toNat 0) := by
  obtain ⟨h0, h1⟩ := h
  have hlt : s.toNat < tomap.length := by omega
  simp only [rd, h0, if_true]
  rw [List.getD_eq_getElem?_getD, List.getElem?_eq_getElem hlt]
  rfl

theorem remapLoop_remapped (tomap : List Int) (n : Nat) (v : List Int) (hn : n ≤ v.length)
    (hv : ∀ a ∈ v.take n, InRange tomap.length a) :
    remapLoop tomap n v = some (remapped tomap (v.take n) ++ v.drop n) := by
  unfold remapLoop
  induction n with
  | zero => simp [forLoop, remapped]
  | succ k ih =>
    have hk : k < v.length := by omega
    have hmem : v[k] ∈ v.take (k + 1) := by
      rw [List.mem_iff_getElem]
      exact ⟨k, by simp; omega, by simp⟩
    have hpre : ∀ a ∈ v.take k, InRange tomap.length a := by
      intro a ha
      exact hv a (List.mem_of_mem_take (by
        have : v.take k = (v.take (k + 1)).take k := by simp [List.take_take]
        rw [this] at ha; exact ha))
    rw [forLoop_succ, ih (by omega) hpre]
    have hlen : (remapped tomap (v.take k)).length = k := by
      simp [remapped]; omega
    have h1 : rd (remapped tomap (v.take k) ++ v.drop k) (k : Int) = some v[k] := by
      rw [rd_natCast, List.getElem?_append_right (by omega), hlen]
      simp [List.getElem?_drop, List.getElem?_eq_getElem hk]
    simp only [Option.some_bind, h1, rd_getD tomap _ (hv _ hmem)]
    rw [wr_of_inRange _ ⟨by omega, by simp [hlen]; omega⟩]
    simp only [Int.toNat_ofNat, Option.some.injEq]
    rw [List.set_append_right _ _ (by omega), hlen, Nat.sub_self]
    have hd : v.drop k = v[k] :: v.drop (k + 1) := by
      rw [List.drop_eq_getElem_cons hk]
    rw [hd, List.set_cons_zero]
    have ht : v.take (k + 1) = v.take k ++ [v[k]] := by
      rw [List.take_succ, List.getElem?_eq_getElem hk]; rfl
    rw [ht]
    simp only [remapped, List.map_append, List.map_cons, List.map_nil, List.append_assoc,
      List.singleton_append]

theorem remapLoop_full (tomap : List Int) (v : List Int)
    (hv : ∀ a ∈ v, InRange tomap.length a) :
    remapLoop tomap v.length v = some (remapped tomap v) := by
  rw [remapLoop_remapped tomap v.length v le_rfl (by simpa using hv)]
  simp

/-- The block `if (tomap) { .. }` of `VecScatterRemap` on a plan whose source side is an index
list: the list is rewritten through `tomap`, nothing else changes. -/
theorem remapTo_seqGeneral (opt : LocalOptimizeCopy) (scat : VecScatter) (tomap : List Int)
    (f : VecScatterFormat) (d : VecScatter_Seq_General)
    (hto : scat.todata.format? = some f) (hf1 : f ≠ .VEC_SCATTER_MPI_TOALL)
    (hf2 : f ≠ .VEC_SCATTER_MPI_GENERAL)
    (hfrom : scat.fromdata = .seqGeneral d) (hfmt : d.format = .VEC_SCATTER_SEQ_GENERAL)
    (hn : d.n = d.vslots.length) (hv : ∀ a ∈ d.vslots, InRange tomap.length a) :
    remapTo opt scat (some tomap) =
      some (.ok, { scat with
        fromdata := .seqGeneral { d with vslots := remapped tomap d.vslots } }) := by
  have h1 : scat.fromdata.format? = some .VEC_SCATTER_SEQ_GENERAL := by
    rw [hfrom]; exact congrArg some hfmt
  unfold remapTo
  simp only [hto, hf1, hf2, if_false, h1, if_true]
  simp only [hfrom, hn, remapLoop_full tomap d.vslots hv, Option.map_some']

end RemapTables

section Unsupported
variable {α : Type}

theorem modeOp_unsupported [Add α] [Max α] (cfg : Config) (addv : InsertMode)
    (hun : (cfg.useComplex = true ∧ addv = .MAX_VALUES) ∨
      (addv ≠ .INSERT_VALUES ∧ addv ≠ .ADD_VALUES ∧ addv ≠ .MAX_VALUES)) :
    modeOp (α := α) cfg addv = none := by
  rcases hun with ⟨h1, rfl⟩ | ⟨h1, h2, h3⟩
  · simp [modeOp, h1]
  · simp [modeOp, h1, h2, h3]

theorem scatterLoops_unsupported [Add α] [Max α] (cfg : Config) (addv : InsertMode) (n : Nat)
    (T F : Nat → Option Int) (xv yv : List α)
    (hun : (cfg.useComplex = true ∧ addv = .MAX_VALUES) ∨
      (addv ≠ .INSERT_VALUES ∧ addv ≠ .ADD_VALUES ∧ addv ≠ .MAX_VALUES)) :
    scatterLoops cfg addv n T F xv yv = some (.ERR_ARG_UNKNOWN_TYPE, yv) := by
  rcases hun with ⟨h1, rfl⟩ | ⟨h1, h2, h3⟩
  · simp [scatterLoops, h1]
  · simp [scatterLoops, h1, h2, h3]

/-- A sequential kernel that is called with an unsupported insert mode returns
`PETSC_ERR_ARG_UNKNOWN_TYPE` and has written nothing. -/
theorem callBegin_unsupported [Add α] [Max α] (cfg : Config) (ext : ExtRoutines α)
    (r : BeginRoutine) (hr : r.isLocal = true) (w : World α) (addv : InsertMode)
    (mode : ScatterMode)
    (hun : (cfg.useComplex = true ∧ addv = .MAX_VALUES) ∨
      (addv ≠ .INSERT_VALUES ∧ addv ≠ .ADD_VALUES ∧ addv ≠ .MAX_VALUES))
    (e : PetscErrorCode) (w' : World α)
    (h : callBegin cfg ext r w addv mode = some (e, w')) :
    e = .ERR_ARG_UNKNOWN_TYPE ∧ w' = w := by
  have hss : ∀ (n : Nat) (a b c d : Int),
      (if addv = .INSERT_VALUES then
        if a = 1 ∧ b = 1 then
          (PetscMemcpy w.y c w.x d n).map fun yv => (PetscErrorCode.ok, yv)
        else
          (forLoop n (fun i yv => stInsert w.x (some (c + (i : Int) * a))
            (some (d + (i : Int) * b)) yv) w.y).map fun yv => (.ok, yv)
      else if addv = .ADD_VALUES then
        if a = 1 ∧ b = 1 then
          (forLoop n (fun i yv => stAdd w.x (some (c + (i : Int)))
            (some (d + (i : Int))) yv) w.y).map fun yv => (.ok, yv)
        else
          (forLoop n (fun i yv => stAdd w.x (some (c + (i : Int) * a))
            (some (d + (i : Int) * b)) yv) w.y).map fun yv => (.ok, yv)
      else if cfg.useComplex = false ∧ addv = .MAX_VALUES then
        if a = 1 ∧ b = 1 then
          (forLoop n (fun i yv => stMax w.x (some (c + (i : Int)))
            (some (d + (i : Int))) yv) w.y).map fun yv => (.ok, yv)
        else
          (forLoop n (fun i yv => stMax w.x (some (c + (i : Int) * a))
            (some (d + (i : Int) * b)) yv) w.y).map fun yv => (.ok, yv)
      else some (.ERR_ARG_UNKNOWN_TYPE, w.y)) = some (.ERR_ARG_UNKNOWN_TYPE, w.y) := by
    intro n a b c d
    rcases hun with ⟨h1, rfl⟩ | ⟨h1, h2, h3⟩
    · simp [h1]
    · simp [h1, h2, h3]
  cases r <;> simp only [BeginRoutine.isLocal, Bool.false_eq_true] at hr <;>
    simp only [callBegin, VecScatterBegin_SGToSG, VecScatterBegin_SGToSS_Stride1,
      VecScatterBegin_SGToSS, VecScatterBegin_SSToSG_Stride1, VecScatterBegin_SSToSG,
      VecScatterBegin_SSToSS] at h <;>
    (split at h
     · first
       | (simp only [scatterLoops_unsupported cfg addv _ _ _ _ _ hun, Option.map_some',
            Option.some.injEq, Prod.mk.injEq, ite_self] at h
          exact ⟨h.1.symm, h.2.symm⟩)
       | (rw [hss] at h
          simp only [Option.map_some', Option.some.injEq, Prod.mk.injEq] at h
          exact ⟨h.1.symm, h.2.symm⟩)
     · simp at h)

end Unsupported

section CopyLemmas

theorem copyArray_take (l : List Int) (n : Nat) (h : n ≤ l.length) :
    copyArray l n = some (l.take n) := by
  unfold copyArray PetscMemcpy
  by_cases h0 : n = 0
  · subst h0; simp
  · simp [h0, h]

theorem copyArray_exact (l : List Int) : copyArray l l.length = some l := by
  rw [copyArray_take l l.length (le_refl _), List.take_length]

theorem take_length_of_le (l : List Int) (n : Nat) (h : n ≤ l.length) :
    (l.take n).length = n := by
  rw [List.length_take]; omega

/-- The data and the routines that `VecScatterCreate_Seq` installs, by the kinds of the two
index sets: only a Stride source with a General destination has no copy routine. -/
theorem createSeq_shape (cfg : Config) (merge pack : Bool) (A B : IS) (nx ny : Nat)
    (ctx : VecScatter) (hc : createSeq cfg merge pack A B nx ny = (.ok, ctx)) :
    ctx.refct = 1 ∧ ctx.comm_size = 1 ∧
    ((ctx.ops.copy = some .SGToSG ∧ ctx.ops.destroy = some .SGToSG ∧
        ¬ (isTypeId A = IS_STRIDE_ID ∧ isTypeId B = IS_GENERAL_ID) ∧
        ∃ tv fv, ctx.todata = .seqGeneral ⟨.VEC_SCATTER_SEQ_GENERAL, tv.length, tv⟩ ∧
          ctx.fromdata = .seqGeneral ⟨.VEC_SCATTER_SEQ_GENERAL, fv.length, fv⟩) ∨
      (ctx.ops.copy = some .SSToSS ∧ ctx.ops.destroy = some .SSToSS ∧
        ¬ (isTypeId A = IS_STRIDE_ID ∧ isTypeId B = IS_GENERAL_ID) ∧
        ∃ d1 d2, ctx.todata = .seqStride d1 ∧ ctx.fromdata = .seqStride d2) ∨
      (ctx.ops.copy = some .SGToSS ∧ ctx.ops.destroy = some .SGToSS ∧
        ¬ (isTypeId A = IS_STRIDE_ID ∧ isTypeId B = IS_GENERAL_ID) ∧
        ∃ d1 fv, ctx.todata = .seqStride d1 ∧
          ctx.fromdata = .seqGeneral ⟨.VEC_SCATTER_SEQ_GENERAL, fv.length, fv⟩) ∨
      (ctx.ops.copy = none ∧ ctx.ops.destroy = some .SSToSG ∧
        (isTypeId A = IS_STRIDE_ID ∧ isTypeId B = IS_GENERAL_ID) ∧
        ∃ tv d2, ctx.todata = .seqGeneral ⟨.VEC_SCATTER_SEQ_GENERAL, tv.length, tv⟩ ∧
          ctx.fromdata = .seqStride d2)) := by
  have lA := length_ISGetIndices A
  have lB := length_ISGetIndices B
  simp only [createSeq, VecScatterCreate_Seq, VecScatterCreate_setup, VecScatterCreateEmpty,
    GetInputISType_private, effectiveIS] at hc
  have tk : ∀ (l : List Int) (n : Nat), n ≤ l.length →
      (⟨.VEC_SCATTER_SEQ_GENERAL, n, l.take n⟩ : VecScatter_Seq_General) =
        ⟨.VEC_SCATTER_SEQ_GENERAL, (l.take n).length, l.take n⟩ := by
    intro l n h; rw [take_length_of_le l n h]
  split_ifs at hc
  all_goals first
    | (simp at hc; done)
    | (exfalso; simp only [Prod.mk.injEq] at hc; simp_all; done)
    | (simp only [Prod.mk.injEq, true_and] at hc
       subst hc
       refine ⟨rfl, rfl, ?_⟩
       rename_i hlen
       first
         | (left; refine ⟨rfl, rfl, ?_, _, _, congrArg _ (tk _ _ ?_), congrArg _ (tk _ _ ?_)⟩
            · simp_all [IS_GENERAL_ID, IS_STRIDE_ID]
            · simp_all
            · simp_all)
         | (right; left; refine ⟨rfl, rfl, ?_, _, _, rfl, rfl⟩
            simp_all [IS_GENERAL_ID, IS_STRIDE_ID])
         | (right; right; left; refine ⟨rfl, rfl, ?_, _, _, rfl, congrArg _ (tk _ _ ?_)⟩
            · simp_all [IS_GENERAL_ID, IS_STRIDE_ID]
            · simp_all)
         | (right; right; right; refine ⟨rfl, rfl, ?_, _, _, congrArg _ (tk _ _ ?_), rfl⟩
            · simp_all [IS_GENERAL_ID, IS_STRIDE_ID]
            · simp_all))

/-- The destroy routine that `VecScatterCreate_Seq` installs finds the data it expects. -/
theorem destroy_createSeq (extd : Nat → VecScatter → Option PetscErrorCode) (cfg : Config)
    (merge pack : Bool) (A B : IS) (nx ny : Nat) (ctx : VecScatter)
    (hc : createSeq cfg merge pack A B nx ny = (.ok, ctx)) :
    ∃ r, ctx.ops.destroy = some r ∧
      ∀ c : VecScatter, c.todata = ctx.todata → c.fromdata = ctx.fromdata →
        callDestroy extd r c = some .ok := by
  obtain ⟨_, _, h⟩ := createSeq_shape cfg merge pack A B nx ny ctx hc
  rcases h with ⟨_, hd, _, _, _, h1, h2⟩ | ⟨_, hd, _, _, _, h1, h2⟩ | ⟨_, hd, _, _, _, h1, h2⟩ |
    ⟨_, hd, _, _, _, h1, h2⟩
  all_goals
    refine ⟨_, hd, ?_⟩
    intro c k1 k2
    simp only [callDestroy, k1, k2, h1, h2]

end CopyLemmas

section LifecycleLemmas

/-- With equal local lengths `VecScatterCreate_PtoP` makes the builder call of `ptopBuild`
with block size 1 and the two full index lists; with unequal lengths it fails with
`PETSC_ERR_ARG_SIZ` and calls no builder. -/
theorem PtoP_unfold (cfg : Config) (bld : Builders) (typ : String) (sizesx sizesy : List Nat)
    (rank : Nat) (ix iy : IS) :
    VecScatterCreate_PtoP cfg bld (ptopMember typ sizesx sizesy rank ix iy) =
      if ISGetLocalSize ix ≠ ISGetLocalSize iy then
        ⟨.ERR_ARG_SIZ, ptopMember typ sizesx sizesy rank ix iy, []⟩
      else ptopBuild cfg bld (typ == "mpi1") (ISGetLocalSize ix) (ISGetIndices ix)
        (ISGetLocalSize iy) (ISGetIndices iy) 1 (ptopMember typ sizesx sizesy rank ix iy) [] := by
  simp only [VecScatterCreate_PtoP, ptopMember, VecScatterCreate_setup, GetInputISType_private,
    effectiveIS]

/-- When the type is `mpi1` or MPI-3 windows are compiled in, `VecScatterCreate_PtoP` on
index sets of equal local length calls one builder, once. -/
theorem PtoP_builds (cfg : Config) (bld : Builders) (typ : String) (sizesx sizesy : List Nat)
    (rank : Nat) (ix iy : IS) (hlen : ISGetLocalSize ix = ISGetLocalSize iy)
    (hcfg : typ = "mpi1" ∨ cfg.haveMpiWinCreate = true) :
    (VecScatterCreate_PtoP cfg bld (ptopMember typ sizesx sizesy rank ix iy)).events =
      [.build (if typ = "mpi1" then .PtoP_MPI1 else .PtoP_MPI3) (ISGetLocalSize ix)
        (ISGetIndices ix) (ISGetLocalSize iy) (ISGetIndices iy) 1] := by
  rw [PtoP_unfold, if_neg (by simpa using hlen)]
  by_cases h1 : typ = "mpi1"
  · simp [ptopBuild, callBuilder, h1]
  · rcases hcfg with h | h
    · exact absurd h h1
    · simp [ptopBuild, callBuilder, h1, h]

end LifecycleLemmas

section CollectiveCongr
variable {α : Type}

theorem toAll_ops [Add α] [Max α] (cfg : Config) (grp : List (Member α)) (me : Member α)
    (addv : InsertMode) (mode : ScatterMode) (e : PetscErrorCode) (w2 : World α)
    (h : VecScatterBegin_MPI_ToAll cfg grp me addv mode = some (e, w2)) :
    w2.ctx.ops = me.w.ctx.ops := by
  unfold VecScatterBegin_MPI_ToAll at h
  split at h
  · split_ifs at h
    all_goals try (simp only [Option.map_eq_some', Option.bind_eq_some] at h)
    · obtain ⟨_, _, h⟩ := h; cases h; rfl
    · obtain ⟨r, _, h⟩ := h
      split_ifs at h
      · cases h; rfl
      · simp only [Option.map_eq_some'] at h
        obtain ⟨_, _, h⟩ := h; cases h; rfl
    · split at h
      · split at h
        · simp only [Option.bind_eq_some] at h
          obtain ⟨r, _, h⟩ := h
          split_ifs at h
          simp only [Option.map_eq_some'] at h
          obtain ⟨_, _, h⟩ := h; cases h; rfl
        · cases h
      · cases h
    · obtain ⟨_, _, h⟩ := h; cases h; rfl
    · obtain ⟨_, _, _, _, h⟩ := h; cases h; rfl
  · cases h

theorem toOne_ops [Add α] [Max α] (cfg : Config) (grp : List (Member α)) (me : Member α)
    (addv : InsertMode) (mode : ScatterMode) (e : PetscErrorCode) (w2 : World α)
    (h : VecScatterBegin_MPI_ToOne cfg grp me addv mode = some (e, w2)) :
    w2.ctx.ops = me.w.ctx.ops := by
  unfold VecScatterBegin_MPI_ToOne at h
  split at h
  · split_ifs at h
    all_goals try (simp only [Option.map_eq_some', Option.bind_eq_some] at h)
    all_goals try (split at h)
    all_goals try (split at h)
    all_goals try (simp only [Option.map_eq_some', Option.bind_eq_some] at h)
    all_goals first
      | (cases h; rfl)
      | (cases h; done)
      | (obtain ⟨_, _, h⟩ := h; cases h; rfl)
      | (obtain ⟨_, _, _, _, h⟩ := h; cases h; rfl)
  · cases h

theorem begin_of_frame [Add α] [Max α] (cfg : Config) (ext : ExtRoutines α) (w : World α)
    (addv : InsertMode) (mode : ScatterMode) (r : BeginRoutine)
    (hb : w.ctx.ops.begin_ = some r)
    (hE : ∀ e w2, callBegin cfg ext r { w with ctx := { w.ctx with inuse := true } } addv mode =
      some (e, w2) → w2.ctx.ops.end_ = none) :
    VecScatterBegin cfg ext w addv mode =
      if w.ctx.inuse = true then some (.ERR_ARG_WRONGSTATE, w)
      else if cfg.useDebug = true ∧ beginSizeError w.ctx w.x w.y mode = true then
        some (.ERR_ARG_SIZ, w)
      else callBegin cfg ext r { w with ctx := { w.ctx with inuse := true } } addv mode := by
  unfold VecScatterBegin
  split_ifs
  · rfl
  · rfl
  · simp only [hb]
    cases hcb : callBegin cfg ext r { w with ctx := { w.ctx with inuse := true } } addv mode with
    | none => rfl
    | some p =>
      obtain ⟨e, w2⟩ := p
      have := hE e w2 hcb
      by_cases he : e = .ok
      · subst he
        simp only [ne_eq, not_true_eq_false, if_false, this]
      · simp only [ne_eq, he, not_false_eq_true, if_true]

end CollectiveCongr

section CopyResults
variable {α : Type}

theorem ops_eta (o : VecScatterOps) (c : Option CopyRoutine) (h : o.copy = c) :
    (⟨o.begin_, o.end_, c, o.destroy, o.view⟩ : VecScatterOps) = o := by
  subst h
  rfl

/-- Copy of a plan that `VecScatterCreate_Seq` returned: refused for a Stride source with a
General destination, otherwise a new context with the sizes, the routines, the data and the
type of the original. -/
theorem copy_createSeq
    (extc : Nat → VecScatter → VecScatter → Option (PetscErrorCode × VecScatter))
    (cfg : Config) (merge pack : Bool) (A B : IS) (nx ny : Nat) (ctx : VecScatter)
    (hc : createSeq cfg merge pack A B nx ny = (.ok, ctx)) :
    VecScatterCopy extc ctx =
      if isTypeId A = IS_STRIDE_ID ∧ isTypeId B = IS_GENERAL_ID then some (.ERR_SUP, none)
      else some (.ok, some { copyHeader ctx with
        to_n := ctx.to_n, from_n := ctx.from_n, ops := ctx.ops, todata := ctx.todata,
        fromdata := ctx.fromdata, type_name := ctx.type_name }) := by
  obtain ⟨_, _, h⟩ := createSeq_shape cfg merge pack A B nx ny ctx hc
  rcases h with ⟨hcp, _, hsg, tv, fv, h1, h2⟩ | ⟨hcp, _, hsg, d1, d2, h1, h2⟩ |
    ⟨hcp, _, hsg, d1, fv, h1, h2⟩ | ⟨hcp, _, hsg, tv, d2, h1, h2⟩
  · rw [if_neg hsg]
    simp only [VecScatterCopy, hcp, callCopy, VecScatterCopy_SGToSG, h1, h2, copyArray_exact,
      Option.some_bind, Option.map_some', ne_eq, not_true_eq_false, if_false]
    rw [ops_eta ctx.ops _ hcp]
  · rw [if_neg hsg]
    simp only [VecScatterCopy, hcp, callCopy, VecScatterCopy_SSToSS, h1, h2,
      ne_eq, not_true_eq_false, if_false]
    rw [ops_eta ctx.ops _ hcp]
  · rw [if_neg hsg]
    simp only [VecScatterCopy, hcp, callCopy, VecScatterCopy_SGToSS, h1, h2, copyArray_exact,
      Option.some_bind, Option.map_some', ne_eq, not_true_eq_false, if_false]
    rw [ops_eta ctx.ops _ hcp]
  · rw [if_pos hsg]
    simp only [VecScatterCopy, hcp]

/-- Copy of a plan with the tables of a collective specialization, each of as many entries
as the group has processes: the tables are copied, the work buffers are not. -/
theorem copy_toAll
    (extc : Nat → VecScatter → VecScatter → Option (PetscErrorCode × VecScatter))
    (ctx : VecScatter) (scat : VecScatter_MPI_ToAll)
    (hcp : ctx.ops.copy = some .MPI_ToAll) (hto : ctx.todata = .mpiToAll scat)
    (h1 : scat.count.length = ctx.comm_size) (h2 : scat.displx.length = ctx.comm_size) :
    VecScatterCopy extc ctx =
      some (.ok, some { copyHeader ctx with
        to_n := ctx.to_n, from_n := ctx.from_n, ops := ctx.ops,
        todata := .mpiToAll ⟨scat.format, scat.count, scat.displx, none, none⟩,
        fromdata := .null, type_name := ctx.type_name }) := by
  have e1 : copyArray scat.count ctx.comm_size = some scat.count := by
    rw [← h1]; exact copyArray_exact _
  have e2 : copyArray scat.displx ctx.comm_size = some scat.displx := by
    rw [← h2]; exact copyArray_exact _
  simp only [VecScatterCopy, hcp, callCopy, VecScatterCopy_MPI_ToAll, hto, copyHeader,
    VecScatterCreateEmpty, e1, e2, Option.some_bind, Option.map_some', ne_eq,
    not_true_eq_false, if_false]
  rw [ops_eta ctx.ops _ hcp]

/-- Copy of a broadcast or gather-to-root plan as `VecScatterCreate_PtoS` installs it. -/
theorem copy_collectivePlan
    (extc : Nat → VecScatter → VecScatter → Option (PetscErrorCode × VecScatter))
    (cfg : Config) (fmt : VecScatterFormat) (b : BeginRoutine) (typ : String)
    (sizes : List Nat) (p : Nat) (ix iy : IS) (ny : Nat)
    (hfit : cfg.use64BitIndices = true → (sizes.sum : Int) ≤ PETSC_MPI_INT_MAX) :
    VecScatterCopy extc (collectivePlan cfg fmt b (ptosMember typ sizes p ix iy ny)) =
      some (.ok, some { copyHeader (collectivePlan cfg fmt b (ptosMember typ sizes p ix iy ny))
        with
        to_n := (collectivePlan cfg fmt b (ptosMember typ sizes p ix iy ny)).to_n,
        from_n := (collectivePlan cfg fmt b (ptosMember typ sizes p ix iy ny)).from_n,
        ops := (collectivePlan cfg fmt b (ptosMember typ sizes p ix iy ny)).ops,
        todata := (collectivePlan cfg fmt b (ptosMember typ sizes p ix iy ny)).todata,
        fromdata := .null,
        type_name := (collectivePlan cfg fmt b (ptosMember typ sizes p ix iy ny)).type_name }) := by
  have hl := collectivePlan_layout cfg fmt b typ sizes p ix iy ny hfit
  rw [copy_toAll extc _ ⟨fmt, sizes.map fun (s : Nat) => (s : Int),
      (rangeFrom 0 sizes).take sizes.length, none, none⟩ (by rw [hl]) (by rw [hl])
      (by rw [hl]; simp [ptosMember, VecScatterCreate_setup, VecScatterCreateEmpty])
      (by rw [hl]; simp [ptosMember, VecScatterCreate_setup, VecScatterCreateEmpty,
        length_rangeFrom])]
  rw [hl]

end CopyResults

section CopyRuns
variable {α : Type}

/-- Begin on two idle contexts with the same sizes, routines and data, the begin routine
acting by the data alone and the contexts having no end routine: same error code, `x` and
`y`. -/
theorem begin_same_data [Add α] [Max α] (cfg : Config) (ext : ExtRoutines α)
    (ctx c : VecScatter) (r : BeginRoutine) (run : List α → List α → InsertMode → ScatterMode →
      Option (PetscErrorCode × List α))
    (hb : ctx.ops.begin_ = some r) (hend : ctx.ops.end_ = none)
    (hrun : ∀ (w : World α) (addv : InsertMode) (mode : ScatterMode),
      w.ctx.todata = ctx.todata → w.ctx.fromdata = ctx.fromdata →
      callBegin cfg ext r w addv mode =
        (run w.x w.y addv mode).map (fun p => (p.1, { w with y := p.2 })))
    (h1 : c.todata = ctx.todata) (h2 : c.fromdata = ctx.fromdata) (h3 : c.ops = ctx.ops)
    (h4 : c.from_n = ctx.from_n) (h5 : c.to_n = ctx.to_n) (h6 : c.inuse = ctx.inuse)
    (x y : List α) (addv : InsertMode) (mode : ScatterMode) :
    outcome (VecScatterBegin cfg ext ⟨c, x, y⟩ addv mode) =
      outcome (VecScatterBegin cfg ext ⟨ctx, x, y⟩ addv mode) := by
  have hsz : beginSizeError c x y mode = beginSizeError ctx x y mode := by
    simp only [beginSizeError, h4, h5]
  have e1 := hrun ⟨{ ctx with inuse := true }, x, y⟩ addv mode rfl rfl
  have e2 := hrun ⟨{ c with inuse := true }, x, y⟩ addv mode h1 h2
  rw [begin_of_frame cfg ext ⟨c, x, y⟩ addv mode r (by show c.ops.begin_ = some r; rw [h3]; exact hb)
      (fun e w2 h => by
        rw [e2, Option.map_eq_some'] at h
        obtain ⟨p, _, hp⟩ := h
        cases hp
        show c.ops.end_ = none
        rw [h3]; exact hend),
    begin_of_frame cfg ext ⟨ctx, x, y⟩ addv mode r hb
      (fun e w2 h => by
        rw [e1, Option.map_eq_some'] at h
        obtain ⟨p, _, hp⟩ := h
        cases hp
        exact hend)]
  simp only [h6, hsz]
  split_ifs
  · rfl
  · rfl
  · rw [e1, e2]
    simp only [outcome, Option.map_map, Function.comp_def]

end CopyRuns

section LocalCopies
variable {α : Type}

theorem copyArray_sized (l : List Int) (n : Nat) (h : l.length = n) : copyArray l n = some l := by
  subst h; exact copyArray_exact l

/-- Copy of a plan with one of the three sequential copy routines whose index arrays hold
`n` entries: a new context with the sizes, the routines, the data and the type of the
original. -/
theorem copy_local
    (extc : Nat → VecScatter → VecScatter → Option (PetscErrorCode × VecScatter))
    (ctx c : VecScatter) (cr : CopyRoutine) (hcp : ctx.ops.copy = some cr)
    (hcr : cr = .SGToSG ∨ cr = .SGToSS ∨ cr = .SSToSS)
    (h1 : ctx.todata.sized ctx.comm_size) (h2 : ctx.fromdata.sized ctx.comm_size)
    (hcopy : VecScatterCopy extc ctx = some (.ok, some c)) :
    c = { copyHeader ctx with
      to_n := ctx.to_n, from_n := ctx.from_n, ops := ctx.ops, todata := ctx.todata,
      fromdata := ctx.fromdata, type_name := ctx.type_name } := by
  rcases hcr with hcr | hcr | hcr <;> subst hcr
  · cases ht : ctx.todata with
    | seqGeneral gt =>
      cases hf : ctx.fromdata with
      | seqGeneral gf =>
        rw [ht] at h1; rw [hf] at h2
        simp only [VecScatterCopy, hcp, callCopy, VecScatterCopy_SGToSG, ht, hf,
          copyArray_sized _ _ h1, copyArray_sized _ _ h2, Option.some_bind, Option.map_some',
          ne_eq, not_true_eq_false, if_false, Option.some.injEq, Prod.mk.injEq, true_and]
          at hcopy
        rw [← hcopy, ops_eta ctx.ops _ hcp]
      | _ => simp [VecScatterCopy, hcp, callCopy, VecScatterCopy_SGToSG, ht, hf] at hcopy
    | _ => simp [VecScatterCopy, hcp, callCopy, VecScatterCopy_SGToSG, ht] at hcopy
  · cases ht : ctx.todata with
    | seqStride gt =>
      cases hf : ctx.fromdata with
      | seqGeneral gf =>
        rw [hf] at h2
        simp only [VecScatterCopy, hcp, callCopy, VecScatterCopy_SGToSS, ht, hf,
          copyArray_sized _ _ h2, Option.some_bind, Option.map_some',
          ne_eq, not_true_eq_false, if_false, Option.some.injEq, Prod.mk.injEq, true_and]
          at hcopy
        rw [← hcopy, ops_eta ctx.ops _ hcp]
      | _ => simp [VecScatterCopy, hcp, callCopy, VecScatterCopy_SGToSS, ht, hf] at hcopy
    | _ => simp [VecScatterCopy, hcp, callCopy, VecScatterCopy_SGToSS, ht] at hcopy
  · cases ht : ctx.todata with
    | seqStride gt =>
      cases hf : ctx.fromdata with
      | seqStride gf =>
        simp only [VecScatterCopy, hcp, callCopy, VecScatterCopy_SSToSS, ht, hf,
          ne_eq, not_true_eq_false, if_false, Option.some.injEq, Prod.mk.injEq, true_and]
          at hcopy
        rw [← hcopy, ops_eta ctx.ops _ hcp]
      | _ => simp [VecScatterCopy, hcp, callCopy, VecScatterCopy_SSToSS, ht, hf] at hcopy
    | _ => simp [VecScatterCopy, hcp, callCopy, VecScatterCopy_SSToSS, ht] at hcopy

/-- A sequential kernel acts by the plan data alone. -/
theorem callBegin_local_data [Add α] [Max α] (cfg : Config) (ext : ExtRoutines α)
    (r : BeginRoutine) (hr : r.isLocal = true) (ctx : VecScatter) (w : World α)
    (addv : InsertMode) (mode : ScatterMode)
    (h1 : w.ctx.todata = ctx.todata) (h2 : w.ctx.fromdata = ctx.fromdata) :
    callBegin cfg ext r w addv mode =
      ((callBegin cfg ext r ⟨ctx, w.x, w.y⟩ addv mode).map fun p => (p.1, p.2.y)).map
        (fun p => (p.1, { w with y := p.2 })) := by
  have e := callBegin_local_congr cfg ext r hr ⟨ctx, w.x, w.y⟩ w.ctx h1 h2 addv mode
  have e' : callBegin cfg ext r w addv mode =
      (callBegin cfg ext r ⟨ctx, w.x, w.y⟩ addv mode).map
        fun p => (p.1, { p.2 with ctx := w.ctx }) := e
  rw [e']
  cases hk : callBegin cfg ext r ⟨ctx, w.x, w.y⟩ addv mode with
  | none => rfl
  | some p =>
    obtain ⟨e1, w1⟩ := p
    have := callBegin_local_ctx cfg ext r hr _ addv mode e1 w1 hk
    simp only [Option.map_some', Option.some.injEq, Prod.mk.injEq, true_and]
    obtain ⟨hc, hx⟩ := this
    cases w1
    cases w
    simp only at hx
    simp only [hx]

/-- Begin on two idle contexts with the same sizes, routines and data, run by a sequential
kernel and without end routine: same error code, `x` and `y`. -/
theorem begin_local_same [Add α] [Max α] (cfg : Config) (ext : ExtRoutines α)
    (ctx c : VecScatter) (r : BeginRoutine)
    (hb : ctx.ops.begin_ = some r) (hr : r.isLocal = true) (hend : ctx.ops.end_ = none)
    (h1 : c.todata = ctx.todata) (h2 : c.fromdata = ctx.fromdata) (h3 : c.ops = ctx.ops)
    (h4 : c.from_n = ctx.from_n) (h5 : c.to_n = ctx.to_n) (h6 : c.inuse = ctx.inuse)
    (x y : List α) (addv : InsertMode) (mode : ScatterMode) :
    outcome (VecScatterBegin cfg ext ⟨c, x, y⟩ addv mode) =
      outcome (VecScatterBegin cfg ext ⟨ctx, x, y⟩ addv mode) :=
  begin_same_data cfg ext ctx c r
    (fun x y addv mode => (callBegin cfg ext r ⟨ctx, x, y⟩ addv mode).map fun p => (p.1, p.2.y))
    hb hend (fun w addv mode k1 k2 => callBegin_local_data cfg ext r hr ctx w addv mode k1 k2)
    h1 h2 h3 h4 h5 h6 x y addv mode

end LocalCopies

section CollectiveCopies
variable {α : Type}

theorem workFits_toAll (scat : VecScatter_MPI_ToAll) (len : Nat × Nat)
    (h : (ScatterData.mpiToAll scat).workFits len) :
    scat.work1.getD len.1 = len.1 ∧ scat.work2.getD len.2 = len.2 := h

/-- What the collective begin routines read of the group: the `x` and `y` arrays of the
members and the arrays and tables of process 0; cached work buffers of the lengths that
would be allocated make no difference. -/
theorem toAllReverseRoot_congr [Add α] [Max α] (cfg : Config) (grp grp' : List (Member α))
    (root root' : World α) (scat : VecScatter_MPI_ToAll) (addv : InsertMode)
    (hx : grp'.map (fun m => m.w.x) = grp.map (fun m => m.w.x))
    (hy : grp'.map (fun m => m.w.y) = grp.map (fun m => m.w.y))
    (hr : root'.x = root.x)
    (hfit : (ScatterData.mpiToAll scat).workFits (root.x.length, root.x.length)) :
    toAllReverseRoot cfg grp' root' { scat with work1 := none, work2 := none } addv =
      toAllReverseRoot cfg grp root scat addv := by
  have hys : grp'.map (fun m => m.w.y.map some) = grp.map (fun m => m.w.y.map some) := by
    have := congrArg (List.map (List.map some)) hy
    simpa [List.map_map, Function.comp] using this
  obtain ⟨f1, f2⟩ := workFits_toAll scat _ hfit
  simp only at f1 f2
  simp only [toAllReverseRoot, hx, hys, hr, f1, f2, Option.getD_none]

theorem toAll_congr [Add α] [Max α] (cfg : Config) (grp grp' : List (Member α))
    (me me' : Member α) (addv : InsertMode) (mode : ScatterMode)
    (hx : grp'.map (fun m => m.w.x) = grp.map (fun m => m.w.x))
    (hy : grp'.map (fun m => m.w.y) = grp.map (fun m => m.w.y))
    (hh : grp'.head?.map (fun m => (m.w.x, m.w.ctx.todata)) =
      grp.head?.map (fun m => (m.w.x, m.w.ctx.todata.dropWork)))
    (hhfit : mode.isReverse = true → ∀ m, grp.head? = some m →
      m.w.ctx.todata.workFits (m.w.x.length, m.w.x.length))
    (h1 : me'.w.x = me.w.x) (h2 : me'.w.y = me.w.y) (h3 : me'.ymap = me.ymap)
    (h4 : me'.w.ctx.todata = me.w.ctx.todata.dropWork)
    (hfit : me.w.ctx.todata.workFits
      (if mode.isReverse then me.w.x.length else me.w.y.length, me.w.x.length)) :
    outcome (VecScatterBegin_MPI_ToAll cfg grp' me' addv mode) =
      outcome (VecScatterBegin_MPI_ToAll cfg grp me addv mode) := by
  have hxs : grp'.map (fun m => m.w.x.map some) = grp.map (fun m => m.w.x.map some) := by
    have := congrArg (List.map (List.map some)) hx
    simpa [List.map_map, Function.comp] using this
  unfold VecScatterBegin_MPI_ToAll
  simp only [h1, h2, h3, h4, hx, hxs]
  cases hd : me.w.ctx.todata with
  | mpiToAll scat =>
    rw [hd] at hfit
    simp only [ScatterData.dropWork]
    by_cases hrev : mode.isReverse = true
    · simp only [hrev, if_true] at hfit ⊢
      by_cases hins : addv = .INSERT_VALUES
      · simp only [hins, if_true, outcome, Option.map_map]
        rfl
      · simp only [hins, if_false]
        by_cases h0 : me.ymap.rank = 0
        · simp only [h0, if_true]
          rw [toAllReverseRoot_congr cfg grp grp' me.w me'.w scat addv hx hy h1 hfit]
          cases toAllReverseRoot cfg grp me.w scat addv with
          | none => rfl
          | some r =>
            simp only [Option.some_bind]
            split_ifs
            · rfl
            · simp only [outcome, Option.map_map]; rfl
        · simp only [h0, if_false]
          cases hg : grp.head? with
          | none =>
            rw [hg] at hh
            cases hg' : grp'.head? with
            | none => rfl
            | some m' => rw [hg'] at hh; cases hh
          | some m =>
            rw [hg] at hh
            have hmfit := hhfit hrev m hg
            cases hg' : grp'.head? with
            | none => rw [hg'] at hh; cases hh
            | some m' =>
              rw [hg'] at hh
              simp only [Option.map_some', Option.some.injEq, Prod.mk.injEq] at hh
              simp only [hh.2]
              cases hmd : m.w.ctx.todata with
              | mpiToAll rscat =>
                rw [hmd] at hmfit
                simp only [ScatterData.dropWork]
                rw [toAllReverseRoot_congr cfg grp grp' m.w m'.w rscat addv hx hy hh.1 hmfit]
                cases toAllReverseRoot cfg grp m.w rscat addv with
                | none => rfl
                | some r =>
                  simp only [Option.some_bind]
                  split_ifs
                  · rfl
                  · simp only [outcome, Option.map_map]; rfl
              | _ => rfl
    · simp only [hrev, Bool.false_eq_true, if_false] at hfit ⊢
      obtain ⟨f1, f2⟩ := workFits_toAll scat _ hfit
      simp only at f1
      by_cases hins : addv = .INSERT_VALUES
      · simp only [hins, if_true, outcome, Option.map_map, Function.comp_def, h1]
      · simp only [hins, if_false, f1, Option.getD_none]
        cases MPI_Gatherv (grp.map fun m => m.w.x.map some)
            (workBuffer α me.w.y.length) scat.count scat.displx with
        | none => rfl
        | some yvt =>
          simp only [Option.some_bind, outcome, Option.map_map, Function.comp_def, h1]
  | _ => rfl

theorem groupMaxLen_congr (grp grp' : List (Member α))
    (hx : grp'.map (fun m => m.w.x) = grp.map (fun m => m.w.x)) :
    groupMaxLen grp' = groupMaxLen grp := by
  have := congrArg (List.map List.length) hx
  simp only [List.map_map, Function.comp_def] at this
  simp only [groupMaxLen, this]

theorem toOne_congr [Add α] [Max α] (cfg : Config) (grp grp' : List (Member α))
    (me me' : Member α) (addv : InsertMode) (mode : ScatterMode)
    (hx : grp'.map (fun m => m.w.x) = grp.map (fun m => m.w.x))
    (hh : grp'.head?.map (fun m => (m.w.x, m.w.ctx.todata)) =
      grp.head?.map (fun m => (m.w.x, m.w.ctx.todata.dropWork)))
    (h1 : me'.w.x = me.w.x) (h2 : me'.w.y = me.w.y) (h3 : me'.ymap = me.ymap)
    (h5 : me'.xmap = me.xmap) (h4 : me'.w.ctx.todata = me.w.ctx.todata.dropWork)
    (hfit : me.w.ctx.todata.workFits
      (if mode.isReverse then me.w.x.length else me.w.y.length, groupMaxLen grp)) :
    outcome (VecScatterBegin_MPI_ToOne cfg grp' me' addv mode) =
      outcome (VecScatterBegin_MPI_ToOne cfg grp me addv mode) := by
  have hxs : grp'.map (fun m => m.w.x.map some) = grp.map (fun m => m.w.x.map some) := by
    have := congrArg (List.map (List.map some)) hx
    simpa [List.map_map, Function.comp] using this
  unfold VecScatterBegin_MPI_ToOne
  simp only [h1, h2, h3, h4, h5, hx, hxs, groupMaxLen_congr grp grp' hx]
  cases hd : me.w.ctx.todata with
  | mpiToAll scat =>
    rw [hd] at hfit
    obtain ⟨f1, f2⟩ := workFits_toAll scat _ hfit
    simp only at f1 f2
    simp only [ScatterData.dropWork]
    by_cases hrev : mode.isReverse = true
    · simp only [hrev, if_true] at f1 ⊢
      have hroot : (if me.ymap.rank = 0 then some me'.w
            else grp'.head?.map fun m => m.w).map (fun w => (w.x, w.ctx.todata)) =
          (if me.ymap.rank = 0 then some me.w
            else grp.head?.map fun m => m.w).map (fun w => (w.x, w.ctx.todata.dropWork)) := by
        split_ifs
        · simp only [Option.map_some', h1, h4]
        · simpa only [Option.map_map, Function.comp_def] using hh
      generalize (if me.ymap.rank = 0 then some me'.w
        else grp'.head?.map fun m => m.w) = r' at hroot ⊢
      generalize (if me.ymap.rank = 0 then some me.w
        else grp.head?.map fun m => m.w) = r at hroot ⊢
      cases r' with
      | none =>
        cases r with
        | none => rfl
        | some v => cases hroot
      | some v' =>
        cases r with
        | none => cases hroot
        | some v =>
          simp only [Option.map_some', Option.some.injEq, Prod.mk.injEq] at hroot
          simp only [hroot.1, hroot.2]
          cases v.ctx.todata <;> try rfl
          simp only [ScatterData.dropWork]
          split_ifs
          · simp only [outcome, Option.map_map, Function.comp_def]
          · simp only [f2, Option.getD_none]
            cases MPI_Scatterv (v.x.map some) _ _ me.ymap.rank _ me.w.y.length with
            | none => rfl
            | some yvt =>
              simp only [Option.some_bind, outcome, Option.map_map, Function.comp_def]
    · simp only [hrev, Bool.false_eq_true, if_false] at f1 ⊢
      by_cases hins : addv = .INSERT_VALUES
      · simp only [hins, if_true]
        split_ifs
        · simp only [outcome, Option.map_map, Function.comp_def, h1]
        · simp only [outcome, Option.map_some', h1, h2]
      · simp only [hins, if_false, f1, Option.getD_none]
        split_ifs
        · cases MPI_Gatherv (grp.map fun m => m.w.x.map some)
              (workBuffer α me.w.y.length) scat.count scat.displx with
          | none => rfl
          | some yvt =>
            simp only [Option.some_bind, outcome, Option.map_map, Function.comp_def, h1]
        · simp only [outcome, Option.map_some', h1, h2]
  | _ => rfl

/-- Begin of a collective plan gives the same error code, `x` and `y` when the contexts of
the group are replaced by contexts with the same sizes, tables and begin routine and without
work buffers, provided the work buffers cached in the contexts replaced have the lengths
with which the begin routine allocates them. -/
theorem begin_collective_congr [Add α] [Max α] (cfg : Config) (grp grp' : List (Member α))
    (me me' : Member α) (b : BeginRoutine) (addv : InsertMode) (mode : ScatterMode)
    (hx : grp'.map (fun m => m.w.x) = grp.map (fun m => m.w.x))
    (hy : grp'.map (fun m => m.w.y) = grp.map (fun m => m.w.y))
    (hh : grp'.head?.map (fun m => (m.w.x, m.w.ctx.todata)) =
      grp.head?.map (fun m => (m.w.x, m.w.ctx.todata.dropWork)))
    (hhfit : ∀ m, grp.head? = some m →
      m.w.ctx.todata.workFits (workLengths b grp m.w.x m.w.y mode))
    (h1 : me'.w.x = me.w.x) (h2 : me'.w.y = me.w.y) (h3 : me'.ymap = me.ymap)
    (h5 : me'.xmap = me.xmap) (h4 : me'.w.ctx.todata = me.w.ctx.todata.dropWork)
    (hfit : me.w.ctx.todata.workFits (workLengths b grp me.w.x me.w.y mode))
    (hin : me'.w.ctx.inuse = me.w.ctx.inuse) (hfn : me'.w.ctx.from_n = me.w.ctx.from_n)
    (htn : me'.w.ctx.to_n = me.w.ctx.to_n) (hops : me'.w.ctx.ops = me.w.ctx.ops)
    (hend : me.w.ctx.ops.end_ = none)
    (hb : me.w.ctx.ops.begin_ = some b) (hb2 : b = .MPI_ToAll ∨ b = .MPI_ToOne) :
    outcome (VecScatterBegin cfg (collectiveExt cfg grp' me'.xmap me'.ymap) me'.w addv mode) =
      outcome (VecScatterBegin cfg (collectiveExt cfg grp me.xmap me.ymap) me.w addv mode) := by
  have hsz : beginSizeError me'.w.ctx me'.w.x me'.w.y mode =
      beginSizeError me.w.ctx me.w.x me.w.y mode := by
    simp only [beginSizeError, hfn, htn, h1, h2]
  rcases hb2 with hb2 | hb2 <;> subst hb2
  · rw [begin_of_frame cfg _ me'.w addv mode .MPI_ToAll (by rw [hops]; exact hb)
        (fun e w2 h => by
          have := toAll_ops cfg grp' ⟨_, me'.xmap, me'.ymap⟩ addv mode e w2 h
          rw [this]; show me'.w.ctx.ops.end_ = none; rw [hops]; exact hend),
      begin_of_frame cfg _ me.w addv mode .MPI_ToAll hb
        (fun e w2 h => by
          have := toAll_ops cfg grp ⟨_, me.xmap, me.ymap⟩ addv mode e w2 h
          rw [this]; exact hend)]
    rw [hin, hsz]
    split_ifs
    · simp only [outcome, Option.map_some', h1, h2]
    · simp only [outcome, Option.map_some', h1, h2]
    · refine toAll_congr cfg grp grp' ⟨_, me.xmap, me.ymap⟩ ⟨_, me'.xmap, me'.ymap⟩ addv mode
        hx hy hh ?_ h1 h2 h3 h4 ?_
      · intro hrev m hm
        have := hhfit m hm
        simpa [workLengths, hrev] using this
      · simpa [workLengths] using hfit
  · rw [begin_of_frame cfg _ me'.w addv mode .MPI_ToOne (by rw [hops]; exact hb)
        (fun e w2 h => by
          have := toOne_ops cfg grp' ⟨_, me'.xmap, me'.ymap⟩ addv mode e w2 h
          rw [this]; show me'.w.ctx.ops.end_ = none; rw [hops]; exact hend),
      begin_of_frame cfg _ me.w addv mode .MPI_ToOne hb
        (fun e w2 h => by
          have := toOne_ops cfg grp ⟨_, me.xmap, me.ymap⟩ addv mode e w2 h
          rw [this]; exact hend)]
    rw [hin, hsz]
    split_ifs
    · simp only [outcome, Option.map_some', h1, h2]
    · simp only [outcome, Option.map_some', h1, h2]
    · refine toOne_congr cfg grp grp' ⟨_, me.xmap, me.ymap⟩ ⟨_, me'.xmap, me'.ymap⟩ addv mode
        hx hh h1 h2 h3 h5 h4 ?_
      simpa [workLengths] using hfit

/-- Begin called by every process of a group gives the same error codes and arrays when the
plan of every process is replaced by one with the same sizes, tables and routines and
without work buffers, provided the work buffers cached in the plans replaced have the
lengths with which the begin routine allocates them. -/
theorem groupBegin_congr [Add α] [Max α] (cfg : Config) (n : Nat) (b : BeginRoutine)
    (plan copies : Nat → VecScatter) (X Y : Nat → List α) (XM YM : Nat → VecLayout)
    (addv : InsertMode) (mode : ScatterMode) (hb2 : b = .MPI_ToAll ∨ b = .MPI_ToOne)
    (hK : ∀ p, p < n → (copies p).todata = (plan p).todata.dropWork ∧
      (copies p).inuse = (plan p).inuse ∧ (copies p).from_n = (plan p).from_n ∧
      (copies p).to_n = (plan p).to_n ∧ (copies p).ops = (plan p).ops ∧
      (plan p).ops.end_ = none ∧ (plan p).ops.begin_ = some b ∧
      (plan p).todata.workFits (workLengths b
        ((List.range n).map fun p => (⟨⟨plan p, X p, Y p⟩, XM p, YM p⟩ : Member α))
        (X p) (Y p) mode)) :
    (groupBegin cfg ((List.range n).map fun p =>
        (⟨⟨copies p, X p, Y p⟩, XM p, YM p⟩ : Member α)) addv mode).map outcome =
      (groupBegin cfg ((List.range n).map fun p =>
        (⟨⟨plan p, X p, Y p⟩, XM p, YM p⟩ : Member α)) addv mode).map outcome := by
  unfold groupBegin
  simp only [List.map_map]
  apply List.map_congr_left
  intro p hp
  have hp' := List.mem_range.mp hp
  obtain ⟨k1, k2, k3, k4, k5, k6, k7, k8⟩ := hK p hp'
  simp only [Function.comp_def]
  refine begin_collective_congr cfg _ _ ⟨⟨plan p, X p, Y p⟩, XM p, YM p⟩
    ⟨⟨copies p, X p, Y p⟩, XM p, YM p⟩ b addv mode ?_ ?_ ?_ ?_ rfl rfl rfl rfl k1 k8 k2 k3 k4
    k5 k6 k7 hb2
  · simp only [List.map_map, Function.comp_def]
  · simp only [List.map_map, Function.comp_def]
  · cases n with
    | zero => rfl
    | succ m =>
      simp only [List.range_succ_eq_map, List.map_cons, List.head?_cons, Option.map_some',
        (hK 0 (Nat.succ_pos m)).1]
  · intro m hm
    cases n with
    | zero => cases hm
    | succ k =>
      have h0 := (hK 0 (Nat.succ_pos k)).2.2.2.2.2.2.2
      have hm' : m = ⟨⟨plan 0, X 0, Y 0⟩, XM 0, YM 0⟩ := by
        simp only [List.range_succ_eq_map, List.map_cons, List.head?_cons,
          Option.some.injEq] at hm
        exact hm.symm
      subst hm'
      exact h0

end CollectiveCopies

section CreatedKinds
variable {α : Type}

/-- The begin routine that `VecScatterCreate_Seq` installs is a sequential kernel. -/
theorem createSeq_local (cfg : Config) (merge pack : Bool) (A B : IS) (nx ny : Nat)
    (ctx : VecScatter) (hc : createSeq cfg merge pack A B nx ny = (.ok, ctx)) :
    ∃ r, ctx.ops.begin_ = some r ∧ r.isLocal = true := by
  simp only [createSeq, VecScatterCreate_Seq, VecScatterCreate_setup, VecScatterCreateEmpty,
    GetInputISType_private, effectiveIS] at hc
  split_ifs at hc
  all_goals first
    | (simp at hc; done)
    | (exfalso; simp only [Prod.mk.injEq] at hc; simp_all; done)
    | (simp only [Prod.mk.injEq, true_and] at hc
       subst hc
       exact ⟨_, rfl, rfl⟩)

/-- A plan that `VecScatterCreate_Seq` returned is idle, has index arrays of `n` entries, a
sequential kernel as begin routine, no end routine, and one of the three sequential copy
routines or none. -/
theorem createSeq_kind [Add α] [Max α] (cfg : Config) (ext : ExtRoutines α)
    (merge pack : Bool) (A B : IS) (nx ny : Nat)
    (ctx : VecScatter) (hc : createSeq cfg merge pack A B nx ny = (.ok, ctx)) :
    ctx.todata.sized ctx.comm_size ∧ ctx.fromdata.sized ctx.comm_size ∧ ctx.inuse = false ∧
    ctx.ops.end_ = none ∧ (∃ r, ctx.ops.begin_ = some r ∧ r.isLocal = true) ∧
    (ctx.ops.copy = none ∨ ctx.ops.copy = some .SGToSG ∨ ctx.ops.copy = some .SGToSS ∨
      ctx.ops.copy = some .SSToSS) := by
  obtain ⟨hin, hend, _⟩ := createSeq_facts cfg ext merge pack A B nx ny ctx hc
  obtain ⟨_, _, h⟩ := createSeq_shape cfg merge pack A B nx ny ctx hc
  have hl := createSeq_local cfg merge pack A B nx ny ctx hc
  rcases h with ⟨hcp, _, _, tv, fv, h1, h2⟩ | ⟨hcp, _, _, d1, d2, h1, h2⟩ |
    ⟨hcp, _, _, d1, fv, h1, h2⟩ | ⟨hcp, _, _, tv, d2, h1, h2⟩
  · exact ⟨by rw [h1]; exact rfl, by rw [h2]; exact rfl, hin, hend, hl, Or.inr (Or.inl hcp)⟩
  · exact ⟨by rw [h1]; trivial, by rw [h2]; trivial, hin, hend, hl,
      Or.inr (Or.inr (Or.inr hcp))⟩
  · exact ⟨by rw [h1]; trivial, by rw [h2]; exact rfl, hin, hend, hl,
      Or.inr (Or.inr (Or.inl hcp))⟩
  · exact ⟨by rw [h1]; exact rfl, by rw [h2]; trivial, hin, hend, hl, Or.inl hcp⟩

/-- A broadcast or gather-to-root plan as `VecScatterCreate_PtoS` installs it is idle, has
tables of one entry for each process and no work buffer, the begin routine installed, no end
routine and the copy routine `VecScatterCopy_MPI_ToAll`, and Copy succeeds on it. -/
theorem collectivePlan_kind
    (extc : Nat → VecScatter → VecScatter → Option (PetscErrorCode × VecScatter))
    (cfg : Config) (fmt : VecScatterFormat) (b : BeginRoutine) (typ : String)
    (sizes : List Nat) (p : Nat) (ix iy : IS) (ny : Nat)
    (hfit : cfg.use64BitIndices = true → (sizes.sum : Int) ≤ PETSC_MPI_INT_MAX) :
    (collectivePlan cfg fmt b (ptosMember typ sizes p ix iy ny)).todata.sized
      (collectivePlan cfg fmt b (ptosMember typ sizes p ix iy ny)).comm_size ∧
    (collectivePlan cfg fmt b (ptosMember typ sizes p ix iy ny)).inuse = false ∧
    (collectivePlan cfg fmt b (ptosMember typ sizes p ix iy ny)).ops.begin_ = some b ∧
    (collectivePlan cfg fmt b (ptosMember typ sizes p ix iy ny)).ops.end_ = none ∧
    (collectivePlan cfg fmt b (ptosMember typ sizes p ix iy ny)).ops.copy = some .MPI_ToAll ∧
    (collectivePlan cfg fmt b (ptosMember typ sizes p ix iy ny)).todata.work1? = none ∧
    (collectivePlan cfg fmt b (ptosMember typ sizes p ix iy ny)).todata.work2? = none ∧
    (VecScatterCopy extc (collectivePlan cfg fmt b (ptosMember typ sizes p ix iy ny))).map
      (fun r => r.1) = some .ok := by
  have hcp := copy_collectivePlan extc cfg fmt b typ sizes p ix iy ny hfit
  rw [hcp]
  rw [collectivePlan_layout cfg fmt b typ sizes p ix iy ny hfit]
  refine ⟨⟨?_, ?_⟩, rfl, rfl, rfl, rfl, rfl, rfl, rfl⟩
  · simp [ptosMember, VecScatterCreate_setup, VecScatterCreateEmpty]
  · simp [ptosMember, VecScatterCreate_setup, VecScatterCreateEmpty, length_rangeFrom]

end CreatedKinds

section MemoryCopies

theorem lt_of_getElem?_some {β : Type} (l : List β) (a : Nat) (v : β) (h : l[a]? = some v) :
    a < l.length := by
  by_contra hge
  rw [List.getElem?_eq_none (by omega)] at h
  cases h

/-- Copying into an array that `PetscMalloc1` has just returned, from an array that was
there before: the new array holds the copied entries, no other array changes. -/
theorem memcpyAt_fresh (pre post : IndexMemory) (n src : Nat) (s : List Int)
    (hs : pre[src]? = some s) :
    PetscMemcpyAt (pre ++ List.replicate n 0 :: post) pre.length src n =
      (copyArray s n).map fun t => pre ++ t :: post := by
  have hlt := lt_of_getElem?_some pre src s hs
  have e1 : (pre ++ List.replicate n (0 : Int) :: post)[pre.length]? =
      some (List.replicate n 0) := by
    rw [List.getElem?_append_right (le_refl _)]; simp
  have e2 : (pre ++ List.replicate n (0 : Int) :: post)[src]? = some s := by
    rw [List.getElem?_append_left hlt]; exact hs
  simp only [PetscMemcpyAt, e1, e2, copyArray]
  cases PetscMemcpy (List.replicate n 0) 0 s 0 n with
  | none => rfl
  | some t => simp

theorem getElem?_append_old (mem ext : IndexMemory) (a : Nat) (h : a < mem.length) :
    (mem ++ ext)[a]? = mem[a]? := List.getElem?_append_left h

theorem SGToSG_mem_eq (mem : IndexMemory) (in_ out : VecScatterAt) (dt df : SeqGeneralAt)
    (tv fv : List Int) (hto : in_.todata = .seqGeneral dt) (hfrom : in_.fromdata = .seqGeneral df)
    (h1 : mem[dt.vslots]? = some tv) (h2 : mem[df.vslots]? = some fv) :
    VecScatterCopy_SGToSG_mem mem in_ out =
      (copyArray tv dt.n).bind fun t1 => (copyArray fv df.n).map fun f1 =>
        (.ok, mem ++ [t1, f1],
          { hdr := { out.hdr with
              ops := { begin_ := in_.hdr.ops.begin_, end_ := in_.hdr.ops.end_,
                       copy := in_.hdr.ops.copy, destroy := in_.hdr.ops.destroy,
                       view := in_.hdr.ops.view } }
            todata := .seqGeneral ⟨dt.format, dt.n, mem.length⟩
            fromdata := .seqGeneral ⟨df.format, df.n, mem.length + 1⟩ }) := by
  have k1 := memcpyAt_fresh mem [List.replicate df.n 0] dt.n dt.vslots tv h1
  simp only [VecScatterCopy_SGToSG_mem, hto, hfrom, PetscMalloc1, List.append_assoc,
    List.singleton_append, k1, List.length_append, List.length_singleton]
  cases copyArray tv dt.n with
  | none => rfl
  | some t1 =>
    simp only [Option.map_some', Option.some_bind]
    have h2' : (mem ++ [t1])[df.vslots]? = some fv := by
      rw [getElem?_append_old mem [t1] _ (lt_of_getElem?_some mem _ _ h2)]; exact h2
    have k2 := memcpyAt_fresh (mem ++ [t1]) [] df.n df.vslots fv h2'
    simp only [List.append_assoc, List.singleton_append, List.length_append,
      List.length_singleton] at k2
    rw [k2]
    cases copyArray fv df.n with
    | none => rfl
    | some f1 => rfl

theorem SGToSS_mem_eq (mem : IndexMemory) (in_ out : VecScatterAt) (dt : VecScatter_Seq_Stride)
    (df : SeqGeneralAt) (fv : List Int) (hto : in_.todata = .seqStride dt)
    (hfrom : in_.fromdata = .seqGeneral df) (h2 : mem[df.vslots]? = some fv) :
    VecScatterCopy_SGToSS_mem mem in_ out =
      (copyArray fv df.n).map fun f1 =>
        (.ok, mem ++ [f1],
          { hdr := { out.hdr with
              ops := { begin_ := in_.hdr.ops.begin_, end_ := in_.hdr.ops.end_,
                       copy := in_.hdr.ops.copy, destroy := in_.hdr.ops.destroy,
                       view := in_.hdr.ops.view } }
            todata := .seqStride ⟨dt.format, dt.n, dt.first, dt.step⟩
            fromdata := .seqGeneral ⟨df.format, df.n, mem.length⟩ }) := by
  have k2 := memcpyAt_fresh mem [] df.n df.vslots fv h2
  simp only [VecScatterCopy_SGToSS_mem, hto, hfrom, PetscMalloc1, k2]
  cases copyArray fv df.n with
  | none => rfl
  | some f1 => rfl

end MemoryCopies

section MemoryCopySpec

theorem load_eq_some (mem : IndexMemory) (p : VecScatterAt) (ctx : VecScatter)
    (h : p.load mem = some ctx) :
    ∃ t f, p.todata.load mem = some t ∧ p.fromdata.load mem = some f ∧
      ctx = { p.hdr with todata := t, fromdata := f } := by
  simp only [VecScatterAt.load, Option.bind_eq_some, Option.map_eq_some'] at h
  obtain ⟨t, ht, f, hf, hc⟩ := h
  exact ⟨t, f, ht, hf, hc.symm⟩

theorem dataLoad_seqGeneral (mem : IndexMemory) (d : ScatterDataAt)
    (g : VecScatter_Seq_General) (h : d.load mem = some (.seqGeneral g)) :
    ∃ a, d = .seqGeneral ⟨g.format, g.n, a⟩ ∧ mem[a]? = some g.vslots := by
  cases d with
  | seqGeneral da =>
    simp only [ScatterDataAt.load, SeqGeneralAt.load, Option.map_map, Option.map_eq_some',
      Function.comp_apply, ScatterData.seqGeneral.injEq] at h
    obtain ⟨v, hv, hg⟩ := h
    subst hg
    exact ⟨da.vslots, rfl, hv⟩
  | _ => simp [ScatterDataAt.load] at h

theorem dataLoad_seqStride (mem : IndexMemory) (d : ScatterDataAt)
    (g : VecScatter_Seq_Stride) (h : d.load mem = some (.seqStride g)) : d = .seqStride g := by
  cases d with
  | seqStride da => simp [ScatterDataAt.load] at h; rw [h]
  | seqGeneral da => simp [ScatterDataAt.load, SeqGeneralAt.load] at h
  | _ => simp [ScatterDataAt.load] at h

theorem dataLoad_mpiToAll (mem : IndexMemory) (d : ScatterDataAt)
    (g : VecScatter_MPI_ToAll) (h : d.load mem = some (.mpiToAll g)) : d = .mpiToAll g := by
  cases d with
  | mpiToAll da => simp [ScatterDataAt.load] at h; rw [h]
  | seqGeneral da => simp [ScatterDataAt.load, SeqGeneralAt.load] at h
  | _ => simp [ScatterDataAt.load] at h

/-- The copy routines of this file on memory do what they do on values: when
`VecScatterCopy` succeeds on the context that a structure in memory denotes,
`VecScatterCopy_mem` succeeds on the structure, the new structure denotes the copy, the
memory is the old one followed by new arrays, and every index array of the new structure is
one of the new arrays, the two sides having different ones. -/
theorem copy_mem_spec
    (extc : Nat → VecScatter → VecScatter → Option (PetscErrorCode × VecScatter))
    (extcm : Nat → IndexMemory → VecScatterAt → VecScatterAt →
      Option (PetscErrorCode × IndexMemory × VecScatterAt))
    (mem : IndexMemory) (p : VecScatterAt) (ctx c : VecScatter) (cr : CopyRoutine)
    (hl : p.load mem = some ctx) (hcr : ctx.ops.copy = some cr)
    (hloc : ∀ id, cr ≠ .other id)
    (hcopy : VecScatterCopy extc ctx = some (.ok, some c)) :
    ∃ mem1 q, VecScatterCopy_mem extcm mem p = some (.ok, mem1, some q) ∧
      q.load mem1 = some c ∧ (∃ added, mem1 = mem ++ added) ∧
      (∀ d, q.todata = .seqGeneral d → mem.length ≤ d.vslots) ∧
      (∀ d, q.fromdata = .seqGeneral d → mem.length ≤ d.vslots) ∧
      (∀ dt df, q.todata = .seqGeneral dt → q.fromdata = .seqGeneral df →
        dt.vslots ≠ df.vslots) := by
  obtain ⟨t, f, ht, hf, hc⟩ := load_eq_some mem p ctx hl
  subst hc
  have hcr' : p.hdr.ops.copy = some cr := hcr
  cases cr with
  | other id => exact absurd rfl (hloc id)
  | SGToSG =>
    simp only [VecScatterCopy, hcr', callCopy, VecScatterCopy_SGToSG] at hcopy
    cases t with
    | seqGeneral gt =>
      cases f with
      | seqGeneral gf =>
        obtain ⟨a, ha, hav⟩ := dataLoad_seqGeneral mem _ gt ht
        obtain ⟨b, hb, hbv⟩ := dataLoad_seqGeneral mem _ gf hf
        simp only at hcopy
        simp only [VecScatterCopy_mem, hcr', callCopy_mem,
          SGToSG_mem_eq mem p _ _ _ gt.vslots gf.vslots ha hb hav hbv]
        cases h1 : copyArray gt.vslots gt.n with
        | none => simp [h1] at hcopy
        | some t1 =>
          cases h2 : copyArray gf.vslots gf.n with
          | none => simp [h1, h2] at hcopy
          | some f1 =>
            simp only [h1, h2, Option.some_bind, Option.map_some', ne_eq, not_true_eq_false,
              if_false, Option.some.injEq, Prod.mk.injEq, true_and] at hcopy
            subst hcopy
            refine ⟨_, _, rfl, ?_, ⟨_, rfl⟩, ?_, ?_, ?_⟩
            · have e1 : (mem ++ [t1, f1])[mem.length]? = some t1 := by
                rw [List.getElem?_append_right (le_refl _)]; simp
              have e2 : (mem ++ [t1, f1])[mem.length + 1]? = some f1 := by
                rw [List.getElem?_append_right (Nat.le_succ _)]; simp
              simp only [VecScatterAt.load, ScatterDataAt.load, SeqGeneralAt.load, e1, e2,
                Option.map_some', Option.some_bind, copyHeader, VecScatterCreateEmpty]
            · intro d hd; cases hd; exact le_refl _
            · intro d hd; cases hd; exact Nat.le_succ _
            · intro dt df hdt hdf; cases hdt; cases hdf; exact Nat.ne_of_lt (Nat.lt_succ_self _)
      | _ => simp at hcopy
    | _ => simp at hcopy
  | SGToSS =>
    simp only [VecScatterCopy, hcr', callCopy, VecScatterCopy_SGToSS] at hcopy
    cases t with
    | seqStride gt =>
      cases f with
      | seqGeneral gf =>
        have ha := dataLoad_seqStride mem _ gt ht
        obtain ⟨b, hb, hbv⟩ := dataLoad_seqGeneral mem _ gf hf
        simp only at hcopy
        simp only [VecScatterCopy_mem, hcr', callCopy_mem,
          SGToSS_mem_eq mem p _ _ _ gf.vslots ha hb hbv]
        cases h2 : copyArray gf.vslots gf.n with
        | none => simp [h2] at hcopy
        | some f1 =>
          simp only [h2, Option.map_some', ne_eq, not_true_eq_false,
            if_false, Option.some.injEq, Prod.mk.injEq, true_and] at hcopy
          subst hcopy
          refine ⟨_, _, rfl, ?_, ⟨_, rfl⟩, ?_, ?_, ?_⟩
          · simp [VecScatterAt.load, ScatterDataAt.load, SeqGeneralAt.load, copyHeader,
              VecScatterCreateEmpty]
          · intro d hd; cases hd
          · intro d hd; cases hd; exact le_refl _
          · intro dt df hdt hdf; cases hdt
      | _ => simp at hcopy
    | _ => simp at hcopy
  | SSToSS =>
    simp only [VecScatterCopy, hcr', callCopy, VecScatterCopy_SSToSS] at hcopy
    cases t with
    | seqStride gt =>
      cases f with
      | seqStride gf =>
        have ha := dataLoad_seqStride mem _ gt ht
        have hb := dataLoad_seqStride mem _ gf hf
        simp only [ne_eq, not_true_eq_false, if_false, Option.some.injEq, Prod.mk.injEq,
          true_and] at hcopy
        subst hcopy
        simp only [VecScatterCopy_mem, hcr', callCopy_mem, VecScatterCopy_SSToSS_mem, ha, hb,
          ne_eq, not_true_eq_false, if_false]
        refine ⟨_, _, rfl, ?_, ⟨[], by simp⟩, ?_, ?_, ?_⟩
        · simp [VecScatterAt.load, ScatterDataAt.load, copyHeader, VecScatterCreateEmpty]
        · intro d hd; cases hd
        · intro d hd; cases hd
        · intro dt df hdt hdf; cases hdt
      | _ => simp at hcopy
    | _ => simp at hcopy
  | MPI_ToAll =>
    simp only [VecScatterCopy, hcr', callCopy, VecScatterCopy_MPI_ToAll] at hcopy
    cases t with
    | mpiToAll gt =>
      have ha := dataLoad_mpiToAll mem _ gt ht
      simp only at hcopy
      cases h1 : copyArray gt.count (copyHeader { p.hdr with
          todata := .mpiToAll gt, fromdata := f }).comm_size with
      | none => simp [h1] at hcopy
      | some t1 =>
        cases h2 : copyArray gt.displx (copyHeader { p.hdr with
            todata := .mpiToAll gt, fromdata := f }).comm_size with
        | none => simp [h1, h2] at hcopy
        | some f1 =>
          simp only [h1, h2, Option.some_bind, Option.map_some', ne_eq, not_true_eq_false,
            if_false, Option.some.injEq, Prod.mk.injEq, true_and] at hcopy
          subst hcopy
          have h1' : copyArray gt.count (copyHeader p.hdr).comm_size = some t1 := h1
          have h2' : copyArray gt.displx (copyHeader p.hdr).comm_size = some f1 := h2
          simp only [VecScatterCopy_mem, hcr', callCopy_mem, VecScatterCopy_MPI_ToAll_mem, ha,
            h1', h2', Option.some_bind, Option.map_some', ne_eq, not_true_eq_false, if_false]
          refine ⟨_, _, rfl, ?_, ⟨[], by simp⟩, ?_, ?_, ?_⟩
          · simp [VecScatterAt.load, ScatterDataAt.load, copyHeader, VecScatterCreateEmpty]
          · intro d hd; cases hd
          · intro d hd; cases hd
          · intro dt df hdt hdf; cases hdt
    | _ => simp at hcopy

end MemoryCopySpec

section MemoryRemap

theorem remapTableAt_eq (mem : IndexMemory) (tomap : List Int) (d : SeqGeneralAt)
    (v : List Int) (h : mem[d.vslots]? = some v) :
    remapTableAt mem tomap d = (remapLoop tomap d.n v).map fun v1 => mem.set d.vslots v1 := by
  simp only [remapTableAt, h, Option.some_bind]

theorem getElem?_set_self_of_some (mem : IndexMemory) (a : Nat) (v v1 : List Int)
    (h : mem[a]? = some v) : (mem.set a v1)[a]? = some v1 := by
  have hlt := lt_of_getElem?_some mem a v h
  simp [List.getElem?_set, hlt]

theorem getElem?_set_other (mem : IndexMemory) (a b : Nat) (v1 : List Int) (h : a ≠ b) :
    (mem.set a v1)[b]? = mem[b]? := by
  simp [List.getElem?_set, h]

theorem remapTableAt_frame (mem mem2 : IndexMemory) (tomap : List Int) (d : SeqGeneralAt)
    (h : remapTableAt mem tomap d = some mem2) :
    mem2.length = mem.length ∧ ∀ a, a ≠ d.vslots → mem2[a]? = mem[a]? := by
  simp only [remapTableAt, Option.bind_eq_some, Option.map_eq_some'] at h
  obtain ⟨v, _, v1, _, h⟩ := h
  subst h
  exact ⟨List.length_set _ _ _, fun a ha => getElem?_set_other mem _ a v1 (Ne.symm ha)⟩

/-- The block `if (tomap)` on memory writes no array but the index array of the From side,
and leaves the header of the plan as it is. -/
theorem remapTo_mem_frame (opt : LocalOptimizeCopy) (mem : IndexMemory) (q : VecScatterAt)
    (tomap : Option (List Int)) (e : PetscErrorCode) (mem2 : IndexMemory) (q2 : VecScatterAt)
    (h : remapTo_mem opt mem q tomap = some (e, mem2, q2)) :
    mem2.length = mem.length ∧ q2.hdr = q.hdr ∧
      ∀ a, (∀ d, q.fromdata = .seqGeneral d → a ≠ d.vslots) → mem2[a]? = mem[a]? := by
  unfold remapTo_mem at h
  split at h
  · cases h; exact ⟨rfl, rfl, fun _ _ => rfl⟩
  · split at h
    · cases h
    · split_ifs at h
      · cases h; exact ⟨rfl, rfl, fun _ _ => rfl⟩
      · split at h
        · simp only [Option.bind_eq_some] at h
          obtain ⟨_, _, _, _, _, _, h⟩ := h
          simp only [Option.some.injEq, Prod.mk.injEq] at h
          obtain ⟨_, h2, h3⟩ := h
          subst h2 h3
          exact ⟨rfl, rfl, fun _ _ => rfl⟩
        · cases h
      · split at h
        · cases h
        · split_ifs at h
          · split at h
            · rename_i sgfrom hsg
              simp only [Option.map_eq_some', Prod.mk.injEq] at h
              obtain ⟨mem1, hm, _, h2, h3⟩ := h
              subst h2 h3
              obtain ⟨k1, k2⟩ := remapTableAt_frame mem mem1 _ sgfrom hm
              exact ⟨k1, rfl, fun a ha => k2 a (ha sgfrom hsg)⟩
            · cases h
          · split at h
            · split_ifs at h
              · simp only [Option.map_eq_some'] at h
                obtain ⟨b, _, h⟩ := h
                split_ifs at h <;> (cases h; exact ⟨rfl, rfl, fun _ _ => rfl⟩)
              · cases h; exact ⟨rfl, rfl, fun _ _ => rfl⟩
            · cases h
          · cases h; exact ⟨rfl, rfl, fun _ _ => rfl⟩

theorem dataLoad_cases (mem : IndexMemory) (d : ScatterDataAt) (t : ScatterData)
    (h : d.load mem = some t) :
    (d = .null ∧ t = .null) ∨
    (∃ da tv, d = .seqGeneral da ∧ mem[da.vslots]? = some tv ∧
      t = .seqGeneral ⟨da.format, da.n, tv⟩) ∨
    (∃ g, d = .seqStride g ∧ t = .seqStride g) ∨
    (∃ g, d = .mpiToAll g ∧ t = .mpiToAll g) ∨
    (∃ g, d = .mpiGeneral g ∧ t = .mpiGeneral g) := by
  cases d with
  | null => left; simp only [ScatterDataAt.load, Option.some.injEq] at h; exact ⟨rfl, h.symm⟩
  | seqGeneral da =>
    right; left
    cases hm : mem[da.vslots]? with
    | none => simp [ScatterDataAt.load, SeqGeneralAt.load, hm] at h
    | some tv =>
      simp only [ScatterDataAt.load, SeqGeneralAt.load, hm, Option.map_some',
        Option.some.injEq] at h
      exact ⟨da, tv, rfl, hm, h.symm⟩
  | seqStride g =>
    right; right; left
    simp only [ScatterDataAt.load, Option.some.injEq] at h; exact ⟨g, rfl, h.symm⟩
  | mpiToAll g =>
    right; right; right; left
    simp only [ScatterDataAt.load, Option.some.injEq] at h; exact ⟨g, rfl, h.symm⟩
  | mpiGeneral g =>
    right; right; right; right
    simp only [ScatterDataAt.load, Option.some.injEq] at h; exact ⟨g, rfl, h.symm⟩

/-- After the index array of the From side has been rewritten, the structure denotes the
context with the new From-side table, the two sides not sharing an array. -/
theorem load_set_from (mem : IndexMemory) (q : VecScatterAt) (c : VecScatter)
    (df : SeqGeneralAt) (fv v1 : List Int) (hl : q.load mem = some c)
    (hqf : q.fromdata = .seqGeneral df) (hfv : mem[df.vslots]? = some fv)
    (hna : ∀ dt df, q.todata = .seqGeneral dt → q.fromdata = .seqGeneral df →
      dt.vslots ≠ df.vslots) :
    q.load (mem.set df.vslots v1) =
      some { c with fromdata := .seqGeneral ⟨df.format, df.n, v1⟩ } := by
  obtain ⟨t, f, ht, hf, hc⟩ := load_eq_some mem q c hl
  subst hc
  have hf' : q.fromdata.load (mem.set df.vslots v1) =
      some (.seqGeneral ⟨df.format, df.n, v1⟩) := by
    simp only [hqf, ScatterDataAt.load, SeqGeneralAt.load,
      getElem?_set_self_of_some mem _ fv v1 hfv, Option.map_some']
  have ht' : q.todata.load (mem.set df.vslots v1) = some t := by
    cases hqt : q.todata with
    | seqGeneral dt =>
      rw [hqt] at ht
      simp only [ScatterDataAt.load, SeqGeneralAt.load] at ht ⊢
      rw [getElem?_set_other mem _ _ v1 (Ne.symm (hna dt df hqt hqf))]
      exact ht
    | _ => rw [hqt] at ht; exact ht
  simp only [VecScatterAt.load, ht', hf', Option.some_bind, Option.map_some']

set_option maxHeartbeats 3200000 in
/-- The block `if (tomap)` on memory does what it does on values, provided the two sides of
the plan do not share an index array. -/
theorem remapTo_mem_refines (opt : LocalOptimizeCopy) (mem : IndexMemory) (q : VecScatterAt)
    (c : VecScatter) (tomap : Option (List Int)) (hl : q.load mem = some c)
    (hna : ∀ dt df, q.todata = .seqGeneral dt → q.fromdata = .seqGeneral df →
      dt.vslots ≠ df.vslots) :
    (remapTo_mem opt mem q tomap).bind
        (fun r => (r.2.2.load r.2.1).map fun c2 => (r.1, c2)) = remapTo opt c tomap := by
  have hl0 := hl
  obtain ⟨t, f, ht, hf, hc⟩ := load_eq_some mem q c hl
  cases tomap with
  | none => simp only [remapTo_mem, remapTo, Option.some_bind, hl, Option.map_some']
  | some tm =>
    have hset := fun df fv v1 => load_set_from mem q c df fv v1 hl0
    have hE : ∀ E : PetscErrorCode, (some (E, mem, q)).bind
        (fun r => (r.2.2.load r.2.1).map fun c2 => (r.1, c2)) = some (E, c) := by
      intro E; simp only [Option.some_bind, hl0, Option.map_some']
    have hnone : (none : Option (PetscErrorCode × IndexMemory × VecScatterAt)).bind
        (fun r => (r.2.2.load r.2.1).map fun c2 => (r.1, c2)) = none := rfl
    rcases dataLoad_cases mem _ f hf with ⟨hqf, h2⟩ | ⟨df, fv, hqf, hfv, h2⟩ | ⟨gf, hqf, h2⟩ |
      ⟨gf, hqf, h2⟩ | ⟨gf, hqf, h2⟩
    · rcases dataLoad_cases mem _ t ht with ⟨hqt, h1⟩ | ⟨dt, tv, hqt, htv, h1⟩ | ⟨gt, hqt, h1⟩ |
        ⟨gt, hqt, h1⟩ | ⟨gt, hqt, h1⟩ <;>
      subst h1 <;> subst h2 <;> subst hc <;>
      simp only [remapTo_mem, remapTo, hqt, hqf, ScatterDataAt.format?, ScatterData.format?] <;>
      (try split_ifs) <;> first | exact hE _ | exact hnone
    · have hseq : ((remapTableAt mem tm df).map fun mem1 => (PetscErrorCode.ok, mem1, q)).bind
          (fun r => (r.2.2.load r.2.1).map fun c2 => (r.1, c2)) =
          (remapLoop tm df.n fv).map fun v =>
            (PetscErrorCode.ok, { c with fromdata := .seqGeneral ⟨df.format, df.n, v⟩ }) := by
        rw [remapTableAt_eq mem tm df fv hfv]
        cases remapLoop tm df.n fv with
        | none => rfl
        | some v1 =>
          simp only [Option.map_some', Option.some_bind, hset df fv v1 hqf hfv hna]
      rcases dataLoad_cases mem _ t ht with ⟨hqt, h1⟩ | ⟨dt, tv, hqt, htv, h1⟩ | ⟨gt, hqt, h1⟩ |
        ⟨gt, hqt, h1⟩ | ⟨gt, hqt, h1⟩ <;>
      subst h1 <;> subst h2 <;> subst hc <;>
      simp only [remapTo_mem, remapTo, hqt, hqf, ScatterDataAt.format?, ScatterData.format?] <;>
      (try split_ifs) <;> first | exact hE _ | exact hnone | exact hseq
    · have hstr : ((remapIsIdentity tm gf.n).map fun b =>
          if b = true then (PetscErrorCode.ok, mem, q)
          else (PetscErrorCode.ERR_ARG_SIZ, mem, q)).bind
          (fun r => (r.2.2.load r.2.1).map fun c2 => (r.1, c2)) =
          (remapIsIdentity tm gf.n).map fun b =>
            if b = true then (PetscErrorCode.ok, c) else (PetscErrorCode.ERR_ARG_SIZ, c) := by
        cases remapIsIdentity tm gf.n with
        | none => rfl
        | some b =>
          cases b <;> simp only [Option.map_some', Option.some_bind, hl0, if_true,
            Bool.false_eq_true, if_false]
      rcases dataLoad_cases mem _ t ht with ⟨hqt, h1⟩ | ⟨dt, tv, hqt, htv, h1⟩ | ⟨gt, hqt, h1⟩ |
        ⟨gt, hqt, h1⟩ | ⟨gt, hqt, h1⟩ <;>
      subst h1 <;> subst h2 <;> subst hc <;>
      simp only [remapTo_mem, remapTo, hqt, hqf, ScatterDataAt.format?, ScatterData.format?] <;>
      (try split_ifs) <;> first | exact hE _ | exact hnone | exact hstr
    · rcases dataLoad_cases mem _ t ht with ⟨hqt, h1⟩ | ⟨dt, tv, hqt, htv, h1⟩ | ⟨gt, hqt, h1⟩ |
        ⟨gt, hqt, h1⟩ | ⟨gt, hqt, h1⟩ <;>
      subst h1 <;> subst h2 <;> subst hc <;>
      simp only [remapTo_mem, remapTo, hqt, hqf, ScatterDataAt.format?, ScatterData.format?] <;>
      (try split_ifs) <;> first | exact hE _ | exact hnone
    · rcases dataLoad_cases mem _ t ht with ⟨hqt, h1⟩ | ⟨dt, tv, hqt, htv, h1⟩ | ⟨gt, hqt, h1⟩ |
        ⟨gt, hqt, h1⟩ | ⟨gt, hqt, h1⟩
      · subst h1; subst h2; subst hc
        simp only [remapTo_mem, remapTo, hqt, hqf, ScatterDataAt.format?, ScatterData.format?]
        exact hnone
      · subst h1; subst h2; subst hc
        simp only [remapTo_mem, remapTo, hqt, hqf, ScatterDataAt.format?, ScatterData.format?]
        split_ifs <;> first | exact hnone | exact hE _
      · subst h1; subst h2; subst hc
        simp only [remapTo_mem, remapTo, hqt, hqf, ScatterDataAt.format?, ScatterData.format?]
        split_ifs <;> first | exact hnone | exact hE _
      · subst h1; subst h2; subst hc
        simp only [remapTo_mem, remapTo, hqt, hqf, ScatterDataAt.format?, ScatterData.format?]
        split_ifs <;> first | exact hnone | exact hE _
      · subst h1; subst h2; subst hc
        simp only [remapTo_mem, remapTo, hqt, hqf, ScatterDataAt.format?, ScatterData.format?]
        by_cases k1 : gt.format = .VEC_SCATTER_MPI_TOALL
        · simp only [k1, if_true]
          exact hE _
        · simp only [k1, if_false]
          by_cases k2 : gt.format = .VEC_SCATTER_MPI_GENERAL
          · simp only [k2, if_true]
            cases rd gt.starts gt.n with
            | none => rfl
            | some m =>
              simp only [Option.some_bind]
              cases remapLoop tm m.toNat gt.indices with
              | none => rfl
              | some ind =>
                simp only [Option.some_bind]
                cases remapLoop tm gt.local_n gt.local_vslots with
                | none => rfl
                | some vs =>
                  simp only [Option.some_bind, VecScatterAt.load, ScatterDataAt.load,
                    Option.map_some']
          · simp only [k2, if_false]
            split_ifs <;> first | exact hnone | exact hE _

end MemoryRemap

section MemoryIndependence

theorem dataLoad_frame (m1 m2 : IndexMemory) (d : ScatterDataAt)
    (h : ∀ g, d = .seqGeneral g → m2[g.vslots]? = m1[g.vslots]?) : d.load m2 = d.load m1 := by
  cases d with
  | seqGeneral g => simp only [ScatterDataAt.load, SeqGeneralAt.load, h g rfl]
  | _ => rfl

/-- A structure denotes the same context in two memories that agree on its index arrays. -/
theorem load_frame (m1 m2 : IndexMemory) (p : VecScatterAt)
    (h1 : ∀ g, p.todata = .seqGeneral g → m2[g.vslots]? = m1[g.vslots]?)
    (h2 : ∀ g, p.fromdata = .seqGeneral g → m2[g.vslots]? = m1[g.vslots]?) :
    p.load m2 = p.load m1 := by
  simp only [VecScatterAt.load, dataLoad_frame m1 m2 _ h1, dataLoad_frame m1 m2 _ h2]

theorem dataLoad_addr (mem : IndexMemory) (d : ScatterDataAt) (t : ScatterData)
    (h : d.load mem = some t) (g : SeqGeneralAt) (hg : d = .seqGeneral g) :
    g.vslots < mem.length := by
  subst hg
  rcases dataLoad_cases mem _ t h with ⟨h1, _⟩ | ⟨da, tv, h1, h2, _⟩ | ⟨_, h1, _⟩ | ⟨_, h1, _⟩ |
    ⟨_, h1, _⟩
  · cases h1
  · cases h1; exact lt_of_getElem?_some mem _ tv h2
  · cases h1
  · cases h1
  · cases h1

/-- The index arrays of a structure that denotes a context lie in the memory. -/
theorem load_addr (mem : IndexMemory) (p : VecScatterAt) (ctx : VecScatter)
    (h : p.load mem = some ctx) :
    (∀ g, p.todata = .seqGeneral g → g.vslots < mem.length) ∧
    (∀ g, p.fromdata = .seqGeneral g → g.vslots < mem.length) := by
  obtain ⟨t, f, ht, hf, _⟩ := load_eq_some mem p ctx h
  exact ⟨dataLoad_addr mem _ t ht, dataLoad_addr mem _ f hf⟩

theorem load_append (mem added : IndexMemory) (p : VecScatterAt) (ctx : VecScatter)
    (h : p.load mem = some ctx) : p.load (mem ++ added) = some ctx := by
  obtain ⟨k1, k2⟩ := load_addr mem p ctx h
  rw [load_frame mem (mem ++ added) p (fun g hg => getElem?_append_old mem added _ (k1 g hg))
    (fun g hg => getElem?_append_old mem added _ (k2 g hg))]
  exact h

theorem load_hdr (mem : IndexMemory) (q : VecScatterAt) (h : VecScatter) :
    VecScatterAt.load mem { q with hdr := h } =
      (q.load mem).map fun c => { h with todata := c.todata, fromdata := c.fromdata } := by
  simp only [VecScatterAt.load]
  cases q.todata.load mem with
  | none => rfl
  | some t =>
    cases q.fromdata.load mem with
    | none => rfl
    | some f => rfl

/-- The routine `VecScatterRemap` on memory does what it does on values, provided the two
sides of the plan do not share an index array. -/
theorem remap_mem_refines (opt : LocalOptimizeCopy) (mem : IndexMemory) (q : VecScatterAt)
    (c : VecScatter) (tomap frommap : Option (List Int)) (hl : q.load mem = some c)
    (hna : ∀ dt df, q.todata = .seqGeneral dt → q.fromdata = .seqGeneral df →
      dt.vslots ≠ df.vslots) :
    (VecScatterRemap_mem opt mem q tomap frommap).bind
        (fun r => (r.2.2.load r.2.1).map fun c2 => (r.1, c2)) =
      VecScatterRemap opt c tomap frommap := by
  have h := remapTo_mem_refines opt mem q c tomap hl hna
  unfold VecScatterRemap_mem VecScatterRemap
  rw [← h]
  cases hr : remapTo_mem opt mem q tomap with
  | none => rfl
  | some r =>
    obtain ⟨e, mem1, q1⟩ := r
    simp only [Option.some_bind]
    cases hq : q1.load mem1 with
    | none =>
      simp only [Option.map_none']
      split_ifs <;> simp only [Option.some_bind, hq, Option.map_none', load_hdr]
    | some c1 =>
      simp only [Option.map_some']
      split_ifs <;> simp only [Option.some_bind, hq, Option.map_some', load_hdr]
      obtain ⟨t, f, _, _, hc⟩ := load_eq_some mem1 q1 c1 hq
      subst hc
      rfl

/-- The routine `VecScatterRemap` on memory writes no array but the index array of the From
side of the plan it is called on. -/
theorem remap_mem_frame (opt : LocalOptimizeCopy) (mem : IndexMemory) (q : VecScatterAt)
    (tomap frommap : Option (List Int)) (e : PetscErrorCode) (mem2 : IndexMemory)
    (q2 : VecScatterAt) (h : VecScatterRemap_mem opt mem q tomap frommap = some (e, mem2, q2)) :
    ∀ a, (∀ d, q.fromdata = .seqGeneral d → a ≠ d.vslots) → mem2[a]? = mem[a]? := by
  unfold VecScatterRemap_mem at h
  cases hr : remapTo_mem opt mem q tomap with
  | none => rw [hr] at h; cases h
  | some r =>
    obtain ⟨e1, mem1, q1⟩ := r
    rw [hr] at h
    have hf := (remapTo_mem_frame opt mem q tomap e1 mem1 q1 hr).2.2
    simp only at h
    split_ifs at h <;>
      (simp only [Option.some.injEq, Prod.mk.injEq] at h; obtain ⟨_, h2, _⟩ := h; subst h2;
       exact hf)

/-- When `VecScatterCopy_mem` succeeds with a copy routine of this file on a structure that
denotes a context, `VecScatterCopy` succeeds on the context. -/
theorem copy_mem_success
    (extc : Nat → VecScatter → VecScatter → Option (PetscErrorCode × VecScatter))
    (extcm : Nat → IndexMemory → VecScatterAt → VecScatterAt →
      Option (PetscErrorCode × IndexMemory × VecScatterAt))
    (mem : IndexMemory) (p : VecScatterAt) (ctx : VecScatter) (cr : CopyRoutine)
    (mem1 : IndexMemory) (q : VecScatterAt)
    (hl : p.load mem = some ctx) (hcr : ctx.ops.copy = some cr)
    (hloc : ∀ id, cr ≠ .other id)
    (hm : VecScatterCopy_mem extcm mem p = some (.ok, mem1, some q)) :
    ∃ c, VecScatterCopy extc ctx = some (.ok, some c) := by
  obtain ⟨t, f, ht, hf, hc⟩ := load_eq_some mem p ctx hl
  subst hc
  have hcr' : p.hdr.ops.copy = some cr := hcr
  simp only [VecScatterCopy_mem, hcr'] at hm
  simp only [VecScatterCopy, hcr']
  cases cr with
  | other id => exact absurd rfl (hloc id)
  | SGToSG =>
    rcases dataLoad_cases mem _ t ht with ⟨hqt, h1⟩ | ⟨dt, tv, hqt, htv, h1⟩ | ⟨gt, hqt, h1⟩ |
        ⟨gt, hqt, h1⟩ | ⟨gt, hqt, h1⟩
    · simp [callCopy_mem, VecScatterCopy_SGToSG_mem, hqt] at hm
    · rcases dataLoad_cases mem _ f hf with ⟨hqf, h2⟩ | ⟨df, fv, hqf, hfv, h2⟩ |
          ⟨gf, hqf, h2⟩ | ⟨gf, hqf, h2⟩ | ⟨gf, hqf, h2⟩
      · simp [callCopy_mem, VecScatterCopy_SGToSG_mem, hqt, hqf] at hm
      · subst h1; subst h2
        simp only [callCopy_mem, SGToSG_mem_eq mem p _ dt df tv fv hqt hqf htv hfv] at hm
        simp only [callCopy, VecScatterCopy_SGToSG]
        cases k1 : copyArray tv dt.n with
        | none => simp [k1] at hm
        | some t1 =>
          cases k2 : copyArray fv df.n with
          | none => simp [k1, k2] at hm
          | some f1 =>
            simp only [Option.some_bind, Option.map_some', ne_eq, not_true_eq_false, if_false]
            exact ⟨_, rfl⟩
      · simp [callCopy_mem, VecScatterCopy_SGToSG_mem, hqt, hqf] at hm
      · simp [callCopy_mem, VecScatterCopy_SGToSG_mem, hqt, hqf] at hm
      · simp [callCopy_mem, VecScatterCopy_SGToSG_mem, hqt, hqf] at hm
    · simp [callCopy_mem, VecScatterCopy_SGToSG_mem, hqt] at hm
    · simp [callCopy_mem, VecScatterCopy_SGToSG_mem, hqt] at hm
    · simp [callCopy_mem, VecScatterCopy_SGToSG_mem, hqt] at hm
  | SGToSS =>
    rcases dataLoad_cases mem _ t ht with ⟨hqt, h1⟩ | ⟨dt, tv, hqt, htv, h1⟩ | ⟨gt, hqt, h1⟩ |
        ⟨gt, hqt, h1⟩ | ⟨gt, hqt, h1⟩
    · simp [callCopy_mem, VecScatterCopy_SGToSS_mem, hqt] at hm
    · simp [callCopy_mem, VecScatterCopy_SGToSS_mem, hqt] at hm
    · rcases dataLoad_cases mem _ f hf with ⟨hqf, h2⟩ | ⟨df, fv, hqf, hfv, h2⟩ |
          ⟨gf, hqf, h2⟩ | ⟨gf, hqf, h2⟩ | ⟨gf, hqf, h2⟩
      · simp [callCopy_mem, VecScatterCopy_SGToSS_mem, hqt, hqf] at hm
      · subst h1; subst h2
        simp only [callCopy_mem, SGToSS_mem_eq mem p _ gt df fv hqt hqf hfv] at hm
        simp only [callCopy, VecScatterCopy_SGToSS]
        cases k2 : copyArray fv df.n with
        | none => simp [k2] at hm
        | some f1 =>
            simp only [Option.some_bind, Option.map_some', ne_eq, not_true_eq_false, if_false]
            exact ⟨_, rfl⟩
      · simp [callCopy_mem, VecScatterCopy_SGToSS_mem, hqt, hqf] at hm
      · simp [callCopy_mem, VecScatterCopy_SGToSS_mem, hqt, hqf] at hm
      · simp [callCopy_mem, VecScatterCopy_SGToSS_mem, hqt, hqf] at hm
    · simp [callCopy_mem, VecScatterCopy_SGToSS_mem, hqt] at hm
    · simp [callCopy_mem, VecScatterCopy_SGToSS_mem, hqt] at hm
  | SSToSS =>
    rcases dataLoad_cases mem _ t ht with ⟨hqt, h1⟩ | ⟨dt, tv, hqt, htv, h1⟩ | ⟨gt, hqt, h1⟩ |
        ⟨gt, hqt, h1⟩ | ⟨gt, hqt, h1⟩
    · simp [callCopy_mem, VecScatterCopy_SSToSS_mem, hqt] at hm
    · simp [callCopy_mem, VecScatterCopy_SSToSS_mem, hqt] at hm
    · rcases dataLoad_cases mem _ f hf with ⟨hqf, h2⟩ | ⟨df, fv, hqf, hfv, h2⟩ |
          ⟨gf, hqf, h2⟩ | ⟨gf, hqf, h2⟩ | ⟨gf, hqf, h2⟩
      · simp [callCopy_mem, VecScatterCopy_SSToSS_mem, hqt, hqf] at hm
      · simp [callCopy_mem, VecScatterCopy_SSToSS_mem, hqt, hqf] at hm
      · subst h1; subst h2
        simp only [callCopy, VecScatterCopy_SSToSS]
        simp only [ne_eq, not_true_eq_false, if_false]
        exact ⟨_, rfl⟩
      · simp [callCopy_mem, VecScatterCopy_SSToSS_mem, hqt, hqf] at hm
      · simp [callCopy_mem, VecScatterCopy_SSToSS_mem, hqt, hqf] at hm
    · simp [callCopy_mem, VecScatterCopy_SSToSS_mem, hqt] at hm
    · simp [callCopy_mem, VecScatterCopy_SSToSS_mem, hqt] at hm
  | MPI_ToAll =>
    rcases dataLoad_cases mem _ t ht with ⟨hqt, h1⟩ | ⟨dt, tv, hqt, htv, h1⟩ | ⟨gt, hqt, h1⟩ |
        ⟨gt, hqt, h1⟩ | ⟨gt, hqt, h1⟩
    · simp [callCopy_mem, VecScatterCopy_MPI_ToAll_mem, hqt] at hm
    · simp [callCopy_mem, VecScatterCopy_MPI_ToAll_mem, hqt] at hm
    · simp [callCopy_mem, VecScatterCopy_MPI_ToAll_mem, hqt] at hm
    · subst h1
      simp only [callCopy_mem, VecScatterCopy_MPI_ToAll_mem, hqt] at hm
      simp only [callCopy, VecScatterCopy_MPI_ToAll]
      cases h1 : copyArray gt.count (copyHeader p.hdr).comm_size with
      | none => simp [h1] at hm
      | some t1 =>
        cases h2 : copyArray gt.displx (copyHeader p.hdr).comm_size with
        | none => simp [h1, h2] at hm
        | some f1 =>
          simp only [copyHeader, VecScatterCreateEmpty] at h1 h2 ⊢
          simp only [h1, h2, Option.some_bind, Option.map_some', ne_eq, not_true_eq_false,
            if_false]
          exact ⟨_, rfl⟩
    · simp [callCopy_mem, VecScatterCopy_MPI_ToAll_mem, hqt] at hm

end MemoryIndependence

/-! ## The claims on remapping, the driver, creation between parallel vectors, destroying and copying -/

section MaintenanceClaims
variable {α : Type}

/-- C21 fails as stated: on the General/General plan with `f = t = [0, 1, 2]` the remap with
`r = [1, 2, 0]` leaves the To-side (destination) table `[0, 1, 2]` as it was and rewrites the
From-side (source) table to `[r(0), r(1), r(2)] = [1, 2, 0]`; the following Forward Insert
from `x = [10, 20, 30]` gives `y = [20, 30, 10]`, so `y[r(t[0])] = y[1]` is 30 and not
`x[f[0]] = 10`. -/
theorem C21_remap_keeps_destination_counterexample :
    (createSeq cfgDebug false false (.general [0, 1, 2]) (.general [0, 1, 2]) 3 3).1 = .ok ∧
    straightPlan.todata = .seqGeneral ⟨.VEC_SCATTER_SEQ_GENERAL, 3, [0, 1, 2]⟩ ∧
    straightPlan.fromdata = .seqGeneral ⟨.VEC_SCATTER_SEQ_GENERAL, 3, [0, 1, 2]⟩ ∧
    VecScatterRemap noOptimize straightPlan (some [1, 2, 0]) none =
      some (.ok, markUnknown { straightPlan with
        fromdata := .seqGeneral ⟨.VEC_SCATTER_SEQ_GENERAL, 3, [1, 2, 0]⟩ }) ∧
    VecScatterBegin cfgDebug (noExt Int)
        ⟨markUnknown { straightPlan with
          fromdata := .seqGeneral ⟨.VEC_SCATTER_SEQ_GENERAL, 3, [1, 2, 0]⟩ },
          [10, 20, 30], [0, 0, 0]⟩ .INSERT_VALUES .SCATTER_FORWARD =
      some (.ok, ⟨{ markUnknown { straightPlan with
          fromdata := .seqGeneral ⟨.VEC_SCATTER_SEQ_GENERAL, 3, [1, 2, 0]⟩ } with
          inuse := true }, [10, 20, 30], [20, 30, 10]⟩) ∧
    rd [(20 : Int), 30, 10] 1 ≠ rd [(10 : Int), 20, 30] 0 := by
  refine ⟨by decide, by decide, by decide, by decide, by decide, by decide⟩

/-- C21 (amended): on a General/General plan with source table `f` and destination table `t`,
a remap with the renumbering `r` (all entries of `f` within `r`) succeeds, replaces every
From-side (source) index `f[k]` by `r[f[k]]`, leaves the To-side (destination) table `t` and
everything else but the recorded lengths unchanged, and a following Forward Insert performs
`y[t[k]] := x[r[f[k]]]` for `k = 0, 1, ..` in this order. -/
theorem C21_remap_rewrites_source_side [Add α] [Max α] (cfg : Config)
    (opt : LocalOptimizeCopy) (ext : ExtRoutines α) (scat : VecScatter) (r : List Int)
    (n : Nat) (t f : List Int)
    (hto : scat.todata = .seqGeneral ⟨.VEC_SCATTER_SEQ_GENERAL, n, t⟩)
    (hfrom : scat.fromdata = .seqGeneral ⟨.VEC_SCATTER_SEQ_GENERAL, n, f⟩)
    (ht : t.length = n) (hf : f.length = n) (hr : ∀ a ∈ f, InRange r.length a) :
    VecScatterRemap opt scat (some r) none =
      some (.ok, markUnknown { scat with
        fromdata := .seqGeneral ⟨.VEC_SCATTER_SEQ_GENERAL, n, remapped r f⟩ }) ∧
    (markUnknown { scat with
        fromdata := .seqGeneral ⟨.VEC_SCATTER_SEQ_GENERAL, n, remapped r f⟩ }).todata =
      .seqGeneral ⟨.VEC_SCATTER_SEQ_GENERAL, n, t⟩ ∧
    (scat.ops.begin_ = some .SGToSG → scat.ops.end_ = none → scat.inuse = false →
      ∀ x y : List α, (∀ k ∈ t, InRange y.length k) →
        (∀ k ∈ remapped r f, InRange x.length k) →
        VecScatterBegin cfg ext
            ⟨markUnknown { scat with
              fromdata := .seqGeneral ⟨.VEC_SCATTER_SEQ_GENERAL, n, remapped r f⟩ }, x, y⟩
            .INSERT_VALUES .SCATTER_FORWARD =
          some (.ok, ⟨{ markUnknown { scat with
              fromdata := .seqGeneral ⟨.VEC_SCATTER_SEQ_GENERAL, n, remapped r f⟩ } with
              inuse := true }, x,
            specScatter (combine .INSERT_VALUES) (remapped r f) t x y⟩)) := by
  refine ⟨?_, hto, ?_⟩
  · have h := remapTo_seqGeneral opt scat r .VEC_SCATTER_SEQ_GENERAL
      ⟨.VEC_SCATTER_SEQ_GENERAL, n, f⟩ (by rw [hto]; rfl) (by decide) (by decide) hfrom rfl
      hf.symm hr
    simp [VecScatterRemap, h, markUnknown]
  · intro hb hend hin x y hty hfx
    have hlen : (remapped r f).length = n := by simp [remapped, hf]
    have hrun : runPairs (combine .INSERT_VALUES) x (t.zip (remapped r f)) y =
        some (specScatter (combine .INSERT_VALUES) (remapped r f) t x y) :=
      runPairs_of_inRange (combine .INSERT_VALUES) x (t.zip (remapped r f)) y
        (fun p hp => ⟨hty _ (mem_zip_fst hp), hfx _ (mem_zip_snd hp)⟩)
    have htk : t.take n = t := by rw [← ht, List.take_length]
    have hfk : (remapped r f).take n = remapped r f := by rw [← hlen, List.take_length]
    rw [begin_local_eq cfg ext _ .SGToSG hb rfl hend hin .INSERT_VALUES .SCATTER_FORWARD
      (fun _ => beginSizeError_markUnknown _ x y _)]
    simp only [callBegin]
    rw [kernel_SGToSG cfg _ x y .INSERT_VALUES .SCATTER_FORWARD .VEC_SCATTER_SEQ_GENERAL
      .VEC_SCATTER_SEQ_GENERAL n t (remapped r f) ht hlen
      (by rw [htk]; exact hto) (by rw [hfk]; rfl)]
    have hm : ScatterMode.SCATTER_FORWARD.isReverse = false := rfl
    simp only [scatterPairs, modeOp_combine cfg .INSERT_VALUES (Or.inl rfl) (fun h => by cases h), hm,
      Bool.false_eq_true, if_false, hrun, Option.map_some']

/-- Witness of C21: the plan and the renumbering of the counterexample. -/
theorem C21_remap_rewrites_source_side_witness :
    (∀ a ∈ [(0 : Int), 1, 2], InRange [(1 : Int), 2, 0].length a) ∧
    VecScatterRemap noOptimize straightPlan (some [1, 2, 0]) none =
      some (.ok, markUnknown { straightPlan with
        fromdata := .seqGeneral ⟨.VEC_SCATTER_SEQ_GENERAL, 3, remapped [1, 2, 0] [0, 1, 2]⟩ }) ∧
    remapped [1, 2, 0] [0, 1, 2] = [1, 2, 0] ∧
    VecScatterBegin cfgDebug (noExt Int)
        ⟨markUnknown { straightPlan with
          fromdata := .seqGeneral ⟨.VEC_SCATTER_SEQ_GENERAL, 3, remapped [1, 2, 0] [0, 1, 2]⟩ },
          [10, 20, 30], [0, 0, 0]⟩ .INSERT_VALUES .SCATTER_FORWARD =
      some (.ok, ⟨{ markUnknown { straightPlan with
          fromdata :=
            .seqGeneral ⟨.VEC_SCATTER_SEQ_GENERAL, 3, remapped [1, 2, 0] [0, 1, 2]⟩ } with
          inuse := true }, [10, 20, 30],
        specScatter (combine .INSERT_VALUES) (remapped [1, 2, 0] [0, 1, 2]) [0, 1, 2]
          [10, 20, 30] [0, 0, 0]⟩) ∧
    specScatter (combine InsertMode.INSERT_VALUES) (remapped [1, 2, 0] [0, 1, 2]) [0, 1, 2]
      [(10 : Int), 20, 30] [0, 0, 0] = [20, 30, 10] :=
  ⟨by decide,
    (C21_remap_rewrites_source_side cfgDebug noOptimize (noExt Int) straightPlan [1, 2, 0] 3
      [0, 1, 2] [0, 1, 2] (by decide) (by decide) rfl rfl (by decide)).1,
    by decide,
    (C21_remap_rewrites_source_side cfgDebug noOptimize (noExt Int) straightPlan [1, 2, 0] 3
      [0, 1, 2] [0, 1, 2] (by decide) (by decide) rfl rfl (by decide)).2.2 (by decide)
      (by decide) (by decide) [10, 20, 30] [0, 0, 0] (by decide) (by decide),
    by decide⟩

/-- C30: when the To-side map can rewrite the plan (the block `if (tomap)` returns without
error), `VecScatterRemap` called with both maps returns `PETSC_ERR_SUP` with the plan as that
block left it. On a plan whose source side is an index list every stored index `s` has been
replaced by `tomap[s]`, and `to_n` and `from_n` keep their values, whereas the same call
without the From-side map succeeds and marks them unknown. -/
theorem C30_remap_both_maps_not_atomic (opt : LocalOptimizeCopy) (scat : VecScatter)
    (tomap frommap : List Int) :
    (∀ scat1, remapTo opt scat (some tomap) = some (.ok, scat1) →
      VecScatterRemap opt scat (some tomap) (some frommap) = some (.ERR_SUP, scat1)) ∧
    (∀ (f : VecScatterFormat) (d : VecScatter_Seq_General),
      scat.todata.format? = some f → f ≠ .VEC_SCATTER_MPI_TOALL →
      f ≠ .VEC_SCATTER_MPI_GENERAL → scat.fromdata = .seqGeneral d →
      d.format = .VEC_SCATTER_SEQ_GENERAL → d.n = d.vslots.length →
      (∀ a ∈ d.vslots, InRange tomap.length a) →
      VecScatterRemap opt scat (some tomap) (some frommap) =
        some (.ERR_SUP, { scat with
          fromdata := .seqGeneral { d with vslots := remapped tomap d.vslots } }) ∧
      ({ scat with fromdata := .seqGeneral { d with vslots := remapped tomap d.vslots } } :
        VecScatter).to_n = scat.to_n ∧
      ({ scat with fromdata := .seqGeneral { d with vslots := remapped tomap d.vslots } } :
        VecScatter).from_n = scat.from_n ∧
      VecScatterRemap opt scat (some tomap) none =
        some (.ok, markUnknown { scat with
          fromdata := .seqGeneral { d with vslots := remapped tomap d.vslots } })) := by
  constructor
  · intro scat1 h
    simp [VecScatterRemap, h]
  · intro f d hto hf1 hf2 hfrom hfmt hn hv
    have h := remapTo_seqGeneral opt scat tomap f d hto hf1 hf2 hfrom hfmt hn hv
    refine ⟨by simp [VecScatterRemap, h], rfl, rfl, by simp [VecScatterRemap, h, markUnknown]⟩

/-- Witness of C30: `swapPlan` (source table `[1, 0]`, lengths 2 and 2) remapped with
`tomap = [1, 0]` and a From-side map: the call fails, the source table is `[0, 1]`. -/
theorem C30_remap_both_maps_not_atomic_witness :
    VecScatterRemap noOptimize swapPlan (some [1, 0]) (some [0, 1]) =
      some (.ERR_SUP, { swapPlan with
        fromdata := .seqGeneral ⟨.VEC_SCATTER_SEQ_GENERAL, 2, remapped [1, 0] [1, 0]⟩ }) ∧
    remapped [1, 0] [1, 0] = [0, 1] ∧
    swapPlan.fromdata = .seqGeneral ⟨.VEC_SCATTER_SEQ_GENERAL, 2, [1, 0]⟩ ∧
    swapPlan.to_n = 2 ∧ swapPlan.from_n = 2 :=
  ⟨((C30_remap_both_maps_not_atomic noOptimize swapPlan [1, 0] [0, 1]).2
      .VEC_SCATTER_SEQ_GENERAL ⟨.VEC_SCATTER_SEQ_GENERAL, 2, [1, 0]⟩ (by decide) (by decide)
      (by decide) (by decide) rfl rfl (by decide)).1,
    by decide, by decide, by decide, by decide⟩

end MaintenanceClaims

section DriverClaims
variable {α : Type}

/-- C27: a Begin with an unsupported insert mode (`MAX_VALUES` with complex scalars, or a
mode other than `INSERT_VALUES`, `ADD_VALUES`, `MAX_VALUES`) on a plan that
`VecScatterCreate_Seq` returned gives an error, `PETSC_ERR_ARG_SIZ` from the size test or
`PETSC_ERR_ARG_UNKNOWN_TYPE` from the kernel, with `x` and `y` as they were, in both
directions; the same holds, whenever Begin returns, for every plan whose begin routine is a
sequential kernel. -/
theorem C27_unsupported_mode_writes_nothing [Add α] [Max α] (cfg : Config)
    (ext : ExtRoutines α) (merge pack : Bool) (A B : IS) (nx ny : Nat) (ctx : VecScatter)
    (hc : createSeq cfg merge pack A B nx ny = (.ok, ctx)) (addv : InsertMode)
    (hun : (cfg.useComplex = true ∧ addv = .MAX_VALUES) ∨
      (addv ≠ .INSERT_VALUES ∧ addv ≠ .ADD_VALUES ∧ addv ≠ .MAX_VALUES)) :
    (∀ (x y : List α) (mode : ScatterMode),
      VecScatterBegin cfg ext ⟨ctx, x, y⟩ addv mode =
        if cfg.useDebug = true ∧ beginSizeError ctx x y mode = true then
          some (.ERR_ARG_SIZ, ⟨ctx, x, y⟩)
        else some (.ERR_ARG_UNKNOWN_TYPE, ⟨{ ctx with inuse := true }, x, y⟩)) ∧
    (∀ (w : World α) (mode : ScatterMode) (r : BeginRoutine) (e : PetscErrorCode)
      (w' : World α), w.ctx.ops.begin_ = some r → r.isLocal = true →
      VecScatterBegin cfg ext w addv mode = some (e, w') →
      e ≠ .ok ∧ w'.x = w.x ∧ w'.y = w.y) := by
  constructor
  · intro x y mode
    rw [begin_createSeq cfg ext merge pack A B nx ny ctx hc]
    simp only [scatterPairs, modeOp_unsupported cfg addv hun, Option.map_some']
  · intro w mode r e w' hb hr h
    simp only [VecScatterBegin] at h
    split_ifs at h with h1 h2
    · simp only [Option.some.injEq, Prod.mk.injEq] at h
      obtain ⟨rfl, rfl⟩ := h
      exact ⟨by decide, rfl, rfl⟩
    · simp only [Option.some.injEq, Prod.mk.injEq] at h
      obtain ⟨rfl, rfl⟩ := h
      exact ⟨by decide, rfl, rfl⟩
    · simp only [hb] at h
      cases hcb : callBegin cfg ext r { w with ctx := { w.ctx with inuse := true } } addv mode with
      | none => simp [hcb] at h
      | some p =>
        obtain ⟨e1, w1⟩ := p
        obtain ⟨he1, hw1⟩ := callBegin_unsupported cfg ext r hr _ addv mode hun e1 w1 hcb
        subst he1 hw1
        simp only [hcb, ne_eq, reduceCtorEq, not_false_eq_true, if_true, Option.some.injEq,
          Prod.mk.injEq] at h
        obtain ⟨rfl, rfl⟩ := h
        exact ⟨by decide, rfl, rfl⟩

/-- Witness of C27: `swapPlan` with the mode `INSERT_ALL_VALUES`. -/
theorem C27_unsupported_mode_writes_nothing_witness :
    createSeq cfgDebug false false (.general [1, 0]) (.general [0, 1]) 2 2 = (.ok, swapPlan) ∧
    VecScatterBegin cfgDebug (noExt Int) ⟨swapPlan, [5, 7], [0, 0]⟩ .INSERT_ALL_VALUES
      .SCATTER_FORWARD =
      some (.ERR_ARG_UNKNOWN_TYPE, ⟨{ swapPlan with inuse := true }, [5, 7], [0, 0]⟩) :=
  ⟨by decide,
    ((C27_unsupported_mode_writes_nothing cfgDebug (noExt Int) false false (.general [1, 0])
      (.general [0, 1]) 2 2 swapPlan (by decide) .INSERT_ALL_VALUES
      (Or.inr ⟨by decide, by decide, by decide⟩)).1 [5, 7] [0, 0] .SCATTER_FORWARD).trans
      (by decide)⟩

/-- C29: when Begin passes the in-use test and the size test and the begin routine then
returns an error, Begin returns that error and the plan stays in use; every further Begin
returns `PETSC_ERR_ARG_WRONGSTATE` and changes nothing; End clears the flag, and on a plan
run by a sequential kernel End gives the plan back exactly as it was before the failed
Begin. -/
theorem C29_failed_begin_leaves_in_use [Add α] [Max α] (cfg : Config) (ext : ExtRoutines α)
    (hext : ext.Frames) (w w2 : World α) (addv : InsertMode) (mode : ScatterMode)
    (r : BeginRoutine) (e : PetscErrorCode) (hidle : w.ctx.inuse = false)
    (hsz : cfg.useDebug = true → beginSizeError w.ctx w.x w.y mode = false)
    (hb : w.ctx.ops.begin_ = some r)
    (hcall : callBegin cfg ext r { w with ctx := { w.ctx with inuse := true } } addv mode =
      some (e, w2))
    (he : e ≠ .ok) :
    VecScatterBegin cfg ext w addv mode = some (e, w2) ∧ w2.ctx.inuse = true ∧
    (∀ (x' y' : List α) (addv' : InsertMode) (mode' : ScatterMode),
      VecScatterBegin cfg ext ⟨w2.ctx, x', y'⟩ addv' mode' =
        some (.ERR_ARG_WRONGSTATE, ⟨w2.ctx, x', y'⟩)) ∧
    (∀ (x' y' : List α) (addv' : InsertMode) (mode' : ScatterMode) (e' : PetscErrorCode)
      (w3 : World α), VecScatterEnd ext ⟨w2.ctx, x', y'⟩ addv' mode' = some (e', w3) →
      w3.ctx.inuse = false) ∧
    (r.isLocal = true → w.ctx.ops.end_ = none →
      ∀ (x' y' : List α) (addv' : InsertMode) (mode' : ScatterMode),
        VecScatterEnd ext ⟨w2.ctx, x', y'⟩ addv' mode' = some (.ok, ⟨w.ctx, x', y'⟩)) := by
  have hh := callBegin_header cfg ext hext r _ addv mode e w2 hcall
  have hin2 : w2.ctx.inuse = true := hh.1
  refine ⟨?_, hin2, ?_, ?_, ?_⟩
  · simp only [VecScatterBegin, hidle, Bool.false_eq_true, if_false]
    have hs : ¬ (cfg.useDebug = true ∧ beginSizeError w.ctx w.x w.y mode = true) := by
      rintro ⟨h1, h2⟩
      rw [hsz h1] at h2
      cases h2
    simp only [hs, if_false, hb, hcall, he, ne_eq, not_false_eq_true, if_true]
  · intro x' y' addv' mode'
    simp [VecScatterBegin, hin2]
  · intro x' y' addv' mode' e' w3 h3
    simp only [VecScatterEnd] at h3
    split at h3
    · simp only [Option.some.injEq, Prod.mk.injEq] at h3
      rw [← h3.2]
    · split at h3
      · exact (hext.2 _ _ _ _ _ _ h3).1
      · simp only [Option.some.injEq, Prod.mk.injEq] at h3
        rw [← h3.2]
  · intro hloc hend x' y' addv' mode'
    have hctx := (callBegin_local_ctx cfg ext r hloc _ addv mode e w2 hcall).1
    have hc2 : w2.ctx = { w.ctx with inuse := true } := hctx
    rw [hc2]
    exact end_of_begun ext w.ctx x' y' addv' mode' hidle hend

/-- Witness of C29: `swapPlan` with the mode `INSERT_ALL_VALUES`; the kernel fails, the plan
stays in use and a Begin with `INSERT_VALUES` is refused. -/
theorem C29_failed_begin_leaves_in_use_witness :
    VecScatterBegin cfgDebug (noExt Int) ⟨swapPlan, [5, 7], [0, 0]⟩ .INSERT_ALL_VALUES
      .SCATTER_FORWARD =
      some (.ERR_ARG_UNKNOWN_TYPE, ⟨{ swapPlan with inuse := true }, [5, 7], [0, 0]⟩) ∧
    VecScatterBegin cfgDebug (noExt Int) ⟨{ swapPlan with inuse := true }, [5, 7], [0, 0]⟩
      .INSERT_VALUES .SCATTER_FORWARD =
      some (.ERR_ARG_WRONGSTATE, ⟨{ swapPlan with inuse := true }, [5, 7], [0, 0]⟩) ∧
    VecScatterEnd (noExt Int) ⟨{ swapPlan with inuse := true }, [5, 7], [0, 0]⟩
      .INSERT_VALUES .SCATTER_FORWARD = some (.ok, ⟨swapPlan, [5, 7], [0, 0]⟩) ∧
    VecScatterBegin cfgDebug (noExt Int) ⟨swapPlan, [5, 7], [0, 0]⟩ .INSERT_VALUES
      .SCATTER_FORWARD = some (.ok, ⟨{ swapPlan with inuse := true }, [5, 7], [7, 5]⟩) :=
  ⟨(C29_failed_begin_leaves_in_use cfgDebug (noExt Int) (noExt_frames Int)
      ⟨swapPlan, [5, 7], [0, 0]⟩ ⟨{ swapPlan with inuse := true }, [5, 7], [0, 0]⟩
      .INSERT_ALL_VALUES .SCATTER_FORWARD .SGToSG .ERR_ARG_UNKNOWN_TYPE (by decide)
      (by decide) (by decide) (by decide) (by decide)).1,
    (C29_failed_begin_leaves_in_use cfgDebug (noExt Int) (noExt_frames Int)
      ⟨swapPlan, [5, 7], [0, 0]⟩ ⟨{ swapPlan with inuse := true }, [5, 7], [0, 0]⟩
      .INSERT_ALL_VALUES .SCATTER_FORWARD .SGToSG .ERR_ARG_UNKNOWN_TYPE (by decide)
      (by decide) (by decide) (by decide) (by decide)).2.2.1 [5, 7] [0, 0] .INSERT_VALUES
      .SCATTER_FORWARD,
    (C29_failed_begin_leaves_in_use cfgDebug (noExt Int) (noExt_frames Int)
      ⟨swapPlan, [5, 7], [0, 0]⟩ ⟨{ swapPlan with inuse := true }, [5, 7], [0, 0]⟩
      .INSERT_ALL_VALUES .SCATTER_FORWARD .SGToSG .ERR_ARG_UNKNOWN_TYPE (by decide)
      (by decide) (by decide) (by decide) (by decide)).2.2.2.2 (by decide) (by decide)
      [5, 7] [0, 0] .INSERT_VALUES .SCATTER_FORWARD,
    by decide⟩

end DriverClaims

section MergedClaims
variable {α : Type}

/-- C26: on a plan with an end routine, idle and passing the size test, whose begin routine
returns without error (the routines outside the file leaving the flags and the routine table
alone): with the merged flag set, Begin is the begin routine followed by the end routine on
the plan marked not in use, and the End after it returns 0 without calling any routine; with
the flag not set, Begin is the begin routine alone and leaves the plan in use, and End is
the end routine on the plan marked not in use. In both modes the pair Begin, End runs the
begin routine once, then the end routine once, on the same intermediate state. -/
theorem C26_merged_mode [Add α] [Max α] (cfg : Config) (ext : ExtRoutines α)
    (hext : ext.Frames) (w w2 : World α) (addv : InsertMode) (mode : ScatterMode)
    (rb : BeginRoutine) (re : EndRoutine) (hidle : w.ctx.inuse = false)
    (hsz : cfg.useDebug = true → beginSizeError w.ctx w.x w.y mode = false)
    (hb : w.ctx.ops.begin_ = some rb) (hend : w.ctx.ops.end_ = some re)
    (hcall : callBegin cfg ext rb { w with ctx := { w.ctx with inuse := true } } addv mode =
      some (.ok, w2)) :
    (VecScatterGetMerged w.ctx = true →
      VecScatterBegin cfg ext w addv mode =
        ext.end_ re { w2 with ctx := { w2.ctx with inuse := false } } addv mode ∧
      ∀ (e : PetscErrorCode) (w3 : World α),
        ext.end_ re { w2 with ctx := { w2.ctx with inuse := false } } addv mode =
          some (e, w3) →
        w3.ctx.inuse = false ∧
        ∀ (ext' : ExtRoutines α) (addv' : InsertMode) (mode' : ScatterMode),
          VecScatterEnd ext' w3 addv' mode' = some (.ok, w3)) ∧
    (VecScatterGetMerged w.ctx = false →
      VecScatterBegin cfg ext w addv mode = some (.ok, w2) ∧ w2.ctx.inuse = true ∧
      VecScatterEnd ext w2 addv mode =
        ext.end_ re { w2 with ctx := { w2.ctx with inuse := false } } addv mode) := by
  have hh := callBegin_header cfg ext hext rb _ addv mode .ok w2 hcall
  have hs : ¬ (cfg.useDebug = true ∧ beginSizeError w.ctx w.x w.y mode = true) := by
    rintro ⟨h1, h2⟩
    rw [hsz h1] at h2
    cases h2
  have hend2 : w2.ctx.ops.end_ = some re := by rw [hh.2.2]; exact hend
  have hmer2 : w2.ctx.beginandendtogether = w.ctx.beginandendtogether := hh.2.1
  have key : VecScatterBegin cfg ext w addv mode =
      if w2.ctx.beginandendtogether = true then
        ext.end_ re { w2 with ctx := { w2.ctx with inuse := false } } addv mode
      else some (.ok, w2) := by
    simp only [VecScatterBegin, hidle, Bool.false_eq_true, if_false]
    simp only [hs, if_false, hb, hcall, ne_eq, not_true_eq_false, hend2]
  constructor
  · intro hm
    have hm2 : w2.ctx.beginandendtogether = true := hmer2.trans hm
    refine ⟨?_, ?_⟩
    · rw [key, if_pos hm2]
    · intro e w3 h3
      obtain ⟨k1, k2, k3⟩ := hext.2 _ _ _ _ _ _ h3
      have hin3 : w3.ctx.inuse = false := k1
      refine ⟨hin3, ?_⟩
      intro ext' addv' mode'
      have hend3 : w3.ctx.ops.end_ = some re := by rw [k3]; exact hend2
      have hmer3 : w3.ctx.beginandendtogether = true := by rw [k2]; exact hm2
      have hw3 : ({ w3 with ctx := { w3.ctx with inuse := false } } : World α) = w3 := by
        clear h3 k1 k2 k3 hend3 hmer3
        cases w3 with
        | mk c x y =>
          cases c
          simp only at hin3
          subst hin3
          rfl
      have hE : VecScatterEnd ext' w3 addv' mode' =
          some (.ok, { w3 with ctx := { w3.ctx with inuse := false } }) := by
        simp only [VecScatterEnd, hend3, hmer3, Bool.true_eq_false, if_false]
      rw [hE, hw3]
  · intro hm
    have hm2 : w2.ctx.beginandendtogether = false := hmer2.trans hm
    refine ⟨?_, hh.1, ?_⟩
    · rw [key, if_neg (by rw [hm2]; decide)]
    · simp only [VecScatterEnd, hend2, hm2, if_true]

/-- Witness of C26: routines that record their calls in `y` (1 for the begin routine, 2 for
the end routine). With the merged flag Begin gives `[1, 2]` and leaves the plan not in use,
and End adds nothing; without it Begin gives `[1]` and End gives `[1, 2]`. -/
theorem C26_merged_mode_witness :
    VecScatterBegin cfgDebug traceExt ⟨tracePlan true, [], []⟩ .INSERT_VALUES
      .SCATTER_FORWARD = some (.ok, ⟨tracePlan true, [], [1, 2]⟩) ∧
    VecScatterEnd traceExt ⟨tracePlan true, [], [1, 2]⟩ .INSERT_VALUES .SCATTER_FORWARD =
      some (.ok, ⟨tracePlan true, [], [1, 2]⟩) ∧
    VecScatterBegin cfgDebug traceExt ⟨tracePlan false, [], []⟩ .INSERT_VALUES
      .SCATTER_FORWARD = some (.ok, ⟨{ tracePlan false with inuse := true }, [], [1]⟩) ∧
    VecScatterEnd traceExt ⟨{ tracePlan false with inuse := true }, [], [1]⟩ .INSERT_VALUES
      .SCATTER_FORWARD = some (.ok, ⟨tracePlan false, [], [1, 2]⟩) :=
  ⟨((C26_merged_mode cfgDebug traceExt
      ⟨fun _ _ _ _ _ _ h => by cases h; exact ⟨rfl, rfl, rfl⟩,
        fun _ _ _ _ _ _ h => by cases h; exact ⟨rfl, rfl, rfl⟩⟩
      ⟨tracePlan true, [], []⟩ ⟨{ tracePlan true with inuse := true }, [], [1]⟩
      .INSERT_VALUES .SCATTER_FORWARD (.other 0) (.other 0) (by decide) (by decide)
      (by decide) (by decide) (by decide)).1 (by decide)).1.trans (by decide),
    by decide,
    ((C26_merged_mode cfgDebug traceExt
      ⟨fun _ _ _ _ _ _ h => by cases h; exact ⟨rfl, rfl, rfl⟩,
        fun _ _ _ _ _ _ h => by cases h; exact ⟨rfl, rfl, rfl⟩⟩
      ⟨tracePlan false, [], []⟩ ⟨{ tracePlan false with inuse := true }, [], [1]⟩
      .INSERT_VALUES .SCATTER_FORWARD (.other 0) (.other 0) (by decide) (by decide)
      (by decide) (by decide) (by decide)).2 (by decide)).1,
    by decide⟩

end MergedClaims

section LifecycleClaims
variable {α : Type}

/-- C28: `VecScatterCreate_PtoP` evaluated on two General index sets of equal length, with
the type `mpi3`, in a build without MPI-3 windows: no builder is called, the routine returns
0 and hands back the context as it came, with no begin routine, so that Begin on it calls a
null function pointer. With the type `mpi1`, or in a build with MPI-3 windows, the same call
invokes one builder once with block size 1 and the two full index lists; with unequal
lengths it fails with `PETSC_ERR_ARG_SIZ` and calls no builder; and `VecScatterCreate_PtoS`
in the same build, with the same type, does fall back on its MPI1 builder. -/
theorem C28_no_builder_without_windows :
    cfgDebug.haveMpiWinCreate = false ∧
    VecScatterCreate_PtoP cfgDebug noBuilders
        (ptopMember "mpi3" [2, 2] [2, 2] 0 (.general [0, 1]) (.general [2, 3])) =
      ⟨.ok, ptopMember "mpi3" [2, 2] [2, 2] 0 (.general [0, 1]) (.general [2, 3]), []⟩ ∧
    (ptopMember "mpi3" [2, 2] [2, 2] 0 (.general [0, 1]) (.general [2, 3])).ops.begin_ = none ∧
    VecScatterBegin cfgDebug (noExt Int)
        ⟨ptopMember "mpi3" [2, 2] [2, 2] 0 (.general [0, 1]) (.general [2, 3]), [5, 7], [0, 0]⟩
        .INSERT_VALUES .SCATTER_FORWARD = none ∧
    (VecScatterCreate_PtoP cfgDebug noBuilders
        (ptopMember "mpi1" [2, 2] [2, 2] 0 (.general [0, 1]) (.general [2, 3]))).events =
      [.build .PtoP_MPI1 2 [0, 1] 2 [2, 3] 1] ∧
    (VecScatterCreate_PtoP cfgWin noBuilders
        (ptopMember "mpi3" [2, 2] [2, 2] 0 (.general [0, 1]) (.general [2, 3]))).events =
      [.build .PtoP_MPI3 2 [0, 1] 2 [2, 3] 1] ∧
    VecScatterCreate_PtoP cfgDebug noBuilders
        (ptopMember "mpi3" [2, 2] [2, 2] 0 (.general [0, 1]) (.general [2])) =
      ⟨.ERR_ARG_SIZ, ptopMember "mpi3" [2, 2] [2, 2] 0 (.general [0, 1]) (.general [2]), []⟩ ∧
    (VecScatterCreate_PtoS cfgDebug noBuilders (fun _ => false)
        (ptosMember "mpi3" [2, 2] 0 (.general [0, 1]) (.general [1, 0]) 2)).map
        (fun r => r.events.getLast?) =
      some (some (.build .PtoS_MPI1 2 [0, 1] 2 [1, 0] 1)) := by
  refine ⟨rfl, by decide, by decide, by decide, by decide, by decide, by decide, by decide⟩

/-- C24: `VecScatterDestroy` on a null handle returns 0 and does nothing. On a plan in use
whose reference count is 1 it fails with `PETSC_ERR_ARG_WRONGSTATE` and leaves the handle,
the plan and its count as they are. In every other case, the reference count being at least
1, the count is decremented: while it stays positive the handle is cleared, the object lives
on with the smaller count and no destroy routine is called; when it reaches zero the destroy
routine of the plan, if it has one, is called, and when it returns 0 the handle is cleared
and the object freed. -/
theorem C24_destroy_reference_counted (extd : Nat → VecScatter → Option PetscErrorCode) :
    VecScatterDestroy extd none = some ⟨.ok, none, none, none⟩ ∧
    (∀ ctx : VecScatter, ctx.inuse = true → ctx.refct = 1 →
      VecScatterDestroy extd (some ctx) =
        some ⟨.ERR_ARG_WRONGSTATE, some ctx, some ctx, none⟩) ∧
    (∀ ctx : VecScatter, ¬ (ctx.inuse = true ∧ ctx.refct = 1) → 1 ≤ ctx.refct →
      (ctx.refct ≠ 1 →
        VecScatterDestroy extd (some ctx) =
          some ⟨.ok, none, some { ctx with refct := ctx.refct - 1 }, none⟩) ∧
      (ctx.refct = 1 → ctx.ops.destroy = none →
        VecScatterDestroy extd (some ctx) = some ⟨.ok, none, none, none⟩) ∧
      (∀ r, ctx.refct = 1 → ctx.ops.destroy = some r →
        callDestroy extd r { ctx with refct := ctx.refct - 1 } = some .ok →
        VecScatterDestroy extd (some ctx) = some ⟨.ok, none, none, some r⟩)) ∧
    (∀ (cfg : Config) (merge pack : Bool) (A B : IS) (nx ny : Nat) (ctx : VecScatter),
      createSeq cfg merge pack A B nx ny = (.ok, ctx) →
      ctx.refct = 1 ∧ ∃ r, ctx.ops.destroy = some r ∧
        VecScatterDestroy extd (some ctx) = some ⟨.ok, none, none, some r⟩ ∧
        VecScatterDestroy extd (some { ctx with inuse := true }) =
          some ⟨.ERR_ARG_WRONGSTATE, some { ctx with inuse := true },
            some { ctx with inuse := true }, none⟩ ∧
        VecScatterDestroy extd (some { ctx with refct := 2, inuse := true }) =
          some ⟨.ok, none, some { ctx with refct := 1, inuse := true }, none⟩) := by
  refine ⟨rfl, ?_, ?_, ?_⟩
  · intro ctx h1 h2
    simp [VecScatterDestroy, h1, h2]
  · intro ctx hg hpos
    refine ⟨?_, ?_, ?_⟩
    · intro hne
      have : ctx.refct - 1 > 0 := by omega
      simp only [VecScatterDestroy, hg, if_false, this, if_true]
    · intro h1 hd
      have : ¬ (ctx.refct - 1 > 0) := by omega
      simp only [VecScatterDestroy, hg, if_false, this, hd]
    · intro r h1 hd hcall
      have : ¬ (ctx.refct - 1 > 0) := by omega
      simp only [VecScatterDestroy, hg, if_false, this, hd, hcall, ne_eq, not_true_eq_false]
  · intro cfg merge pack A B nx ny ctx hc
    obtain ⟨hin, _⟩ := createSeq_facts (α := Int) cfg (noExt Int) merge pack A B nx ny ctx hc
    obtain ⟨href, _, _⟩ := createSeq_shape cfg merge pack A B nx ny ctx hc
    obtain ⟨r, hd, hcall⟩ := destroy_createSeq extd cfg merge pack A B nx ny ctx hc
    refine ⟨href, r, hd, ?_, ?_, ?_⟩
    · have hg : ¬ (ctx.inuse = true ∧ ctx.refct = 1) := by rw [hin]; simp
      have hz : ¬ (ctx.refct - 1 > 0) := by omega
      have hk := hcall { ctx with refct := ctx.refct - 1 } rfl rfl
      simp only [VecScatterDestroy, hg, if_false, hz, hd, hk, ne_eq,
        not_true_eq_false]
    · simp only [VecScatterDestroy, href, and_self, if_true]
    · simp [VecScatterDestroy]

/-- Witness of C24: `swapPlan` has reference count 1 and the destroy routine
`VecScatterDestroy_SGToSG`. Idle, it is destroyed; in use, Destroy fails; with a second
reference and in use, only the count is decremented. -/
theorem C24_destroy_reference_counted_witness :
    VecScatterDestroy noExtDestroy (some swapPlan) = some ⟨.ok, none, none, some .SGToSG⟩ ∧
    VecScatterDestroy noExtDestroy (some { swapPlan with inuse := true }) =
      some ⟨.ERR_ARG_WRONGSTATE, some { swapPlan with inuse := true },
        some { swapPlan with inuse := true }, none⟩ ∧
    VecScatterDestroy noExtDestroy (some { swapPlan with refct := 2, inuse := true }) =
      some ⟨.ok, none, some { swapPlan with refct := 2 - 1, inuse := true }, none⟩ :=
  ⟨((C24_destroy_reference_counted noExtDestroy).2.2.1 swapPlan (by decide)
      (by decide)).2.2 .SGToSG (by decide) (by decide) (by decide),
    (C24_destroy_reference_counted noExtDestroy).2.1 { swapPlan with inuse := true }
      (by decide) (by decide),
    ((C24_destroy_reference_counted noExtDestroy).2.2.1
      { swapPlan with refct := 2, inuse := true } (by decide) (by decide)).1 (by decide)⟩

end LifecycleClaims

section CopyClaims
variable {α : Type}

/-- The claim C23 fails for a Stride source with a General destination: in a debug build
local Create returns a plan for the Stride 0, 1 and the list 1, 0 on arrays of length 2, the
plan has no copy routine, and Copy fails with `PETSC_ERR_SUP` without creating a context. -/
theorem C23_copy_refused_counterexample :
    (createSeq cfgDebug false false (.stride 2 0 1) (.general [1, 0]) 2 2).1 = .ok ∧
    (createSeq cfgDebug false false (.stride 2 0 1) (.general [1, 0]) 2 2).2.ops.copy = none ∧
    VecScatterCopy noExtCopy
        (createSeq cfgDebug false false (.stride 2 0 1) (.general [1, 0]) 2 2).2 =
      some (.ERR_SUP, none) := by
  decide

/-- C23 (amended): Copy is available for every plan produced by local Create except those
with a Stride source and a General destination. For General/General, Stride/Stride, General
source with Stride destination and the Block fallback, Copy returns 0 with a new context
that is not in use; for a Stride source with a General destination the plan has no copy
routine and Copy fails with `PETSC_ERR_SUP`, creating no context. -/
theorem C23_copy_available_except_stride_to_general
    (extc : Nat → VecScatter → VecScatter → Option (PetscErrorCode × VecScatter))
    (cfg : Config) (merge pack : Bool) (A B : IS) (nx ny : Nat) (ctx : VecScatter)
    (hc : createSeq cfg merge pack A B nx ny = (.ok, ctx)) :
    ((isTypeId A = IS_STRIDE_ID ∧ isTypeId B = IS_GENERAL_ID) ↔
      ((∃ n first step, A = .stride n first step) ∧ ∃ idx, B = .general idx)) ∧
    (¬ (isTypeId A = IS_STRIDE_ID ∧ isTypeId B = IS_GENERAL_ID) →
      ctx.ops.copy ≠ none ∧
      ∃ c, VecScatterCopy extc ctx = some (.ok, some c) ∧ c.inuse = false ∧
        c.ops = ctx.ops ∧ c.todata = ctx.todata ∧ c.fromdata = ctx.fromdata) ∧
    ((isTypeId A = IS_STRIDE_ID ∧ isTypeId B = IS_GENERAL_ID) →
      ctx.ops.copy = none ∧ VecScatterCopy extc ctx = some (.ERR_SUP, none)) := by
  have hcopy := copy_createSeq extc cfg merge pack A B nx ny ctx hc
  obtain ⟨_, _, hshape⟩ := createSeq_shape cfg merge pack A B nx ny ctx hc
  refine ⟨?_, ?_, ?_⟩
  · cases A <;> cases B <;>
      simp [isTypeId, isStrideType, isBlockType, IS_GENERAL_ID, IS_STRIDE_ID, IS_BLOCK_ID]
  · intro hsg
    rw [if_neg hsg] at hcopy
    refine ⟨?_, _, hcopy, rfl, rfl, rfl, rfl⟩
    rcases hshape with ⟨h, _⟩ | ⟨h, _⟩ | ⟨h, _⟩ | ⟨_, _, h, _⟩
    · rw [h]; simp
    · rw [h]; simp
    · rw [h]; simp
    · exact absurd h hsg
  · intro hsg
    rw [if_pos hsg] at hcopy
    refine ⟨?_, hcopy⟩
    rcases hshape with ⟨_, _, h, _⟩ | ⟨_, _, h, _⟩ | ⟨_, _, h, _⟩ | ⟨h, _⟩
    · exact absurd hsg h
    · exact absurd hsg h
    · exact absurd hsg h
    · exact h

/-- Witness of C23 (amended): `swapPlan`, a General/General plan, is copied. -/
theorem C23_copy_available_except_stride_to_general_witness :
    createSeq cfgDebug false false (.general [1, 0]) (.general [0, 1]) 2 2 = (.ok, swapPlan) ∧
    ∃ c, VecScatterCopy noExtCopy swapPlan = some (.ok, some c) ∧ c.inuse = false ∧
      c.ops = swapPlan.ops ∧ c.todata = swapPlan.todata ∧ c.fromdata = swapPlan.fromdata :=
  ⟨by decide,
    ((C23_copy_available_except_stride_to_general noExtCopy cfgDebug false false
      (.general [1, 0]) (.general [0, 1]) 2 2 swapPlan (by decide)).2.1 (by decide)).2⟩

/-- The claim C22 fails for a plan in use and for a plan with a cached work buffer. A
successful Begin leaves the plan `swapPlan` in use; Copy succeeds on it while it is in use
and returns a copy that is not in use: Begin on the copy scatters `[5, 7]` into `[7, 5]`,
Begin on the original fails with WrongState and leaves `y` at `[0, 0]`. And in a build
without the debug checks, after a forward scatter with `ADD_VALUES` and its End have left
the broadcast plan of a single process with a cached work buffer of 2 entries, Begin of the
original on a `y` of 1 entry returns with `y = [11]`, while Begin of its copy allocates a
work buffer of 1 entry and gathers 2 entries into it, which is undefined. -/
theorem C22_copy_of_busy_plan_counterexample :
    (VecScatterBegin cfgDebug (noExt Int) ⟨swapPlan, [5, 7], [0, 0]⟩
        .INSERT_VALUES .SCATTER_FORWARD).map (fun r => (r.1, r.2.ctx)) =
      some (.ok, { swapPlan with inuse := true }) ∧
    VecScatterCopy noExtCopy { swapPlan with inuse := true } = some (.ok, some swapCopy) ∧
    swapCopy.inuse = false ∧
    outcome (VecScatterBegin cfgDebug (noExt Int) ⟨swapCopy, [5, 7], [0, 0]⟩
        .INSERT_VALUES .SCATTER_FORWARD) = some (.ok, [5, 7], [7, 5]) ∧
    outcome (VecScatterBegin cfgDebug (noExt Int)
        ⟨{ swapPlan with inuse := true }, [5, 7], [0, 0]⟩
        .INSERT_VALUES .SCATTER_FORWARD) = some (.ERR_ARG_WRONGSTATE, [5, 7], [0, 0]) ∧
    (VecScatterBegin cfgRelease
        (collectiveExt cfgRelease [⟨⟨broadcastPlan cfgRelease "mpi1" [2] 0, [1, 2], [10, 20]⟩,
          mpiLayout [2] 0, seqLayout 2⟩] (mpiLayout [2] 0) (seqLayout 2))
        ⟨broadcastPlan cfgRelease "mpi1" [2] 0, ([1, 2] : List Int), [10, 20]⟩
        .ADD_VALUES .SCATTER_FORWARD).bind (fun r =>
      VecScatterEnd (collectiveExt cfgRelease
        [⟨⟨broadcastPlan cfgRelease "mpi1" [2] 0, [1, 2], [10, 20]⟩,
          mpiLayout [2] 0, seqLayout 2⟩] (mpiLayout [2] 0) (seqLayout 2)) r.2
        .ADD_VALUES .SCATTER_FORWARD) = some (.ok, ⟨cachedPlan, [1, 2], [11, 22]⟩) ∧
    VecScatterCopy noExtCopy cachedPlan = some (.ok, some cachedCopy) ∧
    (groupBegin cfgRelease
        [⟨⟨cachedPlan, ([1, 2] : List Int), [10]⟩, mpiLayout [2] 0, seqLayout 1⟩]
        .ADD_VALUES .SCATTER_FORWARD).map outcome = [some (.ok, [1, 2], [11])] ∧
    (groupBegin cfgRelease
        [⟨⟨cachedCopy, ([1, 2] : List Int), [10]⟩, mpiLayout [2] 0, seqLayout 1⟩]
        .ADD_VALUES .SCATTER_FORWARD).map outcome = [none] := by
  refine ⟨by decide, by decide, by decide, by decide, by decide, by decide, by decide,
    by decide, by decide⟩

/-- C22 (amended): Copy duplicates the plan, and Begin on the copy gives the result of Begin
on the original when the original is not in use and every work buffer cached in it has the
length with which the call would allocate it. Whenever Copy succeeds on a plan with one of
the sequential copy routines, the copy has the `to_n`, `from_n`, routines, type and plan
data (index tables, first, step, n) of the original, is not in use and has reference count
1; if the original is run by a sequential kernel, has no end routine and is not in use,
Begin on the copy gives the same error code, `x` and `y` as Begin on the original for every
`x`, `y`, insert mode and scatter mode. Whenever Copy succeeds on the plans of a group with
the copy routine of the broadcast and gather-to-root plans, every copy has the sizes,
routines, type, count and displacement tables of its original and no work buffer; if the
originals are run by one of the two collective begin routines, have no end routine, are not
in use and their cached work buffers have the lengths the call would allocate, Begin called
by every process on its copy gives the error codes and arrays of Begin on the originals. A
copy of a collective plan has no work buffers whatever the original has cached. In memory,
when Copy succeeds on a plan with a copy routine of this file, the new structure denotes the
copy of the context that the original denotes, the original denotes what it did, Remap on
the copy does what Remap does on the context it denotes, and after it the original still
denotes what it did. Index arrays and tables are taken to have the number of entries they
were allocated with; this and the conditions on the routines hold for every plan that
`VecScatterCreate_Seq` returns and for every broadcast and gather-to-root plan that
`VecScatterCreate_PtoS` installs, on which Copy succeeds. -/
theorem C22_copy_duplicates_idle [Add α] [Max α] (cfg : Config)
    (extc : Nat → VecScatter → VecScatter → Option (PetscErrorCode × VecScatter)) :
    (∀ (ext : ExtRoutines α) (ctx c : VecScatter) (cr : CopyRoutine),
      ctx.ops.copy = some cr → (cr = .SGToSG ∨ cr = .SGToSS ∨ cr = .SSToSS) →
      ctx.todata.sized ctx.comm_size → ctx.fromdata.sized ctx.comm_size →
      VecScatterCopy extc ctx = some (.ok, some c) →
      c.to_n = ctx.to_n ∧ c.from_n = ctx.from_n ∧ c.ops = ctx.ops ∧
      c.type_name = ctx.type_name ∧ c.todata = ctx.todata ∧ c.fromdata = ctx.fromdata ∧
      c.inuse = false ∧ c.refct = 1 ∧
      ∀ r : BeginRoutine, ctx.ops.begin_ = some r → r.isLocal = true → ctx.ops.end_ = none →
        ctx.inuse = false →
        ∀ (x y : List α) (addv : InsertMode) (mode : ScatterMode),
          outcome (VecScatterBegin cfg ext ⟨c, x, y⟩ addv mode) =
            outcome (VecScatterBegin cfg ext ⟨ctx, x, y⟩ addv mode)) ∧
    (∀ (n : Nat) (plan copies : Nat → VecScatter),
      (∀ p, p < n → (plan p).ops.copy = some .MPI_ToAll ∧
        (plan p).todata.sized (plan p).comm_size ∧
        VecScatterCopy extc (plan p) = some (.ok, some (copies p))) →
      (∀ p, p < n → (copies p).to_n = (plan p).to_n ∧ (copies p).from_n = (plan p).from_n ∧
        (copies p).ops = (plan p).ops ∧ (copies p).type_name = (plan p).type_name ∧
        (copies p).todata = (plan p).todata.dropWork ∧ (copies p).fromdata = .null ∧
        (copies p).inuse = false ∧ (copies p).refct = 1) ∧
      ∀ (b : BeginRoutine) (X Y : Nat → List α) (XM YM : Nat → VecLayout) (addv : InsertMode)
        (mode : ScatterMode),
        (b = .MPI_ToAll ∨ b = .MPI_ToOne) →
        (∀ p, p < n → (plan p).ops.begin_ = some b ∧ (plan p).ops.end_ = none ∧
          (plan p).inuse = false ∧
          (plan p).todata.workFits (workLengths b
            ((List.range n).map fun p => (⟨⟨plan p, X p, Y p⟩, XM p, YM p⟩ : Member α))
            (X p) (Y p) mode)) →
        (groupBegin cfg ((List.range n).map fun p =>
            (⟨⟨copies p, X p, Y p⟩, XM p, YM p⟩ : Member α)) addv mode).map outcome =
          (groupBegin cfg ((List.range n).map fun p =>
            (⟨⟨plan p, X p, Y p⟩, XM p, YM p⟩ : Member α)) addv mode).map outcome) ∧
    (∀ (ctx c : VecScatter),
      ctx.ops.copy = some .MPI_ToAll → VecScatterCopy extc ctx = some (.ok, some c) →
      c.todata.work1? = none ∧ c.todata.work2? = none ∧ c.fromdata = .null) ∧
    (∀ (extcm : Nat → IndexMemory → VecScatterAt → VecScatterAt →
        Option (PetscErrorCode × IndexMemory × VecScatterAt))
      (mem mem1 : IndexMemory) (p q : VecScatterAt) (ctx : VecScatter) (cr : CopyRoutine),
      p.load mem = some ctx → ctx.ops.copy = some cr →
      (cr = .SGToSG ∨ cr = .SGToSS ∨ cr = .SSToSS ∨ cr = .MPI_ToAll) →
      VecScatterCopy_mem extcm mem p = some (.ok, mem1, some q) →
      (q.load mem1).isSome = true ∧
      VecScatterCopy extc ctx = (q.load mem1).map (fun c => (PetscErrorCode.ok, some c)) ∧
      p.load mem1 = some ctx ∧
      ∀ (opt : LocalOptimizeCopy) (tomap frommap : Option (List Int)),
        (∀ c, q.load mem1 = some c →
          (VecScatterRemap_mem opt mem1 q tomap frommap).bind
              (fun r => (r.2.2.load r.2.1).map fun c2 => (r.1, c2)) =
            VecScatterRemap opt c tomap frommap) ∧
        ∀ (e : PetscErrorCode) (mem2 : IndexMemory) (q2 : VecScatterAt),
          VecScatterRemap_mem opt mem1 q tomap frommap = some (e, mem2, q2) →
          p.load mem2 = some ctx) ∧
    (∀ (merge pack : Bool) (A B : IS) (nx ny : Nat) (ctx : VecScatter),
      createSeq cfg merge pack A B nx ny = (.ok, ctx) →
      ctx.todata.sized ctx.comm_size ∧ ctx.fromdata.sized ctx.comm_size ∧
      ctx.inuse = false ∧ ctx.ops.end_ = none ∧
      (∃ r, ctx.ops.begin_ = some r ∧ r.isLocal = true) ∧
      (ctx.ops.copy = none ∨ ctx.ops.copy = some .SGToSG ∨ ctx.ops.copy = some .SGToSS ∨
        ctx.ops.copy = some .SSToSS)) ∧
    (∀ (fmt : VecScatterFormat) (b : BeginRoutine) (typ : String) (sizes : List Nat) (p : Nat)
      (ix iy : IS) (ny : Nat),
      (cfg.use64BitIndices = true → (sizes.sum : Int) ≤ PETSC_MPI_INT_MAX) →
      (collectivePlan cfg fmt b (ptosMember typ sizes p ix iy ny)).todata.sized
        (collectivePlan cfg fmt b (ptosMember typ sizes p ix iy ny)).comm_size ∧
      (collectivePlan cfg fmt b (ptosMember typ sizes p ix iy ny)).inuse = false ∧
      (collectivePlan cfg fmt b (ptosMember typ sizes p ix iy ny)).ops.begin_ = some b ∧
      (collectivePlan cfg fmt b (ptosMember typ sizes p ix iy ny)).ops.end_ = none ∧
      (collectivePlan cfg fmt b (ptosMember typ sizes p ix iy ny)).ops.copy =
        some .MPI_ToAll ∧
      (collectivePlan cfg fmt b (ptosMember typ sizes p ix iy ny)).todata.work1? = none ∧
      (collectivePlan cfg fmt b (ptosMember typ sizes p ix iy ny)).todata.work2? = none ∧
      (VecScatterCopy extc (collectivePlan cfg fmt b (ptosMember typ sizes p ix iy ny))).map
        (fun r => r.1) = some .ok) := by
  refine ⟨?_, ?_, ?_, ?_, fun merge pack A B nx ny ctx hc =>
    createSeq_kind cfg (noExt α) merge pack A B nx ny ctx hc,
    fun fmt b typ sizes p ix iy ny hfit =>
      collectivePlan_kind extc cfg fmt b typ sizes p ix iy ny hfit⟩
  · intro ext ctx c cr hcp hcr h1 h2 hcopy
    have hc := copy_local extc ctx c cr hcp hcr h1 h2 hcopy
    subst hc
    refine ⟨rfl, rfl, rfl, rfl, rfl, rfl, rfl, rfl, ?_⟩
    intro r hb hr hend hin x y addv mode
    exact begin_local_same cfg ext ctx
      { copyHeader ctx with
        to_n := ctx.to_n, from_n := ctx.from_n, ops := ctx.ops, todata := ctx.todata,
        fromdata := ctx.fromdata, type_name := ctx.type_name }
      r hb hr hend rfl rfl rfl rfl rfl hin.symm x y addv mode
  · intro n plan copies hP
    have hform : ∀ p, p < n → ∃ scat, (plan p).todata = .mpiToAll scat ∧
        copies p = { copyHeader (plan p) with
          to_n := (plan p).to_n, from_n := (plan p).from_n, ops := (plan p).ops,
          todata := .mpiToAll ⟨scat.format, scat.count, scat.displx, none, none⟩,
          fromdata := .null, type_name := (plan p).type_name } := by
      intro p hp
      obtain ⟨k1, k2, k3⟩ := hP p hp
      cases ht : (plan p).todata with
      | mpiToAll scat =>
        rw [ht] at k2
        have := copy_toAll extc (plan p) scat k1 ht k2.1 k2.2
        rw [k3] at this
        simp only [Option.some.injEq, Prod.mk.injEq, true_and] at this
        exact ⟨scat, rfl, this⟩
      | _ => simp [VecScatterCopy, k1, callCopy, VecScatterCopy_MPI_ToAll, ht] at k3
    have hfields : ∀ p, p < n → (copies p).to_n = (plan p).to_n ∧
        (copies p).from_n = (plan p).from_n ∧
        (copies p).ops = (plan p).ops ∧ (copies p).type_name = (plan p).type_name ∧
        (copies p).todata = (plan p).todata.dropWork ∧ (copies p).fromdata = .null ∧
        (copies p).inuse = false ∧ (copies p).refct = 1 := by
      intro p hp
      obtain ⟨scat, h1, h2⟩ := hform p hp
      rw [h2, h1]
      exact ⟨rfl, rfl, rfl, rfl, rfl, rfl, rfl, rfl⟩
    refine ⟨hfields, ?_⟩
    intro b X Y XM YM addv mode hb2 hQ
    refine groupBegin_congr cfg n b plan copies X Y XM YM addv mode hb2 ?_
    intro p hp
    obtain ⟨f1, f2, f3, _, f5, _, f7, _⟩ := hfields p hp
    obtain ⟨q1, q2, q3, q4⟩ := hQ p hp
    exact ⟨f5, f7.trans q3.symm, f2, f1, f3, q2, q1, q4⟩
  · intro ctx c hcp hcopy
    simp only [VecScatterCopy, hcp, callCopy, VecScatterCopy_MPI_ToAll] at hcopy
    cases hto : ctx.todata with
    | mpiToAll scat =>
      simp only [hto] at hcopy
      cases h1 : copyArray scat.count (copyHeader ctx).comm_size with
      | none => simp [h1] at hcopy
      | some count =>
        cases h2 : copyArray scat.displx (copyHeader ctx).comm_size with
        | none => simp [h1, h2] at hcopy
        | some displx =>
          simp [h1, h2] at hcopy
          subst hcopy
          exact ⟨rfl, rfl, rfl⟩
    | _ => simp [hto] at hcopy
  · intro extcm mem mem1 p q ctx cr hl hcp hcr hm
    have hloc : ∀ id, cr ≠ .other id := by
      intro id h
      subst h
      rcases hcr with h | h | h | h <;> cases h
    obtain ⟨c, hc⟩ := copy_mem_success extc extcm mem p ctx cr mem1 q hl hcp hloc hm
    obtain ⟨mem1', q', k1, k2, ⟨added, k3⟩, k4, k5, k6⟩ :=
      copy_mem_spec extc extcm mem p ctx c cr hl hcp hloc hc
    rw [hm] at k1
    simp only [Option.some.injEq, Prod.mk.injEq, true_and] at k1
    obtain ⟨e1, e2⟩ := k1
    subst e1 e2
    have hp1 : p.load mem1 = some ctx := by rw [k3]; exact load_append mem added p ctx hl
    refine ⟨by rw [k2]; rfl, by rw [k2, hc]; rfl, hp1, ?_⟩
    intro opt tomap frommap
    refine ⟨?_, ?_⟩
    · intro c' hc'
      exact remap_mem_refines opt mem1 q c' tomap frommap hc' k6
    · intro e mem2 q2 hr
      have hf := remap_mem_frame opt mem1 q tomap frommap e mem2 q2 hr
      obtain ⟨a1, a2⟩ := load_addr mem p ctx hl
      rw [load_frame mem1 mem2 p
        (fun g hg => hf _ (fun d hd => Nat.ne_of_lt (Nat.lt_of_lt_of_le (a1 g hg) (k5 d hd))))
        (fun g hg => hf _ (fun d hd => Nat.ne_of_lt (Nat.lt_of_lt_of_le (a2 g hg) (k5 d hd))))]
      exact hp1

/-- Witness of C22 (amended). The copy of the idle plan `swapPlan` gives the result of the
original under Forward Insert, which is `[7, 5]`. The copy of `cachedPlan`, a broadcast plan
with a cached work buffer of the length of `y`, gives the result of the original under
Forward Add, which is `[11, 22]`. In the memory `[[0, 1], [1, 0]]` the copy of `swapPlanAt`
gets its tables at the addresses 2 and 3 and denotes `swapCopy`; a Remap of the copy through
`[1, 0]` rewrites the array at address 3 to `[0, 1]`, does what Remap does on `swapCopy`, and
`swapPlanAt` still denotes `swapPlan`. The index arrays of `swapPlan`, which
`VecScatterCreate_Seq` returned, hold `n` entries. -/
theorem C22_copy_duplicates_idle_witness :
    (outcome (VecScatterBegin cfgDebug (noExt Int) ⟨swapCopy, [5, 7], [0, 0]⟩
        .INSERT_VALUES .SCATTER_FORWARD) =
      outcome (VecScatterBegin cfgDebug (noExt Int) ⟨swapPlan, [5, 7], [0, 0]⟩
        .INSERT_VALUES .SCATTER_FORWARD)) ∧
    outcome (VecScatterBegin cfgDebug (noExt Int) ⟨swapPlan, [5, 7], [0, 0]⟩
        .INSERT_VALUES .SCATTER_FORWARD) = some (.ok, [5, 7], [7, 5]) ∧
    ((groupBegin cfgRelease ((List.range 1).map fun p =>
        (⟨⟨(fun _ => cachedCopy) p, (fun _ => [1, 2]) p, (fun _ => [10, 20]) p⟩,
          (fun _ => mpiLayout [2] 0) p, (fun _ => seqLayout 2) p⟩ : Member Int))
        .ADD_VALUES .SCATTER_FORWARD).map outcome =
      (groupBegin cfgRelease ((List.range 1).map fun p =>
        (⟨⟨(fun _ => cachedPlan) p, (fun _ => [1, 2]) p, (fun _ => [10, 20]) p⟩,
          (fun _ => mpiLayout [2] 0) p, (fun _ => seqLayout 2) p⟩ : Member Int))
        .ADD_VALUES .SCATTER_FORWARD).map outcome) ∧
    (groupBegin cfgRelease
        [⟨⟨cachedPlan, ([1, 2] : List Int), [10, 20]⟩, mpiLayout [2] 0, seqLayout 2⟩]
        .ADD_VALUES .SCATTER_FORWARD).map outcome = [some (.ok, [1, 2], [11, 22])] ∧
    VecScatterCopy_mem noExtCopy_mem [[0, 1], [1, 0]] swapPlanAt =
      some (.ok, [[0, 1], [1, 0], [0, 1], [1, 0]], some swapCopyAt) ∧
    VecScatterRemap_mem noOptimize [[0, 1], [1, 0], [0, 1], [1, 0]] swapCopyAt (some [1, 0])
        none =
      some (.ok, [[0, 1], [1, 0], [0, 1], [0, 1]],
        { swapCopyAt with hdr := markUnknown swapCopyAt.hdr }) ∧
    ((VecScatterRemap_mem noOptimize [[0, 1], [1, 0], [0, 1], [1, 0]] swapCopyAt
        (some [1, 0]) none).bind
        (fun r => (r.2.2.load r.2.1).map fun c2 => (r.1, c2)) =
      VecScatterRemap noOptimize swapCopy (some [1, 0]) none) ∧
    swapPlanAt.load [[0, 1], [1, 0], [0, 1], [0, 1]] = some swapPlan ∧
    swapPlan.todata.sized swapPlan.comm_size :=
  ⟨((C22_copy_duplicates_idle cfgDebug noExtCopy).1 (noExt Int) swapPlan swapCopy .SGToSG
      (by decide) (Or.inl rfl) (by decide) (by decide) (by decide)).2.2.2.2.2.2.2.2 .SGToSG
      (by decide) rfl (by decide) (by decide) [5, 7] [0, 0] .INSERT_VALUES .SCATTER_FORWARD,
    by decide,
    ((C22_copy_duplicates_idle cfgRelease noExtCopy).2.1 1 (fun _ => cachedPlan)
      (fun _ => cachedCopy)
      (fun _ _ => ⟨(by decide : cachedPlan.ops.copy = some .MPI_ToAll),
        (by decide : cachedPlan.todata.sized cachedPlan.comm_size),
        (by decide : VecScatterCopy noExtCopy cachedPlan = some (.ok, some cachedCopy))⟩)).2
      .MPI_ToAll (fun _ => [1, 2]) (fun _ => [10, 20]) (fun _ => mpiLayout [2] 0)
      (fun _ => seqLayout 2) .ADD_VALUES .SCATTER_FORWARD (Or.inl rfl)
      (fun _ _ => ⟨(by decide : cachedPlan.ops.begin_ = some .MPI_ToAll),
        (by decide : cachedPlan.ops.end_ = none), (by decide : cachedPlan.inuse = false),
        (by decide : cachedPlan.todata.workFits (workLengths .MPI_ToAll
          [(⟨⟨cachedPlan, [1, 2], [10, 20]⟩, mpiLayout [2] 0, seqLayout 2⟩ : Member Int)]
          [1, 2] [10, 20] .SCATTER_FORWARD))⟩),
    by decide, by decide, by decide,
    (((C22_copy_duplicates_idle (α := Int) cfgDebug noExtCopy).2.2.2.1 noExtCopy_mem
      [[0, 1], [1, 0]] [[0, 1], [1, 0], [0, 1], [1, 0]] swapPlanAt swapCopyAt swapPlan .SGToSG
      (by decide) (by decide) (Or.inl rfl) (by decide)).2.2.2 noOptimize (some [1, 0]) none).1
      swapCopy (by decide),
    (((C22_copy_duplicates_idle (α := Int) cfgDebug noExtCopy).2.2.2.1 noExtCopy_mem
      [[0, 1], [1, 0]] [[0, 1], [1, 0], [0, 1], [1, 0]] swapPlanAt swapCopyAt swapPlan .SGToSG
      (by decide) (by decide) (Or.inl rfl) (by decide)).2.2.2 noOptimize (some [1, 0]) none).2
      .ok [[0, 1], [1, 0], [0, 1], [0, 1]] { swapCopyAt with hdr := markUnknown swapCopyAt.hdr }
      (by decide),
    ((C22_copy_duplicates_idle (α := Int) cfgDebug noExtCopy).2.2.2.2.1 false false
      (.general [1, 0]) (.general [0, 1]) 2 2 swapPlan (by decide)).1⟩

end CopyClaims

end Petsc
